import Mathlib

/-!
# Ride-dispatch core: road network (`City`)

Shallow embedding of `src/citydj.cpp` / `src/Citydj.h`.

Modelling conventions

* A C++ `int` is a mathematical `Int`; the only arithmetic the road network does on
  data is the sum `distances[currentNode] + edgeWeight` inside `dijkstra`, which is
  reduced to 32 bits with `wrapInt32` (two's complement wrap-around).
* A dynamic array together with its element count is the `List` of its live elements
  (`roads[0 .. roadCount)`, `nodes[0 .. nodeCount)`); capacities and reallocation are
  not observable and are left out.
* The scratch arrays of `dijkstra` and `getPathTo` are lists of the allocated length.
  Reading or writing outside the allocation is a fault: `readAt` / `writeAt` return
  `none`, and so does every function that performs such an access.
* Console output is not part of the state.
-/

namespace RideDispatch

/-! ## Constants -/

/-- Largest value of a 32-bit signed `int`. -/
def INT_MAX : Int := 2147483647

/-- Sentinel of `citydj.cpp`: `const int INFINITY_DISTANCE = INT_MAX;`. -/
def INFINITY_DISTANCE : Int := INT_MAX

/-- Reduction of an integer to the 32-bit two's complement range. -/
def wrapInt32 (x : Int) : Int := (x + 2147483648) % 4294967296 - 2147483648

/-! ## Raw array access -/

/-- Read `xs[i]` for a signed index; `none` outside the allocation. -/
def readAt {α : Type} (xs : List α) (i : Int) : Option α :=
  if 0 ≤ i then xs[i.toNat]? else none

/-- Write `xs[i] = v` for a signed index; `none` outside the allocation. -/
def writeAt {α : Type} (xs : List α) (i : Int) (v : α) : Option (List α) :=
  if 0 ≤ i ∧ i < (xs.length : Int) then some (xs.set i.toNat v) else none

/-! ## Data model -/

/-- One entry of an adjacency list (`City::Road`). -/
structure Road where
  toNodeId : Int
  distance : Int
deriving DecidableEq, Repr

/-- A location (`City::Node`): id, zone tag and the live part of its road array. -/
structure Node where
  id : Int
  zoneId : Int
  roads : List Road
deriving DecidableEq, Repr

/-- The road network (`City`): the live part of the `nodes` array. -/
structure City where
  nodes : List Node
deriving DecidableEq, Repr

/-- Result record of `dijkstra` (`City::ShortestPathResult`). -/
structure ShortestPathResult where
  distances : List Int
  predecessors : List Int
  nodeCount : Int
deriving DecidableEq, Repr

/-! ## Node operations -/

/-- Constructor `Node::Node(int nodeId)`: zone unassigned, no roads. -/
def Node.mk1 (nodeId : Int) : Node := ⟨nodeId, -1, []⟩

/-- Appends a road to the adjacency list (`Node::addRoad`). -/
def Node.addRoad (n : Node) (toId distance : Int) : Node :=
  { n with roads := n.roads ++ [⟨toId, distance⟩] }

/-- Linear scan of a road array for a road to `nodeId` (`Node::hasRoadTo`). -/
def hasRoadToAux (nodeId : Int) : List Road → Bool
  | [] => false
  | r :: rs => if r.toNodeId = nodeId then true else hasRoadToAux nodeId rs

/-- Whether the node has a road to `nodeId` (`Node::hasRoadTo`). -/
def Node.hasRoadTo (n : Node) (nodeId : Int) : Bool := hasRoadToAux nodeId n.roads

/-- Linear scan returning the first index of a road to `nodeId`, starting the count
at `i`; `-1` if there is none (`Node::getRoadIndex`). -/
def getRoadIndexAux (nodeId : Int) : List Road → Nat → Int
  | [], _ => -1
  | r :: rs, i => if r.toNodeId = nodeId then (i : Int) else getRoadIndexAux nodeId rs (i + 1)

/-- Index of the first road to `nodeId`, or `-1` (`Node::getRoadIndex`). -/
def Node.getRoadIndex (n : Node) (nodeId : Int) : Int := getRoadIndexAux nodeId n.roads 0

/-! ## City operations -/

/-- The network right after construction (`City::City()`). -/
def City.empty : City := ⟨[]⟩

/-- Linear scan for the first node with the given id, counting from `i`. -/
def findNodeAux (id : Int) : List Node → Nat → Int
  | [], _ => -1
  | n :: ns, i => if n.id = id then (i : Int) else findNodeAux id ns (i + 1)

/-- Index of the node with the given id in the `nodes` array, or `-1`
(`City::findNode`). -/
def City.findNode (c : City) (id : Int) : Int := findNodeAux id c.nodes 0

/-- Number of locations (`City::getNodeCount`). -/
def City.getNodeCount (c : City) : Int := (c.nodes.length : Int)

/-- Whether a location exists (`City::locationExists`). -/
def City.locationExists (c : City) (id : Int) : Bool := c.findNode id != -1

/-- Applies `f` to the node object `nodes[i]`, for an index returned by `findNode`. -/
def City.updateNodeAt (c : City) (i : Int) (f : Node → Node) : City :=
  match readAt c.nodes i with
  | some n => ⟨c.nodes.set i.toNat (f n)⟩
  | none => c

/-- Adds a location; the flag is the return value (`City::addLocation`). -/
def City.addLocation (c : City) (id : Int) : Bool × City :=
  if c.findNode id ≠ -1 then (false, c)
  else (true, ⟨c.nodes ++ [Node.mk1 id]⟩)

/-- Adds an undirected road; the flag is the return value (`City::addRoad`). The
`none` branch of the node lookup is never taken: `fromIndex` comes from `findNode`. -/
def City.addRoad (c : City) (fromId toId distance : Int) : Bool × City :=
  if distance ≤ 0 then (false, c)
  else
    let fromIndex := c.findNode fromId
    let toIndex := c.findNode toId
    if fromIndex = -1 then (false, c)
    else if toIndex = -1 then (false, c)
    else if fromId = toId then (false, c)
    else
      match readAt c.nodes fromIndex with
      | none => (false, c)
      | some fromNode =>
        if fromNode.hasRoadTo toId then (false, c)
        else
          (true, (c.updateNodeAt fromIndex (fun n => n.addRoad toId distance)).updateNodeAt
            toIndex (fun n => n.addRoad fromId distance))

/-- Sets the zone tag of a location; the flag is the return value (`City::setZone`). -/
def City.setZone (c : City) (nodeId zoneId : Int) : Bool × City :=
  let nodeIndex := c.findNode nodeId
  if nodeIndex = -1 then (false, c)
  else if zoneId < 0 then (false, c)
  else (true, c.updateNodeAt nodeIndex (fun n => { n with zoneId := zoneId }))

/-- Zone tag of a location, `-1` if the location does not exist (`City::getZone`). -/
def City.getZone (c : City) (nodeId : Int) : Int :=
  let nodeIndex := c.findNode nodeId
  if nodeIndex = -1 then -1
  else
    match readAt c.nodes nodeIndex with
    | some n => n.zoneId
    | none => -1

/-- Weight of the direct road `fromId → toId`, `-1` if there is none
(`City::getDistance`). -/
def City.getDistance (c : City) (fromId toId : Int) : Int :=
  let fromIndex := c.findNode fromId
  if fromIndex = -1 then -1
  else
    match readAt c.nodes fromIndex with
    | none => -1
    | some fromNode =>
      let roadIndex := fromNode.getRoadIndex toId
      if roadIndex = -1 then -1
      else
        match readAt fromNode.roads roadIndex with
        | some r => r.distance
        | none => -1

/-! ## Dijkstra -/

/-- Constructor `ShortestPathResult(int count)`: all distances infinite, no
predecessors. -/
def ShortestPathResult.init (count : Nat) : ShortestPathResult :=
  ⟨List.replicate count INFINITY_DISTANCE, List.replicate count (-1), (count : Int)⟩

/-- One step of the scan for the unvisited node of minimum tentative distance: the
body of the `for j` loop at `citydj.cpp:436`; `acc` is `(minDistance, currentNode)`. -/
def selectMinStep (visited : List Bool) (distances : List Int) (acc : Int × Int) (j : Nat) :
    Option (Int × Int) := do
  let vj ← readAt visited (j : Int)
  let dj ← readAt distances (j : Int)
  if !vj && dj < acc.1 then pure (dj, (j : Int)) else pure acc

/-- The scan `for (j = 0; j < nodeCount; j++)` starting from
`minDistance = INFINITY_DISTANCE`, `currentNode = -1`. -/
def selectMin (nodeCount : Nat) (visited : List Bool) (distances : List Int) :
    Option (Int × Int) :=
  (List.range nodeCount).foldlM (selectMinStep visited distances) (INFINITY_DISTANCE, -1)

/-- Relaxation of one road of the current node: the body of the `for j` loop at
`citydj.cpp:458`; the state is `(distances, predecessors)`. -/
def relaxStep (visited : List Bool) (currentNode : Int) (st : List Int × List Int) (r : Road) :
    Option (List Int × List Int) := do
  let neighborId := r.toNodeId
  let edgeWeight := r.distance
  let vn ← readAt visited neighborId
  if !vn then
    let dc ← readAt st.1 currentNode
    let newDistance := wrapInt32 (dc + edgeWeight)
    let dn ← readAt st.1 neighborId
    if newDistance < dn then
      let distances ← writeAt st.1 neighborId newDistance
      let predecessors ← writeAt st.2 neighborId currentNode
      pure (distances, predecessors)
    else pure st
  else pure st

/-- Relaxation of all roads of the current node, in array order. -/
def relaxRoads (visited : List Bool) (currentNode : Int) (roads : List Road)
    (st : List Int × List Int) : Option (List Int × List Int) :=
  roads.foldlM (relaxStep visited currentNode) st

/-- Working state of the main loop of `dijkstra`. -/
structure DijkstraState where
  visited : List Bool
  distances : List Int
  predecessors : List Int
deriving DecidableEq, Repr

/-- The main loop `for (i = 0; i < nodeCount; i++)` of `dijkstra`, with `fuel`
iterations left; leaving the recursion early is the `break`. -/
def mainLoop (c : City) : Nat → DijkstraState → Option DijkstraState
  | 0, st => some st
  | fuel + 1, st => do
    let (minDistance, currentNode) ← selectMin c.nodes.length st.visited st.distances
    if currentNode = -1 ∨ minDistance = INFINITY_DISTANCE then pure st
    else
      let visited ← writeAt st.visited currentNode true
      let node ← readAt c.nodes currentNode
      let (distances, predecessors) ←
        relaxRoads visited currentNode node.roads (st.distances, st.predecessors)
      mainLoop c fuel ⟨visited, distances, predecessors⟩

/-- Single-source shortest paths (`City::dijkstra`); `none` when the run touches an
array outside its allocation. -/
def City.dijkstra (c : City) (source : Int) : Option ShortestPathResult :=
  let result := ShortestPathResult.init c.nodes.length
  if c.findNode source = -1 then some result
  else do
    let distances ← writeAt (List.replicate c.nodes.length INFINITY_DISTANCE) source 0
    let st ← mainLoop c c.nodes.length
      ⟨List.replicate c.nodes.length false, distances, List.replicate c.nodes.length (-1)⟩
    pure ⟨st.distances, st.predecessors, (c.nodes.length : Int)⟩

/-- Distance stored for `nodeId`, `-1` for an invalid id or an infinite distance
(`ShortestPathResult::getDistanceTo`). -/
def ShortestPathResult.getDistanceTo (r : ShortestPathResult) (nodeId : Int) : Option Int :=
  if nodeId < 0 ∨ nodeId ≥ r.nodeCount then some (-1)
  else do
    let d ← readAt r.distances nodeId
    if d = INFINITY_DISTANCE then pure (-1) else pure d

/-- The loop `while (current != -1)` of `getPathTo`: collects `current`, its
predecessor, and so on into `tempPath`, of which `slots` cells are still free; a write
past the end of `tempPath` is a fault. The result is the filled part of `tempPath`. -/
def backtrack (predecessors : List Int) : Nat → Int → Option (List Int)
  | slots, current =>
    if current = -1 then some []
    else
      match slots with
      | 0 => none
      | slots + 1 => do
        let next ← readAt predecessors current
        let rest ← backtrack predecessors slots next
        pure (current :: rest)

/-- Path reconstruction (`ShortestPathResult::getPathTo`): the return value and the
elements written to `pathArray[0 .. pathLength)`, in order. -/
def ShortestPathResult.getPathTo (r : ShortestPathResult) (destination : Int) :
    Option (Int × List Int) :=
  if destination < 0 ∨ destination ≥ r.nodeCount then some (-1, [])
  else do
    let d ← readAt r.distances destination
    if d = INFINITY_DISTANCE then pure (-1, [])
    else
      let tempPath ← backtrack r.predecessors r.nodeCount.toNat destination
      pure ((tempPath.length : Int), tempPath.reverse)

/-- Shortest distance between two nodes (`City::getShortestDistance`). -/
def City.getShortestDistance (c : City) (source destination : Int) : Option Int := do
  let result ← c.dijkstra source
  result.getDistanceTo destination

/-- Shortest path between two nodes (`City::getShortestPath`): return value and the
elements written to `pathArray`. -/
def City.getShortestPath (c : City) (source destination : Int) : Option (Int × List Int) := do
  let result ← c.dijkstra source
  result.getPathTo destination

/-! ## Networks, roads and walks -/

/-- The node with id `a` has a road to `b` of weight `w` in its adjacency list. -/
def City.RoadBetween (c : City) (a b w : Int) : Prop :=
  ∃ n ∈ c.nodes, n.id = a ∧ (⟨b, w⟩ : Road) ∈ n.roads

/-- The network states a program can build: the empty network closed under the three
public mutators (whatever they return). -/
inductive City.Reachable : City → Prop
  | empty : City.Reachable City.empty
  | addLocation {c : City} (id : Int) : City.Reachable c → City.Reachable (c.addLocation id).2
  | addRoad {c : City} (a b w : Int) : City.Reachable c → City.Reachable (c.addRoad a b w).2
  | setZone {c : City} (id z : Int) : City.Reachable c → City.Reachable (c.setZone id z).2

/-- The i-th node of the `nodes` array has id `i`: the nodes were added with ids
`0, 1, ..., n-1` in this order. -/
def City.IdsAreIndices (c : City) : Prop :=
  c.nodes.map Node.id = (List.range c.nodes.length).map Int.ofNat

instance (c : City) : Decidable c.IdsAreIndices := by
  unfold City.IdsAreIndices; infer_instance

/-- Sum of the weights of the roads `a → b` with `a < b` whose two ends satisfy `P`:
every undirected road between two `P`-nodes counted once. -/
def City.roadSum (c : City) (P : Int → Bool) : Int :=
  (c.nodes.map fun n => (n.roads.map fun r =>
    if n.id < r.toNodeId ∧ P n.id = true ∧ P r.toNodeId = true then r.distance else 0).sum).sum

/-- Sum of the weights of all roads of the network, every undirected road counted
once (at its end with the smaller id). -/
def City.edgeWeightSum (c : City) : Int :=
  (c.nodes.map fun n => (n.roads.map fun r =>
    if n.id < r.toNodeId then r.distance else 0).sum).sum

/-- `c.Walk s v d`: a sequence of roads leads from node `s` to node `v`, and the road
weights along it add up to `d`. -/
inductive City.Walk (c : City) (s : Int) : Int → Int → Prop
  | nil : c.locationExists s = true → City.Walk c s s 0
  | snoc {u v d : Int} (w : Int) : City.Walk c s u d → c.RoadBetween u v w →
      City.Walk c s v (d + w)

/-- Some sequence of roads leads from `s` to `v`. -/
def City.Connected (c : City) (s v : Int) : Prop := ∃ d, c.Walk s v d

/-- Sum of the weights of the direct roads between consecutive nodes of a node
sequence, each looked up with `getDistance`. -/
def City.pathCost (c : City) : List Int → Int
  | a :: b :: rest => c.getDistance a b + City.pathCost c (b :: rest)
  | _ => 0

/-- Structural invariants of a network built through the public mutators. -/
structure City.WF (c : City) : Prop where
  ids_nodup : (c.nodes.map Node.id).Nodup
  weight_pos : ∀ n ∈ c.nodes, ∀ r ∈ n.roads, 0 < r.distance
  no_loop : ∀ n ∈ c.nodes, ∀ r ∈ n.roads, r.toNodeId ≠ n.id
  symm : ∀ n ∈ c.nodes, ∀ r ∈ n.roads,
    ∃ m ∈ c.nodes, m.id = r.toNodeId ∧ (⟨n.id, r.distance⟩ : Road) ∈ m.roads
  roads_nodup : ∀ n ∈ c.nodes, (n.roads.map Road.toNodeId).Nodup

/-- `getShortestPath(s, d)` returns the length of a node sequence it writes that starts
at `s`, ends at `d`, joins consecutive nodes by roads, and whose road weights add up to
the non-negative value `getShortestDistance(s, d)` returns. -/
def City.ReportsPath (c : City) (s d : Int) : Prop :=
  ∃ path dist, c.getShortestPath s d = some ((path.length : Int), path) ∧
    path.head? = some s ∧ path.getLast? = some d ∧
    List.Chain' (fun a b => ∃ w, c.RoadBetween a b w) path ∧
    c.getShortestDistance s d = some dist ∧ 0 ≤ dist ∧ c.pathCost path = dist

/-! ## Proof devices -/

/-- The first road to `t` of a road array, as `getDistance` reads it. -/
def firstRoadTo (t : Int) : List Road → Option Road
  | [] => none
  | r :: rs => if r.toNodeId = t then some r else firstRoadTo t rs

/-- What a successful `addRoad(a, b, w)` does to one node object. -/
def addRoadMap (a b w : Int) (n : Node) : Node :=
  if n.id = a then n.addRoad b w else if n.id = b then n.addRoad a w else n

/-- Whether `visited[i]` is set, as a predicate on node ids. -/
def isVisited (visited : List Bool) (i : Int) : Bool := readAt visited i == some true

/-- Invariant of the main loop of `dijkstra` started at `s`, at the top of the loop
body. -/
structure DijkstraInv (c : City) (s : Int) (st : DijkstraState) : Prop where
  len_v : st.visited.length = c.nodes.length
  len_d : st.distances.length = c.nodes.length
  len_p : st.predecessors.length = c.nodes.length
  src : readAt st.distances s = some 0
  src_pred : readAt st.predecessors s = some (-1)
  tree : ∀ v d, readAt st.distances v = some d → d ≠ INFINITY_DISTANCE → v ≠ s →
    ∃ q dq w, readAt st.predecessors v = some q ∧ readAt st.visited q = some true ∧
      readAt st.distances q = some dq ∧ c.RoadBetween q v w ∧ d = dq + w
  inf_pred : ∀ v, readAt st.distances v = some INFINITY_DISTANCE →
    readAt st.predecessors v = some (-1)
  walk : ∀ v d, readAt st.distances v = some d → d ≠ INFINITY_DISTANCE → c.Walk s v d
  vis_bound : ∀ u d, readAt st.visited u = some true → readAt st.distances u = some d →
    d ≤ c.roadSum (isVisited st.visited)
  relaxed : ∀ u du v w, readAt st.visited u = some true → readAt st.distances u = some du →
    c.RoadBetween u v w → ∃ dv, readAt st.distances v = some dv ∧ dv ≤ du + w
  order : ∀ u v du dv, readAt st.visited u = some true → readAt st.visited v = some false →
    readAt st.distances u = some du → readAt st.distances v = some dv → du ≤ dv

/-- Invariant of the relaxation loop over the roads of `cur` (tentative distance `m`),
after the roads `pre` have been handled; `vis` already has `cur` marked and `d0` are the
distances at the start of the loop. -/
structure RelaxInv (c : City) (s : Int) (vis : List Bool) (m : Int) (d0 : List Int)
    (pre : List Road) (st : List Int × List Int) : Prop where
  len_d : st.1.length = c.nodes.length
  len_p : st.2.length = c.nodes.length
  src : readAt st.1 s = some 0
  src_pred : readAt st.2 s = some (-1)
  vis_same : ∀ u, readAt vis u = some true → readAt st.1 u = readAt d0 u
  mono : ∀ v dv, readAt st.1 v = some dv → ∃ dv0, readAt d0 v = some dv0 ∧ dv ≤ dv0
  unvis_ge : ∀ v dv, readAt vis v = some false → readAt st.1 v = some dv → m ≤ dv
  tree : ∀ v d, readAt st.1 v = some d → d ≠ INFINITY_DISTANCE → v ≠ s →
    ∃ q dq w, readAt st.2 v = some q ∧ readAt vis q = some true ∧
      readAt st.1 q = some dq ∧ c.RoadBetween q v w ∧ d = dq + w
  inf_pred : ∀ v, readAt st.1 v = some INFINITY_DISTANCE → readAt st.2 v = some (-1)
  walk : ∀ v d, readAt st.1 v = some d → d ≠ INFINITY_DISTANCE → c.Walk s v d
  handled : ∀ r ∈ pre, ∃ dv, readAt st.1 r.toNodeId = some dv ∧ dv ≤ m + r.distance

/-- What the main loop of `dijkstra` keeps whatever the road weights are (the sums
may wrap around). -/
structure BasicInv (c : City) (s : Int) (st : DijkstraState) : Prop where
  len_v : st.visited.length = c.nodes.length
  len_d : st.distances.length = c.nodes.length
  len_p : st.predecessors.length = c.nodes.length
  src : readAt st.distances s = some 0
  conn : ∀ v dv, readAt st.distances v = some dv → dv ≠ INFINITY_DISTANCE → c.Connected s v
  src_vis : readAt st.visited s = some true ∨
    ∀ v dv, v ≠ s → readAt st.distances v = some dv → dv = INFINITY_DISTANCE

/-- What the relaxation loop over the roads of `cur` keeps whatever the road weights
are. -/
structure RelaxBasic (c : City) (s cur m : Int) (st : List Int × List Int) : Prop where
  len_d : st.1.length = c.nodes.length
  len_p : st.2.length = c.nodes.length
  src : readAt st.1 s = some 0
  cur_d : readAt st.1 cur = some m
  conn : ∀ v dv, readAt st.1 v = some dv → dv ≠ INFINITY_DISTANCE → c.Connected s v

/-- The predecessor chain of `v` in a state of `dijkstra`, written from the source to
`v`, with what `getPathTo` needs of it. -/
structure ChainSpec (c : City) (s : Int) (st : DijkstraState) (v dv : Int)
    (path : List Int) : Prop where
  head : path.head? = some s
  last : path.getLast? = some v
  roads : List.Chain' (fun a b => ∃ w, c.RoadBetween a b w) path
  cost : c.pathCost path = dv
  below : ∀ x ∈ path, ∃ dx, readAt st.distances x = some dx ∧ dx ≤ dv
  nodup : path.Nodup
  back : ∀ slots, path.length ≤ slots →
    backtrack st.predecessors slots v = some path.reverse

/-! ## Example networks -/

/-- The six-node example: nodes `0..5`, roads `(0,1,5)`, `(0,2,10)`, `(1,3,3)`,
`(2,3,7)`, `(3,4,4)`, `(4,5,6)`. -/
def sixNodeCity : City :=
  ((((((((((((City.empty.addLocation 0).2.addLocation 1).2.addLocation 2).2.addLocation 3).2
    |>.addLocation 4).2.addLocation 5).2.addRoad 0 1 5).2.addRoad 0 2 10).2.addRoad 1 3 3).2
    |>.addRoad 2 3 7).2.addRoad 3 4 4).2.addRoad 4 5 6).2

/-- Two nodes `0`, `1` joined by one road of weight `7`. -/
def twoNodeCity : City := (((City.empty.addLocation 0).2.addLocation 1).2.addRoad 0 1 7).2

/-- Two nodes `0`, `1` joined by one road of weight `INT_MAX`. -/
def maxWeightCity : City :=
  (((City.empty.addLocation 0).2.addLocation 1).2.addRoad 0 1 2147483647).2

/-- A single node, with id `5`. -/
def loneNodeCity : City := (City.empty.addLocation 5).2

/-! # Trips, drivers, riders and the dispatch engine

Shallow embedding of `src/trip.cpp`, `src/driver.cpp`, `src/rider.cpp` and
`src/Dispatchengine.cpp`.

Modelling conventions

* The `float` fare of a trip is kept as the expression that produced it (`Fare`): the
  literal `0.0f`, or `BASE_FARE + (distance * RATE_PER_KM)` at an `int` distance. Two
  fares written the same way are the same `float`; nothing is said about the rounded
  numeric value.
* The engine's registries are arrays of pointers to objects owned by the caller. The
  model keeps the pointed-to records in lists, in array order; the entries of a registry
  are distinct objects. A pointer returned by a `find...ById` scan designates the first
  entry with that id, and a write through it is `updateFirst`.
* The `city` pointer of the engine is not null.
-/

/-! ## Trip -/

/-- Lifecycle states of a trip (`enum TripState`). -/
inductive TripState where
  | REQUESTED
  | ASSIGNED
  | ONGOING
  | COMPLETED
  | CANCELLED
deriving DecidableEq, Repr

/-- A `float` fare, as the expression that computed it. -/
inductive Fare where
  /-- the literal `0.0f` of the default constructor -/
  | zero
  /-- `BASE_FARE + (distance * RATE_PER_KM)` with `BASE_FARE = 50.0f`,
  `RATE_PER_KM = 10.0f`, evaluated in `float` at the given `int` distance -/
  | ofDistance (distance : Int)
deriving DecidableEq, Repr

/-- A trip record (`class Trip`). -/
structure Trip where
  id : Int
  riderId : Int
  driverId : Int
  pickupLocation : Int
  dropoffLocation : Int
  distance : Int
  state : TripState
  fare : Fare
deriving DecidableEq, Repr

/-- Default constructor `Trip::Trip()`. -/
def Trip.mk0 : Trip := ⟨-1, -1, -1, -1, -1, 0, TripState.REQUESTED, Fare.zero⟩

/-- Recomputes the fare from the current distance (`Trip::calculateFare`). -/
def Trip.calculateFare (t : Trip) : Trip := { t with fare := Fare.ofDistance t.distance }

/-- Constructor `Trip::Trip(int tripId, int rider, int pickup, int dropoff, int dist)`:
a distance `<= 0` is replaced by `1`, then the fare is computed. -/
def Trip.mk5 (tripId rider pickup dropoff dist : Int) : Trip :=
  let t : Trip := ⟨tripId, rider, -1, pickup, dropoff, dist, TripState.REQUESTED, Fare.zero⟩
  let t := if dist ≤ 0 then { t with distance := 1 } else t
  t.calculateFare

/-- The transition table (`Trip::isValidTransition`). -/
def Trip.isValidTransition (t : Trip) (newState : TripState) : Bool :=
  match t.state with
  | TripState.REQUESTED => newState == TripState.ASSIGNED || newState == TripState.CANCELLED
  | TripState.ASSIGNED => newState == TripState.ONGOING || newState == TripState.CANCELLED
  | TripState.ONGOING => newState == TripState.COMPLETED || newState == TripState.CANCELLED
  | TripState.COMPLETED => false
  | TripState.CANCELLED => false

/-- Stores the driver id unless it is negative (`Trip::setDriverId`). -/
def Trip.setDriverId (t : Trip) (driverId : Int) : Trip :=
  if driverId < 0 then t else { t with driverId := driverId }

/-- Stores a positive distance and recomputes the fare (`Trip::setDistance`). -/
def Trip.setDistance (t : Trip) (dist : Int) : Trip :=
  if dist ≤ 0 then t else ({ t with distance := dist } : Trip).calculateFare

/-- Validated state change; the flag is the return value (`Trip::transitionTo`). -/
def Trip.transitionTo (t : Trip) (newState : TripState) : Bool × Trip :=
  if !t.isValidTransition newState then (false, t)
  else (true, { t with state := newState })

/-- Assigns a driver (`Trip::assignDriver`). -/
def Trip.assignDriver (t : Trip) (driverId : Int) : Bool × Trip :=
  if t.state ≠ TripState.REQUESTED then (false, t)
  else (t.setDriverId driverId).transitionTo TripState.ASSIGNED

/-- Starts the trip (`Trip::startTrip`). -/
def Trip.startTrip (t : Trip) : Bool × Trip :=
  if t.state ≠ TripState.ASSIGNED then (false, t)
  else t.transitionTo TripState.ONGOING

/-- Completes the trip (`Trip::completeTrip`). -/
def Trip.completeTrip (t : Trip) : Bool × Trip :=
  if t.state ≠ TripState.ONGOING then (false, t)
  else t.transitionTo TripState.COMPLETED

/-- Cancels the trip (`Trip::cancelTrip`). -/
def Trip.cancelTrip (t : Trip) : Bool × Trip :=
  if t.state = TripState.COMPLETED ∨ t.state = TripState.CANCELLED then (false, t)
  else t.transitionTo TripState.CANCELLED

/-- Whether the trip is finished (`Trip::isFinalState`). -/
def Trip.isFinalState (t : Trip) : Bool :=
  t.state == TripState.COMPLETED || t.state == TripState.CANCELLED

/-- Whether the trip is still running (`Trip::isActive`). -/
def Trip.isActive (t : Trip) : Bool :=
  t.state == TripState.REQUESTED || t.state == TripState.ASSIGNED ||
    t.state == TripState.ONGOING

/-! ## Driver -/

/-- Availability of a driver (`enum DriverStatus`). -/
inductive DriverStatus where
  | DRIVER_AVAILABLE
  | DRIVER_ASSIGNED
  | DRIVER_ON_TRIP
  | DRIVER_OFFLINE
deriving DecidableEq, Repr

/-- A driver record (`class Driver`). -/
structure Driver where
  id : Int
  currentLocation : Int
  zoneId : Int
  status : DriverStatus
deriving DecidableEq, Repr

/-- Constructor `Driver::Driver(int driverId, int locationId, int zone)`. -/
def Driver.mk3 (driverId locationId zone : Int) : Driver :=
  ⟨driverId, locationId, zone, DriverStatus.DRIVER_AVAILABLE⟩

/-- Moves the driver unless the location is negative (`Driver::setCurrentLocation`). -/
def Driver.setCurrentLocation (d : Driver) (locationId : Int) : Driver :=
  if locationId < 0 then d else { d with currentLocation := locationId }

/-- Changes the zone tag unless it is negative (`Driver::setZoneId`). -/
def Driver.setZoneId (d : Driver) (zoneId : Int) : Driver :=
  if zoneId < 0 then d else { d with zoneId := zoneId }

/-- Overwrites the status (`Driver::setStatus`). -/
def Driver.setStatus (d : Driver) (newStatus : DriverStatus) : Driver :=
  { d with status := newStatus }

/-- Whether the driver can take a trip (`Driver::isAvailable`). -/
def Driver.isAvailable (d : Driver) : Bool := d.status == DriverStatus.DRIVER_AVAILABLE

/-! ## Rider -/

/-- A rider record (`class Rider`). -/
structure Rider where
  id : Int
  pickupLocation : Int
  dropoffLocation : Int
  hasActiveTrip : Bool
deriving DecidableEq, Repr

/-- Constructor `Rider::Rider(int riderId, int pickup, int dropoff)`. -/
def Rider.mk3 (riderId pickup dropoff : Int) : Rider := ⟨riderId, pickup, dropoff, false⟩

/-! ## Dispatch engine -/

/-- `DispatchEngine::DEFAULT_SAME_ZONE_BONUS`. -/
def DEFAULT_SAME_ZONE_BONUS : Int := -10

/-- `DispatchEngine::DEFAULT_CROSS_ZONE_PENALTY`. -/
def DEFAULT_CROSS_ZONE_PENALTY : Int := 20

/-- Applies `f` to the first element satisfying `p`, the object designated by the
pointer a `find...ById` scan returns; nothing changes when there is none. -/
def updateFirst {α : Type} (p : α → Bool) (f : α → α) : List α → List α
  | [] => []
  | x :: xs => if p x then f x :: xs else x :: updateFirst p f xs

/-- The engine (`class DispatchEngine`): the city it points to, the live parts of its
three registries, and the trip id generator. -/
structure DispatchEngine where
  city : City
  drivers : List Driver
  trips : List Trip
  riders : List Rider
  nextTripId : Int
deriving DecidableEq, Repr

/-- Constructor `DispatchEngine::DispatchEngine(City *cityPtr)`. -/
def DispatchEngine.mk1 (city : City) : DispatchEngine := ⟨city, [], [], [], 1000⟩

/-- Appends a driver to the registry (`DispatchEngine::registerDriver`, for a non-null
pointer). -/
def DispatchEngine.registerDriver (e : DispatchEngine) (driver : Driver) :
    Bool × DispatchEngine :=
  (true, { e with drivers := e.drivers ++ [driver] })

/-- First driver with the given id (`DispatchEngine::findDriverById`). -/
def DispatchEngine.findDriverById (e : DispatchEngine) (driverId : Int) : Option Driver :=
  e.drivers.find? (fun d => d.id == driverId)

/-- First rider with the given id (`DispatchEngine::findRiderById`). -/
def DispatchEngine.findRiderById (e : DispatchEngine) (riderId : Int) : Option Rider :=
  e.riders.find? (fun r => r.id == riderId)

/-- First trip with the given id (`DispatchEngine::findTripById`). -/
def DispatchEngine.findTripById (e : DispatchEngine) (tripId : Int) : Option Trip :=
  e.trips.find? (fun t => t.id == tripId)

/-- Appends a trip to the registry (`DispatchEngine::createTrip`, for a non-null
pointer). -/
def DispatchEngine.createTrip (e : DispatchEngine) (trip : Trip) : Bool × DispatchEngine :=
  (true, { e with trips := e.trips ++ [trip] })

/-- Builds the trip with the next id and stores it; returns the new trip
(`DispatchEngine::handleTripRequest`). The increment of `nextTripId` is a 32-bit one. -/
def DispatchEngine.handleTripRequest (e : DispatchEngine) (rider : Rider) (distance : Int) :
    Trip × DispatchEngine :=
  let trip := Trip.mk5 e.nextTripId rider.id rider.pickupLocation rider.dropoffLocation distance
  let e1 := { e with nextTripId := wrapInt32 (e.nextTripId + 1) }
  (trip, (e1.createTrip trip).2)

/-- `DispatchEngine::validateAssignment`: both pointers non-null and the driver
available. -/
def DispatchEngine.validateAssignment (trip : Option Trip) (driver : Option Driver) : Bool :=
  match trip, driver with
  | some _, some d => d.isAvailable
  | _, _ => false

/-- Assigns a driver to a trip, both looked up by id
(`DispatchEngine::assignDriverToTrip`). -/
def DispatchEngine.assignDriverToTrip (e : DispatchEngine) (tripId driverId : Int) :
    Bool × DispatchEngine :=
  let trip := e.findTripById tripId
  let driver := e.findDriverById driverId
  if !DispatchEngine.validateAssignment trip driver then (false, e)
  else
    match trip with
    | none => (false, e)
    | some t =>
      let r := t.assignDriver driverId
      let e1 := { e with trips := updateFirst (fun x => x.id == tripId) (fun _ => r.2) e.trips }
      if r.1 then
        (true, { e1 with drivers := (updateFirst (fun d => d.id == driverId)
          (fun d => d.setStatus DriverStatus.DRIVER_ASSIGNED) e1.drivers) })
      else (false, e1)

/-- Starts a trip looked up by id and puts its driver on the trip
(`DispatchEngine::startTrip`). -/
def DispatchEngine.startTrip (e : DispatchEngine) (tripId : Int) : Bool × DispatchEngine :=
  match e.findTripById tripId with
  | none => (false, e)
  | some t =>
    let r := t.startTrip
    let e1 := { e with trips := updateFirst (fun x => x.id == tripId) (fun _ => r.2) e.trips }
    if r.1 then
      (true, { e1 with drivers := (updateFirst (fun d => d.id == r.2.driverId)
        (fun d => d.setStatus DriverStatus.DRIVER_ON_TRIP) e1.drivers) })
    else (false, e1)

/-- Score of a driver for a pickup location; lower is better
(`DispatchEngine::calculateDispatchScore`). The adjustment is a 32-bit addition. -/
def DispatchEngine.calculateDispatchScore (e : DispatchEngine) (driver : Driver)
    (riderLocation sameZoneBonus crossZonePenalty : Int) : Option Int := do
  let distance ← e.city.getShortestDistance driver.currentLocation riderLocation
  if distance = -1 then pure INT_MAX
  else
    let driverZone := driver.zoneId
    let riderZone := e.city.getZone riderLocation
    if driverZone = riderZone then pure (wrapInt32 (distance + sameZoneBonus))
    else pure (wrapInt32 (distance + crossZonePenalty))

/-- Body of the scan of `findBestDriver` for one registry entry; `acc` is
`(bestDriver, bestScore)`. -/
def findBestDriverStep (e : DispatchEngine) (riderPickupLocation : Int)
    (acc : Option Driver × Int) (d : Driver) : Option (Option Driver × Int) :=
  if !d.isAvailable then pure acc
  else do
    let score ← e.calculateDispatchScore d riderPickupLocation DEFAULT_SAME_ZONE_BONUS
      DEFAULT_CROSS_ZONE_PENALTY
    if score < acc.2 then pure (some d, score) else pure acc

/-- Best available driver for a pickup location, with the engine after the call
(`DispatchEngine::findBestDriver`, a non-const member). -/
def DispatchEngine.findBestDriver (e : DispatchEngine) (riderPickupLocation : Int) :
    Option (Option Driver × DispatchEngine) := do
  let acc ← e.drivers.foldlM (findBestDriverStep e riderPickupLocation) (none, INT_MAX)
  pure (acc.1, e)

/-- Handles a ride request (`DispatchEngine::requestTrip`): the returned pointer (`none`
for `nullptr`) is shown as the record it points to when the call returns, the entry of
the trip registry written by `handleTripRequest`. -/
def DispatchEngine.requestTrip (e : DispatchEngine) (rider : Rider) :
    Option (Option Trip × DispatchEngine) := do
  let distance ← e.city.getShortestDistance rider.pickupLocation rider.dropoffLocation
  if distance = -1 then pure (none, e)
  else
    let h := e.handleTripRequest rider distance
    let slot := e.trips.length
    let b ← h.2.findBestDriver rider.pickupLocation
    match b.1 with
    | none => pure (b.2.trips[slot]?, b.2)
    | some bestDriver =>
      let e3 := (b.2.assignDriverToTrip h.1.id bestDriver.id).2
      let e4 := (e3.startTrip h.1.id).2
      pure (e4.trips[slot]?, e4)

/-! ## Example engines -/

/-- Nodes added in the order `1, 0, 2`, with the single road `(1, 2, 5)`. -/
def shuffledCity : City :=
  ((((City.empty.addLocation 1).2.addLocation 0).2.addLocation 2).2.addRoad 1 2 5).2

/-- The two-node network with one available driver `101` at node `0`. -/
def twoNodeEngine : DispatchEngine :=
  ((DispatchEngine.mk1 twoNodeCity).registerDriver (Driver.mk3 101 0 1)).2

/-! ## Dispatch engine: trip completion, cancellation, registry queries -/

/-- Overwrites the active-trip flag (`Rider::setActiveTripStatus`). -/
def Rider.setActiveTripStatus (r : Rider) (active : Bool) : Rider :=
  { r with hasActiveTrip := active }

/-- Completes a trip looked up by id, frees its driver at the dropoff location and clears
the flag of its rider (`DispatchEngine::completeTrip`). -/
def DispatchEngine.completeTrip (e : DispatchEngine) (tripId : Int) : Bool × DispatchEngine :=
  match e.findTripById tripId with
  | none => (false, e)
  | some t =>
    let r := t.completeTrip
    let e1 := { e with trips := updateFirst (fun x => x.id == tripId) (fun _ => r.2) e.trips }
    if r.1 then
      let e2 := { e1 with drivers := (updateFirst (fun d => d.id == r.2.driverId)
        (fun d => (d.setStatus DriverStatus.DRIVER_AVAILABLE).setCurrentLocation
          r.2.dropoffLocation) e1.drivers) }
      (true, { e2 with riders := (updateFirst (fun x => x.id == r.2.riderId)
        (fun x => x.setActiveTripStatus false) e2.riders) })
    else (false, e1)

/-- Cancels a trip looked up by id, frees its driver when the trip names one and clears
the flag of its rider (`DispatchEngine::cancelTrip`). -/
def DispatchEngine.cancelTrip (e : DispatchEngine) (tripId : Int) : Bool × DispatchEngine :=
  match e.findTripById tripId with
  | none => (false, e)
  | some t =>
    let r := t.cancelTrip
    let e1 := { e with trips := updateFirst (fun x => x.id == tripId) (fun _ => r.2) e.trips }
    if r.1 then
      let e2 := if r.2.driverId ≠ -1 then
        { e1 with drivers := (updateFirst (fun d => d.id == r.2.driverId)
          (fun d => d.setStatus DriverStatus.DRIVER_AVAILABLE) e1.drivers) }
        else e1
      (true, { e2 with riders := (updateFirst (fun x => x.id == r.2.riderId)
        (fun x => x.setActiveTripStatus false) e2.riders) })
    else (false, e1)

/-- The scan of `removeDriver`: index of the first entry with the given id. -/
def removeDriverIndex (driverId : Int) : List Driver → Nat → Option Nat
  | [], _ => none
  | d :: ds, i => if d.id = driverId then some i else removeDriverIndex driverId ds (i + 1)

/-- Removes the first driver with the given id by overwriting its slot with the last
entry and shrinking the registry by one (`DispatchEngine::removeDriver`:
`drivers[i] = drivers[--driverCount]`). -/
def DispatchEngine.removeDriver (e : DispatchEngine) (driverId : Int) : Bool × DispatchEngine :=
  match removeDriverIndex driverId e.drivers 0, e.drivers.getLast? with
  | some i, some last => (true, { e with drivers := (e.drivers.set i last).dropLast })
  | _, _ => (false, e)

/-- Counts the available drivers (`DispatchEngine::getAvailableDriverCount`). -/
def DispatchEngine.getAvailableDriverCount (e : DispatchEngine) : Int :=
  e.drivers.foldl (fun c d => if d.isAvailable then c + 1 else c) 0

/-- `DispatchEngine::getTotalDriverCount`: returns `driverCount`. -/
def DispatchEngine.getTotalDriverCount (e : DispatchEngine) : Int := (e.drivers.length : Int)

/-- `DispatchEngine::getActiveTripCount`: returns `tripCount`. -/
def DispatchEngine.getActiveTripCount (e : DispatchEngine) : Int := (e.trips.length : Int)

/-- `DispatchEngine::getTotalTripCount`: returns `tripCount`. -/
def DispatchEngine.getTotalTripCount (e : DispatchEngine) : Int := (e.trips.length : Int)

/-- Engine states in which every stored trip was created by `requestTrip`: the engine
starts from its constructor, `requestTrip` is called any number of times, and whatever
else happens in between (driver registration and removal, assignment, start, completion,
cancellation, changes the caller makes to the city, the drivers or the non-id fields of
the trips) leaves the ids in the trip registry and the id generator alone. -/
inductive DispatchEngine.RequestsOnly : DispatchEngine → Prop
  | init (city : City) : DispatchEngine.RequestsOnly (DispatchEngine.mk1 city)
  | requestTrip {e e' : DispatchEngine} (rider : Rider) (res : Option Trip) :
      DispatchEngine.RequestsOnly e → e.requestTrip rider = some (res, e') →
      DispatchEngine.RequestsOnly e'
  | other {e e' : DispatchEngine} : DispatchEngine.RequestsOnly e →
      e'.trips.map Trip.id = e.trips.map Trip.id → e'.nextTripId = e.nextTripId →
      DispatchEngine.RequestsOnly e'

/-! ## The example of `final.cpp` -/

/-- The network built by `setupCity`: the six-node network with the zones
`0, 1 -> 1`, `2, 3 -> 2`, `4, 5 -> 3`. -/
def setupCity : City :=
  ((((((sixNodeCity.setZone 0 1).2.setZone 1 1).2.setZone 2 2).2.setZone 3 2).2.setZone 4 3).2
    |>.setZone 5 3).2

/-- The engine of `main`: drivers `101` at node `0` (zone 1), `102` at node `2` (zone 2)
and `103` at node `4` (zone 3). -/
def mainEngine : DispatchEngine :=
  ((((DispatchEngine.mk1 setupCity).registerDriver (Driver.mk3 101 0 1)).2.registerDriver
    (Driver.mk3 102 2 2)).2.registerDriver (Driver.mk3 103 4 3)).2

/-- Two nodes `0`, `1` joined by one road of weight `INT_MAX - 1`. -/
def nearMaxCity : City :=
  (((City.empty.addLocation 0).2.addLocation 1).2.addRoad 0 1 2147483646).2

/-! ## Example engines with stored trips -/

/-- The two-node engine after `createTrip` of trip `1000` (rider `1`, from `0` to `1`,
distance `7`), `assignDriverToTrip(1000, 101)` and `startTrip(1000)`: the trip is ONGOING
and driver `101` is on it. -/
def ongoingEngine : DispatchEngine :=
  (((twoNodeEngine.createTrip (Trip.mk5 1000 1 0 1 7)).2.assignDriverToTrip 1000 101).2.startTrip
    1000).2

/-- As `ongoingEngine`, for a trip whose dropoff location is `-3`. -/
def strayTripEngine : DispatchEngine :=
  (((twoNodeEngine.createTrip (Trip.mk5 1000 1 0 (-3) 7)).2.assignDriverToTrip 1000
    101).2.startTrip 1000).2

/-- The two-node network with one available driver whose id is `-5`, and a requested
trip `1000`. -/
def negativeIdEngine : DispatchEngine :=
  (((DispatchEngine.mk1 twoNodeCity).registerDriver (Driver.mk3 (-5) 0 1)).2.createTrip
    (Trip.mk5 1000 1 0 1 7)).2

/-- The fields of a trip that the engine never writes after the trip was built: id, rider
id, pickup, dropoff, distance and fare. -/
def Trip.booking (t : Trip) : Int × Int × Int × Int × Int × Fare :=
  (t.id, t.riderId, t.pickupLocation, t.dropoffLocation, t.distance, t.fare)

/-- The two-node engine after `requestTrip` for rider `1` going from `0` to `1`: trip
`1000` is ONGOING with driver `101`, and the next trip id is `1001`. -/
def servedEngine : DispatchEngine := { ongoingEngine with nextTripId := 1001 }

/-! ## Rider: changing a request -/

/-- Stores the pickup location unless it is negative (`Rider::setPickupLocation`). -/
def Rider.setPickupLocation (r : Rider) (location : Int) : Rider :=
  if location < 0 then r else { r with pickupLocation := location }

/-- Stores the dropoff location unless it is negative (`Rider::setDropoffLocation`). -/
def Rider.setDropoffLocation (r : Rider) (location : Int) : Rider :=
  if location < 0 then r else { r with dropoffLocation := location }

/-- Applies both setters, then clears the active-trip flag if it is set
(`Rider::updateTripRequest`). -/
def Rider.updateTripRequest (r : Rider) (pickup dropoff : Int) : Rider :=
  let r1 := (r.setPickupLocation pickup).setDropoffLocation dropoff
  if r1.hasActiveTrip then r1.setActiveTripStatus false else r1

/-- Whether the request is acceptable: both locations non-negative and different, and no
active trip (`Rider::validateTripRequest`). -/
def Rider.validateTripRequest (r : Rider) : Bool :=
  if r.pickupLocation < 0 ∨ r.dropoffLocation < 0 then false
  else if r.pickupLocation = r.dropoffLocation then false
  else if r.hasActiveTrip then false
  else true

/-! ## Trip: successful lifecycle calls as a relation -/

/-- One successful call of `transitionTo`, `assignDriver`, `startTrip`, `completeTrip` or
`cancelTrip` leads from `t` to `t'`. -/
def Trip.Step (t t' : Trip) : Prop :=
  (∃ s, t.transitionTo s = (true, t')) ∨ (∃ driverId, t.assignDriver driverId = (true, t')) ∨
    t.startTrip = (true, t') ∨ t.completeTrip = (true, t') ∨ t.cancelTrip = (true, t')

/-- Position of a state in the lifecycle: every successful transition moves to a higher
position. -/
def TripState.rank : TripState → Nat
  | TripState.REQUESTED => 0
  | TripState.ASSIGNED => 1
  | TripState.ONGOING => 2
  | TripState.COMPLETED => 3
  | TripState.CANCELLED => 3

/-! ## Engine states a program can reach -/

/-- The engine states reachable through the public operations of `DispatchEngine`: the
constructor, and then any of `registerDriver`, `removeDriver`, `createTrip`,
`handleTripRequest`, `requestTrip`, `findBestDriver`, `assignDriverToTrip`, `startTrip`,
`completeTrip`, `cancelTrip` (whatever they return; `requestTrip` and `findBestDriver`
when they return at all). -/
inductive DispatchEngine.Reachable : DispatchEngine → Prop
  | init (city : City) : DispatchEngine.Reachable (DispatchEngine.mk1 city)
  | registerDriver {e : DispatchEngine} (d : Driver) :
      DispatchEngine.Reachable e → DispatchEngine.Reachable (e.registerDriver d).2
  | removeDriver {e : DispatchEngine} (driverId : Int) :
      DispatchEngine.Reachable e → DispatchEngine.Reachable (e.removeDriver driverId).2
  | createTrip {e : DispatchEngine} (t : Trip) :
      DispatchEngine.Reachable e → DispatchEngine.Reachable (e.createTrip t).2
  | handleTripRequest {e : DispatchEngine} (rider : Rider) (distance : Int) :
      DispatchEngine.Reachable e → DispatchEngine.Reachable (e.handleTripRequest rider distance).2
  | requestTrip {e e' : DispatchEngine} (rider : Rider) (res : Option Trip) :
      DispatchEngine.Reachable e → e.requestTrip rider = some (res, e') →
      DispatchEngine.Reachable e'
  | findBestDriver {e e' : DispatchEngine} (p : Int) (res : Option Driver) :
      DispatchEngine.Reachable e → e.findBestDriver p = some (res, e') →
      DispatchEngine.Reachable e'
  | assignDriverToTrip {e : DispatchEngine} (tripId driverId : Int) :
      DispatchEngine.Reachable e →
      DispatchEngine.Reachable (e.assignDriverToTrip tripId driverId).2
  | startTrip {e : DispatchEngine} (tripId : Int) :
      DispatchEngine.Reachable e → DispatchEngine.Reachable (e.startTrip tripId).2
  | completeTrip {e : DispatchEngine} (tripId : Int) :
      DispatchEngine.Reachable e → DispatchEngine.Reachable (e.completeTrip tripId).2
  | cancelTrip {e : DispatchEngine} (tripId : Int) :
      DispatchEngine.Reachable e → DispatchEngine.Reachable (e.cancelTrip tripId).2

/-- The engine of `main` with trip `1000` of rider `500` from node `0` (zone 1) to node
`5` (zone 3), distance `18`, ONGOING with driver `101`. -/
def crossZoneEngine : DispatchEngine :=
  (((mainEngine.createTrip (Trip.mk5 1000 500 0 5 18)).2.assignDriverToTrip 1000 101).2.startTrip
    1000).2

/-- The id and the zone tag of a driver. -/
def Driver.tag (d : Driver) : Int × Int := (d.id, d.zoneId)

/-! ## Drivers and the trips that hold them -/

/-- The driver status a trip calls for: ASSIGNED for a trip in state ASSIGNED, ON_TRIP
for a trip in state ONGOING, none for a trip in any other state. -/
def Trip.holdStatus (t : Trip) : Option DriverStatus :=
  match t.state with
  | TripState.ASSIGNED => some DriverStatus.DRIVER_ASSIGNED
  | TripState.ONGOING => some DriverStatus.DRIVER_ON_TRIP
  | _ => none

/-- Agreement between the trip registry and the driver registry of an engine. -/
structure DispatchEngine.Consistent (e : DispatchEngine) : Prop where
  ids_nodup : (e.drivers.map Driver.id).Nodup
  ids_nonneg : ∀ d ∈ e.drivers, 0 ≤ d.id
  requested : ∀ t ∈ e.trips, t.state = TripState.REQUESTED → t.driverId = -1
  distinct : e.trips.Pairwise (fun a b =>
    a.holdStatus ≠ none → b.holdStatus ≠ none → a.driverId ≠ b.driverId)
  named : ∀ t ∈ e.trips, ∀ s, t.holdStatus = some s →
    ∃ d ∈ e.drivers, d.id = t.driverId ∧ d.status = s
  held : ∀ d ∈ e.drivers, d.status = DriverStatus.DRIVER_AVAILABLE ∨
    ∃ t ∈ e.trips, t.driverId = d.id ∧ t.holdStatus = some d.status

/-- The engine states reachable from a fresh engine by `registerDriver` of newly built
drivers with pairwise distinct non-negative ids, `requestTrip`, `assignDriverToTrip`,
`startTrip`, `completeTrip` and `cancelTrip`; the caller may change the road network in
between. Drivers are never removed and never written from outside, and trips are created
by `requestTrip` only. -/
inductive DispatchEngine.Dispatching : DispatchEngine → Prop
  | init (city : City) : DispatchEngine.Dispatching (DispatchEngine.mk1 city)
  | registerDriver {e : DispatchEngine} (driverId locationId zone : Int) :
      DispatchEngine.Dispatching e → 0 ≤ driverId → (∀ d ∈ e.drivers, d.id ≠ driverId) →
      DispatchEngine.Dispatching (e.registerDriver (Driver.mk3 driverId locationId zone)).2
  | requestTrip {e e' : DispatchEngine} (rider : Rider) (res : Option Trip) :
      DispatchEngine.Dispatching e → e.requestTrip rider = some (res, e') →
      DispatchEngine.Dispatching e'
  | assignDriverToTrip {e : DispatchEngine} (tripId driverId : Int) :
      DispatchEngine.Dispatching e →
      DispatchEngine.Dispatching (e.assignDriverToTrip tripId driverId).2
  | startTrip {e : DispatchEngine} (tripId : Int) :
      DispatchEngine.Dispatching e → DispatchEngine.Dispatching (e.startTrip tripId).2
  | completeTrip {e : DispatchEngine} (tripId : Int) :
      DispatchEngine.Dispatching e → DispatchEngine.Dispatching (e.completeTrip tripId).2
  | cancelTrip {e : DispatchEngine} (tripId : Int) :
      DispatchEngine.Dispatching e → DispatchEngine.Dispatching (e.cancelTrip tripId).2
  | network {e : DispatchEngine} (city : City) :
      DispatchEngine.Dispatching e → DispatchEngine.Dispatching { e with city := city }

/-! ## Networks with heavy roads -/

/-- Three nodes in a row: roads `(0,1,5)` and `(1,2,INT_MAX)`. -/
def heavyTailCity : City :=
  (((((City.empty.addLocation 0).2.addLocation 1).2.addLocation 2).2.addRoad 0 1 5).2
    |>.addRoad 1 2 2147483647).2

/-- Four nodes: roads `(0,1,INT_MAX-1)`, `(0,3,INT_MAX-1)` and `(1,2,INT_MAX)`. -/
def forkCity : City :=
  (((((((City.empty.addLocation 0).2.addLocation 1).2.addLocation 2).2.addLocation 3).2
    |>.addRoad 0 1 2147483646).2.addRoad 0 3 2147483646).2.addRoad 1 2 2147483647).2

/-! ## The predecessor chains of a run -/

/-- The list `tpath` is what the loop of `getPathTo` collects from `v` in the predecessor
array `pred`: it starts at `v`, ends at the source `s`, repeats no node, every node of it
other than `v` is marked in `vis`, and each node is followed by its predecessor, from
which a road leads to it. -/
structure PredChain (c : City) (s : Int) (vis : List Bool) (pred : List Int) (v : Int)
    (tpath : List Int) : Prop where
  head : tpath.head? = some v
  last : tpath.getLast? = some s
  nodup : tpath.Nodup
  marked : ∀ x ∈ tpath, x ≠ v → readAt vis x = some true
  links : List.Chain' (fun b a => readAt pred b = some a ∧ ∃ w, c.RoadBetween a b w) tpath

/-- What the main loop of `dijkstra` keeps of the predecessor array whatever the road
weights are: every node with a distance other than the sentinel has a predecessor chain
back to the source. -/
structure PredInv (c : City) (s : Int) (st : DijkstraState) : Prop where
  len_v : st.visited.length = c.nodes.length
  len_d : st.distances.length = c.nodes.length
  len_p : st.predecessors.length = c.nodes.length
  src_pred : readAt st.predecessors s = some (-1)
  src_vis : readAt st.visited s = some true ∨
    ∀ v dv, v ≠ s → readAt st.distances v = some dv → dv = INFINITY_DISTANCE
  chain : ∀ v dv, readAt st.distances v = some dv → dv ≠ INFINITY_DISTANCE →
    ∃ tpath, PredChain c s st.visited st.predecessors v tpath

/-- What the relaxation loop over the roads of `cur` keeps of the predecessor array. -/
structure RelaxPred (c : City) (s : Int) (vis : List Bool) (cur m : Int)
    (st : List Int × List Int) : Prop where
  len_d : st.1.length = c.nodes.length
  len_p : st.2.length = c.nodes.length
  cur_d : readAt st.1 cur = some m
  src_pred : readAt st.2 s = some (-1)
  chain : ∀ v dv, readAt st.1 v = some dv → dv ≠ INFINITY_DISTANCE →
    ∃ tpath, PredChain c s vis st.2 v tpath

/-! ## Dijkstra with the sums checked -/

/-- The relaxation `relaxStep` with the sum `distances[currentNode] + edgeWeight` formed
in the integers: `none` also when the sum is not a 32-bit `int` (signed overflow). -/
def relaxStepChecked (visited : List Bool) (currentNode : Int) (st : List Int × List Int)
    (r : Road) : Option (List Int × List Int) := do
  let neighborId := r.toNodeId
  let edgeWeight := r.distance
  let vn ← readAt visited neighborId
  if !vn then
    let dc ← readAt st.1 currentNode
    if dc + edgeWeight < -2147483648 ∨ INT_MAX < dc + edgeWeight then none
    else
      let newDistance := dc + edgeWeight
      let dn ← readAt st.1 neighborId
      if newDistance < dn then
        let distances ← writeAt st.1 neighborId newDistance
        let predecessors ← writeAt st.2 neighborId currentNode
        pure (distances, predecessors)
      else pure st
  else pure st

/-- The loop `relaxRoads` over `relaxStepChecked`. -/
def relaxRoadsChecked (visited : List Bool) (currentNode : Int) (roads : List Road)
    (st : List Int × List Int) : Option (List Int × List Int) :=
  roads.foldlM (relaxStepChecked visited currentNode) st

/-- The loop `mainLoop` over `relaxRoadsChecked`. -/
def mainLoopChecked (c : City) : Nat → DijkstraState → Option DijkstraState
  | 0, st => some st
  | fuel + 1, st => do
    let (minDistance, currentNode) ← selectMin c.nodes.length st.visited st.distances
    if currentNode = -1 ∨ minDistance = INFINITY_DISTANCE then pure st
    else
      let visited ← writeAt st.visited currentNode true
      let node ← readAt c.nodes currentNode
      let (distances, predecessors) ←
        relaxRoadsChecked visited currentNode node.roads (st.distances, st.predecessors)
      mainLoopChecked c fuel ⟨visited, distances, predecessors⟩

/-- The run `City.dijkstra` over `mainLoopChecked`: `none` when the run touches an array
outside its allocation or forms a sum that is not a 32-bit `int`. -/
def City.dijkstraChecked (c : City) (source : Int) : Option ShortestPathResult :=
  let result := ShortestPathResult.init c.nodes.length
  if c.findNode source = -1 then some result
  else do
    let distances ← writeAt (List.replicate c.nodes.length INFINITY_DISTANCE) source 0
    let st ← mainLoopChecked c c.nodes.length
      ⟨List.replicate c.nodes.length false, distances, List.replicate c.nodes.length (-1)⟩
    pure ⟨st.distances, st.predecessors, (c.nodes.length : Int)⟩

/-! # Theorems -/

/-! ## Array access lemmas -/

theorem readAt_eq_some {α : Type} {xs : List α} {i : Int} {a : α} :
    readAt xs i = some a ↔ 0 ≤ i ∧ xs[i.toNat]? = some a := by
  unfold readAt
  split <;> simp [*]

theorem readAt_natCast {α : Type} (xs : List α) (k : Nat) : readAt xs (k : Int) = xs[k]? := by
  simp [readAt]

theorem readAt_bounds {α : Type} {xs : List α} {i : Int} {a : α} (h : readAt xs i = some a) :
    0 ≤ i ∧ i < (xs.length : Int) := by
  obtain ⟨h0, h1⟩ := readAt_eq_some.1 h
  refine ⟨h0, ?_⟩
  have := (List.getElem?_eq_some_iff.1 h1).1
  omega

theorem readAt_of_bounds {α : Type} {l : List α} {i : Int} (h0 : 0 ≤ i)
    (h1 : i < (l.length : Int)) : ∃ a, readAt l i = some a := by
  have h2 : i.toNat < l.length := by omega
  exact ⟨l[i.toNat], by simp [readAt, h0, List.getElem?_eq_getElem h2]⟩

theorem readAt_mem {α : Type} {xs : List α} {i : Int} {a : α} (h : readAt xs i = some a) :
    a ∈ xs := by
  obtain ⟨_, h1⟩ := readAt_eq_some.1 h
  exact List.getElem?_mem h1

theorem writeAt_eq_some {α : Type} {xs ys : List α} {i : Int} {v : α} :
    writeAt xs i v = some ys ↔ (0 ≤ i ∧ i < (xs.length : Int)) ∧ ys = xs.set i.toNat v := by
  unfold writeAt
  split
  · simp [*, eq_comm]
  · simp [*]

theorem writeAt_of_bounds {α : Type} {l : List α} {i : Int} (v : α) (h0 : 0 ≤ i)
    (h1 : i < (l.length : Int)) : writeAt l i v = some (l.set i.toNat v) := by
  simp [writeAt, h0, h1]

theorem length_of_writeAt {α : Type} {xs ys : List α} {i : Int} {v : α}
    (h : writeAt xs i v = some ys) : ys.length = xs.length := by
  obtain ⟨_, rfl⟩ := writeAt_eq_some.1 h
  simp

theorem readAt_of_writeAt {α : Type} {xs ys : List α} {i : Int} {v : α}
    (h : writeAt xs i v = some ys) (j : Int) :
    readAt ys j = if j = i then some v else readAt xs j := by
  obtain ⟨⟨h0, h1⟩, rfl⟩ := writeAt_eq_some.1 h
  unfold readAt
  by_cases hj : 0 ≤ j
  · by_cases hji : j = i
    · subst hji
      have : j.toNat < xs.length := by omega
      simp [hj, this]
    · have hne : i.toNat ≠ j.toNat := by omega
      simp [hj, hji, List.getElem?_set_ne hne]
  · have hji : j ≠ i := by omega
    simp [hj, hji]

theorem readAt_replicate {α : Type} (n : Nat) (a : α) (i : Int) :
    readAt (List.replicate n a) i = if 0 ≤ i ∧ i < (n : Int) then some a else none := by
  unfold readAt
  by_cases h0 : 0 ≤ i
  · by_cases h1 : i < (n : Int)
    · have : i.toNat < n := by omega
      simp [h0, h1, List.getElem?_replicate, this]
    · have : ¬ i.toNat < n := by omega
      simp [h0, h1, List.getElem?_replicate, this]
  · simp [h0]

/-! ## Lookup lemmas -/

theorem findNodeAux_eq_neg_one {id : Int} {ns : List Node} {i : Nat} :
    findNodeAux id ns i = -1 ↔ ∀ n ∈ ns, n.id ≠ id := by
  induction ns generalizing i with
  | nil => simp [findNodeAux]
  | cons n ns ih =>
    unfold findNodeAux
    by_cases h : n.id = id
    · simp [h]
    · simp [h, ih]

theorem findNodeAux_spec {id : Int} {ns : List Node} {i : Nat}
    (h : findNodeAux id ns i ≠ -1) :
    ∃ k node, findNodeAux id ns i = ((i + k : Nat) : Int) ∧ ns[k]? = some node ∧ node.id = id ∧
      ∀ j m, j < k → ns[j]? = some m → m.id ≠ id := by
  induction ns generalizing i with
  | nil => simp [findNodeAux] at h
  | cons n ns ih =>
    unfold findNodeAux at h ⊢
    by_cases hn : n.id = id
    · refine ⟨0, n, by simp [hn], by simp, hn, ?_⟩
      intro j m hj; omega
    · simp only [hn, if_false] at h ⊢
      obtain ⟨k, node, h1, h2, h3, h4⟩ := ih h
      refine ⟨k + 1, node, ?_, by simpa using h2, h3, ?_⟩
      · rw [h1]; push_cast; ring
      · intro j m hj hm
        cases j with
        | zero => simp at hm; subst hm; exact hn
        | succ j => exact h4 j m (by omega) (by simpa using hm)

theorem findNode_eq_neg_one {c : City} {id : Int} :
    c.findNode id = -1 ↔ ∀ n ∈ c.nodes, n.id ≠ id := findNodeAux_eq_neg_one

theorem findNode_spec {c : City} {id : Int} (h : c.findNode id ≠ -1) :
    ∃ node, readAt c.nodes (c.findNode id) = some node ∧ node.id = id ∧
      ∀ j m, j < c.findNode id → readAt c.nodes j = some m → m.id ≠ id := by
  obtain ⟨k, node, h1, h2, h3, h4⟩ := findNodeAux_spec h
  refine ⟨node, ?_, h3, ?_⟩
  · unfold City.findNode; rw [h1]; simpa [readAt] using h2
  · intro j m hj hm
    unfold City.findNode at hj; rw [h1] at hj
    obtain ⟨hj0, hm1⟩ := readAt_eq_some.1 hm
    exact h4 j.toNat m (by omega) hm1

theorem locationExists_iff {c : City} {id : Int} :
    c.locationExists id = true ↔ ∃ n ∈ c.nodes, n.id = id := by
  unfold City.locationExists
  rw [bne_iff_ne, Ne, findNode_eq_neg_one]
  push_neg; rfl

theorem locationExists_eq_false_iff {c : City} {id : Int} :
    c.locationExists id = false ↔ c.findNode id = -1 := by
  unfold City.locationExists
  simp

theorem findNode_nonneg_of_ne {c : City} {id : Int} (h : c.findNode id ≠ -1) :
    0 ≤ c.findNode id ∧ c.findNode id < (c.nodes.length : Int) := by
  obtain ⟨node, h1, _⟩ := findNode_spec h
  exact readAt_bounds h1

theorem findNodeAux_congr {id : Int} {ns ms : List Node} (i : Nat)
    (h : ns.map Node.id = ms.map Node.id) : findNodeAux id ns i = findNodeAux id ms i := by
  induction ns generalizing ms i with
  | nil => cases ms with
    | nil => rfl
    | cons m ms => simp at h
  | cons n ns ih => cases ms with
    | nil => simp at h
    | cons m ms =>
      simp only [List.map_cons, List.cons.injEq] at h
      unfold findNodeAux
      rw [h.1, ih (i + 1) h.2]

theorem findNode_congr {c d : City} (h : c.nodes.map Node.id = d.nodes.map Node.id) (id : Int) :
    c.findNode id = d.findNode id := findNodeAux_congr 0 h

theorem findNodeAux_append {id : Int} (ns : List Node) (x : Node) (i : Nat) :
    findNodeAux id (ns ++ [x]) i =
      if findNodeAux id ns i ≠ -1 then findNodeAux id ns i
      else if x.id = id then ((i + ns.length : Nat) : Int) else -1 := by
  induction ns generalizing i with
  | nil =>
    simp only [List.nil_append, findNodeAux, List.length_nil]
    simp
  | cons n ns ih =>
    rw [List.cons_append]
    unfold findNodeAux
    by_cases hn : n.id = id
    · have : ((i : Nat) : Int) ≠ -1 := by omega
      simp [hn, this]
    · simp only [hn, if_false]
      rw [ih (i + 1)]
      have : i + 1 + ns.length = i + (n :: ns).length := by simp; omega
      rw [this]

/-! ## Updating one node object -/

theorem updateNodeAt_nodes {c : City} {i : Int} {n : Node} (f : Node → Node)
    (h : readAt c.nodes i = some n) : (c.updateNodeAt i f).nodes = c.nodes.set i.toNat (f n) := by
  simp [City.updateNodeAt, h]

theorem readAt_updateNodeAt {c : City} {i : Int} {n : Node} (f : Node → Node)
    (h : readAt c.nodes i = some n) (j : Int) :
    readAt (c.updateNodeAt i f).nodes j = if j = i then some (f n) else readAt c.nodes j := by
  rw [updateNodeAt_nodes f h]
  obtain ⟨h0, h1⟩ := readAt_bounds h
  exact readAt_of_writeAt (writeAt_of_bounds (f n) h0 h1) j

theorem updateNodeAt_ids {c : City} {i : Int} (f : Node → Node) (hf : ∀ n, (f n).id = n.id) :
    (c.updateNodeAt i f).nodes.map Node.id = c.nodes.map Node.id := by
  unfold City.updateNodeAt
  cases h : readAt c.nodes i with
  | none => rfl
  | some n =>
    obtain ⟨h0, h1⟩ := readAt_eq_some.1 h
    simp only
    apply List.ext_getElem?
    intro j
    simp only [List.getElem?_map, List.getElem?_set]
    by_cases hj : i.toNat = j
    · subst hj
      have := (List.getElem?_eq_some_iff.1 h1).1
      simp [this, h1, hf]
    · simp [hj]

/-! ## Observers in terms of the node found -/

theorem getZone_of_findNode {c : City} {id : Int} {n : Node}
    (h : readAt c.nodes (c.findNode id) = some n) : c.getZone id = n.zoneId := by
  have hne : c.findNode id ≠ -1 := by
    intro h1; rw [h1] at h; simp [readAt] at h
  simp [City.getZone, hne, h]

theorem getZone_of_not_exists {c : City} {id : Int} (h : c.findNode id = -1) :
    c.getZone id = -1 := by
  simp [City.getZone, h]

theorem getRoadIndexAux_eq_neg_one {t : Int} {rs : List Road} {i : Nat} :
    getRoadIndexAux t rs i = -1 ↔ ∀ r ∈ rs, r.toNodeId ≠ t := by
  induction rs generalizing i with
  | nil => simp [getRoadIndexAux]
  | cons r rs ih =>
    unfold getRoadIndexAux
    by_cases h : r.toNodeId = t
    · simp [h]
    · simp [h, ih]

theorem getRoadIndexAux_spec {t : Int} {rs : List Road} {i : Nat}
    (h : getRoadIndexAux t rs i ≠ -1) :
    ∃ k r, getRoadIndexAux t rs i = ((i + k : Nat) : Int) ∧ rs[k]? = some r ∧ r.toNodeId = t ∧
      ∀ j m, j < k → rs[j]? = some m → m.toNodeId ≠ t := by
  induction rs generalizing i with
  | nil => simp [getRoadIndexAux] at h
  | cons n ns ih =>
    unfold getRoadIndexAux at h ⊢
    by_cases hn : n.toNodeId = t
    · refine ⟨0, n, by simp [hn], by simp, hn, ?_⟩
      intro j m hj; omega
    · simp only [hn, if_false] at h ⊢
      obtain ⟨k, node, h1, h2, h3, h4⟩ := ih h
      refine ⟨k + 1, node, ?_, by simpa using h2, h3, ?_⟩
      · rw [h1]; push_cast; ring
      · intro j m hj hm
        cases j with
        | zero => simp at hm; subst hm; exact hn
        | succ j => exact h4 j m (by omega) (by simpa using hm)

theorem hasRoadToAux_iff {t : Int} {rs : List Road} :
    hasRoadToAux t rs = true ↔ ∃ r ∈ rs, r.toNodeId = t := by
  induction rs with
  | nil => simp [hasRoadToAux]
  | cons r rs ih =>
    unfold hasRoadToAux
    by_cases h : r.toNodeId = t
    · simp [h]
    · simp [h, ih]

theorem readAt_getRoadIndexAux (t : Int) (rs : List Road) :
    getRoadIndexAux t rs 0 ≠ -1 →
      readAt rs (getRoadIndexAux t rs 0) = firstRoadTo t rs := by
  intro h
  obtain ⟨k, r, h1, h2, h3, h4⟩ := getRoadIndexAux_spec h
  rw [h1]
  simp only [Nat.zero_add, readAt_natCast, h2]
  clear h h1
  induction rs generalizing k with
  | nil => simp at h2
  | cons x xs ih =>
    unfold firstRoadTo
    cases k with
    | zero => simp at h2; subst h2; simp [h3]
    | succ k =>
      have hx : x.toNodeId ≠ t := h4 0 x (by omega) (by simp)
      simp only [hx, if_false]
      exact ih k (by simpa using h2) (fun j m hj hm => h4 (j + 1) m (by omega) (by simpa using hm))

theorem firstRoadTo_eq_none {t : Int} {rs : List Road} :
    firstRoadTo t rs = none ↔ ∀ r ∈ rs, r.toNodeId ≠ t := by
  induction rs with
  | nil => simp [firstRoadTo]
  | cons r rs ih =>
    unfold firstRoadTo
    by_cases h : r.toNodeId = t
    · simp [h]
    · simp [h, ih]

theorem firstRoadTo_mem {t : Int} {rs : List Road} {r : Road} (h : firstRoadTo t rs = some r) :
    r ∈ rs ∧ r.toNodeId = t := by
  induction rs with
  | nil => simp [firstRoadTo] at h
  | cons x xs ih =>
    unfold firstRoadTo at h
    by_cases hx : x.toNodeId = t
    · simp only [hx, if_true, Option.some.injEq] at h
      subst h; exact ⟨List.mem_cons_self _ _, hx⟩
    · simp only [hx, if_false] at h
      exact ⟨List.mem_cons_of_mem _ (ih h).1, (ih h).2⟩

theorem firstRoadTo_append (t : Int) (rs : List Road) (x : Road) :
    firstRoadTo t (rs ++ [x]) =
      match firstRoadTo t rs with
      | some r => some r
      | none => if x.toNodeId = t then some x else none := by
  induction rs with
  | nil => simp [firstRoadTo]
  | cons r rs ih =>
    rw [List.cons_append]
    unfold firstRoadTo
    by_cases h : r.toNodeId = t
    · simp [h]
    · simp only [h, if_false, ih]

/-- Value of `getDistance` in terms of the node found and its first road to `toId`. -/
theorem getDistance_of_findNode {c : City} {a b : Int} {n : Node}
    (h : readAt c.nodes (c.findNode a) = some n) :
    c.getDistance a b = match firstRoadTo b n.roads with
      | some r => r.distance
      | none => -1 := by
  have hne : c.findNode a ≠ -1 := by
    intro h1; rw [h1] at h; simp [readAt] at h
  unfold City.getDistance
  simp only [hne, if_false, h]
  by_cases hr : n.getRoadIndex b = -1
  · have := firstRoadTo_eq_none.2 (getRoadIndexAux_eq_neg_one.1 hr)
    simp [hr, this]
  · simp only [hr, if_false]
    unfold Node.getRoadIndex at hr ⊢
    rw [readAt_getRoadIndexAux b n.roads hr]

theorem getDistance_of_not_exists {c : City} {a : Int} (b : Int) (h : c.findNode a = -1) :
    c.getDistance a b = -1 := by
  simp [City.getDistance, h]

/-! ## addLocation, setZone and rejected calls -/

theorem addLocation_fst (c : City) (id : Int) :
    (c.addLocation id).1 = !c.locationExists id := by
  unfold City.addLocation City.locationExists
  by_cases h : c.findNode id = -1 <;> simp [h]

theorem findNode_addLocation_old {c : City} {id j : Int} (hj : c.findNode j ≠ -1) :
    (⟨c.nodes ++ [Node.mk1 id]⟩ : City).findNode j = c.findNode j := by
  unfold City.findNode at hj ⊢
  rw [findNodeAux_append]
  simp [hj]

theorem findNode_addLocation_new {c : City} {id : Int} (h : c.findNode id = -1) :
    (⟨c.nodes ++ [Node.mk1 id]⟩ : City).findNode id = (c.nodes.length : Int) := by
  unfold City.findNode at h ⊢
  rw [findNodeAux_append]
  simp [h, Node.mk1]

theorem readAt_append_old {α : Type} {xs : List α} (y : α) {i : Int} {a : α}
    (h : readAt xs i = some a) : readAt (xs ++ [y]) i = some a := by
  obtain ⟨h0, h1⟩ := readAt_eq_some.1 h
  have := (List.getElem?_eq_some_iff.1 h1).1
  exact readAt_eq_some.2 ⟨h0, by rw [List.getElem?_append_left this]; exact h1⟩

theorem readAt_append_length {α : Type} (xs : List α) (y : α) :
    readAt (xs ++ [y]) (xs.length : Int) = some y := by
  simp [readAt]

/-- C7. `addLocation(id)` returns false exactly when a node with that id is already
present. Otherwise it returns true and appends the node `(id, zone -1, no roads)` to
the unchanged node array: the node count grows by one, `locationExists(id)` holds,
`getZone(id) == -1`, the new node has no road to anywhere, and every node that was
present keeps its zone and its roads. -/
theorem addLocation_contract (c : City) (id : Int) :
    ((c.addLocation id).1 = false ↔ c.locationExists id = true) ∧
    ((c.addLocation id).1 = true →
      (c.addLocation id).2.nodes = c.nodes ++ [⟨id, -1, []⟩] ∧
      (c.addLocation id).2.getNodeCount = c.getNodeCount + 1 ∧
      (c.addLocation id).2.locationExists id = true ∧
      (c.addLocation id).2.getZone id = -1 ∧
      (∀ x, (c.addLocation id).2.getDistance id x = -1) ∧
      (∀ j, c.locationExists j = true →
        (c.addLocation id).2.locationExists j = true ∧
        (c.addLocation id).2.getZone j = c.getZone j ∧
        ∀ x, (c.addLocation id).2.getDistance j x = c.getDistance j x)) := by
  refine ⟨by rw [addLocation_fst]; cases c.locationExists id <;> simp, ?_⟩
  intro h
  rw [addLocation_fst] at h
  have hnew : c.findNode id = -1 := by
    apply locationExists_eq_false_iff.1
    cases hx : c.locationExists id <;> simp_all
  have hn : (c.addLocation id).2 = ⟨c.nodes ++ [Node.mk1 id]⟩ := by
    simp [City.addLocation, hnew]
  rw [hn]
  have hfind := findNode_addLocation_new hnew
  have hread : readAt (⟨c.nodes ++ [Node.mk1 id]⟩ : City).nodes
      ((⟨c.nodes ++ [Node.mk1 id]⟩ : City).findNode id) = some (Node.mk1 id) := by
    rw [hfind]; exact readAt_append_length _ _
  refine ⟨rfl, by simp [City.getNodeCount], ?_, ?_, ?_, ?_⟩
  · unfold City.locationExists
    rw [hfind]; simp
  · rw [getZone_of_findNode hread]; rfl
  · intro x
    rw [getDistance_of_findNode hread]; rfl
  · intro j hj
    have hj1 : c.findNode j ≠ -1 := by
      unfold City.locationExists at hj; simpa using hj
    obtain ⟨node, hnode, -, -⟩ := findNode_spec hj1
    have hread2 : readAt (⟨c.nodes ++ [Node.mk1 id]⟩ : City).nodes
        ((⟨c.nodes ++ [Node.mk1 id]⟩ : City).findNode j) = some node := by
      rw [findNode_addLocation_old hj1]; exact readAt_append_old _ hnode
    refine ⟨?_, ?_, ?_⟩
    · unfold City.locationExists
      rw [findNode_addLocation_old hj1]; simpa using hj1
    · rw [getZone_of_findNode hread2, getZone_of_findNode hnode]
    · intro x
      rw [getDistance_of_findNode hread2, getDistance_of_findNode hnode]

theorem setZone_fst (c : City) (id z : Int) :
    (c.setZone id z).1 = (c.locationExists id && decide (0 ≤ z)) := by
  unfold City.setZone City.locationExists
  by_cases h : c.findNode id = -1
  · simp [h]
  · by_cases hz : z < 0
    · have : ¬ 0 ≤ z := by omega
      simp [h, hz, this]
    · have : 0 ≤ z := by omega
      simp [h, hz, this]

/-- C8. `setZone(id, z)` returns false exactly when `id` is not a node or `z < 0`.
Otherwise it returns true, the node found for `id` gets zone `z` and keeps its id and
roads, every other node object is untouched, so `getZone(id) == z`, the zone of every
other id and every `getDistance` are as before. -/
theorem setZone_contract (c : City) (id z : Int) :
    ((c.setZone id z).1 = false ↔ (c.locationExists id = false ∨ z < 0)) ∧
    ((c.setZone id z).1 = true →
      (c.setZone id z).2.getZone id = z ∧
      (∀ j, j ≠ id → (c.setZone id z).2.getZone j = c.getZone j) ∧
      (∀ k, k ≠ c.findNode id →
        readAt (c.setZone id z).2.nodes k = readAt c.nodes k) ∧
      (c.setZone id z).2.nodes.map (fun n => (n.id, n.roads)) =
        c.nodes.map (fun n => (n.id, n.roads)) ∧
      (∀ a b, (c.setZone id z).2.getDistance a b = c.getDistance a b)) := by
  constructor
  · rw [setZone_fst]
    cases c.locationExists id <;> simp
  intro h
  rw [setZone_fst] at h
  simp only [Bool.and_eq_true, decide_eq_true_eq] at h
  obtain ⟨hex, hz⟩ := h
  have hne : c.findNode id ≠ -1 := by
    unfold City.locationExists at hex; simpa using hex
  have hz' : ¬ z < 0 := by omega
  have hst : (c.setZone id z).2 =
      c.updateNodeAt (c.findNode id) (fun n => { n with zoneId := z }) := by
    simp [City.setZone, hne, hz']
  rw [hst]
  obtain ⟨node, hnode, hid, -⟩ := findNode_spec hne
  have hids := updateNodeAt_ids (c := c) (i := c.findNode id)
    (fun n => { n with zoneId := z }) (fun _ => rfl)
  have hfind : ∀ j, (c.updateNodeAt (c.findNode id) (fun n => { n with zoneId := z })).findNode j
      = c.findNode j := fun j => findNode_congr hids j
  have hread := readAt_updateNodeAt (fun n => { n with zoneId := z }) hnode
  refine ⟨?_, ?_, ?_, ?_, ?_⟩
  · have : readAt (c.updateNodeAt (c.findNode id) (fun n => { n with zoneId := z })).nodes
        ((c.updateNodeAt (c.findNode id) (fun n => { n with zoneId := z })).findNode id)
        = some { node with zoneId := z } := by
      rw [hfind, hread]; simp
    rw [getZone_of_findNode this]
  · intro j hj
    by_cases hjn : c.findNode j = -1
    · rw [getZone_of_not_exists hjn, getZone_of_not_exists (by rw [hfind]; exact hjn)]
    · obtain ⟨nj, hnj, hidj, -⟩ := findNode_spec hjn
      have hne2 : c.findNode j ≠ c.findNode id := by
        intro he
        rw [he, hnode] at hnj
        simp only [Option.some.injEq] at hnj
        subst hnj
        exact hj (hidj.symm.trans hid)
      have : readAt (c.updateNodeAt (c.findNode id) (fun n => { n with zoneId := z })).nodes
          ((c.updateNodeAt (c.findNode id) (fun n => { n with zoneId := z })).findNode j)
          = some nj := by
        rw [hfind, hread]; simp [hne2, hnj]
      rw [getZone_of_findNode this, getZone_of_findNode hnj]
  · intro k hk
    rw [hread]; simp [hk]
  · rw [updateNodeAt_nodes _ hnode]
    obtain ⟨h0, h1⟩ := readAt_eq_some.1 hnode
    apply List.ext_getElem?
    intro j
    simp only [List.getElem?_map, List.getElem?_set]
    by_cases hj : (c.findNode id).toNat = j
    · subst hj
      have := (List.getElem?_eq_some_iff.1 h1).1
      simp [this, h1]
    · simp [hj]
  · intro a b
    by_cases han : c.findNode a = -1
    · rw [getDistance_of_not_exists b han, getDistance_of_not_exists b (by rw [hfind]; exact han)]
    · obtain ⟨na, hna, -, -⟩ := findNode_spec han
      by_cases he : c.findNode a = c.findNode id
      · have hnn : na = node := by
          rw [he, hnode] at hna; exact (Option.some.inj hna).symm
        subst hnn
        have : readAt (c.updateNodeAt (c.findNode id) (fun n => { n with zoneId := z })).nodes
            ((c.updateNodeAt (c.findNode id) (fun n => { n with zoneId := z })).findNode a)
            = some { na with zoneId := z } := by
          rw [hfind, hread]; simp [he]
        rw [getDistance_of_findNode this, getDistance_of_findNode hna]
      · have : readAt (c.updateNodeAt (c.findNode id) (fun n => { n with zoneId := z })).nodes
            ((c.updateNodeAt (c.findNode id) (fun n => { n with zoneId := z })).findNode a)
            = some na := by
          rw [hfind, hread]; simp [he, hna]
        rw [getDistance_of_findNode this, getDistance_of_findNode hna]

theorem addLocation_snd_of_false {c : City} {id : Int} (h : (c.addLocation id).1 = false) :
    (c.addLocation id).2 = c := by
  revert h
  unfold City.addLocation
  split <;> simp

theorem addRoad_snd_of_false {c : City} {a b w : Int} (h : (c.addRoad a b w).1 = false) :
    (c.addRoad a b w).2 = c := by
  revert h
  unfold City.addRoad
  simp only
  split_ifs <;> try simp
  split
  · simp
  · split_ifs <;> simp

theorem setZone_snd_of_false {c : City} {id z : Int} (h : (c.setZone id z).1 = false) :
    (c.setZone id z).2 = c := by
  revert h
  unfold City.setZone
  simp only
  split_ifs <;> simp

/-- C9. Whenever `addLocation`, `addRoad` or `setZone` returns false, the network
after the call is the network before it: same nodes in the same order, same roads and
weights, same zone tags. -/
theorem rejected_call_keeps_network (c : City) :
    (∀ id, (c.addLocation id).1 = false → (c.addLocation id).2 = c) ∧
    (∀ a b w, (c.addRoad a b w).1 = false → (c.addRoad a b w).2 = c) ∧
    (∀ id z, (c.setZone id z).1 = false → (c.setZone id z).2 = c) :=
  ⟨fun _ h => addLocation_snd_of_false h, fun _ _ _ h => addRoad_snd_of_false h,
    fun _ _ h => setZone_snd_of_false h⟩

/-! ## Structure of a successful `addRoad` -/

theorem set_eq_map_of_nodup {a : Int} (f : Node → Node) :
    ∀ (ns : List Node) (k : Nat) (node : Node), (ns.map Node.id).Nodup →
      ns[k]? = some node → node.id = a →
      ns.set k (f node) = ns.map (fun n => if n.id = a then f n else n) := by
  intro ns
  induction ns with
  | nil => intro k node _ h; simp at h
  | cons n ns ih =>
    intro k node hnd hk hid
    rw [List.map_cons, List.nodup_cons] at hnd
    cases k with
    | zero =>
      simp only [List.getElem?_cons_zero, Option.some.injEq] at hk
      subst hk
      simp only [List.set_cons_zero, List.map_cons, hid, if_true, List.cons.injEq, true_and]
      symm
      conv_rhs => rw [← List.map_id ns]
      apply List.map_congr_left
      intro m hm
      have : m.id ≠ a := by
        intro h
        apply hnd.1
        rw [hid, ← h]
        exact List.mem_map_of_mem _ hm
      simp [this]
    | succ k =>
      simp only [List.getElem?_cons_succ] at hk
      have hn : n.id ≠ a := by
        intro h
        apply hnd.1
        rw [h, ← hid]
        exact List.mem_map_of_mem _ (List.getElem?_mem hk)
      simp only [List.set_cons_succ, List.map_cons, hn, if_false, List.cons.injEq, true_and]
      exact ih k node hnd.2 hk hid

theorem updateNodeAt_findNode_eq_map {c : City} {a : Int} (f : Node → Node)
    (hnd : (c.nodes.map Node.id).Nodup) (h : c.findNode a ≠ -1) :
    (c.updateNodeAt (c.findNode a) f).nodes =
      c.nodes.map (fun n => if n.id = a then f n else n) := by
  obtain ⟨node, hnode, hid, -⟩ := findNode_spec h
  rw [updateNodeAt_nodes f hnode]
  exact set_eq_map_of_nodup f c.nodes _ node hnd (readAt_eq_some.1 hnode).2 hid

theorem addRoad_fst_eq_true_iff (c : City) (a b w : Int) :
    (c.addRoad a b w).1 = true ↔
      0 < w ∧ c.findNode a ≠ -1 ∧ c.findNode b ≠ -1 ∧ a ≠ b ∧
      ∃ n, readAt c.nodes (c.findNode a) = some n ∧ n.hasRoadTo b = false := by
  unfold City.addRoad
  by_cases hw : w ≤ 0
  · have : ¬ 0 < w := by omega
    simp [hw, this]
  have hw' : 0 < w := by omega
  by_cases ha : c.findNode a = -1
  · simp [hw, ha]
  by_cases hb : c.findNode b = -1
  · simp [hw, ha, hb]
  by_cases hab : a = b
  · simp [hw, ha, hb, hab]
  simp only [hw, ha, hb, hab, if_false, hw', ne_eq, not_false_eq_true, true_and]
  cases hr : readAt c.nodes (c.findNode a) with
  | none => simp
  | some n =>
    by_cases hh : n.hasRoadTo b = true
    · simp [hh]
    · simp [hh]

theorem addRoad_snd_of_true {c : City} {a b w : Int} (h : (c.addRoad a b w).1 = true) :
    (c.addRoad a b w).2 = (c.updateNodeAt (c.findNode a) (fun n => n.addRoad b w)).updateNodeAt
      (c.findNode b) (fun n => n.addRoad a w) := by
  obtain ⟨hw, ha, hb, hab, n, hn, hh⟩ := (addRoad_fst_eq_true_iff c a b w).1 h
  have hw' : ¬ w ≤ 0 := by omega
  unfold City.addRoad
  simp [hw', ha, hb, hab, hn, hh]

theorem addRoad_nodes_of_true {c : City} {a b w : Int}
    (hnd : (c.nodes.map Node.id).Nodup) (h : (c.addRoad a b w).1 = true) :
    (c.addRoad a b w).2.nodes = c.nodes.map (addRoadMap a b w) := by
  obtain ⟨hw, ha, hb, hab, n, hn, hh⟩ := (addRoad_fst_eq_true_iff c a b w).1 h
  rw [addRoad_snd_of_true h]
  have hids := updateNodeAt_ids (c := c) (i := c.findNode a)
    (fun n => n.addRoad b w) (fun _ => rfl)
  have hfb : c.findNode b =
      (c.updateNodeAt (c.findNode a) (fun n => n.addRoad b w)).findNode b :=
    (findNode_congr hids b).symm
  rw [hfb, updateNodeAt_findNode_eq_map _ (by rw [hids]; exact hnd) (by rw [← hfb]; exact hb),
    updateNodeAt_findNode_eq_map _ hnd ha, List.map_map]
  apply List.map_congr_left
  intro m _
  simp only [Function.comp, addRoadMap]
  by_cases h1 : m.id = a
  · have : ¬ (m.addRoad b w).id = b := by
      show ¬ m.id = b
      rw [h1]; exact hab
    simp [h1, this]
  · simp [h1]

theorem addRoadMap_id (a b w : Int) (n : Node) : (addRoadMap a b w n).id = n.id := by
  unfold addRoadMap
  split_ifs <;> rfl

theorem addRoadMap_zoneId (a b w : Int) (n : Node) : (addRoadMap a b w n).zoneId = n.zoneId := by
  unfold addRoadMap
  split_ifs <;> rfl

theorem mem_addRoadMap_roads {a b w : Int} (hab : a ≠ b) {n : Node} {r : Road} :
    r ∈ (addRoadMap a b w n).roads ↔
      r ∈ n.roads ∨ (n.id = a ∧ r = ⟨b, w⟩) ∨ (n.id = b ∧ r = ⟨a, w⟩) := by
  unfold addRoadMap
  by_cases h1 : n.id = a
  · have h2 : n.id ≠ b := by rw [h1]; exact hab
    simp [h1, h2, Node.addRoad, hab]
  · by_cases h2 : n.id = b
    · have : b ≠ a := fun h => hab h.symm
      simp [h1, h2, Node.addRoad, this]
    · simp [h1, h2]

/-- The roads of the network after a successful `addRoad(a, b, w)`. -/
theorem roadBetween_addRoad {c : City} {a b w : Int}
    (hnd : (c.nodes.map Node.id).Nodup) (h : (c.addRoad a b w).1 = true) (x y v : Int) :
    (c.addRoad a b w).2.RoadBetween x y v ↔
      c.RoadBetween x y v ∨ (x = a ∧ y = b ∧ v = w) ∨ (x = b ∧ y = a ∧ v = w) := by
  obtain ⟨hw, ha, hb, hab, n, hn, hh⟩ := (addRoad_fst_eq_true_iff c a b w).1 h
  unfold City.RoadBetween
  rw [addRoad_nodes_of_true hnd h]
  constructor
  · rintro ⟨n', hn', hid, hr⟩
    obtain ⟨m, hm, rfl⟩ := List.mem_map.1 hn'
    rw [addRoadMap_id] at hid
    rcases (mem_addRoadMap_roads hab).1 hr with h1 | ⟨h1, h2⟩ | ⟨h1, h2⟩
    · exact Or.inl ⟨m, hm, hid, h1⟩
    · simp only [Road.mk.injEq] at h2
      exact Or.inr (Or.inl ⟨hid.symm.trans h1, h2.1, h2.2⟩)
    · simp only [Road.mk.injEq] at h2
      exact Or.inr (Or.inr ⟨hid.symm.trans h1, h2.1, h2.2⟩)
  · rintro (⟨m, hm, hid, hr⟩ | ⟨rfl, rfl, rfl⟩ | ⟨rfl, rfl, rfl⟩)
    · exact ⟨addRoadMap a b w m, List.mem_map_of_mem _ hm, by rw [addRoadMap_id]; exact hid,
        (mem_addRoadMap_roads hab).2 (Or.inl hr)⟩
    · obtain ⟨m, hm, hid⟩ := (findNode_spec ha)
      exact ⟨addRoadMap x y v m, List.mem_map_of_mem _ (readAt_mem hm),
        by rw [addRoadMap_id]; exact hid.1, (mem_addRoadMap_roads hab).2 (Or.inr (Or.inl ⟨hid.1, rfl⟩))⟩
    · obtain ⟨m, hm, hid⟩ := (findNode_spec hb)
      exact ⟨addRoadMap y x v m, List.mem_map_of_mem _ (readAt_mem hm),
        by rw [addRoadMap_id]; exact hid.1, (mem_addRoadMap_roads hab).2 (Or.inr (Or.inr ⟨hid.1, rfl⟩))⟩

/-! ## Well-formedness of reachable networks -/

theorem City.WF.node_unique {c : City} (h : c.WF) {n m : Node} (hn : n ∈ c.nodes) (hm : m ∈ c.nodes)
    (hid : n.id = m.id) : n = m :=
  List.inj_on_of_nodup_map h.ids_nodup hn hm hid

theorem City.WF.empty : City.empty.WF :=
  ⟨by simp [City.empty], by simp [City.empty], by simp [City.empty], by simp [City.empty],
    by simp [City.empty]⟩

theorem City.WF.addLocation {c : City} (h : c.WF) (id : Int) : (c.addLocation id).2.WF := by
  unfold City.addLocation
  by_cases hf : c.findNode id = -1
  · simp only [hf, ne_eq, not_true_eq_false, if_false]
    have hnew := findNode_eq_neg_one.1 hf
    refine ⟨?_, ?_, ?_, ?_, ?_⟩
    · simp only [List.map_append, List.map_cons, List.map_nil]
      apply List.Nodup.append h.ids_nodup (by simp)
      intro x hx hx'
      simp only [List.mem_singleton] at hx'
      obtain ⟨n, hn, rfl⟩ := List.mem_map.1 hx
      exact hnew n hn hx'
    · intro n hn r hr
      rcases List.mem_append.1 hn with hn | hn
      · exact h.weight_pos n hn r hr
      · simp only [List.mem_singleton] at hn; subst hn; simp [Node.mk1] at hr
    · intro n hn r hr
      rcases List.mem_append.1 hn with hn | hn
      · exact h.no_loop n hn r hr
      · simp only [List.mem_singleton] at hn; subst hn; simp [Node.mk1] at hr
    · intro n hn r hr
      rcases List.mem_append.1 hn with hn | hn
      · obtain ⟨m, hm, h1, h2⟩ := h.symm n hn r hr
        exact ⟨m, List.mem_append_left _ hm, h1, h2⟩
      · simp only [List.mem_singleton] at hn; subst hn; simp [Node.mk1] at hr
    · intro n hn
      rcases List.mem_append.1 hn with hn | hn
      · exact h.roads_nodup n hn
      · simp only [List.mem_singleton] at hn; subst hn; simp [Node.mk1]
  · simpa [hf] using h

theorem City.WF.setZone {c : City} (h : c.WF) (id z : Int) : (c.setZone id z).2.WF := by
  by_cases hb : (c.setZone id z).1 = true
  · have hb' := hb
    rw [setZone_fst] at hb'
    simp only [Bool.and_eq_true, decide_eq_true_eq] at hb'
    have hne : c.findNode id ≠ -1 := by
      have := hb'.1; unfold City.locationExists at this; simpa using this
    have hz' : ¬ z < 0 := by omega
    have hst : (c.setZone id z).2 =
        c.updateNodeAt (c.findNode id) (fun n => { n with zoneId := z }) := by
      simp [City.setZone, hne, hz']
    have hnodes := updateNodeAt_findNode_eq_map (fun n => { n with zoneId := z }) h.ids_nodup hne
    rw [hst]
    have key : ∀ n' ∈ (c.updateNodeAt (c.findNode id) (fun n => { n with zoneId := z })).nodes,
        ∃ n ∈ c.nodes, n'.id = n.id ∧ n'.roads = n.roads := by
      intro n' hn'
      rw [hnodes] at hn'
      obtain ⟨n, hn, rfl⟩ := List.mem_map.1 hn'
      refine ⟨n, hn, ?_, ?_⟩ <;> split_ifs <;> rfl
    have key2 : ∀ n ∈ c.nodes,
        ∃ n' ∈ (c.updateNodeAt (c.findNode id) (fun n => { n with zoneId := z })).nodes,
          n'.id = n.id ∧ n'.roads = n.roads := by
      intro n hn
      rw [hnodes]
      refine ⟨_, List.mem_map_of_mem _ hn, ?_, ?_⟩ <;> split_ifs <;> rfl
    refine ⟨?_, ?_, ?_, ?_, ?_⟩
    · have := updateNodeAt_ids (c := c) (i := c.findNode id)
        (fun n => { n with zoneId := z }) (fun _ => rfl)
      rw [this]; exact h.ids_nodup
    · intro n' hn' r hr
      obtain ⟨n, hn, -, h2⟩ := key n' hn'
      exact h.weight_pos n hn r (h2 ▸ hr)
    · intro n' hn' r hr
      obtain ⟨n, hn, h1, h2⟩ := key n' hn'
      rw [h1]; exact h.no_loop n hn r (h2 ▸ hr)
    · intro n' hn' r hr
      obtain ⟨n, hn, h1, h2⟩ := key n' hn'
      obtain ⟨m, hm, h3, h4⟩ := h.symm n hn r (h2 ▸ hr)
      obtain ⟨m', hm', h5, h6⟩ := key2 m hm
      exact ⟨m', hm', h5.trans h3, by rw [h6, h1]; exact h4⟩
    · intro n' hn'
      obtain ⟨n, hn, -, h2⟩ := key n' hn'
      rw [h2]; exact h.roads_nodup n hn
  · have hb2 : (c.setZone id z).1 = false := by
      cases hx : (c.setZone id z).1 <;> simp_all
    rw [setZone_snd_of_false hb2]
    exact h

theorem City.WF.addRoad {c : City} (h : c.WF) (a b w : Int) : (c.addRoad a b w).2.WF := by
  by_cases hb : (c.addRoad a b w).1 = true
  · obtain ⟨hw, ha, hb', hab, n, hn, hh⟩ := (addRoad_fst_eq_true_iff c a b w).1 hb
    have hnodes := addRoad_nodes_of_true h.ids_nodup hb
    obtain ⟨na, hna, hida, -⟩ := findNode_spec ha
    obtain ⟨nb, hnb, hidb, -⟩ := findNode_spec hb'
    have hnna : n = na := Option.some.inj (hn.symm.trans hna)
    subst hnna
    have hna_mem := readAt_mem hna
    have hnb_mem := readAt_mem hnb
    have hno_ab : ∀ r ∈ n.roads, r.toNodeId ≠ b := by
      intro r hr hrb
      have : n.hasRoadTo b = true := hasRoadToAux_iff.2 ⟨r, hr, hrb⟩
      rw [hh] at this; exact Bool.noConfusion this
    have hno_ba : ∀ r ∈ nb.roads, r.toNodeId ≠ a := by
      intro r hr hra
      obtain ⟨m, hm, h1, h2⟩ := h.symm nb hnb_mem r hr
      have hmn : m = n := h.node_unique hm hna_mem (by rw [h1, hra, hida])
      subst hmn
      exact hno_ab _ h2 hidb
    refine ⟨?_, ?_, ?_, ?_, ?_⟩
    · rw [hnodes, List.map_map]
      have : Node.id ∘ addRoadMap a b w = Node.id := by
        funext m; exact addRoadMap_id a b w m
      rw [this]; exact h.ids_nodup
    · intro n' hn' r hr
      rw [hnodes] at hn'
      obtain ⟨m, hm, rfl⟩ := List.mem_map.1 hn'
      rcases (mem_addRoadMap_roads hab).1 hr with h1 | ⟨-, rfl⟩ | ⟨-, rfl⟩
      · exact h.weight_pos m hm r h1
      · exact hw
      · exact hw
    · intro n' hn' r hr
      rw [hnodes] at hn'
      obtain ⟨m, hm, rfl⟩ := List.mem_map.1 hn'
      rw [addRoadMap_id]
      rcases (mem_addRoadMap_roads hab).1 hr with h1 | ⟨h2, rfl⟩ | ⟨h2, rfl⟩
      · exact h.no_loop m hm r h1
      · rw [h2]; exact fun h => hab h.symm
      · rw [h2]; exact hab
    · intro n' hn' r hr
      rw [hnodes] at hn' ⊢
      obtain ⟨m, hm, rfl⟩ := List.mem_map.1 hn'
      rw [addRoadMap_id]
      rcases (mem_addRoadMap_roads hab).1 hr with h1 | ⟨h2, rfl⟩ | ⟨h2, rfl⟩
      · obtain ⟨m', hm', h3, h4⟩ := h.symm m hm r h1
        exact ⟨addRoadMap a b w m', List.mem_map_of_mem _ hm', by rw [addRoadMap_id]; exact h3,
          (mem_addRoadMap_roads hab).2 (Or.inl h4)⟩
      · exact ⟨addRoadMap a b w nb, List.mem_map_of_mem _ hnb_mem,
          by rw [addRoadMap_id]; exact hidb,
          (mem_addRoadMap_roads hab).2 (Or.inr (Or.inr ⟨hidb, by rw [h2]⟩))⟩
      · exact ⟨addRoadMap a b w n, List.mem_map_of_mem _ hna_mem,
          by rw [addRoadMap_id]; exact hida,
          (mem_addRoadMap_roads hab).2 (Or.inr (Or.inl ⟨hida, by rw [h2]⟩))⟩
    · intro n' hn'
      rw [hnodes] at hn'
      obtain ⟨m, hm, rfl⟩ := List.mem_map.1 hn'
      unfold addRoadMap
      by_cases h1 : m.id = a
      · have hmn : m = n := h.node_unique hm hna_mem (h1.trans hida.symm)
        subst hmn
        rw [if_pos h1]
        simp only [Node.addRoad, List.map_append, List.map_cons, List.map_nil]
        apply List.Nodup.append (h.roads_nodup m hm) (by simp)
        intro x hx hx'
        simp only [List.mem_singleton] at hx'
        obtain ⟨r, hr, rfl⟩ := List.mem_map.1 hx
        exact hno_ab r hr hx'
      · by_cases h2 : m.id = b
        · have hmn : m = nb := h.node_unique hm hnb_mem (h2.trans hidb.symm)
          subst hmn
          rw [if_neg h1, if_pos h2]
          simp only [Node.addRoad, List.map_append, List.map_cons, List.map_nil]
          apply List.Nodup.append (h.roads_nodup m hm) (by simp)
          intro x hx hx'
          simp only [List.mem_singleton] at hx'
          obtain ⟨r, hr, rfl⟩ := List.mem_map.1 hx
          exact hno_ba r hr hx'
        · rw [if_neg h1, if_neg h2]
          exact h.roads_nodup m hm
  · have hb2 : (c.addRoad a b w).1 = false := by
      cases hx : (c.addRoad a b w).1 <;> simp_all
    rw [addRoad_snd_of_false hb2]
    exact h

theorem City.Reachable.wf {c : City} (h : c.Reachable) : c.WF := by
  induction h with
  | empty => exact City.WF.empty
  | addLocation id _ ih => exact ih.addLocation id
  | addRoad a b w _ ih => exact ih.addRoad a b w
  | setZone id z _ ih => exact ih.setZone id z

/-! ## Roads of a well-formed network -/

theorem City.WF.roadBetween_symm {c : City} (h : c.WF) {a b w : Int}
    (hr : c.RoadBetween a b w) : c.RoadBetween b a w := by
  obtain ⟨n, hn, hid, hmem⟩ := hr
  obtain ⟨m, hm, h1, h2⟩ := h.symm n hn _ hmem
  exact ⟨m, hm, h1, by rw [← hid]; exact h2⟩

theorem City.WF.roadBetween_pos {c : City} (h : c.WF) {a b w : Int}
    (hr : c.RoadBetween a b w) : 0 < w := by
  obtain ⟨n, hn, -, hmem⟩ := hr
  exact h.weight_pos n hn _ hmem

theorem City.WF.roadBetween_ne {c : City} (h : c.WF) {a b w : Int}
    (hr : c.RoadBetween a b w) : b ≠ a := by
  obtain ⟨n, hn, hid, hmem⟩ := hr
  rw [← hid]; exact h.no_loop n hn _ hmem

theorem City.WF.roadBetween_target {c : City} (h : c.WF) {a b w : Int}
    (hr : c.RoadBetween a b w) : c.locationExists b = true := by
  obtain ⟨n, hn, hid, hmem⟩ := h.roadBetween_symm hr
  exact locationExists_iff.2 ⟨n, hn, hid⟩

theorem roadBetween_source {c : City} {a b w : Int}
    (hr : c.RoadBetween a b w) : c.locationExists a = true := by
  obtain ⟨n, hn, hid, hmem⟩ := hr
  exact locationExists_iff.2 ⟨n, hn, hid⟩

theorem City.WF.found_node {c : City} (h : c.WF) {n : Node} (hn : n ∈ c.nodes) :
    readAt c.nodes (c.findNode n.id) = some n := by
  have hne : c.findNode n.id ≠ -1 := by
    intro h1; exact findNode_eq_neg_one.1 h1 n hn rfl
  obtain ⟨m, hm, hid, -⟩ := findNode_spec hne
  rw [hm, h.node_unique (readAt_mem hm) hn hid]

theorem City.WF.roadBetween_weight_unique {c : City} (h : c.WF) {a b w v : Int}
    (h1 : c.RoadBetween a b w) (h2 : c.RoadBetween a b v) : w = v := by
  obtain ⟨n, hn, hid, hmem⟩ := h1
  obtain ⟨m, hm, hid2, hmem2⟩ := h2
  have hnm : n = m := h.node_unique hn hm (hid.trans hid2.symm)
  subst hnm
  have := List.inj_on_of_nodup_map (h.roads_nodup n hn) hmem hmem2 rfl
  simpa using this

theorem City.WF.getDistance_of_roadBetween {c : City} (h : c.WF) {a b w : Int}
    (hr : c.RoadBetween a b w) : c.getDistance a b = w := by
  obtain ⟨n, hn, hid, hmem⟩ := hr
  have hfound := h.found_node hn
  rw [hid] at hfound
  rw [getDistance_of_findNode hfound]
  cases hf : firstRoadTo b n.roads with
  | none => exact absurd rfl (firstRoadTo_eq_none.1 hf _ hmem)
  | some r =>
    obtain ⟨hr1, hr2⟩ := firstRoadTo_mem hf
    have := List.inj_on_of_nodup_map (h.roads_nodup n hn) hr1 hmem hr2
    rw [this]

theorem getDistance_of_no_road {c : City} {a b : Int}
    (hr : ∀ w, ¬ c.RoadBetween a b w) : c.getDistance a b = -1 := by
  by_cases hne : c.findNode a = -1
  · exact getDistance_of_not_exists b hne
  · obtain ⟨n, hn, hid, -⟩ := findNode_spec hne
    rw [getDistance_of_findNode hn]
    cases hf : firstRoadTo b n.roads with
    | none => rfl
    | some r =>
      obtain ⟨hr1, hr2⟩ := firstRoadTo_mem hf
      exact absurd ⟨n, readAt_mem hn, hid, by rw [← hr2]; exact hr1⟩ (hr r.distance)

theorem City.WF.hasRoadTo_iff {c : City} (h : c.WF) {a b : Int} {n : Node}
    (hn : readAt c.nodes (c.findNode a) = some n) :
    n.hasRoadTo b = true ↔ ∃ v, c.RoadBetween a b v ∨ c.RoadBetween b a v := by
  have hne : c.findNode a ≠ -1 := by
    intro h1; rw [h1] at hn; simp [readAt] at hn
  obtain ⟨n', hn', hid, -⟩ := findNode_spec hne
  have hnn : n' = n := Option.some.inj (hn'.symm.trans hn)
  subst hnn
  constructor
  · intro hh
    obtain ⟨r, hr, hrb⟩ := hasRoadToAux_iff.1 hh
    exact ⟨r.distance, Or.inl ⟨n', readAt_mem hn, hid, by rw [← hrb]; exact hr⟩⟩
  · rintro ⟨v, hv⟩
    have hab : c.RoadBetween a b v := by
      rcases hv with hv | hv
      · exact hv
      · exact h.roadBetween_symm hv
    obtain ⟨m, hm, hid2, hmem⟩ := hab
    have hmn : m = n' := h.node_unique hm (readAt_mem hn) (hid2.trans hid.symm)
    subst hmn
    exact hasRoadToAux_iff.2 ⟨_, hmem, rfl⟩

/-! ## The example networks are reachable -/

theorem sixNodeCity_reachable : sixNodeCity.Reachable :=
  .addRoad 4 5 6 (.addRoad 3 4 4 (.addRoad 2 3 7 (.addRoad 1 3 3 (.addRoad 0 2 10
    (.addRoad 0 1 5 (.addLocation 5 (.addLocation 4 (.addLocation 3 (.addLocation 2
      (.addLocation 1 (.addLocation 0 .empty)))))))))))

theorem twoNodeCity_reachable : twoNodeCity.Reachable :=
  .addRoad 0 1 7 (.addLocation 1 (.addLocation 0 .empty))

theorem maxWeightCity_reachable : maxWeightCity.Reachable :=
  .addRoad 0 1 2147483647 (.addLocation 1 (.addLocation 0 .empty))

theorem loneNodeCity_reachable : loneNodeCity.Reachable :=
  .addLocation 5 .empty

/-! ## addRoad -/

/-- C6. On a network built through the public mutators, `addRoad(from, to, w)`
returns false exactly when `w <= 0`, or `from` is not a node, or `to` is not a node, or
`from == to`, or a road between `from` and `to` already exists (in either adjacency
list). In every other case it returns true and afterwards
`getDistance(from, to) == getDistance(to, from) == w`; the roads of the network are the
old ones plus exactly the two new entries, every other `getDistance` is unchanged, and
so are the node ids, their order and all zone tags. -/
theorem addRoad_contract (c : City) (hc : c.Reachable) (a b w : Int) :
    ((c.addRoad a b w).1 = false ↔
      (w ≤ 0 ∨ c.locationExists a = false ∨ c.locationExists b = false ∨ a = b ∨
        ∃ v, c.RoadBetween a b v ∨ c.RoadBetween b a v)) ∧
    ((c.addRoad a b w).1 = true →
      (c.addRoad a b w).2.getDistance a b = w ∧
      (c.addRoad a b w).2.getDistance b a = w ∧
      (∀ x y v, (c.addRoad a b w).2.RoadBetween x y v ↔
        (c.RoadBetween x y v ∨ (x = a ∧ y = b ∧ v = w) ∨ (x = b ∧ y = a ∧ v = w))) ∧
      (∀ x y, ¬ (x = a ∧ y = b) → ¬ (x = b ∧ y = a) →
        (c.addRoad a b w).2.getDistance x y = c.getDistance x y) ∧
      (c.addRoad a b w).2.nodes.map (fun n => (n.id, n.zoneId)) =
        c.nodes.map (fun n => (n.id, n.zoneId)) ∧
      (∀ j, (c.addRoad a b w).2.getZone j = c.getZone j) ∧
      (∀ j, (c.addRoad a b w).2.locationExists j = c.locationExists j)) := by
  have hwf := hc.wf
  have hwf2 : (c.addRoad a b w).2.WF := hwf.addRoad a b w
  constructor
  · rw [← Bool.not_eq_true, addRoad_fst_eq_true_iff]
    simp only [locationExists_eq_false_iff]
    constructor
    · intro h
      by_contra hcon
      push_neg at hcon
      obtain ⟨h1, h2, h3, h4, h5⟩ := hcon
      obtain ⟨n, hn, -, -⟩ := findNode_spec h2
      apply h
      refine ⟨h1, h2, h3, h4, n, hn, ?_⟩
      cases hh : n.hasRoadTo b with
      | false => rfl
      | true =>
        obtain ⟨v, hv⟩ := (hwf.hasRoadTo_iff hn).1 hh
        exact absurd hv (by have := h5 v; tauto)
    · rintro h ⟨h1, h2, h3, h4, n, hn, hh⟩
      rcases h with h | h | h | h | h
      · omega
      · exact h2 h
      · exact h3 h
      · exact h4 h
      · have := (hwf.hasRoadTo_iff hn).2 h
        rw [hh] at this; exact Bool.noConfusion this
  · intro h
    obtain ⟨hw, ha, hb, hab, n, hn, hh⟩ := (addRoad_fst_eq_true_iff c a b w).1 h
    have hroads := roadBetween_addRoad hwf.ids_nodup h
    have hnodes := addRoad_nodes_of_true hwf.ids_nodup h
    have hids : (c.addRoad a b w).2.nodes.map Node.id = c.nodes.map Node.id := by
      rw [hnodes, List.map_map]
      apply List.map_congr_left
      intro m _
      exact addRoadMap_id a b w m
    refine ⟨?_, ?_, hroads, ?_, ?_, ?_, ?_⟩
    · exact hwf2.getDistance_of_roadBetween ((hroads a b w).2 (Or.inr (Or.inl ⟨rfl, rfl, rfl⟩)))
    · exact hwf2.getDistance_of_roadBetween ((hroads b a w).2 (Or.inr (Or.inr ⟨rfl, rfl, rfl⟩)))
    · intro x y hxy hyx
      by_cases hex : ∃ v, c.RoadBetween x y v
      · obtain ⟨v, hv⟩ := hex
        rw [hwf.getDistance_of_roadBetween hv,
          hwf2.getDistance_of_roadBetween ((hroads x y v).2 (Or.inl hv))]
      · push_neg at hex
        rw [getDistance_of_no_road hex]
        apply getDistance_of_no_road
        intro v hv
        rcases (hroads x y v).1 hv with h1 | ⟨h1, h2, -⟩ | ⟨h1, h2, -⟩
        · exact hex v h1
        · exact hxy ⟨h1, h2⟩
        · exact hyx ⟨h1, h2⟩
    · rw [hnodes, List.map_map]
      apply List.map_congr_left
      intro m _
      simp [addRoadMap_id, addRoadMap_zoneId]
    · intro j
      have hfind : (c.addRoad a b w).2.findNode j = c.findNode j := findNode_congr hids j
      by_cases hj : c.findNode j = -1
      · rw [getZone_of_not_exists hj, getZone_of_not_exists (hfind.trans hj)]
      · obtain ⟨m, hm, hid, -⟩ := findNode_spec hj
        have hm2 : addRoadMap a b w m ∈ (c.addRoad a b w).2.nodes := by
          rw [hnodes]; exact List.mem_map_of_mem _ (readAt_mem hm)
        have := hwf2.found_node hm2
        rw [addRoadMap_id, hid] at this
        rw [getZone_of_findNode this, getZone_of_findNode hm, addRoadMap_zoneId]
    · intro j
      unfold City.locationExists
      rw [findNode_congr hids j]

/-- C6 at a concrete input: adding the road `(0, 2, 9)` to the two-node network plus a
third node. -/
theorem addRoad_contract_witness :
    (((twoNodeCity.addLocation 2).2.addRoad 0 2 9).1 = false ↔
      ((9 : Int) ≤ 0 ∨ (twoNodeCity.addLocation 2).2.locationExists 0 = false ∨
        (twoNodeCity.addLocation 2).2.locationExists 2 = false ∨ (0 : Int) = 2 ∨
        ∃ v, (twoNodeCity.addLocation 2).2.RoadBetween 0 2 v ∨
          (twoNodeCity.addLocation 2).2.RoadBetween 2 0 v)) ∧
    (((twoNodeCity.addLocation 2).2.addRoad 0 2 9).1 = true →
      ((twoNodeCity.addLocation 2).2.addRoad 0 2 9).2.getDistance 0 2 = 9 ∧
      ((twoNodeCity.addLocation 2).2.addRoad 0 2 9).2.getDistance 2 0 = 9 ∧
      (∀ x y v, ((twoNodeCity.addLocation 2).2.addRoad 0 2 9).2.RoadBetween x y v ↔
        ((twoNodeCity.addLocation 2).2.RoadBetween x y v ∨ (x = 0 ∧ y = 2 ∧ v = 9) ∨
          (x = 2 ∧ y = 0 ∧ v = 9))) ∧
      (∀ x y, ¬ (x = 0 ∧ y = 2) → ¬ (x = 2 ∧ y = 0) →
        ((twoNodeCity.addLocation 2).2.addRoad 0 2 9).2.getDistance x y =
          (twoNodeCity.addLocation 2).2.getDistance x y) ∧
      ((twoNodeCity.addLocation 2).2.addRoad 0 2 9).2.nodes.map (fun n => (n.id, n.zoneId)) =
        (twoNodeCity.addLocation 2).2.nodes.map (fun n => (n.id, n.zoneId)) ∧
      (∀ j, ((twoNodeCity.addLocation 2).2.addRoad 0 2 9).2.getZone j =
        (twoNodeCity.addLocation 2).2.getZone j) ∧
      (∀ j, ((twoNodeCity.addLocation 2).2.addRoad 0 2 9).2.locationExists j =
        (twoNodeCity.addLocation 2).2.locationExists j)) :=
  addRoad_contract (twoNodeCity.addLocation 2).2 (.addLocation 2 twoNodeCity_reachable) 0 2 9

/-- C10. In every network state reachable from the empty network through
`addLocation`, `addRoad` and `setZone`, every road weight is strictly positive, no node
has a road to itself, and `a` has a road to `b` of weight `w` exactly when `b` has a
road to `a` of the same weight `w`. -/
theorem reachable_roads_positive_loopfree_symmetric (c : City) (hc : c.Reachable) :
    (∀ a b w, c.RoadBetween a b w → 0 < w) ∧
    (∀ a w, ¬ c.RoadBetween a a w) ∧
    (∀ a b w, c.RoadBetween a b w ↔ c.RoadBetween b a w) :=
  ⟨fun _ _ _ h => hc.wf.roadBetween_pos h,
    fun _ _ h => hc.wf.roadBetween_ne h rfl,
    fun _ _ _ => ⟨hc.wf.roadBetween_symm, hc.wf.roadBetween_symm⟩⟩

/-- C10 on the six-node example network. -/
theorem reachable_roads_invariant_witness :
    (∀ a b w, sixNodeCity.RoadBetween a b w → 0 < w) ∧
    (∀ a w, ¬ sixNodeCity.RoadBetween a a w) ∧
    (∀ a b w, sixNodeCity.RoadBetween a b w ↔ sixNodeCity.RoadBetween b a w) :=
  reachable_roads_positive_loopfree_symmetric sixNodeCity sixNodeCity_reachable

/-! ## Loops as folds -/

theorem foldlM_option_invariant {σ ρ : Type} (step : σ → ρ → Option σ)
    (Q : List ρ → σ → Prop) :
    ∀ (rest pre : List ρ) (st : σ), Q pre st →
      (∀ pre' r st', r ∈ rest → Q pre' st' → ∃ st'', step st' r = some st'' ∧ Q (pre' ++ [r]) st'') →
      ∃ out, rest.foldlM step st = some out ∧ Q (pre ++ rest) out := by
  intro rest
  induction rest with
  | nil => intro pre st h _; exact ⟨st, rfl, by simpa using h⟩
  | cons r rest ih =>
    intro pre st h hstep
    obtain ⟨st1, h1, h2⟩ := hstep pre r st (List.mem_cons_self _ _) h
    obtain ⟨out, h3, h4⟩ := ih (pre ++ [r]) st1 h2
      (fun pre' r' st' hr' hq => hstep pre' r' st' (List.mem_cons_of_mem _ hr') hq)
    refine ⟨out, ?_, by simpa using h4⟩
    simp only [List.foldlM_cons, h1]
    exact h3

theorem wrapInt32_of_range {x : Int} (h0 : -2147483648 ≤ x) (h1 : x < 2147483648) :
    wrapInt32 x = x := by
  unfold wrapInt32
  omega

/-! ## The scan for the closest unvisited node -/

theorem selectMin_spec (n : Nat) (vis : List Bool) (dist : List Int)
    (hv : vis.length = n) (hd : dist.length = n) :
    ∃ m cur, selectMin n vis dist = some (m, cur) ∧
      (∀ (v : Int) (dv : Int), readAt vis v = some false → readAt dist v = some dv → m ≤ dv) ∧
      ((cur = -1 ∧ m = INFINITY_DISTANCE) ∨
        (readAt vis cur = some false ∧ readAt dist cur = some m ∧ m < INFINITY_DISTANCE)) := by
  have key : ∀ k, k ≤ n → ∃ m cur,
      (List.range k).foldlM (selectMinStep vis dist) (INFINITY_DISTANCE, -1) = some (m, cur) ∧
      (∀ (j : Nat) (dv : Int), j < k → vis[j]? = some false → dist[j]? = some dv → m ≤ dv) ∧
      ((cur = -1 ∧ m = INFINITY_DISTANCE) ∨
        (readAt vis cur = some false ∧ readAt dist cur = some m ∧ m < INFINITY_DISTANCE)) := by
    intro k
    induction k with
    | zero =>
      intro _
      exact ⟨INFINITY_DISTANCE, -1, rfl, by intro j dv hj; omega, Or.inl ⟨rfl, rfl⟩⟩
    | succ k ih =>
      intro hk
      obtain ⟨m, cur, h1, h2, h3⟩ := ih (by omega)
      have hkv : k < vis.length := by omega
      have hkd : k < dist.length := by omega
      rw [List.range_succ, List.foldlM_append, h1]
      simp only [Option.some_bind, List.foldlM_cons, List.foldlM_nil, selectMinStep, readAt_natCast,
        List.getElem?_eq_getElem hkv, List.getElem?_eq_getElem hkd, Option.bind_eq_bind]
      by_cases hc : (!vis[k] && decide (dist[k] < m)) = true
      · simp only [hc, if_true]
        simp only [Bool.and_eq_true, Bool.not_eq_true', decide_eq_true_eq] at hc
        refine ⟨dist[k], (k : Int), rfl, ?_, Or.inr ⟨?_, ?_, ?_⟩⟩
        · intro j dv hj hvj hdj
          by_cases hjk : j = k
          · subst hjk
            rw [List.getElem?_eq_getElem hkd] at hdj
            exact le_of_eq (Option.some.inj hdj)
          · exact le_trans (le_of_lt hc.2) (h2 j dv (by omega) hvj hdj)
        · rw [readAt_natCast, List.getElem?_eq_getElem hkv, hc.1]
        · rw [readAt_natCast, List.getElem?_eq_getElem hkd]
        · rcases h3 with ⟨-, h3⟩ | ⟨-, -, h3⟩
          · rw [← h3]; exact hc.2
          · exact lt_trans hc.2 h3
      · simp only [hc]
        refine ⟨m, cur, rfl, ?_, h3⟩
        intro j dv hj hvj hdj
        by_cases hjk : j = k
        · subst hjk
          rw [List.getElem?_eq_getElem hkv] at hvj
          rw [List.getElem?_eq_getElem hkd] at hdj
          have e1 : vis[j] = false := Option.some.inj hvj
          have e2 : dist[j] = dv := Option.some.inj hdj
          rw [e1, e2] at hc
          simp only [Bool.not_false, Bool.true_and, decide_eq_true_eq, not_lt] at hc
          exact hc
        · exact h2 j dv (by omega) hvj hdj
  obtain ⟨m, cur, h1, h2, h3⟩ := key n (le_refl n)
  refine ⟨m, cur, h1, ?_, h3⟩
  intro v dv hvv hdv
  obtain ⟨hv0, hv1⟩ := readAt_eq_some.1 hvv
  obtain ⟨-, hd1⟩ := readAt_eq_some.1 hdv
  have := (List.getElem?_eq_some_iff.1 hv1).1
  exact h2 v.toNat dv (by omega) hv1 hd1

/-! ## One relaxation -/

theorem relaxStep_cases {vis : List Bool} {cur : Int} {d p : List Int} {r : Road}
    {vn : Bool} {dc dn : Int}
    (hvn : readAt vis r.toNodeId = some vn) (hdc : readAt d cur = some dc)
    (hdn : readAt d r.toNodeId = some dn) (hlen : p.length = d.length) :
    ∃ d' p', relaxStep vis cur (d, p) r = some (d', p') ∧
      ((vn = false ∧ wrapInt32 (dc + r.distance) < dn ∧
          writeAt d r.toNodeId (wrapInt32 (dc + r.distance)) = some d' ∧
          writeAt p r.toNodeId cur = some p') ∨
        (¬ (vn = false ∧ wrapInt32 (dc + r.distance) < dn) ∧ d' = d ∧ p' = p)) := by
  obtain ⟨h0, h1⟩ := readAt_bounds hdn
  unfold relaxStep
  simp only [hvn, hdc, hdn, Option.bind_eq_bind, Option.some_bind]
  cases vn with
  | true => exact ⟨d, p, by simp, Or.inr ⟨by simp, rfl, rfl⟩⟩
  | false =>
    by_cases hlt : wrapInt32 (dc + r.distance) < dn
    · refine ⟨d.set r.toNodeId.toNat (wrapInt32 (dc + r.distance)),
        p.set r.toNodeId.toNat cur, ?_, Or.inl ⟨rfl, hlt, ?_, ?_⟩⟩
      · simp [hlt, writeAt_of_bounds _ h0 h1, writeAt_of_bounds _ h0 (hlen ▸ h1)]
      · exact writeAt_of_bounds _ h0 h1
      · exact writeAt_of_bounds _ h0 (hlen ▸ h1)
    · exact ⟨d, p, by simp [hlt], Or.inr ⟨by simp [hlt], rfl, rfl⟩⟩

/-! ## Networks whose ids are the array indices -/

theorem City.IdsAreIndices.id_of_readAt {c : City} (hid : c.IdsAreIndices) {i : Int} {n : Node}
    (h : readAt c.nodes i = some n) : n.id = i := by
  obtain ⟨h0, h1⟩ := readAt_eq_some.1 h
  have hlt := (List.getElem?_eq_some_iff.1 h1).1
  have h2 : (c.nodes.map Node.id)[i.toNat]? = some n.id := by
    rw [List.getElem?_map, h1]; rfl
  have hid' : c.nodes.map Node.id = (List.range c.nodes.length).map Int.ofNat := hid
  rw [hid', List.getElem?_map, List.getElem?_range hlt] at h2
  simp only [Option.map_some', Option.some.injEq, Int.ofNat_eq_coe] at h2
  omega

theorem City.IdsAreIndices.exists_iff_bounds {c : City} (hid : c.IdsAreIndices) {v : Int} :
    c.locationExists v = true ↔ 0 ≤ v ∧ v < (c.nodes.length : Int) := by
  rw [RideDispatch.locationExists_iff]
  constructor
  · rintro ⟨n, hn, rfl⟩
    obtain ⟨k, hk⟩ := List.getElem?_of_mem hn
    have h1 : readAt c.nodes (k : Int) = some n := by rw [readAt_natCast]; exact hk
    rw [hid.id_of_readAt h1]
    exact readAt_bounds h1
  · rintro ⟨h0, h1⟩
    obtain ⟨n, hn⟩ := readAt_of_bounds h0 h1
    exact ⟨n, readAt_mem hn, hid.id_of_readAt hn⟩

theorem City.IdsAreIndices.findNode_ne_iff {c : City} (hid : c.IdsAreIndices) {v : Int} :
    c.findNode v ≠ -1 ↔ 0 ≤ v ∧ v < (c.nodes.length : Int) := by
  rw [← hid.exists_iff_bounds]
  unfold City.locationExists
  simp

theorem City.IdsAreIndices.roadBetween_iff {c : City} (hid : c.IdsAreIndices) {u v w : Int} :
    c.RoadBetween u v w ↔ ∃ n, readAt c.nodes u = some n ∧ (⟨v, w⟩ : Road) ∈ n.roads := by
  constructor
  · rintro ⟨n, hn, rfl, hr⟩
    obtain ⟨k, hk⟩ := List.getElem?_of_mem hn
    have h1 : readAt c.nodes (k : Int) = some n := by rw [readAt_natCast]; exact hk
    rw [hid.id_of_readAt h1]
    exact ⟨n, h1, hr⟩
  · rintro ⟨n, hn, hr⟩
    exact ⟨n, readAt_mem hn, hid.id_of_readAt hn, hr⟩

theorem roadBetween_target_bounds {c : City} (hwf : c.WF) (hid : c.IdsAreIndices) {u v w : Int}
    (h : c.RoadBetween u v w) : 0 ≤ v ∧ v < (c.nodes.length : Int) :=
  hid.exists_iff_bounds.1 (hwf.roadBetween_target h)

/-! ## Walks -/

theorem City.Walk.nonneg {c : City} (hwf : c.WF) {s v d : Int} (h : c.Walk s v d) : 0 ≤ d := by
  induction h with
  | nil _ => exact le_refl 0
  | snoc w _ hr ih => have := hwf.roadBetween_pos hr; omega

theorem City.Walk.target_exists {c : City} (hwf : c.WF) {s v d : Int} (h : c.Walk s v d) :
    c.locationExists v = true := by
  cases h with
  | nil h => exact h
  | snoc w _ hr => exact hwf.roadBetween_target hr

/-! ## Sums of road weights -/

theorem sum_map_add_le {α : Type} (f g : α → Int) (l : List α) (x : α) (w : Int)
    (hfg : ∀ y ∈ l, f y ≤ g y) (hx : x ∈ l) (hw : f x + w ≤ g x) :
    (l.map f).sum + w ≤ (l.map g).sum := by
  induction l with
  | nil => simp at hx
  | cons y ys ih =>
    simp only [List.map_cons, List.sum_cons]
    have hle : (ys.map f).sum ≤ (ys.map g).sum :=
      List.sum_le_sum (fun z hz => hfg z (List.mem_cons_of_mem _ hz))
    rcases List.mem_cons.1 hx with rfl | hx'
    · omega
    · have h1 := ih (fun z hz => hfg z (List.mem_cons_of_mem _ hz)) hx'
      have h2 := hfg y (List.mem_cons_self _ _)
      omega

theorem roadSum_inner_mono {c : City} (hwf : c.WF) {P P' : Int → Bool}
    (hPP : ∀ i, P i = true → P' i = true) (n : Node) (hn : n ∈ c.nodes) (r : Road)
    (hr : r ∈ n.roads) :
    (if n.id < r.toNodeId ∧ P n.id = true ∧ P r.toNodeId = true then r.distance else 0) ≤
      (if n.id < r.toNodeId ∧ P' n.id = true ∧ P' r.toNodeId = true then r.distance else 0) := by
  have hpos := hwf.weight_pos n hn r hr
  by_cases h1 : n.id < r.toNodeId ∧ P n.id = true ∧ P r.toNodeId = true
  · have h2 : n.id < r.toNodeId ∧ P' n.id = true ∧ P' r.toNodeId = true :=
      ⟨h1.1, hPP _ h1.2.1, hPP _ h1.2.2⟩
    rw [if_pos h1, if_pos h2]
  · rw [if_neg h1]
    split_ifs
    · exact le_of_lt hpos
    · exact le_refl 0

theorem roadSum_mono {c : City} (hwf : c.WF) {P P' : Int → Bool}
    (hPP : ∀ i, P i = true → P' i = true) : c.roadSum P ≤ c.roadSum P' := by
  unfold City.roadSum
  apply List.sum_le_sum
  intro n hn
  apply List.sum_le_sum
  intro r hr
  exact roadSum_inner_mono hwf hPP n hn r hr

theorem roadSum_nonneg {c : City} (hwf : c.WF) (P : Int → Bool) : 0 ≤ c.roadSum P := by
  unfold City.roadSum
  apply List.sum_nonneg
  intro x hx
  obtain ⟨n, hn, rfl⟩ := List.mem_map.1 hx
  apply List.sum_nonneg
  intro y hy
  obtain ⟨r, hr, rfl⟩ := List.mem_map.1 hy
  have hpos := hwf.weight_pos n hn r hr
  split_ifs
  · exact le_of_lt hpos
  · exact le_refl 0

theorem roadSum_le_edgeWeightSum {c : City} (hwf : c.WF) (P : Int → Bool) :
    c.roadSum P ≤ c.edgeWeightSum := by
  unfold City.roadSum City.edgeWeightSum
  apply List.sum_le_sum
  intro n hn
  apply List.sum_le_sum
  intro r hr
  have hpos := hwf.weight_pos n hn r hr
  by_cases h1 : n.id < r.toNodeId
  · rw [if_pos h1]
    split_ifs
    · exact le_refl _
    · exact le_of_lt hpos
  · rw [if_neg h1, if_neg (fun h => h1 h.1)]

/-- Entering a node `v` into the set `P` adds at least the weight of any road between
`v` and a node already in `P`. -/
theorem roadSum_add_le {c : City} (hwf : c.WF) {P P' : Int → Bool}
    (hPP : ∀ i, P i = true → P' i = true) {q v w : Int} (hr : c.RoadBetween q v w)
    (hq : P q = true) (hv : P v = false) (hv' : P' v = true) :
    c.roadSum P + w ≤ c.roadSum P' := by
  have hne : q ≠ v := by
    rintro rfl; rw [hq] at hv; exact Bool.noConfusion hv
  -- the adjacency entry that counts the road: the one at the end of smaller id
  have key : ∀ (a b : Int), c.RoadBetween a b w → a < b → P' a = true → P' b = true →
      ¬ (P a = true ∧ P b = true) → c.roadSum P + w ≤ c.roadSum P' := by
    intro a b hab hlt ha hb hnot
    obtain ⟨n, hn, hida, hmem⟩ := hab
    unfold City.roadSum
    apply sum_map_add_le _ _ c.nodes n w
    · intro m hm
      apply List.sum_le_sum
      intro r hr
      exact roadSum_inner_mono hwf hPP m hm r hr
    · exact hn
    · apply sum_map_add_le _ _ n.roads ⟨b, w⟩ w
      · intro r hr
        exact roadSum_inner_mono hwf hPP n hn r hr
      · exact hmem
      · have h1 : ¬ (n.id < b ∧ P n.id = true ∧ P b = true) := by
          rw [hida]; exact fun h => hnot h.2
        have h2 : n.id < b ∧ P' n.id = true ∧ P' b = true := by
          rw [hida]; exact ⟨hlt, ha, hb⟩
        rw [if_neg h1, if_pos h2]
        show (0 : Int) + w ≤ w
        omega
  rcases lt_or_gt_of_ne hne with hlt | hgt
  · exact key q v hr hlt (hPP _ hq) hv' (fun h => by rw [hv] at h; exact Bool.noConfusion h.2)
  · exact key v q (hwf.roadBetween_symm hr) hgt hv' (hPP _ hq)
      (fun h => by rw [hv] at h; exact Bool.noConfusion h.1)

/-- With the node set `P` and a road leaving it, the weight inside `P` plus the road
stays within the sum of all road weights. -/
theorem roadSum_add_le_total {c : City} (hwf : c.WF) {P : Int → Bool} {q v w : Int}
    (hr : c.RoadBetween q v w) (hq : P q = true) (hv : P v = false) :
    c.roadSum P + w ≤ c.edgeWeightSum := by
  have h1 : c.roadSum P + w ≤ c.roadSum (fun i => P i || decide (i = v)) :=
    roadSum_add_le hwf (fun i hi => by simp [hi]) hr hq hv (by simp)
  exact le_trans h1 (roadSum_le_edgeWeightSum hwf _)

theorem isVisited_of_writeAt {vis vis' : List Bool} {cur : Int}
    (h : writeAt vis cur true = some vis') (i : Int) :
    isVisited vis' i = (isVisited vis i || decide (i = cur)) := by
  unfold isVisited
  rw [readAt_of_writeAt h i]
  by_cases hi : i = cur
  · simp [hi]
  · simp [hi]

theorem isVisited_eq_true {vis : List Bool} {i : Int} :
    isVisited vis i = true ↔ readAt vis i = some true := by
  unfold isVisited
  simp

theorem isVisited_eq_false_of_read {vis : List Bool} {i : Int}
    (h : readAt vis i = some false) : isVisited vis i = false := by
  unfold isVisited
  rw [h]; rfl

/-! ## The relaxation loop keeps its invariant -/

theorem relaxStep_preserves {c : City} (hwf : c.WF) (hid : c.IdsAreIndices)
    (hsum : c.edgeWeightSum < INT_MAX) {s : Int} {vis : List Bool} {cur m : Int}
    {d0 : List Int} (hlv : vis.length = c.nodes.length)
    (hcur : readAt vis cur = some true) (hd0cur : readAt d0 cur = some m) (hm0 : 0 ≤ m)
    (hwalk : c.Walk s cur m) (hmb : m ≤ c.roadSum (isVisited vis))
    (hold : ∀ u du, readAt vis u = some true → readAt d0 u = some du → du ≤ m)
    (pre : List Road) (r : Road) (st : List Int × List Int)
    (hr : c.RoadBetween cur r.toNodeId r.distance) (hinv : RelaxInv c s vis m d0 pre st) :
    ∃ st', relaxStep vis cur st r = some st' ∧ RelaxInv c s vis m d0 (pre ++ [r]) st' := by
  obtain ⟨d, p⟩ := st
  have hINF : INFINITY_DISTANCE = 2147483647 := rfl
  have hMAX : INT_MAX = 2147483647 := rfl
  have hw := hwf.roadBetween_pos hr
  obtain ⟨hv0, hv1⟩ := roadBetween_target_bounds hwf hid hr
  obtain ⟨vn, hvn⟩ := readAt_of_bounds (l := vis) hv0 (by rw [hlv]; exact hv1)
  have hld : d.length = c.nodes.length := hinv.len_d
  have hlp : p.length = c.nodes.length := hinv.len_p
  obtain ⟨dn, hdn⟩ := readAt_of_bounds (l := d) hv0 (by rw [hld]; exact hv1)
  have hdc : readAt d cur = some m := by rw [hinv.vis_same cur hcur]; exact hd0cur
  obtain ⟨d', p', hstep, hcase⟩ := relaxStep_cases hvn hdc hdn (hlp.trans hld.symm)
  refine ⟨(d', p'), hstep, ?_⟩
  have hnowrap : vn = false → wrapInt32 (m + r.distance) = m + r.distance := by
    intro hvf
    subst hvf
    have := roadSum_add_le_total hwf hr (isVisited_eq_true.2 hcur)
      (isVisited_eq_false_of_read hvn)
    apply wrapInt32_of_range <;> omega
  rcases hcase with ⟨hvf, hlt, hwd, hwp⟩ | ⟨hnot, rfl, rfl⟩
  · -- the neighbour gets a smaller tentative distance
    rw [hnowrap hvf] at hlt hwd
    subst hvf
    have hrd := readAt_of_writeAt hwd
    have hrp := readAt_of_writeAt hwp
    have hvis_ne : ∀ u, readAt vis u = some true → u ≠ r.toNodeId := by
      rintro u hu rfl
      rw [hvn] at hu; exact Bool.noConfusion (Option.some.inj hu)
    have hs_ne : s ≠ r.toNodeId := by
      rintro rfl
      have := hinv.src
      dsimp only at this
      rw [hdn] at this
      have : dn = 0 := Option.some.inj this
      omega
    refine ⟨?_, ?_, ?_, ?_, ?_, ?_, ?_, ?_, ?_, ?_, ?_⟩
    · exact (length_of_writeAt hwd).trans hld
    · exact (length_of_writeAt hwp).trans hlp
    · show readAt d' s = some 0
      rw [hrd, if_neg hs_ne]; exact hinv.src
    · show readAt p' s = some (-1)
      rw [hrp, if_neg hs_ne]; exact hinv.src_pred
    · intro u hu
      show readAt d' u = readAt d0 u
      rw [hrd, if_neg (hvis_ne u hu)]; exact hinv.vis_same u hu
    · intro v dv hv
      change readAt d' v = some dv at hv
      rw [hrd] at hv
      by_cases hvv : v = r.toNodeId
      · rw [if_pos hvv] at hv
        obtain ⟨dn0, h1, h2⟩ := hinv.mono _ dn hdn
        refine ⟨dn0, by rw [hvv]; exact h1, ?_⟩
        have : m + r.distance = dv := Option.some.inj hv
        omega
      · rw [if_neg hvv] at hv
        exact hinv.mono v dv hv
    · intro v dv hvu hv
      change readAt d' v = some dv at hv
      rw [hrd] at hv
      by_cases hvv : v = r.toNodeId
      · rw [if_pos hvv] at hv
        have : m + r.distance = dv := Option.some.inj hv
        omega
      · rw [if_neg hvv] at hv
        exact hinv.unvis_ge v dv hvu hv
    · intro v dv hv hfin hvs
      change readAt d' v = some dv at hv
      rw [hrd] at hv
      by_cases hvv : v = r.toNodeId
      · rw [if_pos hvv] at hv
        have hdv : m + r.distance = dv := Option.some.inj hv
        refine ⟨cur, m, r.distance, ?_, hcur, ?_, by rw [hvv]; exact hr, hdv.symm⟩
        · show readAt p' v = some cur
          rw [hrp, if_pos hvv]
        · show readAt d' cur = some m
          rw [hrd, if_neg (hvis_ne cur hcur)]; exact hdc
      · rw [if_neg hvv] at hv
        obtain ⟨q, dq, w, h1, h2, h3, h4, h5⟩ := hinv.tree v dv hv hfin hvs
        refine ⟨q, dq, w, ?_, h2, ?_, h4, h5⟩
        · show readAt p' v = some q
          rw [hrp, if_neg hvv]; exact h1
        · show readAt d' q = some dq
          rw [hrd, if_neg (hvis_ne q h2)]; exact h3
    · intro v hv
      change readAt d' v = some INFINITY_DISTANCE at hv
      show readAt p' v = some (-1)
      rw [hrd] at hv
      by_cases hvv : v = r.toNodeId
      · rw [if_pos hvv] at hv
        have : m + r.distance = INFINITY_DISTANCE := Option.some.inj hv
        have := roadSum_add_le_total hwf hr (isVisited_eq_true.2 hcur)
          (isVisited_eq_false_of_read hvn)
        omega
      · rw [if_neg hvv] at hv
        rw [hrp, if_neg hvv]
        exact hinv.inf_pred v hv
    · intro v dv hv hfin
      change readAt d' v = some dv at hv
      rw [hrd] at hv
      by_cases hvv : v = r.toNodeId
      · rw [if_pos hvv] at hv
        have hdv : m + r.distance = dv := Option.some.inj hv
        rw [← hdv, hvv]
        exact City.Walk.snoc r.distance hwalk hr
      · rw [if_neg hvv] at hv
        exact hinv.walk v dv hv hfin
    · intro r' hr'
      show ∃ dv, readAt d' r'.toNodeId = some dv ∧ dv ≤ m + r'.distance
      rw [hrd]
      rcases List.mem_append.1 hr' with hr' | hr'
      · by_cases hvv : r'.toNodeId = r.toNodeId
        · rw [if_pos hvv]
          obtain ⟨dv, h1, h2⟩ := hinv.handled r' hr'
          dsimp only at h1
          rw [hvv, hdn] at h1
          have : dn = dv := Option.some.inj h1
          exact ⟨_, rfl, by omega⟩
        · rw [if_neg hvv]
          exact hinv.handled r' hr'
      · simp only [List.mem_singleton] at hr'
        subst hr'
        rw [if_pos rfl]
        exact ⟨_, rfl, le_refl _⟩
  · -- nothing is written
    refine ⟨hinv.len_d, hinv.len_p, hinv.src, hinv.src_pred, hinv.vis_same, hinv.mono,
      hinv.unvis_ge, hinv.tree, hinv.inf_pred, hinv.walk, ?_⟩
    intro r' hr'
    rcases List.mem_append.1 hr' with hr' | hr'
    · exact hinv.handled r' hr'
    · simp only [List.mem_singleton] at hr'
      subst hr'
      refine ⟨dn, hdn, ?_⟩
      cases vn with
      | true =>
        have h1 : readAt d0 r'.toNodeId = some dn := by
          rw [← hinv.vis_same _ hvn]; exact hdn
        have := hold _ dn hvn h1
        omega
      | false =>
        rw [hnowrap rfl] at hnot
        simp only [true_and, not_lt] at hnot
        exact hnot

theorem relaxRoads_preserves {c : City} (hwf : c.WF) (hid : c.IdsAreIndices)
    (hsum : c.edgeWeightSum < INT_MAX) {s : Int} {vis : List Bool} {cur m : Int}
    {d0 : List Int} (hlv : vis.length = c.nodes.length)
    (hcur : readAt vis cur = some true) (hd0cur : readAt d0 cur = some m) (hm0 : 0 ≤ m)
    (hwalk : c.Walk s cur m) (hmb : m ≤ c.roadSum (isVisited vis))
    (hold : ∀ u du, readAt vis u = some true → readAt d0 u = some du → du ≤ m)
    (roads : List Road) (st : List Int × List Int)
    (hroads : ∀ r ∈ roads, c.RoadBetween cur r.toNodeId r.distance)
    (hinv : RelaxInv c s vis m d0 [] st) :
    ∃ st', relaxRoads vis cur roads st = some st' ∧ RelaxInv c s vis m d0 roads st' := by
  have := foldlM_option_invariant (relaxStep vis cur) (RelaxInv c s vis m d0) roads [] st hinv
    (fun pre r st' hr hq =>
      relaxStep_preserves hwf hid hsum hlv hcur hd0cur hm0 hwalk hmb hold pre r st'
        (hroads r hr) hq)
  simpa [relaxRoads] using this

/-! ## One iteration of the main loop -/

theorem count_false_of_writeAt {vis vis' : List Bool} {cur : Int}
    (hcur : readAt vis cur = some false) (hw : writeAt vis cur true = some vis') :
    vis'.count false + 1 = vis.count false := by
  obtain ⟨⟨h0, h1⟩, rfl⟩ := writeAt_eq_some.1 hw
  obtain ⟨-, h2⟩ := readAt_eq_some.1 hcur
  obtain ⟨hlt, h3⟩ := List.getElem?_eq_some_iff.1 h2
  rw [List.count_set _ _ _ _ hlt, h3]
  have : 0 < vis.count false := List.count_pos_iff.2 (List.getElem?_mem h2)
  simp
  omega

theorem road_eta (r : Road) : (⟨r.toNodeId, r.distance⟩ : Road) = r := by
  cases r; rfl

theorem mainLoop_step {c : City} (hwf : c.WF) (hid : c.IdsAreIndices)
    (hsum : c.edgeWeightSum < INT_MAX) {s : Int} {st : DijkstraState}
    (hinv : DijkstraInv c s st) {m cur : Int}
    (hmin : ∀ v dv, readAt st.visited v = some false → readAt st.distances v = some dv → m ≤ dv)
    (hcur : readAt st.visited cur = some false) (hdcur : readAt st.distances cur = some m)
    (hm : m < INFINITY_DISTANCE) :
    ∃ vis' node d' p', writeAt st.visited cur true = some vis' ∧
      readAt c.nodes cur = some node ∧
      relaxRoads vis' cur node.roads (st.distances, st.predecessors) = some (d', p') ∧
      DijkstraInv c s ⟨vis', d', p'⟩ ∧ vis'.count false + 1 = st.visited.count false := by
  obtain ⟨vis, d0, p0⟩ := st
  dsimp only at hmin hcur hdcur
  have hlv : vis.length = c.nodes.length := hinv.len_v
  have hld : d0.length = c.nodes.length := hinv.len_d
  obtain ⟨hc0, hc1⟩ := readAt_bounds hcur
  have hwv := writeAt_of_bounds (l := vis) true hc0 hc1
  have hrv := readAt_of_writeAt hwv
  obtain ⟨node, hnode⟩ := readAt_of_bounds (l := c.nodes) hc0 (by rw [← hlv]; exact hc1)
  have hmne : m ≠ INFINITY_DISTANCE := ne_of_lt hm
  have hwalk : c.Walk s cur m := hinv.walk cur m hdcur hmne
  have hm0 : 0 ≤ m := hwalk.nonneg hwf
  have hcur' : readAt (vis.set cur.toNat true) cur = some true := by rw [hrv, if_pos rfl]
  have hsub : ∀ i, isVisited vis i = true → isVisited (vis.set cur.toNat true) i = true := by
    intro i hi
    rw [isVisited_of_writeAt hwv, hi]; rfl
  have hmb : m ≤ c.roadSum (isVisited (vis.set cur.toNat true)) := by
    by_cases hcs : cur = s
    · have h1 := hinv.src
      dsimp only at h1
      rw [← hcs, hdcur] at h1
      rw [Option.some.inj h1]
      exact roadSum_nonneg hwf _
    · obtain ⟨q, dq, w, -, h2, h3, h4, h5⟩ := hinv.tree cur m hdcur hmne hcs
      have h6 := hinv.vis_bound q dq h2 h3
      have h7 := roadSum_add_le hwf hsub h4 (isVisited_eq_true.2 h2)
        (isVisited_eq_false_of_read hcur) (isVisited_eq_true.2 hcur')
      dsimp only at h6
      omega
  have hold : ∀ u du, readAt (vis.set cur.toNat true) u = some true → readAt d0 u = some du →
      du ≤ m := by
    intro u du hu hdu
    rw [hrv] at hu
    by_cases huc : u = cur
    · rw [huc, hdcur] at hdu
      exact le_of_eq (Option.some.inj hdu).symm
    · rw [if_neg huc] at hu
      exact hinv.order u cur du m hu hcur hdu hdcur
  have hunvis : ∀ v, readAt (vis.set cur.toNat true) v = some false →
      v ≠ cur ∧ readAt vis v = some false := by
    intro v hv
    rw [hrv] at hv
    by_cases hvc : v = cur
    · rw [if_pos hvc] at hv; exact Bool.noConfusion (Option.some.inj hv)
    · rw [if_neg hvc] at hv; exact ⟨hvc, hv⟩
  have hvis : ∀ u, readAt vis u = some true → readAt (vis.set cur.toNat true) u = some true := by
    intro u hu
    rw [hrv]
    split_ifs
    · rfl
    · exact hu
  have hinit : RelaxInv c s (vis.set cur.toNat true) m d0 [] (d0, p0) := by
    refine ⟨hld, hinv.len_p, hinv.src, hinv.src_pred, fun _ _ => rfl,
      fun v dv hv => ⟨dv, hv, le_refl _⟩, ?_, ?_, hinv.inf_pred, hinv.walk, ?_⟩
    · intro v dv hv hdv
      exact hmin v dv (hunvis v hv).2 hdv
    · intro v dv hv hfin hvs
      obtain ⟨q, dq, w, h1, h2, h3, h4, h5⟩ := hinv.tree v dv hv hfin hvs
      exact ⟨q, dq, w, h1, hvis q h2, h3, h4, h5⟩
    · intro r hr; simp at hr
  have hroads : ∀ r ∈ node.roads, c.RoadBetween cur r.toNodeId r.distance := by
    intro r hr
    exact hid.roadBetween_iff.2 ⟨node, hnode, by rw [road_eta]; exact hr⟩
  obtain ⟨⟨d', p'⟩, hrel, R⟩ := relaxRoads_preserves hwf hid hsum
    (by rw [List.length_set]; exact hlv) hcur' hdcur hm0 hwalk hmb hold node.roads (d0, p0)
    hroads hinit
  refine ⟨vis.set cur.toNat true, node, d', p', hwv, hnode, hrel, ?_,
    count_false_of_writeAt hcur hwv⟩
  refine ⟨by rw [List.length_set]; exact hlv, R.len_d, R.len_p, R.src, R.src_pred, R.tree,
    R.inf_pred, R.walk, ?_, ?_, ?_⟩
  · intro u d hu hd
    dsimp only at hu hd ⊢
    rw [R.vis_same u hu] at hd
    rw [hrv] at hu
    by_cases huc : u = cur
    · rw [huc, hdcur] at hd
      rw [← Option.some.inj hd]; exact hmb
    · rw [if_neg huc] at hu
      exact le_trans (hinv.vis_bound u d hu hd) (roadSum_mono hwf hsub)
  · intro u du v w hu hdu hr
    dsimp only at hu hdu ⊢
    have hdu0 := hdu
    rw [R.vis_same u hu] at hdu0
    rw [hrv] at hu
    by_cases huc : u = cur
    · rw [huc, hdcur] at hdu0
      have hmd : m = du := Option.some.inj hdu0
      rw [huc] at hr
      obtain ⟨n', hn', hmem⟩ := hid.roadBetween_iff.1 hr
      have : n' = node := Option.some.inj (hn'.symm.trans hnode)
      subst this
      obtain ⟨dv, h1, h2⟩ := R.handled _ hmem
      exact ⟨dv, h1, by rw [← hmd]; exact h2⟩
    · rw [if_neg huc] at hu
      obtain ⟨dv0, h1, h2⟩ := hinv.relaxed u du v w hu hdu0 hr
      obtain ⟨hv0, hv1⟩ := roadBetween_target_bounds hwf hid hr
      obtain ⟨dv, hdv⟩ := readAt_of_bounds (l := d') hv0 (by rw [R.len_d]; exact hv1)
      obtain ⟨dv0', h3, h4⟩ := R.mono v dv hdv
      dsimp only at h1
      have : dv0' = dv0 := Option.some.inj (h3.symm.trans h1)
      exact ⟨dv, hdv, by omega⟩
  · intro u v du dv hu hv hdu hdv
    dsimp only at hu hv hdu hdv
    have h1 := R.unvis_ge v dv hv hdv
    rw [R.vis_same u hu] at hdu
    exact le_trans (hold u du hu hdu) h1

/-! ## The main loop -/

theorem unvisited_finite_lt {c : City} (hwf : c.WF) (hsum : c.edgeWeightSum < INT_MAX)
    {s : Int} {st : DijkstraState} (hinv : DijkstraInv c s st) {v dv : Int}
    (hv : readAt st.visited v = some false) (hdv : readAt st.distances v = some dv)
    (hfin : dv ≠ INFINITY_DISTANCE) : dv < INFINITY_DISTANCE := by
  have hINF : INFINITY_DISTANCE = 2147483647 := rfl
  have hMAX : INT_MAX = 2147483647 := rfl
  by_cases hvs : v = s
  · have h1 := hinv.src
    rw [← hvs, hdv] at h1
    have : dv = 0 := Option.some.inj h1
    omega
  · obtain ⟨q, dq, w, -, h2, h3, h4, h5⟩ := hinv.tree v dv hdv hfin hvs
    have h6 := hinv.vis_bound q dq h2 h3
    have h7 := roadSum_add_le_total hwf h4 (isVisited_eq_true.2 h2)
      (isVisited_eq_false_of_read hv)
    omega

theorem mainLoop_correct {c : City} (hwf : c.WF) (hid : c.IdsAreIndices)
    (hsum : c.edgeWeightSum < INT_MAX) {s : Int} :
    ∀ (fuel : Nat) (st : DijkstraState), DijkstraInv c s st →
      st.visited.count false ≤ fuel →
      ∃ st', mainLoop c fuel st = some st' ∧ DijkstraInv c s st' ∧
        ∀ v, readAt st'.visited v = some false →
          readAt st'.distances v = some INFINITY_DISTANCE := by
  intro fuel
  induction fuel with
  | zero =>
    intro st hinv hcount
    refine ⟨st, rfl, hinv, ?_⟩
    intro v hv
    have : 0 < st.visited.count false := List.count_pos_iff.2 (readAt_mem hv)
    omega
  | succ fuel ih =>
    intro st hinv hcount
    obtain ⟨m, cur, hsel, hmin, hcase⟩ :=
      selectMin_spec c.nodes.length st.visited st.distances hinv.len_v hinv.len_d
    rcases hcase with ⟨hc, hm⟩ | ⟨hcur, hdcur, hm⟩
    · refine ⟨st, ?_, hinv, ?_⟩
      · simp [mainLoop, hsel, hc, hm]
      · intro v hv
        obtain ⟨hv0, hv1⟩ := readAt_bounds hv
        obtain ⟨dv, hdv⟩ := readAt_of_bounds (l := st.distances) hv0
          (by rw [hinv.len_d, ← hinv.len_v]; exact hv1)
        have h1 := hmin v dv hv hdv
        by_contra hne
        have h2 : dv ≠ INFINITY_DISTANCE := by
          intro h; apply hne; rw [hdv, h]
        have h3 := unvisited_finite_lt hwf hsum hinv hv hdv h2
        omega
    · obtain ⟨vis', node, d', p', h1, h2, h3, h4, h5⟩ :=
        mainLoop_step hwf hid hsum hinv hmin hcur hdcur hm
      obtain ⟨st', h6, h7, h8⟩ := ih ⟨vis', d', p'⟩ h4 (by dsimp only; omega)
      refine ⟨st', ?_, h7, h8⟩
      have hc : cur ≠ -1 := by
        have := (readAt_bounds hcur).1
        omega
      have hm' : m ≠ INFINITY_DISTANCE := ne_of_lt hm
      simp [mainLoop, hsel, hc, hm', h1, h2, h3, h6]

/-! ## The run of `dijkstra` -/

theorem dijkstraInv_init {c : City} {s : Int}
    (hs0 : 0 ≤ s) (hs1 : s < (c.nodes.length : Int)) (hex : c.locationExists s = true) :
    DijkstraInv c s ⟨List.replicate c.nodes.length false,
      (List.replicate c.nodes.length INFINITY_DISTANCE).set s.toNat 0,
      List.replicate c.nodes.length (-1)⟩ := by
  have hw : writeAt (List.replicate c.nodes.length INFINITY_DISTANCE) s 0 =
      some ((List.replicate c.nodes.length INFINITY_DISTANCE).set s.toNat 0) :=
    writeAt_of_bounds 0 hs0 (by simpa using hs1)
  have hrd := readAt_of_writeAt hw
  have hvis : ∀ u, readAt (List.replicate c.nodes.length false) u ≠ some true := by
    intro u
    rw [readAt_replicate]
    split_ifs <;> simp
  have hfin : ∀ v d, readAt ((List.replicate c.nodes.length INFINITY_DISTANCE).set s.toNat 0) v
      = some d → d ≠ INFINITY_DISTANCE → v = s ∧ d = 0 := by
    intro v d hv hd
    rw [hrd] at hv
    by_cases hvs : v = s
    · rw [if_pos hvs] at hv
      exact ⟨hvs, (Option.some.inj hv).symm⟩
    · rw [if_neg hvs, readAt_replicate] at hv
      split_ifs at hv
      exact absurd (Option.some.inj hv).symm hd
  refine ⟨by simp, by simp, by simp, ?_, ?_, ?_, ?_, ?_, ?_, ?_, ?_⟩
  · show readAt _ s = some 0
    rw [hrd, if_pos rfl]
  · show readAt _ s = some (-1)
    rw [readAt_replicate, if_pos ⟨hs0, hs1⟩]
  · intro v d hv hd hvs
    exact absurd (hfin v d hv hd).1 hvs
  · intro v hv
    obtain ⟨h0, h1⟩ := readAt_bounds hv
    show readAt _ v = some (-1)
    rw [readAt_replicate, if_pos ⟨h0, by simpa using h1⟩]
  · intro v d hv hd
    obtain ⟨rfl, rfl⟩ := hfin v d hv hd
    exact City.Walk.nil hex
  · intro u d hu
    exact absurd hu (hvis u)
  · intro u du v w hu
    exact absurd hu (hvis u)
  · intro u v du dv hu
    exact absurd hu (hvis u)

/-- The state in which the main loop of `dijkstra` ends, with what it satisfies. -/
theorem dijkstra_run {c : City} (hwf : c.WF) (hid : c.IdsAreIndices)
    (hsum : c.edgeWeightSum < INT_MAX) {s : Int} (hex : c.locationExists s = true) :
    ∃ st, c.dijkstra s = some ⟨st.distances, st.predecessors, (c.nodes.length : Int)⟩ ∧
      DijkstraInv c s st ∧
      ∀ v, readAt st.visited v = some false → readAt st.distances v = some INFINITY_DISTANCE := by
  obtain ⟨hs0, hs1⟩ := hid.exists_iff_bounds.1 hex
  have hne : c.findNode s ≠ -1 := hid.findNode_ne_iff.2 ⟨hs0, hs1⟩
  have hw : writeAt (List.replicate c.nodes.length INFINITY_DISTANCE) s 0 =
      some ((List.replicate c.nodes.length INFINITY_DISTANCE).set s.toNat 0) :=
    writeAt_of_bounds 0 hs0 (by simpa using hs1)
  obtain ⟨st, h1, h2, h3⟩ := mainLoop_correct hwf hid hsum c.nodes.length _
    (dijkstraInv_init hs0 hs1 hex) (by
      dsimp only
      exact le_trans (List.count_le_length _ _) (by simp))
  refine ⟨st, ?_, h2, h3⟩
  unfold City.dijkstra
  simp [hne, hw, h1]

/-- At the end of the run every node a walk from the source leads to has been
visited, and its distance is at most the weight of the walk. -/
theorem dijkstra_final_le {c : City} (hwf : c.WF) (hid : c.IdsAreIndices)
    (hsum : c.edgeWeightSum < INT_MAX) {s : Int} {st : DijkstraState}
    (hinv : DijkstraInv c s st)
    (hend : ∀ v, readAt st.visited v = some false →
      readAt st.distances v = some INFINITY_DISTANCE)
    {v d : Int} (hwalk : c.Walk s v d) :
    readAt st.visited v = some true ∧ ∃ dv, readAt st.distances v = some dv ∧ dv ≤ d := by
  have hINF : INFINITY_DISTANCE = 2147483647 := rfl
  have hMAX : INT_MAX = 2147483647 := rfl
  have hvisited : ∀ u du, 0 ≤ u → u < (c.nodes.length : Int) → readAt st.distances u = some du →
      du ≠ INFINITY_DISTANCE → readAt st.visited u = some true := by
    intro u du h0 h1 hdu hfin
    obtain ⟨b, hb⟩ := readAt_of_bounds (l := st.visited) h0 (by rw [hinv.len_v]; exact h1)
    cases b with
    | true => exact hb
    | false =>
      have := hend u hb
      rw [hdu] at this
      exact absurd (Option.some.inj this) hfin
  induction hwalk with
  | nil hex =>
    obtain ⟨hs0, hs1⟩ := hid.exists_iff_bounds.1 hex
    exact ⟨hvisited s 0 hs0 hs1 hinv.src (by omega), 0, hinv.src, le_refl 0⟩
  | @snoc u v d w hw hr ih =>
    obtain ⟨hu, du, hdu, hle⟩ := ih
    obtain ⟨dv, hdv, hle2⟩ := hinv.relaxed u du v w hu hdu hr
    obtain ⟨hv0, hv1⟩ := roadBetween_target_bounds hwf hid hr
    have hvv : readAt st.visited v = some true := by
      obtain ⟨b, hb⟩ := readAt_of_bounds (l := st.visited) hv0 (by rw [hinv.len_v]; exact hv1)
      cases b with
      | true => exact hb
      | false =>
        have h1 := hend v hb
        rw [hdv] at h1
        have h2 : dv = INFINITY_DISTANCE := Option.some.inj h1
        have h3 := hinv.vis_bound u du hu hdu
        have h4 := roadSum_add_le_total hwf hr (isVisited_eq_true.2 hu)
          (isVisited_eq_false_of_read hb)
        omega
    exact ⟨hvv, dv, hdv, by omega⟩

/-! ## Correctness of `dijkstra` -/

/-- C1. On a network built through the public mutators whose i-th node has id `i` and
whose road weights sum to less than `INT_MAX`, `dijkstra(s)` for an existing source `s`
returns a result that stores, for every node `v` a sequence of roads leads to from `s`,
the minimum total weight of such sequences (a value below the sentinel), and for every
node no sequence of roads leads to the sentinel `INT_MAX` with predecessor `-1`. -/
theorem dijkstra_correct (c : City) (hc : c.Reachable) (hid : c.IdsAreIndices)
    (hsum : c.edgeWeightSum < INT_MAX) (s : Int) (hs : c.locationExists s = true) :
    ∃ r, c.dijkstra s = some r ∧ r.nodeCount = c.getNodeCount ∧
      ∀ v, c.locationExists v = true →
        (c.Connected s v →
          ∃ dv, readAt r.distances v = some dv ∧ dv < INT_MAX ∧ c.Walk s v dv ∧
            ∀ d, c.Walk s v d → dv ≤ d) ∧
        (¬ c.Connected s v →
          readAt r.distances v = some INT_MAX ∧ readAt r.predecessors v = some (-1)) := by
  have hwf := hc.wf
  obtain ⟨st, hrun, hinv, hend⟩ := dijkstra_run hwf hid hsum hs
  refine ⟨_, hrun, rfl, ?_⟩
  intro v hv
  obtain ⟨hv0, hv1⟩ := hid.exists_iff_bounds.1 hv
  constructor
  · rintro ⟨d, hd⟩
    obtain ⟨hvis, dv, hdv, -⟩ := dijkstra_final_le hwf hid hsum hinv hend hd
    have hb := hinv.vis_bound v dv hvis hdv
    have ht := roadSum_le_edgeWeightSum hwf (isVisited st.visited)
    have hlt : dv < INT_MAX := by omega
    refine ⟨dv, hdv, hlt, hinv.walk v dv hdv (ne_of_lt hlt), ?_⟩
    intro d' hd'
    obtain ⟨-, dv', hdv', hle⟩ := dijkstra_final_le hwf hid hsum hinv hend hd'
    rw [hdv] at hdv'
    rw [Option.some.inj hdv']; exact hle
  · intro hnc
    obtain ⟨dv, hdv⟩ := readAt_of_bounds (l := st.distances) hv0 (by rw [hinv.len_d]; exact hv1)
    have : dv = INFINITY_DISTANCE := by
      by_contra hne
      exact hnc ⟨dv, hinv.walk v dv hdv hne⟩
    subst this
    exact ⟨hdv, hinv.inf_pred v hdv⟩

theorem sixNodeCity_idsAreIndices : sixNodeCity.IdsAreIndices := by decide

theorem sixNodeCity_edgeWeightSum : sixNodeCity.edgeWeightSum < INT_MAX := by decide

/-- C1 on the six-node example network, from source `0`. -/
theorem dijkstra_correct_witness :
    ∃ r, sixNodeCity.dijkstra 0 = some r ∧ r.nodeCount = sixNodeCity.getNodeCount ∧
      ∀ v, sixNodeCity.locationExists v = true →
        (sixNodeCity.Connected 0 v →
          ∃ dv, readAt r.distances v = some dv ∧ dv < INT_MAX ∧ sixNodeCity.Walk 0 v dv ∧
            ∀ d, sixNodeCity.Walk 0 v d → dv ≤ d) ∧
        (¬ sixNodeCity.Connected 0 v →
          readAt r.distances v = some INT_MAX ∧ readAt r.predecessors v = some (-1)) :=
  dijkstra_correct sixNodeCity sixNodeCity_reachable sixNodeCity_idsAreIndices
    sixNodeCity_edgeWeightSum 0 (by decide)

/-! ## The run of `dijkstra` never leaves its arrays -/

theorem relaxStep_basic {c : City} (hwf : c.WF) (hid : c.IdsAreIndices) {s : Int}
    {vis : List Bool} {cur m : Int} (hlv : vis.length = c.nodes.length)
    (hvs : readAt vis s = some true) (hvc : readAt vis cur = some true)
    (hm : m ≠ INFINITY_DISTANCE) (r : Road) (st : List Int × List Int)
    (hr : c.RoadBetween cur r.toNodeId r.distance) (hinv : RelaxBasic c s cur m st) :
    ∃ st', relaxStep vis cur st r = some st' ∧ RelaxBasic c s cur m st' := by
  obtain ⟨d, p⟩ := st
  obtain ⟨hv0, hv1⟩ := roadBetween_target_bounds hwf hid hr
  obtain ⟨vn, hvn⟩ := readAt_of_bounds (l := vis) hv0 (by rw [hlv]; exact hv1)
  have hld : d.length = c.nodes.length := hinv.len_d
  have hlp : p.length = c.nodes.length := hinv.len_p
  obtain ⟨dn, hdn⟩ := readAt_of_bounds (l := d) hv0 (by rw [hld]; exact hv1)
  obtain ⟨d', p', hstep, hcase⟩ := relaxStep_cases hvn hinv.cur_d hdn (hlp.trans hld.symm)
  refine ⟨(d', p'), hstep, ?_⟩
  rcases hcase with ⟨hvf, -, hwd, hwp⟩ | ⟨-, rfl, rfl⟩
  · subst hvf
    have hrd := readAt_of_writeAt hwd
    have hs_ne : s ≠ r.toNodeId := by
      rintro rfl
      rw [hvn] at hvs; exact Bool.noConfusion (Option.some.inj hvs)
    have hc_ne : cur ≠ r.toNodeId := by
      rintro h
      rw [← h, hvc] at hvn; exact Bool.noConfusion (Option.some.inj hvn)
    refine ⟨(length_of_writeAt hwd).trans hld, (length_of_writeAt hwp).trans hlp, ?_, ?_, ?_⟩
    · show readAt d' s = some 0
      rw [hrd, if_neg hs_ne]; exact hinv.src
    · show readAt d' cur = some m
      rw [hrd, if_neg hc_ne]; exact hinv.cur_d
    · intro v dv hv hfin
      change readAt d' v = some dv at hv
      rw [hrd] at hv
      by_cases hvv : v = r.toNodeId
      · obtain ⟨dc, hdc⟩ := hinv.conn cur m hinv.cur_d hm
        rw [hvv]
        exact ⟨dc + r.distance, City.Walk.snoc r.distance hdc hr⟩
      · rw [if_neg hvv] at hv
        exact hinv.conn v dv hv hfin
  · exact hinv

theorem mainLoop_step_basic {c : City} (hwf : c.WF) (hid : c.IdsAreIndices) {s : Int}
    {st : DijkstraState} (hinv : BasicInv c s st) {m cur : Int}
    (hcur : readAt st.visited cur = some false) (hdcur : readAt st.distances cur = some m)
    (hm : m < INFINITY_DISTANCE) :
    ∃ vis' node d' p', writeAt st.visited cur true = some vis' ∧
      readAt c.nodes cur = some node ∧
      relaxRoads vis' cur node.roads (st.distances, st.predecessors) = some (d', p') ∧
      BasicInv c s ⟨vis', d', p'⟩ := by
  obtain ⟨vis, d0, p0⟩ := st
  dsimp only at hcur hdcur
  have hlv : vis.length = c.nodes.length := hinv.len_v
  obtain ⟨hc0, hc1⟩ := readAt_bounds hcur
  have hwv := writeAt_of_bounds (l := vis) true hc0 hc1
  have hrv := readAt_of_writeAt hwv
  obtain ⟨node, hnode⟩ := readAt_of_bounds (l := c.nodes) hc0 (by rw [← hlv]; exact hc1)
  have hmne : m ≠ INFINITY_DISTANCE := ne_of_lt hm
  have hcur' : readAt (vis.set cur.toNat true) cur = some true := by rw [hrv, if_pos rfl]
  have hs' : readAt (vis.set cur.toNat true) s = some true := by
    rw [hrv]
    by_cases hsc : s = cur
    · rw [if_pos hsc]
    · rw [if_neg hsc]
      rcases hinv.src_vis with h | h
      · exact h
      · exact absurd (h cur m (fun h => hsc h.symm) hdcur) hmne
  have hroads : ∀ r ∈ node.roads, c.RoadBetween cur r.toNodeId r.distance := by
    intro r hr
    exact hid.roadBetween_iff.2 ⟨node, hnode, by rw [road_eta]; exact hr⟩
  have hinit : RelaxBasic c s cur m (d0, p0) :=
    ⟨hinv.len_d, hinv.len_p, hinv.src, hdcur, hinv.conn⟩
  have hfold := foldlM_option_invariant (relaxStep (vis.set cur.toNat true) cur)
    (fun _ st => RelaxBasic c s cur m st) node.roads [] (d0, p0) hinit
    (fun _ r st' hr hq => relaxStep_basic hwf hid (by rw [List.length_set]; exact hlv) hs' hcur'
      hmne r st' (hroads r hr) hq)
  obtain ⟨⟨d', p'⟩, hrel, R⟩ := hfold
  exact ⟨vis.set cur.toNat true, node, d', p', hwv, hnode, hrel,
    ⟨by rw [List.length_set]; exact hlv, R.len_d, R.len_p, R.src, R.conn, Or.inl hs'⟩⟩

theorem mainLoop_total {c : City} (hwf : c.WF) (hid : c.IdsAreIndices) {s : Int} :
    ∀ (fuel : Nat) (st : DijkstraState), BasicInv c s st →
      ∃ st', mainLoop c fuel st = some st' ∧ BasicInv c s st' := by
  intro fuel
  induction fuel with
  | zero => intro st hinv; exact ⟨st, rfl, hinv⟩
  | succ fuel ih =>
    intro st hinv
    obtain ⟨m, cur, hsel, -, hcase⟩ :=
      selectMin_spec c.nodes.length st.visited st.distances hinv.len_v hinv.len_d
    rcases hcase with ⟨hc, hm⟩ | ⟨hcur, hdcur, hm⟩
    · exact ⟨st, by simp [mainLoop, hsel, hc, hm], hinv⟩
    · obtain ⟨vis', node, d', p', h1, h2, h3, h4⟩ := mainLoop_step_basic hwf hid hinv hcur hdcur hm
      obtain ⟨st', h6, h7⟩ := ih ⟨vis', d', p'⟩ h4
      refine ⟨st', ?_, h7⟩
      have hc : cur ≠ -1 := by
        have := (readAt_bounds hcur).1
        omega
      have hm' : m ≠ INFINITY_DISTANCE := ne_of_lt hm
      simp [mainLoop, hsel, hc, hm', h1, h2, h3, h6]

theorem dijkstra_total {c : City} (hwf : c.WF) (hid : c.IdsAreIndices) {s : Int}
    (hex : c.locationExists s = true) :
    ∃ st, c.dijkstra s = some ⟨st.distances, st.predecessors, (c.nodes.length : Int)⟩ ∧
      BasicInv c s st := by
  obtain ⟨hs0, hs1⟩ := hid.exists_iff_bounds.1 hex
  have hne : c.findNode s ≠ -1 := hid.findNode_ne_iff.2 ⟨hs0, hs1⟩
  have hw : writeAt (List.replicate c.nodes.length INFINITY_DISTANCE) s 0 =
      some ((List.replicate c.nodes.length INFINITY_DISTANCE).set s.toNat 0) :=
    writeAt_of_bounds 0 hs0 (by simpa using hs1)
  have hrd := readAt_of_writeAt hw
  have hinit : BasicInv c s ⟨List.replicate c.nodes.length false,
      (List.replicate c.nodes.length INFINITY_DISTANCE).set s.toNat 0,
      List.replicate c.nodes.length (-1)⟩ := by
    refine ⟨by simp, by simp, by simp, ?_, ?_, Or.inr ?_⟩
    · show readAt _ s = some 0
      rw [hrd, if_pos rfl]
    · intro v dv hv hfin
      change readAt _ v = some dv at hv
      rw [hrd] at hv
      by_cases hvs : v = s
      · rw [hvs]; exact ⟨0, City.Walk.nil hex⟩
      · rw [if_neg hvs, readAt_replicate] at hv
        split_ifs at hv
        exact absurd (Option.some.inj hv).symm hfin
    · intro v dv hvs hv
      change readAt _ v = some dv at hv
      rw [hrd, if_neg hvs, readAt_replicate] at hv
      split_ifs at hv
      exact (Option.some.inj hv).symm
  obtain ⟨st, h1, h2⟩ := mainLoop_total hwf hid c.nodes.length _ hinit
  refine ⟨st, ?_, h2⟩
  unfold City.dijkstra
  simp [hne, hw, h1]

theorem dijkstra_of_not_exists {c : City} {s : Int} (h : c.locationExists s = false) :
    c.dijkstra s = some (ShortestPathResult.init c.nodes.length) := by
  have := locationExists_eq_false_iff.1 h
  simp [City.dijkstra, this]

/-! ## Reading a result -/

theorem getDistanceTo_of_read {dist pred : List Int} {n : Nat} {v dv : Int}
    (hv : readAt dist v = some dv) (hn : v < (n : Int)) :
    (⟨dist, pred, (n : Int)⟩ : ShortestPathResult).getDistanceTo v =
      some (if dv = INFINITY_DISTANCE then -1 else dv) := by
  have h0 := (readAt_bounds hv).1
  have h1 : ¬ (v < 0 ∨ v ≥ (n : Int)) := by omega
  unfold ShortestPathResult.getDistanceTo
  simp only [h1, if_false, hv, Option.bind_eq_bind, Option.some_bind]
  split_ifs <;> rfl

theorem getDistanceTo_of_out {dist pred : List Int} {n : Nat} {v : Int}
    (hv : v < 0 ∨ (n : Int) ≤ v) :
    (⟨dist, pred, (n : Int)⟩ : ShortestPathResult).getDistanceTo v = some (-1) := by
  have h1 : v < 0 ∨ v ≥ (n : Int) := hv
  unfold ShortestPathResult.getDistanceTo
  simp only [h1, if_true]

theorem getPathTo_of_out {dist pred : List Int} {n : Nat} {v : Int}
    (hv : v < 0 ∨ (n : Int) ≤ v) :
    (⟨dist, pred, (n : Int)⟩ : ShortestPathResult).getPathTo v = some (-1, []) := by
  have h1 : v < 0 ∨ v ≥ (n : Int) := hv
  unfold ShortestPathResult.getPathTo
  simp only [h1, if_true]

theorem getPathTo_of_infinite {dist pred : List Int} {n : Nat} {v : Int}
    (hv : readAt dist v = some INFINITY_DISTANCE) :
    (⟨dist, pred, (n : Int)⟩ : ShortestPathResult).getPathTo v = some (-1, []) := by
  unfold ShortestPathResult.getPathTo
  split_ifs
  · rfl
  · simp [hv]

theorem getPathTo_of_finite {dist pred : List Int} {n : Nat} {v dv : Int} {tempPath : List Int}
    (hv : readAt dist v = some dv) (hn : v < (n : Int)) (hfin : dv ≠ INFINITY_DISTANCE)
    (hb : backtrack pred n v = some tempPath) :
    (⟨dist, pred, (n : Int)⟩ : ShortestPathResult).getPathTo v =
      some ((tempPath.length : Int), tempPath.reverse) := by
  have h0 := (readAt_bounds hv).1
  have h1 : ¬ (v < 0 ∨ v ≥ (n : Int)) := by omega
  unfold ShortestPathResult.getPathTo
  simp [h1, hv, hfin, hb]

/-! ## The predecessor chain -/

theorem pathCost_cons_cons (c : City) (a b : Int) (rest : List Int) :
    c.pathCost (a :: b :: rest) = c.getDistance a b + c.pathCost (b :: rest) := rfl

theorem pathCost_append_last (c : City) :
    ∀ (path : List Int) (q v : Int), path.getLast? = some q →
      c.pathCost (path ++ [v]) = c.pathCost path + c.getDistance q v := by
  intro path
  induction path with
  | nil => intro q v h; simp at h
  | cons x rest ih =>
    intro q v h
    cases rest with
    | nil =>
      simp only [List.getLast?_singleton, Option.some.injEq] at h
      subst h
      simp [City.pathCost]
    | cons y rest' =>
      have h' : (y :: rest').getLast? = some q := by
        rw [List.getLast?_cons_cons] at h; exact h
      have := ih q v h'
      rw [List.cons_append, List.cons_append, pathCost_cons_cons, pathCost_cons_cons,
        ← List.cons_append, this]
      ring

theorem length_le_of_nodup_bounds {path : List Int} {n : Nat} (hnd : path.Nodup)
    (hb : ∀ x ∈ path, 0 ≤ x ∧ x < (n : Int)) : path.length ≤ n := by
  have h1 : path.toFinset ⊆ Finset.Ico (0 : Int) (n : Int) := by
    intro x hx
    rw [List.mem_toFinset] at hx
    rw [Finset.mem_Ico]
    exact hb x hx
  have h2 := Finset.card_le_card h1
  rw [List.toFinset_card_of_nodup hnd, Int.card_Ico] at h2
  simpa using h2

theorem backtrack_neg_one (pred : List Int) (slots : Nat) : backtrack pred slots (-1) = some [] := by
  unfold backtrack
  simp

theorem backtrack_succ {pred : List Int} {slots : Nat} {v q : Int} {rest : List Int}
    (hv : v ≠ -1) (hq : readAt pred v = some q) (hrest : backtrack pred slots q = some rest) :
    backtrack pred (slots + 1) v = some (v :: rest) := by
  rw [backtrack]
  simp [hv, hq, hrest]

theorem chain_exists {c : City} (hwf : c.WF) (hsum : c.edgeWeightSum < INT_MAX) {s : Int}
    {st : DijkstraState} (hinv : DijkstraInv c s st) :
    ∀ (k : Nat) (v dv : Int), readAt st.distances v = some dv → dv ≠ INFINITY_DISTANCE →
      dv ≤ (k : Int) → ∃ path, ChainSpec c s st v dv path := by
  have hINF : INFINITY_DISTANCE = 2147483647 := rfl
  have hMAX : INT_MAX = 2147483647 := rfl
  have hsrc : ∀ dv, readAt st.distances s = some dv → ChainSpec c s st s dv [s] := by
    intro dv hdv
    have h0 : dv = 0 := by
      have := hinv.src
      rw [hdv] at this; exact Option.some.inj this
    subst h0
    have hs0 := (readAt_bounds hdv).1
    refine ⟨rfl, rfl, List.chain'_singleton s, rfl, ?_, List.nodup_singleton s, ?_⟩
    · intro x hx
      simp only [List.mem_singleton] at hx
      subst hx
      exact ⟨0, hdv, le_refl 0⟩
    · intro slots hslots
      cases slots with
      | zero => simp at hslots
      | succ k =>
        exact backtrack_succ (by omega) hinv.src_pred (backtrack_neg_one _ k)
  have hstep : ∀ (v dv : Int), readAt st.distances v = some dv → dv ≠ INFINITY_DISTANCE → v ≠ s →
      ∃ q dq w, readAt st.predecessors v = some q ∧ readAt st.distances q = some dq ∧
        c.RoadBetween q v w ∧ dv = dq + w ∧ 0 < w ∧ 0 ≤ dq ∧ dq ≠ INFINITY_DISTANCE := by
    intro v dv hdv hfin hvs
    obtain ⟨q, dq, w, h1, h2, h3, h4, h5⟩ := hinv.tree v dv hdv hfin hvs
    have h6 := hinv.vis_bound q dq h2 h3
    have h7 := roadSum_le_edgeWeightSum hwf (isVisited st.visited)
    have h8 : dq ≠ INFINITY_DISTANCE := by omega
    exact ⟨q, dq, w, h1, h3, h4, h5, hwf.roadBetween_pos h4, (hinv.walk q dq h3 h8).nonneg hwf, h8⟩
  intro k
  induction k with
  | zero =>
    intro v dv hdv hfin hk
    by_cases hvs : v = s
    · subst hvs; exact ⟨[v], hsrc dv hdv⟩
    · obtain ⟨q, dq, w, -, -, -, h5, h6, h7, -⟩ := hstep v dv hdv hfin hvs
      simp only [Nat.cast_zero] at hk
      omega
  | succ k ih =>
    intro v dv hdv hfin hk
    by_cases hvs : v = s
    · subst hvs; exact ⟨[v], hsrc dv hdv⟩
    · obtain ⟨q, dq, w, h1, h3, h4, h5, h6, h7, h8⟩ := hstep v dv hdv hfin hvs
      obtain ⟨path', hp⟩ := ih q dq h3 h8 (by push_cast at hk; omega)
      have hne : path' ≠ [] := by
        intro h
        have := hp.head
        rw [h] at this; simp at this
      have hv0 := (readAt_bounds hdv).1
      refine ⟨path' ++ [v], ?_, ?_, ?_, ?_, ?_, ?_, ?_⟩
      · rw [List.head?_append_of_ne_nil _ hne]; exact hp.head
      · exact List.getLast?_concat _
      · apply List.Chain'.append hp.roads (List.chain'_singleton v)
        intro x hx y hy
        rw [hp.last] at hx
        simp only [Option.mem_def, Option.some.injEq, List.head?_cons] at hx hy
        subst hx hy
        exact ⟨w, h4⟩
      · rw [pathCost_append_last c path' q v hp.last, hp.cost,
          hwf.getDistance_of_roadBetween h4, h5]
      · intro x hx
        rcases List.mem_append.1 hx with hx | hx
        · obtain ⟨dx, hdx, hle⟩ := hp.below x hx
          exact ⟨dx, hdx, by omega⟩
        · simp only [List.mem_singleton] at hx
          subst hx
          exact ⟨dv, hdv, le_refl dv⟩
      · rw [List.nodup_append]
        refine ⟨hp.nodup, List.nodup_singleton v, ?_⟩
        intro x hx hx'
        simp only [List.mem_singleton] at hx'
        subst hx'
        obtain ⟨dx, hdx, hle⟩ := hp.below x hx
        rw [hdv] at hdx
        have : dv = dx := Option.some.inj hdx
        omega
      · intro slots hslots
        cases slots with
        | zero => simp at hslots
        | succ j =>
          rw [List.length_append, List.length_singleton] at hslots
          have := backtrack_succ (by omega : v ≠ -1) h1 (hp.back j (by omega))
          rw [this]
          simp

/-! ## What the two query wrappers return -/

/-- For a destination some sequence of roads leads to, on a network whose road weights
sum to less than `INT_MAX`: the value and the path the two wrappers return. -/
theorem shortest_report {c : City} (hwf : c.WF) (hid : c.IdsAreIndices)
    (hsum : c.edgeWeightSum < INT_MAX) {s d : Int} (hconn : c.Connected s d) :
    ∃ dv path, c.getShortestDistance s d = some dv ∧ 0 ≤ dv ∧ dv < INT_MAX ∧
      (∀ d', c.Walk s d d' → dv ≤ d') ∧
      c.getShortestPath s d = some ((path.length : Int), path) ∧
      path.head? = some s ∧ path.getLast? = some d ∧
      List.Chain' (fun a b => ∃ w, c.RoadBetween a b w) path ∧ c.pathCost path = dv := by
  have hINF : INFINITY_DISTANCE = 2147483647 := rfl
  have hMAX : INT_MAX = 2147483647 := rfl
  obtain ⟨d0, hd0⟩ := hconn
  have hs : c.locationExists s = true := by
    clear hsum
    induction hd0 with
    | nil h => exact h
    | snoc w _ _ ih => exact ih
  obtain ⟨st, hrun, hinv, hend⟩ := dijkstra_run hwf hid hsum hs
  obtain ⟨hvis, dv, hdv, -⟩ := dijkstra_final_le hwf hid hsum hinv hend hd0
  have hb := hinv.vis_bound d dv hvis hdv
  have ht := roadSum_le_edgeWeightSum hwf (isVisited st.visited)
  have hlt : dv < INT_MAX := by omega
  have hfin : dv ≠ INFINITY_DISTANCE := by omega
  have hnn : 0 ≤ dv := (hinv.walk d dv hdv hfin).nonneg hwf
  obtain ⟨hd_0, hd_1⟩ := readAt_bounds hdv
  rw [hinv.len_d] at hd_1
  obtain ⟨path, hp⟩ := chain_exists hwf hsum hinv dv.toNat d dv hdv hfin (by omega)
  have hlen : path.length ≤ c.nodes.length := by
    apply length_le_of_nodup_bounds hp.nodup
    intro x hx
    obtain ⟨dx, hdx, -⟩ := hp.below x hx
    have := readAt_bounds hdx
    rw [hinv.len_d] at this
    exact this
  refine ⟨dv, path, ?_, hnn, hlt, ?_, ?_, hp.head, hp.last, hp.roads, hp.cost⟩
  · unfold City.getShortestDistance
    rw [hrun]
    simp only [Option.bind_eq_bind, Option.some_bind]
    rw [getDistanceTo_of_read hdv hd_1, if_neg hfin]
  · intro d' hd'
    obtain ⟨-, dv', hdv', hle⟩ := dijkstra_final_le hwf hid hsum hinv hend hd'
    rw [hdv] at hdv'
    rw [Option.some.inj hdv']; exact hle
  · unfold City.getShortestPath
    rw [hrun]
    simp only [Option.bind_eq_bind, Option.some_bind]
    rw [getPathTo_of_finite hdv hd_1 hfin (hp.back _ hlen)]
    simp

/-- Whatever the road weights: an unknown end or a destination no sequence of roads
leads to makes both wrappers return `-1`, the path wrapper writing nothing. -/
theorem unreachable_report {c : City} (hwf : c.WF) (hid : c.IdsAreIndices) {a b : Int}
    (h : c.locationExists a = false ∨ c.locationExists b = false ∨ ¬ c.Connected a b) :
    c.getShortestDistance a b = some (-1) ∧ c.getShortestPath a b = some (-1, []) := by
  by_cases ha : c.locationExists a = true
  · obtain ⟨st, hrun, hinv⟩ := dijkstra_total hwf hid ha
    unfold City.getShortestDistance City.getShortestPath
    rw [hrun]
    simp only [Option.bind_eq_bind, Option.some_bind]
    by_cases hb : c.locationExists b = true
    · obtain ⟨hb0, hb1⟩ := hid.exists_iff_bounds.1 hb
      obtain ⟨dv, hdv⟩ := readAt_of_bounds (l := st.distances) hb0 (by rw [hinv.len_d]; exact hb1)
      have hnc : ¬ c.Connected a b := by
        rcases h with h | h | h
        · rw [ha] at h; exact Bool.noConfusion h
        · rw [hb] at h; exact Bool.noConfusion h
        · exact h
      have : dv = INFINITY_DISTANCE := by
        by_contra hne
        exact hnc (hinv.conn b dv hdv hne)
      subst this
      exact ⟨by rw [getDistanceTo_of_read hdv hb1, if_pos rfl], getPathTo_of_infinite hdv⟩
    · have hout : b < 0 ∨ (c.nodes.length : Int) ≤ b := by
        by_contra hcon
        exact hb (hid.exists_iff_bounds.2 (by omega))
      exact ⟨getDistanceTo_of_out hout, getPathTo_of_out hout⟩
  · have ha' : c.locationExists a = false := by
      cases hx : c.locationExists a <;> simp_all
    unfold City.getShortestDistance City.getShortestPath
    rw [dijkstra_of_not_exists ha']
    simp only [Option.bind_eq_bind, Option.some_bind, ShortestPathResult.init]
    by_cases hb : 0 ≤ b ∧ b < (c.nodes.length : Int)
    · have hdv : readAt (List.replicate c.nodes.length INFINITY_DISTANCE) b =
          some INFINITY_DISTANCE := by
        rw [readAt_replicate, if_pos hb]
      exact ⟨by rw [getDistanceTo_of_read hdv hb.2, if_pos rfl], getPathTo_of_infinite hdv⟩
    · have hout : b < 0 ∨ (c.nodes.length : Int) ≤ b := by omega
      exact ⟨getDistanceTo_of_out hout, getPathTo_of_out hout⟩

theorem idsAreIndices_addRoad {c : City} (hwf : c.WF) (hid : c.IdsAreIndices) {a b w : Int}
    (h : (c.addRoad a b w).1 = true) : (c.addRoad a b w).2.IdsAreIndices := by
  unfold City.IdsAreIndices at hid ⊢
  rw [addRoad_nodes_of_true hwf.ids_nodup h, List.map_map, List.length_map]
  have : Node.id ∘ addRoadMap a b w = Node.id := by
    funext m; exact addRoadMap_id a b w m
  rw [this]; exact hid

theorem twoNodeCity_idsAreIndices : twoNodeCity.IdsAreIndices := by decide

theorem maxWeightCity_idsAreIndices : maxWeightCity.IdsAreIndices := by decide

theorem twoNodeCity_connected : twoNodeCity.Connected 0 1 :=
  ⟨0 + 7, City.Walk.snoc 7 (City.Walk.nil (by decide)) (by unfold City.RoadBetween; decide)⟩

theorem maxWeightCity_connected : maxWeightCity.Connected 0 1 :=
  ⟨0 + 2147483647, City.Walk.snoc 2147483647 (City.Walk.nil (by decide))
    (by unfold City.RoadBetween; decide)⟩

/-! ## C2: distance from a node to itself -/

/-- C2, amended. On a network built through the public mutators whose i-th node has
id `i`, `getShortestDistance(s, s) == 0` for every node `s` present, whatever the road
weights are. -/
theorem shortest_distance_to_self (c : City) (hc : c.Reachable) (hid : c.IdsAreIndices)
    (s : Int) (hs : c.locationExists s = true) : c.getShortestDistance s s = some 0 := by
  obtain ⟨st, hrun, hinv⟩ := dijkstra_total hc.wf hid hs
  obtain ⟨-, hs1⟩ := hid.exists_iff_bounds.1 hs
  unfold City.getShortestDistance
  rw [hrun]
  simp only [Option.bind_eq_bind, Option.some_bind]
  rw [getDistanceTo_of_read hinv.src hs1]
  rfl

/-- C2, amended, on the two-node network at node `1`. -/
theorem shortest_distance_to_self_witness : twoNodeCity.getShortestDistance 1 1 = some 0 :=
  shortest_distance_to_self twoNodeCity twoNodeCity_reachable twoNodeCity_idsAreIndices 1
    (by decide)

/-- C2 as stated fails: in the network whose only node has id `5`, node `5` is present
but `dijkstra(5)` writes `distances[5]` of a one-element array, and the query does not
return `0`. Whatever that run leaves in the two one-element arrays, `getDistanceTo(5)`
answers `-1`, because `5 >= nodeCount`. -/
theorem shortest_distance_to_self_counterexample :
    loneNodeCity.Reachable ∧ loneNodeCity.locationExists 5 = true ∧
      loneNodeCity.getShortestDistance 5 5 = none ∧
      loneNodeCity.getShortestDistance 5 5 ≠ some 0 ∧
      ∀ dist pred : List Int,
        (⟨dist, pred, loneNodeCity.getNodeCount⟩ : ShortestPathResult).getDistanceTo 5 =
          some (-1) :=
  ⟨loneNodeCity_reachable, by decide, by decide, by decide,
    fun _ _ => getDistanceTo_of_out (n := 1) (Or.inr (by decide))⟩

/-! ## C3: the reconstructed path -/

/-- C3, amended. On a network built through the public mutators whose i-th node has
id `i` and whose road weights sum to less than `INT_MAX`, for every pair `(s, d)` with
`d` reachable from `s`, `getShortestPath(s, d)` returns a node sequence that starts at
`s`, ends at `d`, joins every two consecutive nodes by a road, and whose summed road
weights equal `getShortestDistance(s, d)`. -/
theorem shortest_path_contract (c : City) (hc : c.Reachable) (hid : c.IdsAreIndices)
    (hsum : c.edgeWeightSum < INT_MAX) (s d : Int) (hconn : c.Connected s d) :
    c.ReportsPath s d := by
  obtain ⟨dv, path, h1, h2, -, -, h5, h6, h7, h8, h9⟩ := shortest_report hc.wf hid hsum hconn
  exact ⟨path, dv, h5, h6, h7, h8, h1, h2, h9⟩

/-- C3, amended, on the two-node network from `0` to `1`. -/
theorem shortest_path_contract_witness : twoNodeCity.ReportsPath 0 1 :=
  shortest_path_contract twoNodeCity twoNodeCity_reachable twoNodeCity_idsAreIndices
    (by decide) 0 1 twoNodeCity_connected

/-- C3 as stated fails: with one road `0 - 1` of weight `INT_MAX`, node `1` is reachable
from `0`, but the tentative distance `0 + INT_MAX` is not below the sentinel, node `1`
keeps the sentinel, and `getShortestPath(0, 1)` returns `-1` and writes no path. -/
theorem shortest_path_contract_counterexample :
    maxWeightCity.Reachable ∧ maxWeightCity.IdsAreIndices ∧ maxWeightCity.Connected 0 1 ∧
      maxWeightCity.getShortestPath 0 1 = some (-1, []) ∧ ¬ maxWeightCity.ReportsPath 0 1 := by
  have hp : maxWeightCity.getShortestPath 0 1 = some (-1, []) := by decide
  refine ⟨maxWeightCity_reachable, maxWeightCity_idsAreIndices, maxWeightCity_connected, hp, ?_⟩
  rintro ⟨path, dist, h1, h2, -⟩
  rw [hp] at h1
  simp only [Option.some.injEq, Prod.mk.injEq] at h1
  rw [← h1.2] at h2
  simp at h2

/-! ## C4: error returns of the two wrappers -/

/-- C4, amended. On a network built through the public mutators whose i-th node has
id `i`, for all integers `a`, `b`: if `a` is not a node, or `b` is not a node, or no path
connects `a` to `b`, then `getShortestDistance(a, b)` returns `-1` and
`getShortestPath(a, b)` returns `-1` without writing any path element; otherwise, when
the road weights sum to less than `INT_MAX`, both return a non-negative value. -/
theorem shortest_queries_error_contract (c : City) (hc : c.Reachable) (hid : c.IdsAreIndices)
    (a b : Int) :
    ((c.locationExists a = false ∨ c.locationExists b = false ∨ ¬ c.Connected a b) →
      c.getShortestDistance a b = some (-1) ∧ c.getShortestPath a b = some (-1, [])) ∧
    (c.edgeWeightSum < INT_MAX →
      ¬ (c.locationExists a = false ∨ c.locationExists b = false ∨ ¬ c.Connected a b) →
      ∃ dv len path, c.getShortestDistance a b = some dv ∧ 0 ≤ dv ∧
        c.getShortestPath a b = some (len, path) ∧ 0 ≤ len) := by
  refine ⟨unreachable_report hc.wf hid, ?_⟩
  intro hsum hnot
  have hconn : c.Connected a b := by
    by_contra h; exact hnot (Or.inr (Or.inr h))
  obtain ⟨dv, path, h1, h2, -, -, h5, -⟩ := shortest_report hc.wf hid hsum hconn
  exact ⟨dv, (path.length : Int), path, h1, h2, h5, Int.natCast_nonneg _⟩

/-- C4, amended, on the two-node network for the pair `(0, 1)`. -/
theorem shortest_queries_error_contract_witness :
    ((twoNodeCity.locationExists 0 = false ∨ twoNodeCity.locationExists 1 = false ∨
        ¬ twoNodeCity.Connected 0 1) →
      twoNodeCity.getShortestDistance 0 1 = some (-1) ∧
        twoNodeCity.getShortestPath 0 1 = some (-1, [])) ∧
    (twoNodeCity.edgeWeightSum < INT_MAX →
      ¬ (twoNodeCity.locationExists 0 = false ∨ twoNodeCity.locationExists 1 = false ∨
        ¬ twoNodeCity.Connected 0 1) →
      ∃ dv len path, twoNodeCity.getShortestDistance 0 1 = some dv ∧ 0 ≤ dv ∧
        twoNodeCity.getShortestPath 0 1 = some (len, path) ∧ 0 ≤ len) :=
  shortest_queries_error_contract twoNodeCity twoNodeCity_reachable twoNodeCity_idsAreIndices 0 1

/-- C4 as stated fails in its last part: with one road `0 - 1` of weight `INT_MAX`,
`0` and `1` are nodes and a path connects them, yet both wrappers return `-1`. -/
theorem shortest_queries_error_contract_counterexample :
    maxWeightCity.Reachable ∧ maxWeightCity.IdsAreIndices ∧
      ¬ (maxWeightCity.locationExists 0 = false ∨ maxWeightCity.locationExists 1 = false ∨
        ¬ maxWeightCity.Connected 0 1) ∧
      maxWeightCity.getShortestDistance 0 1 = some (-1) ∧
      maxWeightCity.getShortestPath 0 1 = some (-1, []) := by
  refine ⟨maxWeightCity_reachable, maxWeightCity_idsAreIndices, ?_, by decide, by decide⟩
  rintro (h | h | h)
  · exact absurd h (by decide)
  · exact absurd h (by decide)
  · exact h maxWeightCity_connected

/-! ## C5: a new road bounds the shortest distance -/

/-- C5, amended. On a network built through the public mutators whose i-th node has
id `i`, immediately after `addRoad(a, b, w)` returns true, and provided the road weights
then sum to less than `INT_MAX`, `getShortestDistance(a, b)` is not `-1` and is at most
`w`. -/
theorem addRoad_shortest_distance_le (c : City) (hc : c.Reachable) (hid : c.IdsAreIndices)
    (a b w : Int) (hadd : (c.addRoad a b w).1 = true)
    (hsum : (c.addRoad a b w).2.edgeWeightSum < INT_MAX) :
    ∃ dv, (c.addRoad a b w).2.getShortestDistance a b = some dv ∧ dv ≠ -1 ∧ dv ≤ w := by
  have hwf := hc.wf
  have hwf2 : (c.addRoad a b w).2.WF := hwf.addRoad a b w
  have hid2 := idsAreIndices_addRoad hwf hid hadd
  have hroad : (c.addRoad a b w).2.RoadBetween a b w :=
    (roadBetween_addRoad hwf.ids_nodup hadd a b w).2 (Or.inr (Or.inl ⟨rfl, rfl, rfl⟩))
  have hwalk : (c.addRoad a b w).2.Walk a b (0 + w) :=
    City.Walk.snoc w (City.Walk.nil (roadBetween_source hroad)) hroad
  obtain ⟨dv, path, h1, h2, -, h4, -⟩ := shortest_report hwf2 hid2 hsum ⟨_, hwalk⟩
  have := h4 _ hwalk
  exact ⟨dv, h1, by omega, by omega⟩

/-- C5, amended, at a concrete input: the road `(0, 2, 9)` added to the two-node network
extended by node `2`. -/
theorem addRoad_shortest_distance_le_witness :
    ∃ dv, ((twoNodeCity.addLocation 2).2.addRoad 0 2 9).2.getShortestDistance 0 2 = some dv ∧
      dv ≠ -1 ∧ dv ≤ 9 :=
  addRoad_shortest_distance_le (twoNodeCity.addLocation 2).2
    (.addLocation 2 twoNodeCity_reachable) (by decide) 0 2 9 (by decide) (by decide)

/-- C5 as stated fails: on the network with the two isolated nodes `0` and `1`,
`addRoad(0, 1, INT_MAX)` returns true and `getShortestDistance(0, 1)` is `-1` right
after. -/
theorem addRoad_shortest_distance_le_counterexample :
    ((City.empty.addLocation 0).2.addLocation 1).2.Reachable ∧
      ((City.empty.addLocation 0).2.addLocation 1).2.IdsAreIndices ∧
      (((City.empty.addLocation 0).2.addLocation 1).2.addRoad 0 1 2147483647).1 = true ∧
      (((City.empty.addLocation 0).2.addLocation 1).2.addRoad 0 1 2147483647).2.getShortestDistance
        0 1 = some (-1) :=
  ⟨.addLocation 1 (.addLocation 0 .empty), by decide, by decide, by decide⟩

/-! ## C11: unique ids, unique roads per neighbour -/

/-- C11. In every network state reachable from the empty network through
`addLocation`, `addRoad` and `setZone`, no two nodes share an id and the adjacency list
of every node holds at most one road to any given neighbour. -/
theorem reachable_ids_and_roads_unique (c : City) (hc : c.Reachable) :
    (c.nodes.map Node.id).Nodup ∧ ∀ n ∈ c.nodes, (n.roads.map Road.toNodeId).Nodup :=
  ⟨hc.wf.ids_nodup, hc.wf.roads_nodup⟩

/-- C11 on the six-node example network. -/
theorem reachable_ids_and_roads_unique_witness :
    (sixNodeCity.nodes.map Node.id).Nodup ∧
      ∀ n ∈ sixNodeCity.nodes, (n.roads.map Road.toNodeId).Nodup :=
  reachable_ids_and_roads_unique sixNodeCity sixNodeCity_reachable

/-! ## The trip state machine -/

theorem Trip.transitionTo_of_valid {t : Trip} {s : TripState}
    (h : t.isValidTransition s = true) : t.transitionTo s = (true, { t with state := s }) := by
  simp [Trip.transitionTo, h]

theorem Trip.transitionTo_of_invalid {t : Trip} {s : TripState}
    (h : t.isValidTransition s = false) : t.transitionTo s = (false, t) := by
  simp [Trip.transitionTo, h]

theorem Trip.isValidTransition_iff (t : Trip) (s : TripState) :
    t.isValidTransition s = true ↔
      (t.state, s) ∈ [(TripState.REQUESTED, TripState.ASSIGNED),
        (TripState.REQUESTED, TripState.CANCELLED), (TripState.ASSIGNED, TripState.ONGOING),
        (TripState.ASSIGNED, TripState.CANCELLED), (TripState.ONGOING, TripState.COMPLETED),
        (TripState.ONGOING, TripState.CANCELLED)] := by
  unfold Trip.isValidTransition
  cases t.state <;> cases s <;> decide

theorem Trip.isValidTransition_of_final {t : Trip} (h : t.isFinalState = true) (s : TripState) :
    t.isValidTransition s = false := by
  unfold Trip.isFinalState at h
  unfold Trip.isValidTransition
  cases hs : t.state <;> simp_all

/-- C12. `transitionTo(t)` returns true exactly for the six pairs of the transition
table and then changes the state to `t` and nothing else; for every other pair it
returns false and leaves the trip as it was, so the same request fails again in the
same way. -/
theorem transitionTo_contract (t : Trip) (s : TripState) :
    ((t.transitionTo s).1 = true ↔
      (t.state, s) ∈ [(TripState.REQUESTED, TripState.ASSIGNED),
        (TripState.REQUESTED, TripState.CANCELLED), (TripState.ASSIGNED, TripState.ONGOING),
        (TripState.ASSIGNED, TripState.CANCELLED), (TripState.ONGOING, TripState.COMPLETED),
        (TripState.ONGOING, TripState.CANCELLED)]) ∧
    ((t.transitionTo s).1 = true → (t.transitionTo s).2 = { t with state := s }) ∧
    ((t.transitionTo s).1 = false →
      (t.transitionTo s).2 = t ∧ (t.transitionTo s).2.transitionTo s = (false, t)) := by
  rw [← Trip.isValidTransition_iff]
  cases h : t.isValidTransition s
  · rw [Trip.transitionTo_of_invalid h]
    simp [Trip.transitionTo_of_invalid h]
  · rw [Trip.transitionTo_of_valid h]
    simp

theorem Trip.assignDriver_of_requested {t : Trip} (h : t.state = TripState.REQUESTED)
    (driverId : Int) :
    t.assignDriver driverId =
      (true, { t.setDriverId driverId with state := TripState.ASSIGNED }) := by
  have h2 : (t.setDriverId driverId).state = TripState.REQUESTED := by
    unfold Trip.setDriverId; split_ifs <;> simp [h]
  have h3 : (t.setDriverId driverId).isValidTransition TripState.ASSIGNED = true := by
    unfold Trip.isValidTransition; rw [h2]; rfl
  simp [Trip.assignDriver, h, Trip.transitionTo_of_valid h3]

theorem Trip.assignDriver_of_not_requested {t : Trip} (h : t.state ≠ TripState.REQUESTED)
    (driverId : Int) : t.assignDriver driverId = (false, t) := by
  simp [Trip.assignDriver, h]

theorem Trip.startTrip_of_assigned {t : Trip} (h : t.state = TripState.ASSIGNED) :
    t.startTrip = (true, { t with state := TripState.ONGOING }) := by
  have h3 : t.isValidTransition TripState.ONGOING = true := by
    unfold Trip.isValidTransition; rw [h]; rfl
  simp [Trip.startTrip, h, Trip.transitionTo_of_valid h3]

theorem Trip.startTrip_of_not_assigned {t : Trip} (h : t.state ≠ TripState.ASSIGNED) :
    t.startTrip = (false, t) := by
  simp [Trip.startTrip, h]

theorem Trip.completeTrip_of_ongoing {t : Trip} (h : t.state = TripState.ONGOING) :
    t.completeTrip = (true, { t with state := TripState.COMPLETED }) := by
  have h3 : t.isValidTransition TripState.COMPLETED = true := by
    unfold Trip.isValidTransition; rw [h]; rfl
  simp [Trip.completeTrip, h, Trip.transitionTo_of_valid h3]

theorem Trip.completeTrip_of_not_ongoing {t : Trip} (h : t.state ≠ TripState.ONGOING) :
    t.completeTrip = (false, t) := by
  simp [Trip.completeTrip, h]

theorem Trip.cancelTrip_of_active {t : Trip} (h : t.isActive = true) :
    t.cancelTrip = (true, { t with state := TripState.CANCELLED }) := by
  have h1 : ¬ (t.state = TripState.COMPLETED ∨ t.state = TripState.CANCELLED) := by
    unfold Trip.isActive at h
    cases hs : t.state <;> simp_all
  have h3 : t.isValidTransition TripState.CANCELLED = true := by
    unfold Trip.isActive at h
    unfold Trip.isValidTransition
    cases hs : t.state <;> simp_all
  simp [Trip.cancelTrip, h1, Trip.transitionTo_of_valid h3]

theorem Trip.cancelTrip_of_final {t : Trip} (h : t.isFinalState = true) :
    t.cancelTrip = (false, t) := by
  have h1 : t.state = TripState.COMPLETED ∨ t.state = TripState.CANCELLED := by
    unfold Trip.isFinalState at h
    cases hs : t.state <;> simp_all
  simp [Trip.cancelTrip, h1]

theorem Trip.isActive_eq_not_final (t : Trip) : t.isActive = !t.isFinalState := by
  unfold Trip.isActive Trip.isFinalState
  cases t.state <;> rfl

/-- C13. Each lifecycle call succeeds exactly from its allowed source states and then
lands in its target state: `assignDriver` iff REQUESTED (then ASSIGNED), `startTrip` iff
ASSIGNED (then ONGOING), `completeTrip` iff ONGOING (then COMPLETED), `cancelTrip` iff
REQUESTED, ASSIGNED or ONGOING (then CANCELLED); a call that returns false leaves the
trip (state, driver id and every other field) unchanged. -/
theorem lifecycle_calls_contract (t : Trip) (driverId : Int) :
    (((t.assignDriver driverId).1 = true ↔ t.state = TripState.REQUESTED) ∧
      ((t.assignDriver driverId).1 = true →
        (t.assignDriver driverId).2.state = TripState.ASSIGNED) ∧
      ((t.assignDriver driverId).1 = false → (t.assignDriver driverId).2 = t)) ∧
    ((t.startTrip.1 = true ↔ t.state = TripState.ASSIGNED) ∧
      (t.startTrip.1 = true → t.startTrip.2.state = TripState.ONGOING ∧
        t.startTrip.2.driverId = t.driverId) ∧
      (t.startTrip.1 = false → t.startTrip.2 = t)) ∧
    ((t.completeTrip.1 = true ↔ t.state = TripState.ONGOING) ∧
      (t.completeTrip.1 = true → t.completeTrip.2.state = TripState.COMPLETED ∧
        t.completeTrip.2.driverId = t.driverId) ∧
      (t.completeTrip.1 = false → t.completeTrip.2 = t)) ∧
    ((t.cancelTrip.1 = true ↔
        (t.state = TripState.REQUESTED ∨ t.state = TripState.ASSIGNED ∨
          t.state = TripState.ONGOING)) ∧
      (t.cancelTrip.1 = true → t.cancelTrip.2.state = TripState.CANCELLED ∧
        t.cancelTrip.2.driverId = t.driverId) ∧
      (t.cancelTrip.1 = false → t.cancelTrip.2 = t)) := by
  refine ⟨?_, ?_, ?_, ?_⟩
  · by_cases h : t.state = TripState.REQUESTED
    · rw [Trip.assignDriver_of_requested h]; simp [h]
    · rw [Trip.assignDriver_of_not_requested h]; simp [h]
  · by_cases h : t.state = TripState.ASSIGNED
    · rw [Trip.startTrip_of_assigned h]; simp [h]
    · rw [Trip.startTrip_of_not_assigned h]; simp [h]
  · by_cases h : t.state = TripState.ONGOING
    · rw [Trip.completeTrip_of_ongoing h]; simp [h]
    · rw [Trip.completeTrip_of_not_ongoing h]; simp [h]
  · cases h : t.isActive
    · have hf : t.isFinalState = true := by
        rw [Trip.isActive_eq_not_final] at h
        cases hx : t.isFinalState <;> simp_all
      rw [Trip.cancelTrip_of_final hf]
      unfold Trip.isFinalState at hf
      cases hs : t.state <;> simp_all
    · rw [Trip.cancelTrip_of_active h]
      unfold Trip.isActive at h
      cases hs : t.state <;> simp_all

/-! ## C14: the driver id after `assignDriver` -/

theorem Trip.assignDriver_driverId {t : Trip} {driverId : Int} (hd : 0 ≤ driverId)
    (h : (t.assignDriver driverId).1 = true) : (t.assignDriver driverId).2.driverId = driverId := by
  by_cases hs : t.state = TripState.REQUESTED
  · rw [Trip.assignDriver_of_requested hs]
    have : ¬ driverId < 0 := by omega
    simp [Trip.setDriverId, this]
  · rw [Trip.assignDriver_of_not_requested hs] at h
    exact absurd h (by simp)

/-- C14 at the failing input: on a freshly requested trip `assignDriver(-5)` returns
true and moves the trip to ASSIGNED, while `setDriverId` has refused the negative id and
the driver id is still `-1`. -/
theorem assignDriver_negative_id_reports_success :
    ((Trip.mk5 1 2 0 1 5).assignDriver (-5)).1 = true ∧
      ((Trip.mk5 1 2 0 1 5).assignDriver (-5)).2.state = TripState.ASSIGNED ∧
      ((Trip.mk5 1 2 0 1 5).assignDriver (-5)).2.driverId = -1 ∧
      ((Trip.mk5 1 2 0 1 5).assignDriver (-5)).2.driverId ≠ -5 := by
  decide

/-! ## C15: trips in a terminal state -/

/-- C15, amended. Once a trip is in a terminal state (COMPLETED or CANCELLED), the
lifecycle operations `transitionTo`, `assignDriver`, `startTrip`, `completeTrip` and
`cancelTrip` return false and change none of its fields, and so do `setDriverId` with a
negative id and `setDistance` with a distance `<= 0`. `setDriverId(id >= 0)` still
overwrites the driver id (and nothing else), `setDistance(d > 0)` still overwrites the
distance and recomputes the fare (state and driver id stay). -/
theorem terminal_trip_contract (t : Trip) (h : t.isFinalState = true) :
    (∀ s, t.transitionTo s = (false, t)) ∧
    (∀ driverId, t.assignDriver driverId = (false, t)) ∧
    t.startTrip = (false, t) ∧ t.completeTrip = (false, t) ∧ t.cancelTrip = (false, t) ∧
    (∀ driverId, driverId < 0 → t.setDriverId driverId = t) ∧
    (∀ dist, dist ≤ 0 → t.setDistance dist = t) ∧
    (∀ driverId, 0 ≤ driverId → t.setDriverId driverId = { t with driverId := driverId }) ∧
    (∀ dist, 0 < dist →
      t.setDistance dist = { t with distance := dist, fare := Fare.ofDistance dist }) := by
  have hs : t.state = TripState.COMPLETED ∨ t.state = TripState.CANCELLED := by
    unfold Trip.isFinalState at h
    cases hs : t.state <;> simp_all
  refine ⟨fun s => Trip.transitionTo_of_invalid (Trip.isValidTransition_of_final h s), ?_, ?_, ?_,
    Trip.cancelTrip_of_final h, ?_, ?_, ?_, ?_⟩
  · intro d
    exact Trip.assignDriver_of_not_requested (by rcases hs with hs | hs <;> simp [hs]) d
  · exact Trip.startTrip_of_not_assigned (by rcases hs with hs | hs <;> simp [hs])
  · exact Trip.completeTrip_of_not_ongoing (by rcases hs with hs | hs <;> simp [hs])
  · intro d hd
    simp [Trip.setDriverId, hd]
  · intro d hd
    simp [Trip.setDistance, hd]
  · intro d hd
    have : ¬ d < 0 := by omega
    simp [Trip.setDriverId, this]
  · intro d hd
    have : ¬ d ≤ 0 := by omega
    simp [Trip.setDistance, this, Trip.calculateFare]

/-- C15, amended, on a cancelled trip. -/
theorem terminal_trip_contract_witness :
    (∀ s, (Trip.mk5 1 2 0 1 5).cancelTrip.2.transitionTo s =
      (false, (Trip.mk5 1 2 0 1 5).cancelTrip.2)) ∧
    (∀ driverId, (Trip.mk5 1 2 0 1 5).cancelTrip.2.assignDriver driverId =
      (false, (Trip.mk5 1 2 0 1 5).cancelTrip.2)) ∧
    (Trip.mk5 1 2 0 1 5).cancelTrip.2.startTrip = (false, (Trip.mk5 1 2 0 1 5).cancelTrip.2) ∧
    (Trip.mk5 1 2 0 1 5).cancelTrip.2.completeTrip =
      (false, (Trip.mk5 1 2 0 1 5).cancelTrip.2) ∧
    (Trip.mk5 1 2 0 1 5).cancelTrip.2.cancelTrip = (false, (Trip.mk5 1 2 0 1 5).cancelTrip.2) ∧
    (∀ driverId, driverId < 0 →
      (Trip.mk5 1 2 0 1 5).cancelTrip.2.setDriverId driverId =
        (Trip.mk5 1 2 0 1 5).cancelTrip.2) ∧
    (∀ dist, dist ≤ 0 →
      (Trip.mk5 1 2 0 1 5).cancelTrip.2.setDistance dist = (Trip.mk5 1 2 0 1 5).cancelTrip.2) ∧
    (∀ driverId, 0 ≤ driverId →
      (Trip.mk5 1 2 0 1 5).cancelTrip.2.setDriverId driverId =
        { (Trip.mk5 1 2 0 1 5).cancelTrip.2 with driverId := driverId }) ∧
    (∀ dist, 0 < dist →
      (Trip.mk5 1 2 0 1 5).cancelTrip.2.setDistance dist =
        { (Trip.mk5 1 2 0 1 5).cancelTrip.2 with
          distance := dist, fare := Fare.ofDistance dist }) :=
  terminal_trip_contract (Trip.mk5 1 2 0 1 5).cancelTrip.2 (by decide)

/-- C15 as stated fails: on a cancelled trip `setDriverId(9)` changes the driver id from
`-1` to `9`, and `setDistance(3)` changes the distance from `5` to `3`; neither setter
looks at the state. -/
theorem terminal_trip_counterexample :
    (Trip.mk5 1 2 0 1 5).cancelTrip.2.isFinalState = true ∧
      (Trip.mk5 1 2 0 1 5).cancelTrip.2.driverId = -1 ∧
      ((Trip.mk5 1 2 0 1 5).cancelTrip.2.setDriverId 9).driverId = 9 ∧
      (Trip.mk5 1 2 0 1 5).cancelTrip.2.distance = 5 ∧
      ((Trip.mk5 1 2 0 1 5).cancelTrip.2.setDistance 3).distance = 3 := by
  decide

/-! ## Fare bookkeeping

The fare is a `float`; the model keeps it as the expression `Fare.ofDistance distance`
and says nothing about its rounded value. What can be said on the model is which
operations recompute that expression. -/

theorem Trip.mk5_fare (tripId rider pickup dropoff dist : Int) :
    (Trip.mk5 tripId rider pickup dropoff dist).distance = (if dist ≤ 0 then 1 else dist) ∧
      (Trip.mk5 tripId rider pickup dropoff dist).fare =
        Fare.ofDistance (Trip.mk5 tripId rider pickup dropoff dist).distance := by
  unfold Trip.mk5 Trip.calculateFare
  split_ifs <;> simp

theorem Trip.setDistance_fare (t : Trip) (dist : Int)
    (h : t.fare = Fare.ofDistance t.distance) :
    (t.setDistance dist).fare = Fare.ofDistance (t.setDistance dist).distance ∧
      (dist ≤ 0 → t.setDistance dist = t) ∧ (0 < dist → (t.setDistance dist).distance = dist) := by
  unfold Trip.setDistance Trip.calculateFare
  split_ifs with h1
  · exact ⟨h, fun _ => rfl, fun h2 => absurd h2 (by omega)⟩
  · exact ⟨rfl, fun h2 => absurd h2 h1, fun _ => rfl⟩

theorem Trip.transitionTo_fare (t : Trip) (s : TripState) :
    (t.transitionTo s).2.fare = t.fare ∧ (t.transitionTo s).2.distance = t.distance := by
  cases h : t.isValidTransition s
  · rw [Trip.transitionTo_of_invalid h]; exact ⟨rfl, rfl⟩
  · rw [Trip.transitionTo_of_valid h]; exact ⟨rfl, rfl⟩

theorem Trip.cancelTrip_fare (t : Trip) :
    t.cancelTrip.2.fare = t.fare ∧ t.cancelTrip.2.distance = t.distance := by
  cases h : t.isActive
  · have hf : t.isFinalState = true := by
      rw [Trip.isActive_eq_not_final] at h
      cases hx : t.isFinalState <;> simp_all
    rw [Trip.cancelTrip_of_final hf]; exact ⟨rfl, rfl⟩
  · rw [Trip.cancelTrip_of_active h]; exact ⟨rfl, rfl⟩

/-! ## Registry scans -/

theorem find?_append_of_none {α : Type} (p : α → Bool) (l : List α) (x : α)
    (h : ∀ y ∈ l, p y = false) : (l ++ [x]).find? p = if p x then some x else none := by
  induction l with
  | nil => cases hx : p x <;> simp [List.find?, hx]
  | cons y ys ih =>
    have hy : p y = false := h y (List.mem_cons_self _ _)
    rw [List.cons_append, List.find?_cons, hy]
    exact ih (fun z hz => h z (List.mem_cons_of_mem _ hz))

theorem updateFirst_append_of_none {α : Type} (p : α → Bool) (f : α → α) (l : List α) (x : α)
    (h : ∀ y ∈ l, p y = false) (hx : p x = true) :
    updateFirst p f (l ++ [x]) = l ++ [f x] := by
  induction l with
  | nil => simp [updateFirst, hx]
  | cons y ys ih =>
    have hy : p y = false := h y (List.mem_cons_self _ _)
    rw [List.cons_append, updateFirst, hy]
    simp only [Bool.false_eq_true, if_false, List.cons_append, List.cons.injEq, true_and]
    exact ih (fun z hz => h z (List.mem_cons_of_mem _ hz))

theorem updateFirst_of_none {α : Type} (p : α → Bool) (f : α → α) (l : List α)
    (h : ∀ y ∈ l, p y = false) : updateFirst p f l = l := by
  induction l with
  | nil => rfl
  | cons y ys ih =>
    have hy : p y = false := h y (List.mem_cons_self _ _)
    rw [updateFirst, hy]
    simp only [Bool.false_eq_true, if_false, List.cons.injEq, true_and]
    exact ih (fun z hz => h z (List.mem_cons_of_mem _ hz))

theorem length_updateFirst {α : Type} (p : α → Bool) (f : α → α) (l : List α) :
    (updateFirst p f l).length = l.length := by
  induction l with
  | nil => rfl
  | cons y ys ih =>
    rw [updateFirst]
    split_ifs <;> simp [ih]

/-- With pairwise distinct ids, the write through the pointer found for an id is the
write to every entry with that id. -/
theorem updateFirst_driver_eq_map (f : Driver → Driver) (id : Int) :
    ∀ (l : List Driver), (l.map Driver.id).Nodup →
      updateFirst (fun d => d.id == id) f l = l.map (fun d => if d.id = id then f d else d) := by
  intro l
  induction l with
  | nil => intro _; rfl
  | cons y ys ih =>
    intro hnd
    rw [List.map_cons, List.nodup_cons] at hnd
    rw [updateFirst]
    by_cases hy : y.id = id
    · have : ∀ z ∈ ys, z.id ≠ id := by
        intro z hz h
        apply hnd.1
        rw [hy, ← h]
        exact List.mem_map_of_mem _ hz
      simp only [hy, beq_self_eq_true, if_true, List.map_cons, List.cons.injEq, true_and]
      symm
      conv_rhs => rw [← List.map_id ys]
      apply List.map_congr_left
      intro z hz
      simp [this z hz]
    · have hb : (y.id == id) = false := by simpa using hy
      simp only [hb, Bool.false_eq_true, if_false, List.map_cons, hy, List.cons.injEq, true_and]
      exact ih hnd.2

theorem find?_driver_of_mem {l : List Driver} (hnd : (l.map Driver.id).Nodup) {d : Driver}
    (hd : d ∈ l) : l.find? (fun x => x.id == d.id) = some d := by
  induction l with
  | nil => simp at hd
  | cons y ys ih =>
    rw [List.map_cons, List.nodup_cons] at hnd
    rw [List.find?_cons]
    rcases List.mem_cons.1 hd with rfl | hd'
    · simp
    · have hy : y.id ≠ d.id := by
        intro h
        apply hnd.1
        rw [h]
        exact List.mem_map_of_mem _ hd'
      have hb : (y.id == d.id) = false := by simpa using hy
      rw [hb]
      exact ih hnd.2 hd'

/-! ## The scan of `findBestDriver` -/

theorem calculateDispatchScore_congr {e1 e2 : DispatchEngine} (h : e1.city = e2.city)
    (d : Driver) (p a b : Int) :
    e1.calculateDispatchScore d p a b = e2.calculateDispatchScore d p a b := by
  unfold DispatchEngine.calculateDispatchScore
  rw [h]

theorem findBestDriverStep_congr {e1 e2 : DispatchEngine} (h : e1.city = e2.city) (p : Int) :
    findBestDriverStep e1 p = findBestDriverStep e2 p := by
  funext acc d
  unfold findBestDriverStep
  rw [calculateDispatchScore_congr h]

/-- What the scan returns, in terms of the scores alone: either no available driver has
a score below `INT_MAX`, or the result is the first available driver of minimum score,
a score below `INT_MAX`. -/
theorem findBestDriver_scan (e : DispatchEngine) (p : Int)
    (htotal : ∀ d ∈ e.drivers, d.isAvailable = true →
      ∃ s, e.calculateDispatchScore d p DEFAULT_SAME_ZONE_BONUS DEFAULT_CROSS_ZONE_PENALTY
        = some s) :
    ∃ best bs, e.drivers.foldlM (findBestDriverStep e p) (none, INT_MAX) = some (best, bs) ∧
      ((best = none ∧ ∀ d ∈ e.drivers, d.isAvailable = true →
          ∃ s, e.calculateDispatchScore d p DEFAULT_SAME_ZONE_BONUS
            DEFAULT_CROSS_ZONE_PENALTY = some s ∧ INT_MAX ≤ s) ∨
        (∃ d l1 l2, best = some d ∧ e.drivers = l1 ++ d :: l2 ∧ d.isAvailable = true ∧
          e.calculateDispatchScore d p DEFAULT_SAME_ZONE_BONUS DEFAULT_CROSS_ZONE_PENALTY
            = some bs ∧ bs < INT_MAX ∧
          (∀ x ∈ l1, x.isAvailable = true →
            ∃ s, e.calculateDispatchScore x p DEFAULT_SAME_ZONE_BONUS
              DEFAULT_CROSS_ZONE_PENALTY = some s ∧ bs < s) ∧
          (∀ x ∈ l2, x.isAvailable = true →
            ∃ s, e.calculateDispatchScore x p DEFAULT_SAME_ZONE_BONUS
              DEFAULT_CROSS_ZONE_PENALTY = some s ∧ bs ≤ s))) := by
  -- invariant of the scan after the entries `pre`
  let score := fun d => e.calculateDispatchScore d p DEFAULT_SAME_ZONE_BONUS
    DEFAULT_CROSS_ZONE_PENALTY
  let Q : List Driver → Option Driver × Int → Prop := fun pre acc =>
    (acc.1 = none ∧ acc.2 = INT_MAX ∧ ∀ d ∈ pre, d.isAvailable = true →
        ∃ s, score d = some s ∧ INT_MAX ≤ s) ∨
      (∃ d l1 l2, acc.1 = some d ∧ pre = l1 ++ d :: l2 ∧ d.isAvailable = true ∧
        score d = some acc.2 ∧ acc.2 < INT_MAX ∧
        (∀ x ∈ l1, x.isAvailable = true → ∃ s, score x = some s ∧ acc.2 < s) ∧
        (∀ x ∈ l2, x.isAvailable = true → ∃ s, score x = some s ∧ acc.2 ≤ s))
  have hfold := foldlM_option_invariant (findBestDriverStep e p) Q e.drivers []
    (none, INT_MAX) (Or.inl ⟨rfl, rfl, by intro d hd; simp at hd⟩)
    (by
      intro pre r acc hr hq
      unfold findBestDriverStep
      cases hav : r.isAvailable
      · refine ⟨acc, by simp, ?_⟩
        rcases hq with ⟨h1, h2, h3⟩ | ⟨d, l1, l2, h1, h2, h3, h4, h5, h6, h7⟩
        · refine Or.inl ⟨h1, h2, ?_⟩
          intro x hx hxa
          rcases List.mem_append.1 hx with hx | hx
          · exact h3 x hx hxa
          · simp only [List.mem_singleton] at hx
            subst hx
            rw [hav] at hxa; exact Bool.noConfusion hxa
        · refine Or.inr ⟨d, l1, l2 ++ [r], h1, by rw [h2]; simp, h3, h4, h5, h6, ?_⟩
          intro x hx hxa
          rcases List.mem_append.1 hx with hx | hx
          · exact h7 x hx hxa
          · simp only [List.mem_singleton] at hx
            subst hx
            rw [hav] at hxa; exact Bool.noConfusion hxa
      · obtain ⟨s, hs⟩ := htotal r hr hav
        have hs' : score r = some s := hs
        simp only [Bool.not_true, Bool.false_eq_true, if_false, hs, Option.bind_eq_bind,
          Option.some_bind]
        by_cases hlt : s < acc.2
        · refine ⟨(some r, s), by simp [hlt], ?_⟩
          refine Or.inr ⟨r, pre, [], rfl, rfl, hav, hs', ?_, ?_, by intro x hx; simp at hx⟩
          · rcases hq with ⟨-, h2, -⟩ | ⟨d, l1, l2, -, -, -, -, h5, -, -⟩
            · rw [← h2]; exact hlt
            · exact lt_trans hlt h5
          · intro x hx hxa
            rcases hq with ⟨-, h2, h3⟩ | ⟨d, l1, l2, h1, h2, h3, h4, h5, h6, h7⟩
            · obtain ⟨sx, h4, h5⟩ := h3 x hx hxa
              exact ⟨sx, h4, by show s < sx; rw [h2] at hlt; omega⟩
            · rw [h2] at hx
              rcases List.mem_append.1 hx with hx | hx
              · obtain ⟨sx, h8, h9⟩ := h6 x hx hxa
                exact ⟨sx, h8, by show s < sx; omega⟩
              · rcases List.mem_cons.1 hx with hx | hx
                · subst hx
                  exact ⟨acc.2, h4, hlt⟩
                · obtain ⟨sx, h8, h9⟩ := h7 x hx hxa
                  exact ⟨sx, h8, by show s < sx; omega⟩
        · refine ⟨acc, by simp [hlt], ?_⟩
          rcases hq with ⟨h1, h2, h3⟩ | ⟨d, l1, l2, h1, h2, h3, h4, h5, h6, h7⟩
          · refine Or.inl ⟨h1, h2, ?_⟩
            intro x hx hxa
            rcases List.mem_append.1 hx with hx | hx
            · exact h3 x hx hxa
            · simp only [List.mem_singleton] at hx
              subst hx
              exact ⟨s, hs', by rw [h2] at hlt; omega⟩
          · refine Or.inr ⟨d, l1, l2 ++ [r], h1, by rw [h2]; simp, h3, h4, h5, h6, ?_⟩
            intro x hx hxa
            rcases List.mem_append.1 hx with hx | hx
            · exact h7 x hx hxa
            · simp only [List.mem_singleton] at hx
              subst hx
              exact ⟨s, hs', by omega⟩)
  obtain ⟨⟨best, bs⟩, h1, h2⟩ := hfold
  refine ⟨best, bs, h1, ?_⟩
  simp only [List.nil_append] at h2
  rcases h2 with ⟨h3, -, h5⟩ | ⟨d, l1, l2, h3, h4, h5, h6, h7, h8, h9⟩
  · exact Or.inl ⟨h3, h5⟩
  · exact Or.inr ⟨d, l1, l2, h3, h4, h5, h6, h7, h8, h9⟩

/-! ## Distances the engine reads from the city -/

/-- On a well-formed network whose ids are the indices the distance query always
returns, and a value other than `-1` only for a connected pair. -/
theorem getShortestDistance_total {c : City} (hwf : c.WF) (hid : c.IdsAreIndices) (a b : Int) :
    ∃ v, c.getShortestDistance a b = some v ∧ (v ≠ -1 → c.Connected a b) := by
  by_cases h : c.locationExists a = false ∨ c.locationExists b = false ∨ ¬ c.Connected a b
  · exact ⟨-1, (unreachable_report hwf hid h).1, fun hne => absurd rfl hne⟩
  · have hconn : c.Connected a b := by
      by_contra hc; exact h (Or.inr (Or.inr hc))
    have ha : c.locationExists a = true := by
      cases hx : c.locationExists a
      · exact absurd (Or.inl hx) h
      · rfl
    have hb : c.locationExists b = true := by
      cases hx : c.locationExists b
      · exact absurd (Or.inr (Or.inl hx)) h
      · rfl
    obtain ⟨st, hrun, hinv⟩ := dijkstra_total hwf hid ha
    obtain ⟨hb0, hb1⟩ := hid.exists_iff_bounds.1 hb
    obtain ⟨dv, hdv⟩ := readAt_of_bounds (l := st.distances) hb0 (by rw [hinv.len_d]; exact hb1)
    refine ⟨(if dv = INFINITY_DISTANCE then -1 else dv), ?_, fun _ => hconn⟩
    unfold City.getShortestDistance
    rw [hrun]
    simp only [Option.bind_eq_bind, Option.some_bind]
    exact getDistanceTo_of_read hdv hb1

/-- Under the weight bound the distance reported for a connected pair lies between `0`
and the sum of all road weights. -/
theorem shortest_distance_le_sum {c : City} (hwf : c.WF) (hid : c.IdsAreIndices)
    (hsum : c.edgeWeightSum < INT_MAX) {s d : Int} (hconn : c.Connected s d) :
    ∃ dv, c.getShortestDistance s d = some dv ∧ 0 ≤ dv ∧ dv ≤ c.edgeWeightSum := by
  have hINF : INFINITY_DISTANCE = 2147483647 := rfl
  have hMAX : INT_MAX = 2147483647 := rfl
  obtain ⟨d0, hd0⟩ := hconn
  have hs : c.locationExists s = true := by
    clear hsum
    induction hd0 with
    | nil h => exact h
    | snoc w _ _ ih => exact ih
  obtain ⟨st, hrun, hinv, hend⟩ := dijkstra_run hwf hid hsum hs
  obtain ⟨hvis, dv, hdv, -⟩ := dijkstra_final_le hwf hid hsum hinv hend hd0
  have hb := hinv.vis_bound d dv hvis hdv
  have ht := roadSum_le_edgeWeightSum hwf (isVisited st.visited)
  have hfin : dv ≠ INFINITY_DISTANCE := by omega
  have hnn : 0 ≤ dv := (hinv.walk d dv hdv hfin).nonneg hwf
  obtain ⟨-, hd_1⟩ := readAt_bounds hdv
  rw [hinv.len_d] at hd_1
  refine ⟨dv, ?_, hnn, by omega⟩
  unfold City.getShortestDistance
  rw [hrun]
  simp only [Option.bind_eq_bind, Option.some_bind]
  rw [getDistanceTo_of_read hdv hd_1, if_neg hfin]

/-! ## Dispatch scores -/

theorem score_total {e : DispatchEngine} (hwf : e.city.WF) (hid : e.city.IdsAreIndices)
    (d : Driver) (p a b : Int) : ∃ s, e.calculateDispatchScore d p a b = some s := by
  obtain ⟨v, hv, -⟩ := getShortestDistance_total hwf hid d.currentLocation p
  unfold DispatchEngine.calculateDispatchScore
  simp only [hv, Option.bind_eq_bind, Option.some_bind]
  split_ifs <;> exact ⟨_, rfl⟩

theorem connected_of_score_lt {e : DispatchEngine} (hwf : e.city.WF)
    (hid : e.city.IdsAreIndices) {d : Driver} {p a b s : Int}
    (hs : e.calculateDispatchScore d p a b = some s) (hlt : s < INT_MAX) :
    e.city.Connected d.currentLocation p := by
  obtain ⟨v, hv, hconn⟩ := getShortestDistance_total hwf hid d.currentLocation p
  apply hconn
  intro hneg
  unfold DispatchEngine.calculateDispatchScore at hs
  simp only [hv, hneg, Option.bind_eq_bind, Option.some_bind, if_true] at hs
  have : INT_MAX = s := Option.some.inj hs
  omega

theorem score_of_not_connected {e : DispatchEngine} (hwf : e.city.WF)
    (hid : e.city.IdsAreIndices) {d : Driver} {p : Int} (a b : Int)
    (hnc : ¬ e.city.Connected d.currentLocation p) :
    e.calculateDispatchScore d p a b = some INT_MAX := by
  have hv := (unreachable_report hwf hid (Or.inr (Or.inr hnc))).1
  unfold DispatchEngine.calculateDispatchScore
  simp [hv]

/-- Under the weight bound `sum + 20 < INT_MAX` the default score of a driver that
reaches the pickup is the distance minus 10 or plus 20, a value below `INT_MAX`. -/
theorem score_of_connected {e : DispatchEngine} (hwf : e.city.WF)
    (hid : e.city.IdsAreIndices) (hsum : e.city.edgeWeightSum + 20 < INT_MAX) {d : Driver}
    {p : Int} (hconn : e.city.Connected d.currentLocation p) :
    ∃ dv s, e.city.getShortestDistance d.currentLocation p = some dv ∧ 0 ≤ dv ∧
      e.calculateDispatchScore d p DEFAULT_SAME_ZONE_BONUS DEFAULT_CROSS_ZONE_PENALTY = some s ∧
      s = (if d.zoneId = e.city.getZone p then dv - 10 else dv + 20) ∧ s < INT_MAX := by
  have hMAX : INT_MAX = 2147483647 := rfl
  obtain ⟨dv, hdv, h0, h1⟩ := shortest_distance_le_sum hwf hid (by omega) hconn
  have hne : dv ≠ -1 := by omega
  refine ⟨dv, _, hdv, h0, ?_, rfl, ?_⟩
  · unfold DispatchEngine.calculateDispatchScore
    simp only [hdv, hne, Option.bind_eq_bind, Option.some_bind, if_false,
      DEFAULT_SAME_ZONE_BONUS, DEFAULT_CROSS_ZONE_PENALTY]
    split_ifs
    · rw [wrapInt32_of_range (by omega) (by omega)]; rfl
    · rw [wrapInt32_of_range (by omega) (by omega)]; rfl
  · split_ifs <;> omega

/-! ## `findBestDriver` -/

theorem findBestDriver_eq {e : DispatchEngine} {p : Int} {best : Option Driver} {bs : Int}
    (h : e.drivers.foldlM (findBestDriverStep e p) (none, INT_MAX) = some (best, bs)) :
    e.findBestDriver p = some (best, e) := by
  unfold DispatchEngine.findBestDriver
  simp [h]

/-- The result of `findBestDriver` on a well-formed city whose ids are the indices. -/
theorem findBestDriver_spec {e : DispatchEngine} (hwf : e.city.WF)
    (hid : e.city.IdsAreIndices) (p : Int) :
    ∃ best, e.findBestDriver p = some (best, e) ∧
      (∀ e' : DispatchEngine, e'.city = e.city → e'.drivers = e.drivers →
        e'.findBestDriver p = some (best, e')) ∧
      ∀ d, best = some d → d ∈ e.drivers ∧ d.isAvailable = true ∧
        e.city.Connected d.currentLocation p := by
  obtain ⟨best, bs, hfold, hcase⟩ := findBestDriver_scan e p
    (fun d _ _ => score_total hwf hid d p _ _)
  refine ⟨best, findBestDriver_eq hfold, ?_, ?_⟩
  · intro e' hc hd
    have hfold' : e'.drivers.foldlM (findBestDriverStep e' p) (none, INT_MAX) =
        some (best, bs) := by
      rw [hd, findBestDriverStep_congr hc]
      exact hfold
    exact findBestDriver_eq hfold'
  · intro d hd
    rcases hcase with ⟨h1, -⟩ | ⟨d', l1, l2, h1, h2, h3, h4, h5, -, -⟩
    · rw [h1] at hd; exact Option.noConfusion hd
    · rw [h1] at hd
      have : d' = d := Option.some.inj hd
      subst this
      exact ⟨by rw [h2]; simp, h3, connected_of_score_lt hwf hid h4 h5⟩

theorem isAvailable_iff (d : Driver) :
    d.isAvailable = true ↔ d.status = DriverStatus.DRIVER_AVAILABLE := by
  unfold Driver.isAvailable
  simp

theorem shuffledCity_nodes :
    shuffledCity.nodes = [⟨1, -1, [⟨2, 5⟩]⟩, ⟨0, -1, []⟩, ⟨2, -1, [⟨1, 5⟩]⟩] := by
  decide

theorem shuffledCity_reachable : shuffledCity.Reachable :=
  .addRoad 1 2 5 (.addLocation 2 (.addLocation 0 (.addLocation 1 .empty)))

theorem shuffledCity_not_connected : ¬ shuffledCity.Connected 0 2 := by
  have key : ∀ v d, shuffledCity.Walk 0 v d → v = 0 := by
    intro v d h
    induction h with
    | nil _ => rfl
    | snoc w _ hr ih =>
      subst ih
      obtain ⟨n, hn, hid, hmem⟩ := hr
      rw [shuffledCity_nodes] at hn
      simp only [List.mem_cons, List.mem_singleton, List.not_mem_nil, or_false] at hn
      rcases hn with rfl | rfl | rfl
      · simp at hid
      · simp at hmem
      · simp at hid
  rintro ⟨d, hd⟩
  have := key 2 d hd
  omega

theorem shuffledCity_connected : shuffledCity.Connected 1 2 :=
  ⟨0 + 5, City.Walk.snoc 5 (City.Walk.nil (by decide)) (by unfold City.RoadBetween; decide)⟩

theorem foldlM_option_preserves {σ ρ : Type} (step : σ → ρ → Option σ) (P : σ → Prop) :
    ∀ (l : List ρ), (∀ st r st', r ∈ l → P st → step st r = some st' → P st') →
      ∀ st out, P st → l.foldlM step st = some out → P out := by
  intro l
  induction l with
  | nil =>
    intro _ st out h ho
    have : st = out := by simpa using ho
    exact this ▸ h
  | cons r rest ih =>
    intro hstep st out h ho
    rw [List.foldlM_cons] at ho
    cases h1 : step st r with
    | none => rw [h1] at ho; exact Option.noConfusion ho
    | some st1 =>
      rw [h1] at ho
      exact ih (fun s x s' hx => hstep s x s' (List.mem_cons_of_mem _ hx)) st1 out
        (hstep st r st1 (List.mem_cons_self _ _) h h1) ho

/-- Whenever `findBestDriver` returns, the engine is as before and a returned driver is
a registered one with status AVAILABLE. -/
theorem findBestDriver_sound {e : DispatchEngine} {p : Int} {best : Option Driver}
    {e' : DispatchEngine} (h : e.findBestDriver p = some (best, e')) :
    e' = e ∧ ∀ d, best = some d → d ∈ e.drivers ∧ d.status = DriverStatus.DRIVER_AVAILABLE := by
  unfold DispatchEngine.findBestDriver at h
  cases hf : e.drivers.foldlM (findBestDriverStep e p) (none, INT_MAX) with
  | none => rw [hf] at h; exact Option.noConfusion h
  | some acc =>
    rw [hf] at h
    have h2 : (acc.1, e) = (best, e') := Option.some.inj h
    have hb : acc.1 = best := congrArg Prod.fst h2
    have he : e = e' := congrArg Prod.snd h2
    refine ⟨he.symm, ?_⟩
    have hP := foldlM_option_preserves (findBestDriverStep e p)
      (fun a => ∀ d, a.1 = some d → d ∈ e.drivers ∧ d.isAvailable = true) e.drivers
      (by
        intro st r st' hr hst hs d hd
        unfold findBestDriverStep at hs
        cases hav : r.isAvailable with
        | false =>
          simp [hav] at hs
          subst hs
          exact hst d hd
        | true =>
          cases hsc : e.calculateDispatchScore r p DEFAULT_SAME_ZONE_BONUS
              DEFAULT_CROSS_ZONE_PENALTY with
          | none => simp [hav, hsc] at hs
          | some score =>
            simp only [hav, hsc, Bool.not_true, Bool.false_eq_true, if_false, Option.bind_eq_bind,
              Option.some_bind] at hs
            split_ifs at hs
            · have : st' = (some r, score) := (Option.some.inj hs).symm
              subst this
              have : r = d := Option.some.inj hd
              subst this
              exact ⟨hr, hav⟩
            · have : st' = st := (Option.some.inj hs).symm
              subst this
              exact hst d hd)
      (none, INT_MAX) acc (by intro d hd; exact Option.noConfusion hd) hf
    intro d hd
    rw [← hb] at hd
    exact ⟨(hP d hd).1, (isAvailable_iff d).1 (hP d hd).2⟩

/-- C19, amended. `findBestDriver` never returns a driver whose status is not AVAILABLE:
in every engine state, whenever the call returns, the engine after it (drivers, trips,
riders, city, next trip id) is the engine before it and the result is none or a registered
driver with status AVAILABLE. For an engine over a network built through the public
mutators whose i-th node has id `i`, the call returns for every pickup location and a
returned driver has a path to the pickup. -/
theorem findBestDriver_available (e : DispatchEngine) (p : Int) :
    (∀ best e', e.findBestDriver p = some (best, e') →
      e' = e ∧
        ∀ d, best = some d → d ∈ e.drivers ∧ d.status = DriverStatus.DRIVER_AVAILABLE) ∧
    (e.city.Reachable → e.city.IdsAreIndices →
      ∃ best, e.findBestDriver p = some (best, e) ∧
        ∀ d, best = some d → d ∈ e.drivers ∧ d.status = DriverStatus.DRIVER_AVAILABLE ∧
          e.city.Connected d.currentLocation p) := by
  refine ⟨fun best e' h => findBestDriver_sound h, ?_⟩
  intro hc hid
  obtain ⟨best, h1, -, h3⟩ := findBestDriver_spec hc.wf hid p
  refine ⟨best, h1, ?_⟩
  intro d hd
  obtain ⟨h4, h5, h6⟩ := h3 d hd
  exact ⟨h4, (isAvailable_iff d).1 h5, h6⟩

/-- C19, amended, on the two-node network with driver `101` at node `0`, pickup `1`. -/
theorem findBestDriver_available_witness :
    ∃ best, twoNodeEngine.findBestDriver 1 = some (best, twoNodeEngine) ∧
      ∀ d, best = some d → d ∈ twoNodeEngine.drivers ∧
        d.status = DriverStatus.DRIVER_AVAILABLE ∧
        twoNodeEngine.city.Connected d.currentLocation 1 :=
  (findBestDriver_available twoNodeEngine 1).2 twoNodeCity_reachable twoNodeCity_idsAreIndices

/-- C19 as stated fails for "every engine state": on the network whose nodes were
added in the order `1, 0, 2` with the single road `(1, 2, 5)`, node `0` has no road, yet
`findBestDriver(2)` returns the available driver standing at node `0`, because
`dijkstra(0)` relaxes the roads of `nodes[0]`, the node with id `1`. -/
theorem findBestDriver_available_counterexample :
    shuffledCity.Reachable ∧ ¬ shuffledCity.Connected 0 2 ∧
      (((DispatchEngine.mk1 shuffledCity).registerDriver (Driver.mk3 7 0 1)).2.findBestDriver 2).map
        (fun r => r.1) = some (some (Driver.mk3 7 0 1)) ∧
      (Driver.mk3 7 0 1).currentLocation = 0 :=
  ⟨shuffledCity_reachable, shuffledCity_not_connected, by decide, rfl⟩

/-! ## C20: the driver `findBestDriver` selects -/

/-- C20, amended. For an engine over a network built through the public mutators whose
i-th node has id `i` and whose road weights sum to less than `INT_MAX - 20`,
`findBestDriver(p)` returns the AVAILABLE registered driver whose dispatch score is
smallest among the AVAILABLE drivers that can reach `p`; of several with that score it
returns the first in registry order; it returns none exactly when no AVAILABLE driver
has a path to `p`, in particular when `p` is not a node. -/
theorem findBestDriver_minimal (e : DispatchEngine) (p : Int) (hc : e.city.Reachable)
    (hid : e.city.IdsAreIndices) (hsum : e.city.edgeWeightSum + 20 < INT_MAX) :
    ∃ best, e.findBestDriver p = some (best, e) ∧
      (best = none ↔ ∀ d ∈ e.drivers, d.status = DriverStatus.DRIVER_AVAILABLE →
        ¬ e.city.Connected d.currentLocation p) ∧
      (e.city.locationExists p = false → best = none) ∧
      ∀ d, best = some d → ∃ l1 l2 s, e.drivers = l1 ++ d :: l2 ∧
        d.status = DriverStatus.DRIVER_AVAILABLE ∧ e.city.Connected d.currentLocation p ∧
        e.calculateDispatchScore d p DEFAULT_SAME_ZONE_BONUS DEFAULT_CROSS_ZONE_PENALTY
          = some s ∧
        (∀ x ∈ l1, x.status = DriverStatus.DRIVER_AVAILABLE →
          e.city.Connected x.currentLocation p →
          ∃ sx, e.calculateDispatchScore x p DEFAULT_SAME_ZONE_BONUS
            DEFAULT_CROSS_ZONE_PENALTY = some sx ∧ s < sx) ∧
        (∀ x ∈ l2, x.status = DriverStatus.DRIVER_AVAILABLE →
          e.city.Connected x.currentLocation p →
          ∃ sx, e.calculateDispatchScore x p DEFAULT_SAME_ZONE_BONUS
            DEFAULT_CROSS_ZONE_PENALTY = some sx ∧ s ≤ sx) := by
  have hwf := hc.wf
  obtain ⟨best, bs, hfold, hcase⟩ := findBestDriver_scan e p
    (fun d _ _ => score_total hwf hid d p _ _)
  have hnone : best = none ↔ ∀ d ∈ e.drivers, d.status = DriverStatus.DRIVER_AVAILABLE →
      ¬ e.city.Connected d.currentLocation p := by
    constructor
    · intro hb d hd hav hconn
      rcases hcase with ⟨-, h2⟩ | ⟨d', l1, l2, h1, -⟩
      · obtain ⟨s, hs, hle⟩ := h2 d hd ((isAvailable_iff d).2 hav)
        obtain ⟨dv, s', -, -, hs', -, hlt⟩ := score_of_connected hwf hid hsum hconn
        rw [hs] at hs'
        have : s = s' := Option.some.inj hs'
        omega
      · rw [h1] at hb; exact Option.noConfusion hb
    · intro hall
      rcases hcase with ⟨h1, -⟩ | ⟨d', l1, l2, h1, h2, h3, h4, h5, -, -⟩
      · exact h1
      · exact absurd (connected_of_score_lt hwf hid h4 h5)
          (hall d' (by rw [h2]; simp) ((isAvailable_iff d').1 h3))
  refine ⟨best, findBestDriver_eq hfold, hnone, ?_, ?_⟩
  · intro hp
    rw [hnone]
    rintro d - - ⟨w, hw⟩
    have := hw.target_exists hwf
    rw [hp] at this
    exact Bool.noConfusion this
  · intro d hd
    rcases hcase with ⟨h1, -⟩ | ⟨d', l1, l2, h1, h2, h3, h4, h5, h6, h7⟩
    · rw [h1] at hd; exact Option.noConfusion hd
    · rw [h1] at hd
      have : d' = d := Option.some.inj hd
      subst this
      exact ⟨l1, l2, bs, h2, (isAvailable_iff d').1 h3, connected_of_score_lt hwf hid h4 h5, h4,
        fun x hx hav _ => h6 x hx ((isAvailable_iff x).2 hav),
        fun x hx hav _ => h7 x hx ((isAvailable_iff x).2 hav)⟩

/-- C20, amended, on the two-node network with driver `101` at node `0`, pickup `1`. -/
theorem findBestDriver_minimal_witness :
    ∃ best, twoNodeEngine.findBestDriver 1 = some (best, twoNodeEngine) ∧
      (best = none ↔ ∀ d ∈ twoNodeEngine.drivers, d.status = DriverStatus.DRIVER_AVAILABLE →
        ¬ twoNodeEngine.city.Connected d.currentLocation 1) ∧
      (twoNodeEngine.city.locationExists 1 = false → best = none) ∧
      ∀ d, best = some d → ∃ l1 l2 s, twoNodeEngine.drivers = l1 ++ d :: l2 ∧
        d.status = DriverStatus.DRIVER_AVAILABLE ∧
        twoNodeEngine.city.Connected d.currentLocation 1 ∧
        twoNodeEngine.calculateDispatchScore d 1 DEFAULT_SAME_ZONE_BONUS
          DEFAULT_CROSS_ZONE_PENALTY = some s ∧
        (∀ x ∈ l1, x.status = DriverStatus.DRIVER_AVAILABLE →
          twoNodeEngine.city.Connected x.currentLocation 1 →
          ∃ sx, twoNodeEngine.calculateDispatchScore x 1 DEFAULT_SAME_ZONE_BONUS
            DEFAULT_CROSS_ZONE_PENALTY = some sx ∧ s < sx) ∧
        (∀ x ∈ l2, x.status = DriverStatus.DRIVER_AVAILABLE →
          twoNodeEngine.city.Connected x.currentLocation 1 →
          ∃ sx, twoNodeEngine.calculateDispatchScore x 1 DEFAULT_SAME_ZONE_BONUS
            DEFAULT_CROSS_ZONE_PENALTY = some sx ∧ s ≤ sx) :=
  findBestDriver_minimal twoNodeEngine 1 twoNodeCity_reachable twoNodeCity_idsAreIndices
    (by decide)

/-- C20 as stated fails in two ways. Over the network with the single road `0 - 1` of
weight `INT_MAX`, the AVAILABLE driver at node `0` has a path to the pickup `1`, but its
distance is reported as `-1`, its score is `INT_MAX`, and `findBestDriver(1)` returns
none. Over the network whose nodes were added in the order `1, 0, 2` with the single road
`(1, 2, 5)`, no driver has a path to the pickup `2`, yet `findBestDriver(2)` returns the
driver standing at node `0`. -/
theorem findBestDriver_minimal_counterexample :
    (maxWeightCity.Reachable ∧ maxWeightCity.IdsAreIndices ∧
      (Driver.mk3 7 0 1).status = DriverStatus.DRIVER_AVAILABLE ∧
      maxWeightCity.Connected (Driver.mk3 7 0 1).currentLocation 1 ∧
      (((DispatchEngine.mk1 maxWeightCity).registerDriver (Driver.mk3 7 0 1)).2.findBestDriver 1).map
        (fun r => r.1) = some none) ∧
    (shuffledCity.Reachable ∧ ¬ shuffledCity.Connected (Driver.mk3 7 0 1).currentLocation 2 ∧
      (((DispatchEngine.mk1 shuffledCity).registerDriver (Driver.mk3 7 0 1)).2.findBestDriver 2).map
        (fun r => r.1) = some (some (Driver.mk3 7 0 1))) :=
  ⟨⟨maxWeightCity_reachable, maxWeightCity_idsAreIndices, rfl, maxWeightCity_connected,
    by decide⟩, shuffledCity_reachable, shuffledCity_not_connected, by decide⟩

/-! ## C17: a request without a route -/

/-- C17, amended. For an engine over a network built through the public mutators whose
i-th node has id `i`, and every rider whose dropoff is not reachable from its pickup, or
whose pickup or dropoff is not a node, `requestTrip` returns none and leaves the engine
unchanged: no trip is added, the trip count and the next trip id stay the same, and no
driver changes. -/
theorem requestTrip_no_route (e : DispatchEngine) (rider : Rider) (hc : e.city.Reachable)
    (hid : e.city.IdsAreIndices)
    (h : e.city.locationExists rider.pickupLocation = false ∨
      e.city.locationExists rider.dropoffLocation = false ∨
      ¬ e.city.Connected rider.pickupLocation rider.dropoffLocation) :
    e.requestTrip rider = some (none, e) := by
  have hv := (unreachable_report hc.wf hid h).1
  unfold DispatchEngine.requestTrip
  simp [hv]

/-- C17, amended, on the two-node network for a rider whose dropoff `9` is not a
node. -/
theorem requestTrip_no_route_witness :
    twoNodeEngine.requestTrip (Rider.mk3 1 0 9) = some (none, twoNodeEngine) :=
  requestTrip_no_route twoNodeEngine (Rider.mk3 1 0 9) twoNodeCity_reachable
    twoNodeCity_idsAreIndices (Or.inr (Or.inl (by decide)))

/-- C17 as stated fails for "every engine state": on the network whose nodes were
added in the order `1, 0, 2` with the single road `(1, 2, 5)`, node `2` is not reachable
from node `0`, yet `requestTrip` for a rider going from `0` to `2` returns a trip, stores
it and advances the next trip id from `1000` to `1001`. -/
theorem requestTrip_no_route_counterexample :
    shuffledCity.Reachable ∧ ¬ shuffledCity.Connected 0 2 ∧
      ((DispatchEngine.mk1 shuffledCity).requestTrip (Rider.mk3 1 0 2)).map
        (fun r => (r.1.isSome, r.2.trips.length, r.2.nextTripId)) = some (true, 1, 1001) :=
  ⟨shuffledCity_reachable, shuffledCity_not_connected, by decide⟩

/-! ## C18: a request with a route -/

theorem Trip.mk5_fields (tripId rider pickup dropoff dist : Int) :
    (Trip.mk5 tripId rider pickup dropoff dist).id = tripId ∧
    (Trip.mk5 tripId rider pickup dropoff dist).riderId = rider ∧
    (Trip.mk5 tripId rider pickup dropoff dist).driverId = -1 ∧
    (Trip.mk5 tripId rider pickup dropoff dist).state = TripState.REQUESTED := by
  unfold Trip.mk5 Trip.calculateFare
  split_ifs <;> exact ⟨rfl, rfl, rfl, rfl⟩

theorem assignDriverToTrip_of_requested {e : DispatchEngine} {tripId driverId : Int}
    {t : Trip} {d : Driver} (ht : e.findTripById tripId = some t)
    (hd : e.findDriverById driverId = some d) (hav : d.isAvailable = true)
    (hst : t.state = TripState.REQUESTED) :
    e.assignDriverToTrip tripId driverId =
      (true, { e with
        trips := (updateFirst (fun x => x.id == tripId)
          (fun _ => { t.setDriverId driverId with state := TripState.ASSIGNED }) e.trips),
        drivers := (updateFirst (fun x => x.id == driverId)
          (fun x => x.setStatus DriverStatus.DRIVER_ASSIGNED) e.drivers) }) := by
  unfold DispatchEngine.assignDriverToTrip
  simp [ht, hd, DispatchEngine.validateAssignment, hav, Trip.assignDriver_of_requested hst]

theorem engine_startTrip_of_assigned {e : DispatchEngine} {tripId : Int} {t : Trip}
    (ht : e.findTripById tripId = some t) (hst : t.state = TripState.ASSIGNED) :
    e.startTrip tripId =
      (true, { e with
        trips := (updateFirst (fun x => x.id == tripId)
          (fun _ => { t with state := TripState.ONGOING }) e.trips),
        drivers := (updateFirst (fun x => x.id == t.driverId)
          (fun x => x.setStatus DriverStatus.DRIVER_ON_TRIP) e.drivers) }) := by
  unfold DispatchEngine.startTrip
  simp [ht, Trip.startTrip_of_assigned hst]

theorem map_setStatus_twice (id : Int) (a b : DriverStatus) (l : List Driver) :
    (l.map (fun x => if x.id = id then x.setStatus a else x)).map
      (fun x => if x.id = id then x.setStatus b else x) =
    l.map (fun x => if x.id = id then x.setStatus b else x) := by
  rw [List.map_map]
  apply List.map_congr_left
  intro x _
  simp only [Function.comp]
  by_cases h : x.id = id
  · have : (x.setStatus a).id = id := h
    simp [h, Driver.setStatus]
  · simp [h]

theorem map_setStatus_ids (id : Int) (a : DriverStatus) (l : List Driver) :
    (l.map (fun x => if x.id = id then x.setStatus a else x)).map Driver.id =
      l.map Driver.id := by
  rw [List.map_map]
  apply List.map_congr_left
  intro x _
  simp only [Function.comp]
  split_ifs <;> rfl

/-- What `requestTrip` does when a route exists, in terms of what `findBestDriver`
yields. -/
theorem requestTrip_of_route {e : DispatchEngine} {rider : Rider} (hwf : e.city.WF)
    (hid : e.city.IdsAreIndices) (hsum : e.city.edgeWeightSum < INT_MAX)
    (hids : (e.drivers.map Driver.id).Nodup) (hnn : ∀ d ∈ e.drivers, 0 ≤ d.id)
    (hfresh : ∀ t ∈ e.trips, t.id ≠ e.nextTripId)
    (hconn : e.city.Connected rider.pickupLocation rider.dropoffLocation) :
    ∃ best trip e', e.findBestDriver rider.pickupLocation = some (best, e) ∧
      e.requestTrip rider = some (some trip, e') ∧
      e'.trips = e.trips ++ [trip] ∧ trip.id = e.nextTripId ∧ trip.riderId = rider.id ∧
      e'.city = e.city ∧
      (∀ d, best = some d → d ∈ e.drivers ∧ trip.state = TripState.ONGOING ∧
        trip.driverId = d.id ∧
        e'.drivers = e.drivers.map
          (fun x => if x.id = d.id then x.setStatus DriverStatus.DRIVER_ON_TRIP else x)) ∧
      (best = none → trip.state = TripState.REQUESTED ∧ trip.driverId = -1 ∧
        e'.drivers = e.drivers) := by
  obtain ⟨dv, -, hdv, h0, -⟩ := shortest_report hwf hid hsum hconn
  have hne : dv ≠ -1 := by omega
  obtain ⟨best, hbest, hbest', hprop⟩ := findBestDriver_spec hwf hid rider.pickupLocation
  obtain ⟨hf1, hf2, hf3, hf4⟩ := Trip.mk5_fields e.nextTripId rider.id rider.pickupLocation
    rider.dropoffLocation dv
  generalize ht0 : Trip.mk5 e.nextTripId rider.id rider.pickupLocation
    rider.dropoffLocation dv = trip0 at hf1 hf2 hf3 hf4
  have hh : e.handleTripRequest rider dv =
      (trip0, { e with nextTripId := wrapInt32 (e.nextTripId + 1),
                       trips := e.trips ++ [trip0] }) := by
    simp [DispatchEngine.handleTripRequest, DispatchEngine.createTrip, ht0]
  generalize he1 : ({ e with nextTripId := wrapInt32 (e.nextTripId + 1),
                             trips := e.trips ++ [trip0] } : DispatchEngine) = e1 at hh
  have he1c : e1.city = e.city := by rw [← he1]
  have he1d : e1.drivers = e.drivers := by rw [← he1]
  have he1t : e1.trips = e.trips ++ [trip0] := by rw [← he1]
  have hb1 := hbest' e1 he1c he1d
  have hold : ∀ y ∈ e.trips, (fun x : Trip => x.id == trip0.id) y = false := by
    intro y hy
    have := hfresh y hy
    simp only [beq_eq_false_iff_ne, ne_eq]
    rw [hf1]; exact this
  have hslot : ∀ (x : Trip), (e.trips ++ [x])[e.trips.length]? = some x := by
    intro x; simp
  cases hbc : best with
  | none =>
    refine ⟨none, trip0, e1, by rw [← hbc]; exact hbest, ?_, he1t, hf1, hf2, he1c, ?_, ?_⟩
    · unfold DispatchEngine.requestTrip
      simp only [hdv, Option.bind_eq_bind, Option.some_bind, hne, if_false, hh]
      rw [hbc] at hb1
      simp only [hb1, Option.some_bind, he1t, hslot]
      rfl
    · intro d hd; exact Option.noConfusion hd
    · intro _; exact ⟨hf4, hf3, he1d⟩
  | some d =>
    obtain ⟨hdmem, hdav, -⟩ := hprop d hbc
    have hd0 := hnn d hdmem
    -- the assignment
    have hft : e1.findTripById trip0.id = some trip0 := by
      unfold DispatchEngine.findTripById
      rw [he1t, find?_append_of_none _ _ _ hold]
      simp
    have hfd : e1.findDriverById d.id = some d := by
      unfold DispatchEngine.findDriverById
      rw [he1d]
      exact find?_driver_of_mem hids hdmem
    have hassign := assignDriverToTrip_of_requested hft hfd hdav hf4
    have hset : trip0.setDriverId d.id = { trip0 with driverId := d.id } := by
      have : ¬ d.id < 0 := by omega
      simp [Trip.setDriverId, this]
    rw [hset, he1t, updateFirst_append_of_none _ _ _ _ hold (by simp), he1d,
      updateFirst_driver_eq_map _ _ _ hids] at hassign
    generalize he3 : ({ e1 with
        trips := e.trips ++ [{ trip0 with driverId := d.id, state := TripState.ASSIGNED }],
        drivers := e.drivers.map (fun x => if x.id = d.id
          then x.setStatus DriverStatus.DRIVER_ASSIGNED else x) } : DispatchEngine) = e3
      at hassign
    have he3t : e3.trips =
        e.trips ++ [{ trip0 with driverId := d.id, state := TripState.ASSIGNED }] := by
      rw [← he3]
    have he3d : e3.drivers = e.drivers.map (fun x => if x.id = d.id
        then x.setStatus DriverStatus.DRIVER_ASSIGNED else x) := by rw [← he3]
    have he3c : e3.city = e.city := by rw [← he3]; exact he1c
    -- the start
    have hft3 : e3.findTripById trip0.id =
        some { trip0 with driverId := d.id, state := TripState.ASSIGNED } := by
      unfold DispatchEngine.findTripById
      rw [he3t, find?_append_of_none _ _ _ hold]
      simp
    have hstart := engine_startTrip_of_assigned hft3 rfl
    rw [he3t, updateFirst_append_of_none _ _ _ _ hold (by simp), he3d,
      updateFirst_driver_eq_map _ _ _ (by rw [map_setStatus_ids]; exact hids),
      map_setStatus_twice] at hstart
    have h4t : (e3.startTrip trip0.id).2.trips =
        e.trips ++ [{ trip0 with driverId := d.id, state := TripState.ONGOING }] := by
      rw [hstart]
    have h4d : (e3.startTrip trip0.id).2.drivers = e.drivers.map (fun x => if x.id = d.id
        then x.setStatus DriverStatus.DRIVER_ON_TRIP else x) := by
      rw [hstart]
    have h4c : (e3.startTrip trip0.id).2.city = e.city := by
      rw [hstart]; exact he3c
    refine ⟨some d, { trip0 with driverId := d.id, state := TripState.ONGOING },
      (e3.startTrip trip0.id).2, by rw [← hbc]; exact hbest, ?_, h4t, hf1, hf2, h4c, ?_, ?_⟩
    · unfold DispatchEngine.requestTrip
      simp only [hdv, Option.bind_eq_bind, Option.some_bind, hne, if_false, hh]
      rw [hbc] at hb1
      simp only [hb1, Option.some_bind, hassign, h4t, hslot]
      rfl
    · intro d' hd'
      have : d = d' := Option.some.inj hd'
      subst this
      exact ⟨hdmem, rfl, rfl, h4d⟩
    · intro h; exact Option.noConfusion h

/-- C18, amended. For an engine over a network built through the public mutators whose
i-th node has id `i` and whose road weights sum to less than `INT_MAX`, whose registered
drivers have pairwise distinct non-negative ids and in which no stored trip has the id
the next trip gets, and a rider whose dropoff is reachable from its pickup: `requestTrip`
returns a new trip (appended to the registry, with the next id). If
`findBestDriver(pickup)` yields a driver, the trip is in state ONGOING with that driver's
id and that driver's status becomes ON_TRIP while every other driver is unchanged; if it
yields none, the trip is in state REQUESTED with driver id `-1` and no driver changes. -/
theorem requestTrip_contract (e : DispatchEngine) (rider : Rider) (hc : e.city.Reachable)
    (hid : e.city.IdsAreIndices) (hsum : e.city.edgeWeightSum < INT_MAX)
    (hids : (e.drivers.map Driver.id).Nodup) (hnn : ∀ d ∈ e.drivers, 0 ≤ d.id)
    (hfresh : ∀ t ∈ e.trips, t.id ≠ e.nextTripId)
    (hconn : e.city.Connected rider.pickupLocation rider.dropoffLocation) :
    ∃ best trip e', e.findBestDriver rider.pickupLocation = some (best, e) ∧
      e.requestTrip rider = some (some trip, e') ∧
      e'.trips = e.trips ++ [trip] ∧ trip.id = e.nextTripId ∧ trip.riderId = rider.id ∧
      e'.city = e.city ∧
      (∀ d, best = some d → d ∈ e.drivers ∧ trip.state = TripState.ONGOING ∧
        trip.driverId = d.id ∧
        e'.drivers = e.drivers.map
          (fun x => if x.id = d.id then x.setStatus DriverStatus.DRIVER_ON_TRIP else x)) ∧
      (best = none → trip.state = TripState.REQUESTED ∧ trip.driverId = -1 ∧
        e'.drivers = e.drivers) :=
  requestTrip_of_route hc.wf hid hsum hids hnn hfresh hconn

/-- C18, amended, on the two-node network with driver `101` at node `0` and a rider
going from `0` to `1`. -/
theorem requestTrip_contract_witness :
    ∃ best trip e', twoNodeEngine.findBestDriver (Rider.mk3 1 0 1).pickupLocation =
        some (best, twoNodeEngine) ∧
      twoNodeEngine.requestTrip (Rider.mk3 1 0 1) = some (some trip, e') ∧
      e'.trips = twoNodeEngine.trips ++ [trip] ∧ trip.id = twoNodeEngine.nextTripId ∧
      trip.riderId = (Rider.mk3 1 0 1).id ∧ e'.city = twoNodeEngine.city ∧
      (∀ d, best = some d → d ∈ twoNodeEngine.drivers ∧ trip.state = TripState.ONGOING ∧
        trip.driverId = d.id ∧
        e'.drivers = twoNodeEngine.drivers.map
          (fun x => if x.id = d.id then x.setStatus DriverStatus.DRIVER_ON_TRIP else x)) ∧
      (best = none → trip.state = TripState.REQUESTED ∧ trip.driverId = -1 ∧
        e'.drivers = twoNodeEngine.drivers) :=
  requestTrip_contract twoNodeEngine (Rider.mk3 1 0 1) twoNodeCity_reachable
    twoNodeCity_idsAreIndices (by decide) (by decide) (by decide) (by decide)
    twoNodeCity_connected

/-- C18 as stated fails in three ways. Over the network with the single road `0 - 1` of
weight `INT_MAX`, the dropoff `1` is reachable from the pickup `0` but `requestTrip`
returns no trip. Over the network whose nodes were added in the order `1, 0, 2` with the
single road `(1, 2, 5)`, the dropoff `2` is reachable from the pickup `1` but
`requestTrip` returns no trip. And on the two-node engine in which `createTrip` has stored
a trip with id `1000`, the id the next trip gets, `findBestDriver` yields driver `101`,
yet the trip `requestTrip` returns is still REQUESTED with driver id `-1`: the assignment
went to the older trip with the same id, and driver `101` is ON_TRIP. -/
theorem requestTrip_contract_counterexample :
    (maxWeightCity.Connected 0 1 ∧
      (((DispatchEngine.mk1 maxWeightCity).registerDriver (Driver.mk3 7 0 1)).2.requestTrip
        (Rider.mk3 1 0 1)).map (fun r => r.1) = some none) ∧
    (shuffledCity.Connected 1 2 ∧
      (((DispatchEngine.mk1 shuffledCity).registerDriver (Driver.mk3 7 1 1)).2.requestTrip
        (Rider.mk3 1 1 2)).map (fun r => r.1) = some none) ∧
    (twoNodeCity.Connected 0 1 ∧
      ((twoNodeEngine.createTrip (Trip.mk5 1000 9 0 1 7)).2.findBestDriver 0).map
        (fun r => r.1) = some (some (Driver.mk3 101 0 1)) ∧
      ((twoNodeEngine.createTrip (Trip.mk5 1000 9 0 1 7)).2.requestTrip (Rider.mk3 1 0 1)).map
        (fun r => (r.1.map (fun t => (t.state, t.driverId)), r.2.drivers.map Driver.status)) =
        some (some (TripState.REQUESTED, -1), [DriverStatus.DRIVER_ON_TRIP])) :=
  ⟨⟨maxWeightCity_connected, by decide⟩, ⟨shuffledCity_connected, by decide⟩,
    twoNodeCity_connected, by decide, by decide⟩

/-! ## C30: the worked example of `setupCity` -/

theorem sixNodeCity_dijkstra :
    sixNodeCity.dijkstra 0 = some ⟨[0, 5, 10, 8, 12, 18], [-1, 0, 0, 1, 3, 4], 6⟩ := by
  decide

theorem setupCity_dijkstra :
    setupCity.dijkstra 0 = some ⟨[0, 5, 10, 8, 12, 18], [-1, 0, 0, 1, 3, 4], 6⟩ := by
  decide

/-- C30. On the network with nodes `0..5` and roads `(0,1,5)`, `(0,2,10)`, `(1,3,3)`,
`(2,3,7)`, `(3,4,4)`, `(4,5,6)` (with or without the zones `setupCity` sets),
`getShortestDistance(0, 5)` returns `18` and `getShortestPath(0, 5)` returns length `5`
with the path `[0, 1, 3, 4, 5]`. -/
theorem setupCity_shortest_route :
    sixNodeCity.getShortestDistance 0 5 = some 18 ∧
      sixNodeCity.getShortestPath 0 5 = some (5, [0, 1, 3, 4, 5]) ∧
      setupCity.getShortestDistance 0 5 = some 18 ∧
      setupCity.getShortestPath 0 5 = some (5, [0, 1, 3, 4, 5]) := by
  unfold City.getShortestDistance City.getShortestPath
  rw [sixNodeCity_dijkstra, setupCity_dijkstra]
  decide

/-! ## C21: dispatch scores -/

theorem setupCity_reachable : setupCity.Reachable :=
  .setZone 5 3 (.setZone 4 3 (.setZone 3 2 (.setZone 2 2 (.setZone 1 1
    (.setZone 0 1 sixNodeCity_reachable)))))

theorem setupCity_idsAreIndices : setupCity.IdsAreIndices := by decide

theorem setupCity_connected : setupCity.Connected 0 1 :=
  ⟨0 + 5, City.Walk.snoc 5 (City.Walk.nil (by decide)) (by unfold City.RoadBetween; decide)⟩

theorem nearMaxCity_connected : nearMaxCity.Connected 0 1 :=
  ⟨0 + 2147483646, City.Walk.snoc 2147483646 (City.Walk.nil (by decide))
    (by unfold City.RoadBetween; decide)⟩

/-- C21, amended. For an engine over a network built through the public mutators whose
i-th node has id `i` and whose road weights sum to less than `INT_MAX - 20`: the dispatch
score of a driver that can reach the pickup `p` is
`getShortestDistance(driver.location, p) - 10` when the driver's zone tag equals
`getZone(p)` and `getShortestDistance(driver.location, p) + 20` otherwise, and it is
`INT_MAX` when the driver cannot reach `p`. On the engine of `main` over the six-node
network this gives `-5` for the zone-1 driver at node `0` and `27` (distance `7` plus
`20`) for the zone-3 driver at node `4` with pickup at node `1`, and the zone-1 driver is
selected. -/
theorem dispatch_score_contract :
    (∀ (e : DispatchEngine) (d : Driver) (p : Int), e.city.Reachable → e.city.IdsAreIndices →
      e.city.edgeWeightSum + 20 < INT_MAX →
      (e.city.Connected d.currentLocation p →
        ∃ dv, e.city.getShortestDistance d.currentLocation p = some dv ∧ 0 ≤ dv ∧
          e.calculateDispatchScore d p DEFAULT_SAME_ZONE_BONUS DEFAULT_CROSS_ZONE_PENALTY =
            some (if d.zoneId = e.city.getZone p then dv - 10 else dv + 20)) ∧
      (¬ e.city.Connected d.currentLocation p →
        e.calculateDispatchScore d p DEFAULT_SAME_ZONE_BONUS DEFAULT_CROSS_ZONE_PENALTY =
          some INT_MAX)) ∧
    (setupCity.getShortestDistance 0 1 = some 5 ∧
      mainEngine.calculateDispatchScore (Driver.mk3 101 0 1) 1 DEFAULT_SAME_ZONE_BONUS
        DEFAULT_CROSS_ZONE_PENALTY = some (-5) ∧
      setupCity.getShortestDistance 4 1 = some 7 ∧
      mainEngine.calculateDispatchScore (Driver.mk3 103 4 3) 1 DEFAULT_SAME_ZONE_BONUS
        DEFAULT_CROSS_ZONE_PENALTY = some 27 ∧
      mainEngine.findBestDriver 1 = some (some (Driver.mk3 101 0 1), mainEngine)) := by
  refine ⟨?_, by decide⟩
  intro e d p hc hid hsum
  refine ⟨fun hconn => ?_, fun hnc => score_of_not_connected hc.wf hid _ _ hnc⟩
  obtain ⟨dv, s, h1, h2, h3, h4, -⟩ := score_of_connected hc.wf hid hsum hconn
  exact ⟨dv, h1, h2, by rw [h3, h4]⟩

/-- C21, amended: the general part applied to the zone-1 driver at node `0` of the
engine of `main`, pickup `1`. -/
theorem dispatch_score_contract_witness :
    ∃ dv, mainEngine.city.getShortestDistance (Driver.mk3 101 0 1).currentLocation 1 = some dv ∧
      0 ≤ dv ∧
      mainEngine.calculateDispatchScore (Driver.mk3 101 0 1) 1 DEFAULT_SAME_ZONE_BONUS
        DEFAULT_CROSS_ZONE_PENALTY =
        some (if (Driver.mk3 101 0 1).zoneId = mainEngine.city.getZone 1 then dv - 10
          else dv + 20) :=
  (dispatch_score_contract.1 mainEngine (Driver.mk3 101 0 1) 1 setupCity_reachable
    setupCity_idsAreIndices (by decide)).1 setupCity_connected

/-- C21 as stated fails. On the six-node network the zone-3 driver at node `4` is `7`
away from the pickup `1` (roads `4 - 3` and `3 - 1`), so its score is `27`, not `33`.
With a road of weight `INT_MAX - 1` the reported distance plus `20` does not fit an
`int`, and the score is not the distance plus `20`. With a road of weight `INT_MAX` a
driver that can reach the pickup gets the score `INT_MAX`. With the nodes added in the
order `1, 0, 2` a driver that cannot reach the pickup gets a score other than
`INT_MAX`. -/
theorem dispatch_score_contract_counterexample :
    (mainEngine.calculateDispatchScore (Driver.mk3 103 4 3) 1 DEFAULT_SAME_ZONE_BONUS
        DEFAULT_CROSS_ZONE_PENALTY = some 27 ∧ (27 : Int) ≠ 33) ∧
    (nearMaxCity.Connected 0 1 ∧ nearMaxCity.getShortestDistance 0 1 = some 2147483646 ∧
      (DispatchEngine.mk1 nearMaxCity).calculateDispatchScore (Driver.mk3 7 0 1) 1
        DEFAULT_SAME_ZONE_BONUS DEFAULT_CROSS_ZONE_PENALTY = some (-2147483630)) ∧
    (maxWeightCity.Connected 0 1 ∧ maxWeightCity.getShortestDistance 0 1 = some (-1) ∧
      (DispatchEngine.mk1 maxWeightCity).calculateDispatchScore (Driver.mk3 7 0 1) 1
        DEFAULT_SAME_ZONE_BONUS DEFAULT_CROSS_ZONE_PENALTY = some INT_MAX) ∧
    (¬ shuffledCity.Connected 0 2 ∧
      (DispatchEngine.mk1 shuffledCity).calculateDispatchScore (Driver.mk3 7 0 1) 2
        DEFAULT_SAME_ZONE_BONUS DEFAULT_CROSS_ZONE_PENALTY = some 25) :=
  ⟨⟨by decide, by decide⟩, ⟨nearMaxCity_connected, by decide, by decide⟩,
    ⟨maxWeightCity_connected, by decide, by decide⟩, shuffledCity_not_connected, by decide⟩

/-! ## Writes through a pointer found by id -/

theorem updateFirst_const_of_find {α : Type} (p : α → Bool) (l : List α) {x : α}
    (h : l.find? p = some x) : updateFirst p (fun _ => x) l = l := by
  induction l with
  | nil => rfl
  | cons y ys ih =>
    rw [List.find?_cons] at h
    rw [updateFirst]
    cases hy : p y with
    | true =>
      rw [hy] at h
      have : y = x := Option.some.inj h
      simp [this]
    | false =>
      rw [hy] at h
      simp [ih h]

theorem find?_updateFirst {α : Type} (p : α → Bool) (f : α → α)
    (hf : ∀ x, p x = true → p (f x) = true) (l : List α) :
    (updateFirst p f l).find? p = (l.find? p).map f := by
  induction l with
  | nil => rfl
  | cons y ys ih =>
    rw [updateFirst, List.find?_cons]
    cases hy : p y with
    | true => simp [List.find?_cons, hf y hy]
    | false => simp [List.find?_cons, hy, ih]

theorem find?_id_eq {α : Type} (key : α → Int) (k : Int) {l : List α} {x : α}
    (h : l.find? (fun y => key y == k) = some x) : key x = k := by
  have := List.find?_some h
  simpa using this

theorem Driver.setStatus_id (d : Driver) (s : DriverStatus) : (d.setStatus s).id = d.id := rfl

theorem Driver.setCurrentLocation_id (d : Driver) (loc : Int) :
    (d.setCurrentLocation loc).id = d.id := by
  unfold Driver.setCurrentLocation
  split_ifs <;> rfl

theorem Driver.setCurrentLocation_status (d : Driver) (loc : Int) :
    (d.setCurrentLocation loc).status = d.status := by
  unfold Driver.setCurrentLocation
  split_ifs <;> rfl

/-! ## The engine's lifecycle calls, case by case -/

theorem engine_startTrip_of_missing {e : DispatchEngine} {tripId : Int}
    (ht : e.findTripById tripId = none) : e.startTrip tripId = (false, e) := by
  unfold DispatchEngine.startTrip
  simp [ht]

theorem engine_startTrip_of_not_assigned {e : DispatchEngine} {tripId : Int} {t : Trip}
    (ht : e.findTripById tripId = some t) (hst : t.state ≠ TripState.ASSIGNED) :
    e.startTrip tripId = (false, e) := by
  unfold DispatchEngine.startTrip
  simp only [ht, Trip.startTrip_of_not_assigned hst, Bool.false_eq_true, if_false]
  rw [updateFirst_const_of_find _ _ ht]

theorem engine_completeTrip_of_missing {e : DispatchEngine} {tripId : Int}
    (ht : e.findTripById tripId = none) : e.completeTrip tripId = (false, e) := by
  unfold DispatchEngine.completeTrip
  simp [ht]

theorem engine_completeTrip_of_not_ongoing {e : DispatchEngine} {tripId : Int} {t : Trip}
    (ht : e.findTripById tripId = some t) (hst : t.state ≠ TripState.ONGOING) :
    e.completeTrip tripId = (false, e) := by
  unfold DispatchEngine.completeTrip
  simp only [ht, Trip.completeTrip_of_not_ongoing hst, Bool.false_eq_true, if_false]
  rw [updateFirst_const_of_find _ _ ht]

theorem engine_completeTrip_of_ongoing {e : DispatchEngine} {tripId : Int} {t : Trip}
    (ht : e.findTripById tripId = some t) (hst : t.state = TripState.ONGOING) :
    e.completeTrip tripId =
      (true, { e with
        trips := (updateFirst (fun x => x.id == tripId)
          (fun _ => { t with state := TripState.COMPLETED }) e.trips),
        drivers := (updateFirst (fun x => x.id == t.driverId)
          (fun x => (x.setStatus DriverStatus.DRIVER_AVAILABLE).setCurrentLocation
            t.dropoffLocation) e.drivers),
        riders := (updateFirst (fun x => x.id == t.riderId)
          (fun x => x.setActiveTripStatus false) e.riders) }) := by
  unfold DispatchEngine.completeTrip
  simp [ht, Trip.completeTrip_of_ongoing hst]

theorem engine_cancelTrip_of_missing {e : DispatchEngine} {tripId : Int}
    (ht : e.findTripById tripId = none) : e.cancelTrip tripId = (false, e) := by
  unfold DispatchEngine.cancelTrip
  simp [ht]

theorem engine_cancelTrip_of_final {e : DispatchEngine} {tripId : Int} {t : Trip}
    (ht : e.findTripById tripId = some t) (hst : t.isFinalState = true) :
    e.cancelTrip tripId = (false, e) := by
  unfold DispatchEngine.cancelTrip
  simp only [ht, Trip.cancelTrip_of_final hst, Bool.false_eq_true, if_false]
  rw [updateFirst_const_of_find _ _ ht]

theorem engine_cancelTrip_of_active {e : DispatchEngine} {tripId : Int} {t : Trip}
    (ht : e.findTripById tripId = some t) (hst : t.isActive = true) :
    e.cancelTrip tripId =
      (true, { e with
        trips := (updateFirst (fun x => x.id == tripId)
          (fun _ => { t with state := TripState.CANCELLED }) e.trips),
        drivers := (if t.driverId ≠ -1 then updateFirst (fun x => x.id == t.driverId)
          (fun x => x.setStatus DriverStatus.DRIVER_AVAILABLE) e.drivers else e.drivers),
        riders := (updateFirst (fun x => x.id == t.riderId)
          (fun x => x.setActiveTripStatus false) e.riders) }) := by
  unfold DispatchEngine.cancelTrip
  simp only [ht, Trip.cancelTrip_of_active hst, if_true]
  split_ifs <;> rfl

theorem Trip.isFinalState_or_isActive (t : Trip) : t.isFinalState = true ∨ t.isActive = true := by
  rw [Trip.isActive_eq_not_final]
  cases t.isFinalState <;> simp

/-! ## C25: a lifecycle call of the engine that fails -/

/-- C25. Whenever `startTrip`, `completeTrip` or `cancelTrip` of the engine returns false
the engine after the call is the engine before it: no trip, driver or rider record
changes. The call returns false when no trip has the given id, and for an existing trip
exactly when its state does not allow the call (`startTrip` outside ASSIGNED,
`completeTrip` outside ONGOING, `cancelTrip` on a COMPLETED or CANCELLED trip); in
particular `cancelTrip` on a COMPLETED trip returns false and leaves the trip COMPLETED
and every driver as it was. -/
theorem failed_lifecycle_call_keeps_engine (e : DispatchEngine) (tripId : Int) :
    ((e.startTrip tripId).1 = false → (e.startTrip tripId).2 = e) ∧
    ((e.completeTrip tripId).1 = false → (e.completeTrip tripId).2 = e) ∧
    ((e.cancelTrip tripId).1 = false → (e.cancelTrip tripId).2 = e) ∧
    (e.findTripById tripId = none →
      (e.startTrip tripId).1 = false ∧ (e.completeTrip tripId).1 = false ∧
        (e.cancelTrip tripId).1 = false) ∧
    (∀ t, e.findTripById tripId = some t →
      ((e.startTrip tripId).1 = false ↔ t.state ≠ TripState.ASSIGNED) ∧
      ((e.completeTrip tripId).1 = false ↔ t.state ≠ TripState.ONGOING) ∧
      ((e.cancelTrip tripId).1 = false ↔
        (t.state = TripState.COMPLETED ∨ t.state = TripState.CANCELLED))) ∧
    (∀ t, e.findTripById tripId = some t → t.state = TripState.COMPLETED →
      e.cancelTrip tripId = (false, e)) := by
  have hfin : ∀ t : Trip, t.isFinalState = true ↔
      (t.state = TripState.COMPLETED ∨ t.state = TripState.CANCELLED) := by
    intro t
    unfold Trip.isFinalState
    cases t.state <;> simp
  refine ⟨?_, ?_, ?_, ?_, ?_, ?_⟩
  · intro h
    cases ht : e.findTripById tripId with
    | none => rw [engine_startTrip_of_missing ht]
    | some t =>
      by_cases hst : t.state = TripState.ASSIGNED
      · rw [engine_startTrip_of_assigned ht hst] at h
        exact absurd h (by simp)
      · rw [engine_startTrip_of_not_assigned ht hst]
  · intro h
    cases ht : e.findTripById tripId with
    | none => rw [engine_completeTrip_of_missing ht]
    | some t =>
      by_cases hst : t.state = TripState.ONGOING
      · rw [engine_completeTrip_of_ongoing ht hst] at h
        exact absurd h (by simp)
      · rw [engine_completeTrip_of_not_ongoing ht hst]
  · intro h
    cases ht : e.findTripById tripId with
    | none => rw [engine_cancelTrip_of_missing ht]
    | some t =>
      rcases t.isFinalState_or_isActive with hst | hst
      · rw [engine_cancelTrip_of_final ht hst]
      · rw [engine_cancelTrip_of_active ht hst] at h
        exact absurd h (by simp)
  · intro ht
    rw [engine_startTrip_of_missing ht, engine_completeTrip_of_missing ht,
      engine_cancelTrip_of_missing ht]
    exact ⟨rfl, rfl, rfl⟩
  · intro t ht
    refine ⟨?_, ?_, ?_⟩
    · by_cases hst : t.state = TripState.ASSIGNED
      · rw [engine_startTrip_of_assigned ht hst]; simp [hst]
      · rw [engine_startTrip_of_not_assigned ht hst]; simp [hst]
    · by_cases hst : t.state = TripState.ONGOING
      · rw [engine_completeTrip_of_ongoing ht hst]; simp [hst]
      · rw [engine_completeTrip_of_not_ongoing ht hst]; simp [hst]
    · rw [← hfin]
      rcases t.isFinalState_or_isActive with hst | hst
      · rw [engine_cancelTrip_of_final ht hst]; simp [hst]
      · rw [engine_cancelTrip_of_active ht hst]
        rw [Trip.isActive_eq_not_final] at hst
        cases hx : t.isFinalState <;> simp_all
  · intro t ht hst
    exact engine_cancelTrip_of_final ht ((hfin t).2 (Or.inl hst))

/-! ## C23: completing a trip -/

/-- C23, amended. After `DispatchEngine::completeTrip(tripId)` returns true, the trip
found for `tripId` (which was ONGOING) is COMPLETED and otherwise as before; the driver
found for the trip's driver id, if one is registered, has status AVAILABLE and, provided
the trip's dropoff location is not negative, current location equal to the dropoff
location (`setCurrentLocation` refuses a negative location and the driver stays where it
was); the rider found for the trip's rider id, if the engine holds one, has its
active-trip flag false. -/
theorem completeTrip_contract (e : DispatchEngine) (tripId : Int)
    (h : (e.completeTrip tripId).1 = true) :
    ∃ t, e.findTripById tripId = some t ∧ t.state = TripState.ONGOING ∧
      (e.completeTrip tripId).2.findTripById tripId =
        some { t with state := TripState.COMPLETED } ∧
      (∀ d, e.findDriverById t.driverId = some d →
        ∃ d', (e.completeTrip tripId).2.findDriverById t.driverId = some d' ∧
          d'.status = DriverStatus.DRIVER_AVAILABLE ∧
          (0 ≤ t.dropoffLocation → d'.currentLocation = t.dropoffLocation) ∧
          (t.dropoffLocation < 0 → d'.currentLocation = d.currentLocation)) ∧
      (e.findDriverById t.driverId = none →
        (e.completeTrip tripId).2.drivers = e.drivers) ∧
      (∀ r, (e.completeTrip tripId).2.findRiderById t.riderId = some r →
        r.hasActiveTrip = false) := by
  cases ht : e.findTripById tripId with
  | none => rw [engine_completeTrip_of_missing ht] at h; exact absurd h (by simp)
  | some t =>
    by_cases hst : t.state = TripState.ONGOING
    · have hid : t.id = tripId := find?_id_eq Trip.id tripId ht
      refine ⟨t, rfl, hst, ?_, ?_, ?_, ?_⟩
      · rw [engine_completeTrip_of_ongoing ht hst]
        unfold DispatchEngine.findTripById at ht ⊢
        show (updateFirst _ _ e.trips).find? _ = _
        rw [find?_updateFirst _ _ (fun _ _ => by simp [hid]), ht]
        rfl
      · intro d hd
        rw [engine_completeTrip_of_ongoing ht hst]
        unfold DispatchEngine.findDriverById at hd ⊢
        refine ⟨(d.setStatus DriverStatus.DRIVER_AVAILABLE).setCurrentLocation
          t.dropoffLocation, ?_, ?_, ?_, ?_⟩
        · show (updateFirst _ _ e.drivers).find? _ = _
          rw [find?_updateFirst _ _ (fun x hx => by
            simpa [Driver.setCurrentLocation_id, Driver.setStatus_id] using hx), hd]
          rfl
        · rw [Driver.setCurrentLocation_status]; rfl
        · intro h0
          have : ¬ t.dropoffLocation < 0 := by omega
          simp [Driver.setCurrentLocation, this]
        · intro h0
          simp [Driver.setCurrentLocation, h0, Driver.setStatus]
      · intro hd
        rw [engine_completeTrip_of_ongoing ht hst]
        unfold DispatchEngine.findDriverById at hd
        show updateFirst _ _ e.drivers = e.drivers
        apply updateFirst_of_none
        intro y hy
        have := List.find?_eq_none.1 hd y hy
        simpa using this
      · intro r hr
        rw [engine_completeTrip_of_ongoing ht hst] at hr
        unfold DispatchEngine.findRiderById at hr
        have hr' : (updateFirst (fun x : Rider => x.id == t.riderId)
            (fun x => x.setActiveTripStatus false) e.riders).find?
            (fun x => x.id == t.riderId) = some r := hr
        rw [find?_updateFirst _ _ (fun x hx => by simpa [Rider.setActiveTripStatus] using hx)]
          at hr'
        cases hf : e.riders.find? (fun x => x.id == t.riderId) with
        | none => rw [hf] at hr'; exact absurd hr' (by simp)
        | some r0 =>
          rw [hf] at hr'
          have : r0.setActiveTripStatus false = r := Option.some.inj hr'
          rw [← this]; rfl
    · rw [engine_completeTrip_of_not_ongoing ht hst] at h
      exact absurd h (by simp)

/-- C23, amended, on the two-node engine whose trip `1000` is ONGOING with driver
`101`. -/
theorem completeTrip_contract_witness :
    ∃ t, ongoingEngine.findTripById 1000 = some t ∧ t.state = TripState.ONGOING ∧
      (ongoingEngine.completeTrip 1000).2.findTripById 1000 =
        some { t with state := TripState.COMPLETED } ∧
      (∀ d, ongoingEngine.findDriverById t.driverId = some d →
        ∃ d', (ongoingEngine.completeTrip 1000).2.findDriverById t.driverId = some d' ∧
          d'.status = DriverStatus.DRIVER_AVAILABLE ∧
          (0 ≤ t.dropoffLocation → d'.currentLocation = t.dropoffLocation) ∧
          (t.dropoffLocation < 0 → d'.currentLocation = d.currentLocation)) ∧
      (ongoingEngine.findDriverById t.driverId = none →
        (ongoingEngine.completeTrip 1000).2.drivers = ongoingEngine.drivers) ∧
      (∀ r, (ongoingEngine.completeTrip 1000).2.findRiderById t.riderId = some r →
        r.hasActiveTrip = false) :=
  completeTrip_contract ongoingEngine 1000 (by decide)

/-- C23 as stated fails: for the ONGOING trip `1000` with dropoff location `-3` and
driver `101`, `completeTrip(1000)` returns true and the trip is COMPLETED, but driver
`101` is still at node `0`, not at the dropoff location. -/
theorem completeTrip_contract_counterexample :
    strayTripEngine.findTripById 1000 =
        some { Trip.mk5 1000 1 0 (-3) 7 with driverId := 101, state := TripState.ONGOING } ∧
      (strayTripEngine.completeTrip 1000).1 = true ∧
      ((strayTripEngine.completeTrip 1000).2.findTripById 1000).map
        (fun t => (t.state, t.driverId, t.dropoffLocation)) =
        some (TripState.COMPLETED, 101, -3) ∧
      ((strayTripEngine.completeTrip 1000).2.findDriverById 101).map
        (fun d => (d.currentLocation, d.status)) =
        some (0, DriverStatus.DRIVER_AVAILABLE) := by
  decide

/-! ## C24: cancelling a trip -/

/-- C24, amended. After `DispatchEngine::cancelTrip(tripId)` returns true, the trip found
for `tripId` is CANCELLED and otherwise as before. If the trip names a driver (driver id
other than `-1`) and a driver with that id is registered, that driver has status
AVAILABLE and keeps its location, id and zone. If no driver with the trip's driver id is
registered, or the trip names no driver (driver id `-1`), the driver registry is
unchanged. -/
theorem cancelTrip_contract (e : DispatchEngine) (tripId : Int)
    (h : (e.cancelTrip tripId).1 = true) :
    ∃ t, e.findTripById tripId = some t ∧
      (e.cancelTrip tripId).2.findTripById tripId =
        some { t with state := TripState.CANCELLED } ∧
      (t.driverId ≠ -1 → ∀ d, e.findDriverById t.driverId = some d →
        ∃ d', (e.cancelTrip tripId).2.findDriverById t.driverId = some d' ∧
          d'.status = DriverStatus.DRIVER_AVAILABLE ∧
          d'.currentLocation = d.currentLocation ∧ d'.id = d.id ∧ d'.zoneId = d.zoneId) ∧
      (e.findDriverById t.driverId = none → (e.cancelTrip tripId).2.drivers = e.drivers) ∧
      (t.driverId = -1 → (e.cancelTrip tripId).2.drivers = e.drivers) := by
  cases ht : e.findTripById tripId with
  | none => rw [engine_cancelTrip_of_missing ht] at h; exact absurd h (by simp)
  | some t =>
    rcases t.isFinalState_or_isActive with hst | hst
    · rw [engine_cancelTrip_of_final ht hst] at h
      exact absurd h (by simp)
    · have hid : t.id = tripId := find?_id_eq Trip.id tripId ht
      refine ⟨t, rfl, ?_, ?_, ?_, ?_⟩
      · rw [engine_cancelTrip_of_active ht hst]
        unfold DispatchEngine.findTripById at ht ⊢
        show (updateFirst _ _ e.trips).find? _ = _
        rw [find?_updateFirst _ _ (fun _ _ => by simp [hid]), ht]
        rfl
      · intro hne d hd
        rw [engine_cancelTrip_of_active ht hst]
        unfold DispatchEngine.findDriverById at hd ⊢
        refine ⟨d.setStatus DriverStatus.DRIVER_AVAILABLE, ?_, rfl, rfl, rfl, rfl⟩
        show (if t.driverId ≠ -1 then updateFirst _ _ e.drivers else e.drivers).find? _ = _
        rw [if_pos hne, find?_updateFirst _ _ (fun x hx => by
          simpa [Driver.setStatus_id] using hx), hd]
        rfl
      · intro hd
        rw [engine_cancelTrip_of_active ht hst]
        show (if t.driverId ≠ -1 then updateFirst _ _ e.drivers else e.drivers) = _
        split_ifs
        · apply updateFirst_of_none
          intro y hy
          unfold DispatchEngine.findDriverById at hd
          have := List.find?_eq_none.1 hd y hy
          simpa using this
        · rfl
      · intro heq
        rw [engine_cancelTrip_of_active ht hst]
        show (if t.driverId ≠ -1 then updateFirst _ _ e.drivers else e.drivers) = _
        rw [if_neg (by simp [heq])]

/-- C24, amended, on the two-node engine whose trip `1000` is ONGOING with driver
`101`. -/
theorem cancelTrip_contract_witness :
    ∃ t, ongoingEngine.findTripById 1000 = some t ∧
      (ongoingEngine.cancelTrip 1000).2.findTripById 1000 =
        some { t with state := TripState.CANCELLED } ∧
      (t.driverId ≠ -1 → ∀ d, ongoingEngine.findDriverById t.driverId = some d →
        ∃ d', (ongoingEngine.cancelTrip 1000).2.findDriverById t.driverId = some d' ∧
          d'.status = DriverStatus.DRIVER_AVAILABLE ∧
          d'.currentLocation = d.currentLocation ∧ d'.id = d.id ∧ d'.zoneId = d.zoneId) ∧
      (ongoingEngine.findDriverById t.driverId = none →
        (ongoingEngine.cancelTrip 1000).2.drivers = ongoingEngine.drivers) ∧
      (t.driverId = -1 →
        (ongoingEngine.cancelTrip 1000).2.drivers = ongoingEngine.drivers) :=
  cancelTrip_contract ongoingEngine 1000 (by decide)

/-- C24 as stated fails: on the two-node engine whose trip `1000` is ONGOING with driver
`101` (status ON_TRIP), `removeDriver(101)` takes the driver out of the registry; then
`cancelTrip(1000)` returns true, the trip is CANCELLED and still names driver `101`, but
no driver with id `101` is found and no driver has been set to AVAILABLE. -/
theorem cancelTrip_contract_counterexample :
    servedEngine.findDriverById 101 = some ⟨101, 0, 1, DriverStatus.DRIVER_ON_TRIP⟩ ∧
      (servedEngine.removeDriver 101).1 = true ∧
      ((servedEngine.removeDriver 101).2.findTripById 1000).map
        (fun t => (t.state, t.driverId)) = some (TripState.ONGOING, 101) ∧
      (servedEngine.removeDriver 101).2.findDriverById 101 = none ∧
      ((servedEngine.removeDriver 101).2.cancelTrip 1000).1 = true ∧
      (((servedEngine.removeDriver 101).2.cancelTrip 1000).2.findTripById 1000).map
        (fun t => (t.state, t.driverId)) = some (TripState.CANCELLED, 101) ∧
      ((servedEngine.removeDriver 101).2.cancelTrip 1000).2.findDriverById 101 = none ∧
      ((servedEngine.removeDriver 101).2.cancelTrip 1000).2.drivers = [] := by
  decide

/-! ## C22: assigning a driver to a trip -/

theorem assignDriverToTrip_of_invalid {e : DispatchEngine} {tripId driverId : Int}
    (h : DispatchEngine.validateAssignment (e.findTripById tripId)
      (e.findDriverById driverId) = false) :
    e.assignDriverToTrip tripId driverId = (false, e) := by
  unfold DispatchEngine.assignDriverToTrip
  simp [h]

theorem assignDriverToTrip_of_not_requested {e : DispatchEngine} {tripId driverId : Int}
    {t : Trip} (ht : e.findTripById tripId = some t) (hst : t.state ≠ TripState.REQUESTED) :
    e.assignDriverToTrip tripId driverId = (false, e) := by
  cases hv : DispatchEngine.validateAssignment (e.findTripById tripId)
      (e.findDriverById driverId) with
  | false => exact assignDriverToTrip_of_invalid hv
  | true =>
    unfold DispatchEngine.assignDriverToTrip
    simp only [hv, Bool.not_true, Bool.false_eq_true, if_false, ht,
      Trip.assignDriver_of_not_requested hst]
    rw [updateFirst_const_of_find _ _ ht]
    split_ifs <;> rfl

theorem validateAssignment_eq_true {trip : Option Trip} {driver : Option Driver} :
    DispatchEngine.validateAssignment trip driver = true ↔
      ∃ t d, trip = some t ∧ driver = some d ∧ d.isAvailable = true := by
  unfold DispatchEngine.validateAssignment
  cases trip <;> cases driver <;> simp

/-- What `assignDriverToTrip` does for every engine state. A call that returns false
leaves the engine as it was, and the call returns false when the trip is missing, the
driver is missing or the driver is not available. A call that returns true has moved the
trip from REQUESTED to ASSIGNED and the driver to status ASSIGNED, so that the same
driver cannot be assigned again; the trip's driver id is `driverId` when `driverId` is
not negative. -/
theorem assignDriverToTrip_spec (e : DispatchEngine) (tripId driverId : Int) :
    ((e.assignDriverToTrip tripId driverId).1 = false →
      (e.assignDriverToTrip tripId driverId).2 = e) ∧
    ((e.findTripById tripId = none ∨ e.findDriverById driverId = none ∨
        ∃ d, e.findDriverById driverId = some d ∧ d.status ≠ DriverStatus.DRIVER_AVAILABLE) →
      e.assignDriverToTrip tripId driverId = (false, e)) ∧
    ((e.assignDriverToTrip tripId driverId).1 = true →
      ∃ t d, e.findTripById tripId = some t ∧ t.state = TripState.REQUESTED ∧
        e.findDriverById driverId = some d ∧ d.status = DriverStatus.DRIVER_AVAILABLE ∧
        (e.assignDriverToTrip tripId driverId).2.findTripById tripId =
          some { t.setDriverId driverId with state := TripState.ASSIGNED } ∧
        (0 ≤ driverId → (t.setDriverId driverId).driverId = driverId) ∧
        (e.assignDriverToTrip tripId driverId).2.findDriverById driverId =
          some (d.setStatus DriverStatus.DRIVER_ASSIGNED) ∧
        ∀ other, (e.assignDriverToTrip tripId driverId).2.assignDriverToTrip other driverId =
          (false, (e.assignDriverToTrip tripId driverId).2)) := by
  have key : ∀ t d, e.findTripById tripId = some t → e.findDriverById driverId = some d →
      d.isAvailable = true → t.state = TripState.REQUESTED →
      (e.assignDriverToTrip tripId driverId).2.findTripById tripId =
          some { t.setDriverId driverId with state := TripState.ASSIGNED } ∧
        (e.assignDriverToTrip tripId driverId).2.findDriverById driverId =
          some (d.setStatus DriverStatus.DRIVER_ASSIGNED) := by
    intro t d ht hd hav hst
    have hid : t.id = tripId := find?_id_eq Trip.id tripId ht
    have hid2 : (t.setDriverId driverId).id = tripId := by
      unfold Trip.setDriverId; split_ifs <;> exact hid
    rw [assignDriverToTrip_of_requested ht hd hav hst]
    unfold DispatchEngine.findTripById DispatchEngine.findDriverById at *
    constructor
    · show (updateFirst _ _ e.trips).find? _ = _
      rw [find?_updateFirst _ _ (fun _ _ => by simp [hid2]), ht]
      rfl
    · show (updateFirst _ _ e.drivers).find? _ = _
      rw [find?_updateFirst _ _ (fun x hx => by simpa [Driver.setStatus_id] using hx), hd]
      rfl
  refine ⟨?_, ?_, ?_⟩
  · intro h
    cases hv : DispatchEngine.validateAssignment (e.findTripById tripId)
        (e.findDriverById driverId) with
    | false => rw [assignDriverToTrip_of_invalid hv]
    | true =>
      obtain ⟨t, d, ht, hd, hav⟩ := validateAssignment_eq_true.1 hv
      by_cases hst : t.state = TripState.REQUESTED
      · rw [assignDriverToTrip_of_requested ht hd hav hst] at h
        exact absurd h (by simp)
      · rw [assignDriverToTrip_of_not_requested ht hst]
  · intro h
    apply assignDriverToTrip_of_invalid
    cases hv : DispatchEngine.validateAssignment (e.findTripById tripId)
        (e.findDriverById driverId) with
    | false => rfl
    | true =>
      obtain ⟨t, d, ht, hd, hav⟩ := validateAssignment_eq_true.1 hv
      rcases h with h | h | ⟨d', hd', hne⟩
      · rw [ht] at h; exact absurd h (by simp)
      · rw [hd] at h; exact absurd h (by simp)
      · rw [hd] at hd'
        have : d = d' := Option.some.inj hd'
        subst this
        exact absurd ((isAvailable_iff d).1 hav) hne
  · intro h
    cases hv : DispatchEngine.validateAssignment (e.findTripById tripId)
        (e.findDriverById driverId) with
    | false =>
      rw [assignDriverToTrip_of_invalid hv] at h
      exact absurd h (by simp)
    | true =>
      obtain ⟨t, d, ht, hd, hav⟩ := validateAssignment_eq_true.1 hv
      by_cases hst : t.state = TripState.REQUESTED
      · obtain ⟨k1, k2⟩ := key t d ht hd hav hst
        refine ⟨t, d, ht, hst, hd, (isAvailable_iff d).1 hav, k1, ?_, k2, ?_⟩
        · intro h0
          have : ¬ driverId < 0 := by omega
          simp [Trip.setDriverId, this]
        · intro other
          apply assignDriverToTrip_of_invalid
          rw [k2]
          unfold DispatchEngine.validateAssignment
          cases (e.assignDriverToTrip tripId driverId).2.findTripById other <;> rfl
      · rw [assignDriverToTrip_of_not_requested ht hst] at h
        exact absurd h (by simp)

/-- C22 at the failing input: with the available driver `-5` registered and trip `1000`
REQUESTED, `assignDriverToTrip(1000, -5)` returns true, the trip is ASSIGNED and the
driver has status ASSIGNED, but the trip's driver id is still `-1`, not `-5`. -/
theorem assignDriverToTrip_negative_id_reports_success :
    (negativeIdEngine.assignDriverToTrip 1000 (-5)).1 = true ∧
      ((negativeIdEngine.assignDriverToTrip 1000 (-5)).2.findTripById 1000).map
        (fun t => (t.state, t.driverId)) = some (TripState.ASSIGNED, -1) ∧
      ((negativeIdEngine.assignDriverToTrip 1000 (-5)).2.findDriverById (-5)).map
        Driver.status = some DriverStatus.DRIVER_ASSIGNED := by
  decide

/-! ## C28: trip counts -/

theorem tripCounts_eq_length (e : DispatchEngine) :
    e.getActiveTripCount = (e.trips.length : Int) ∧
      e.getTotalTripCount = (e.trips.length : Int) :=
  ⟨rfl, rfl⟩

/-- C28 at the failing input: on the two-node engine whose only trip `1000` is ONGOING,
`getActiveTripCount()` is `1`; after `completeTrip(1000)` has returned true no stored trip
is active (`Trip::isActive`), and `getActiveTripCount()` still returns `1`, the number of
all stored trips, as `getTotalTripCount()` does. The same happens after
`cancelTrip(1000)`. -/
theorem getActiveTripCount_counts_finished_trips :
    ongoingEngine.getActiveTripCount = 1 ∧
      (ongoingEngine.completeTrip 1000).1 = true ∧
      (ongoingEngine.completeTrip 1000).2.trips.map Trip.isActive = [false] ∧
      (ongoingEngine.completeTrip 1000).2.getActiveTripCount = 1 ∧
      (ongoingEngine.completeTrip 1000).2.getTotalTripCount = 1 ∧
      (ongoingEngine.cancelTrip 1000).1 = true ∧
      (ongoingEngine.cancelTrip 1000).2.trips.map Trip.isActive = [false] ∧
      (ongoingEngine.cancelTrip 1000).2.getActiveTripCount = 1 := by
  decide

/-! ## C29: removing a driver, counting available drivers -/

theorem removeDriverIndex_eq_none {driverId : Int} :
    ∀ (l : List Driver) (k : Nat), removeDriverIndex driverId l k = none ↔
      ∀ d ∈ l, d.id ≠ driverId := by
  intro l
  induction l with
  | nil => intro k; simp [removeDriverIndex]
  | cons y ys ih =>
    intro k
    unfold removeDriverIndex
    by_cases hy : y.id = driverId
    · simp [hy]
    · simp [hy, ih]

theorem removeDriverIndex_eq_some {driverId : Int} :
    ∀ (l : List Driver) (k i : Nat), removeDriverIndex driverId l k = some i →
      ∃ l1 d l2, l = l1 ++ d :: l2 ∧ d.id = driverId ∧ (∀ x ∈ l1, x.id ≠ driverId) ∧
        i = k + l1.length := by
  intro l
  induction l with
  | nil => intro k i h; simp [removeDriverIndex] at h
  | cons y ys ih =>
    intro k i h
    unfold removeDriverIndex at h
    by_cases hy : y.id = driverId
    · rw [if_pos hy] at h
      have : k = i := Option.some.inj h
      exact ⟨[], y, ys, rfl, hy, by simp, by simp [this]⟩
    · rw [if_neg hy] at h
      obtain ⟨l1, d, l2, h1, h2, h3, h4⟩ := ih (k + 1) i h
      refine ⟨y :: l1, d, l2, by rw [h1]; rfl, h2, ?_, by simp; omega⟩
      intro x hx
      rcases List.mem_cons.1 hx with rfl | hx
      · exact hy
      · exact h3 x hx

theorem set_append_length {α : Type} (l1 : List α) (d x : α) (l2 : List α) :
    (l1 ++ d :: l2).set l1.length x = l1 ++ x :: l2 := by
  induction l1 with
  | nil => rfl
  | cons y ys ih => simp [List.set, ih]

/-- The registry after `drivers[i] = drivers[--driverCount]` at the slot of `d`. -/
theorem swap_remove_perm {α : Type} (l1 : List α) (d : α) (l2 : List α) :
    ∃ last, (l1 ++ d :: l2).getLast? = some last ∧
      (((l1 ++ d :: l2).set l1.length last).dropLast).Perm (l1 ++ l2) := by
  rcases List.eq_nil_or_concat l2 with h | ⟨l2', z, h⟩
  · subst h
    refine ⟨d, by simp, ?_⟩
    rw [set_append_length]
    simp
  · rw [List.concat_eq_append] at h
    subst h
    refine ⟨z, by simp [List.getLast?_append, List.getLast?_cons], ?_⟩
    rw [set_append_length]
    have : (l1 ++ z :: (l2' ++ [z])).dropLast = l1 ++ z :: l2' := by
      rw [show l1 ++ z :: (l2' ++ [z]) = (l1 ++ z :: l2') ++ [z] by simp]
      exact List.dropLast_concat
    rw [this]
    have h1 : (l1 ++ z :: l2').Perm (z :: (l1 ++ l2')) := List.perm_middle
    have h2 : (l1 ++ (l2' ++ [z])).Perm (z :: (l1 ++ l2')) := by
      rw [← List.append_assoc]
      exact List.perm_append_singleton z (l1 ++ l2')
    exact h1.trans h2.symm

theorem removeDriver_of_absent {e : DispatchEngine} {driverId : Int}
    (h : ∀ d ∈ e.drivers, d.id ≠ driverId) : e.removeDriver driverId = (false, e) := by
  unfold DispatchEngine.removeDriver
  rw [(removeDriverIndex_eq_none e.drivers 0).2 h]

theorem removeDriver_of_present {e : DispatchEngine} {driverId : Int} {d : Driver}
    (hd : d ∈ e.drivers) (hid : d.id = driverId) :
    ∃ l1 d' l2 ds, e.drivers = l1 ++ d' :: l2 ∧ d'.id = driverId ∧
      (∀ x ∈ l1, x.id ≠ driverId) ∧ ds.Perm (l1 ++ l2) ∧
      e.removeDriver driverId = (true, { e with drivers := ds }) := by
  cases hi : removeDriverIndex driverId e.drivers 0 with
  | none => exact absurd hid ((removeDriverIndex_eq_none e.drivers 0).1 hi d hd)
  | some i =>
    obtain ⟨l1, d', l2, h1, h2, h3, h4⟩ := removeDriverIndex_eq_some e.drivers 0 i hi
    obtain ⟨last, hl, hp⟩ := swap_remove_perm l1 d' l2
    refine ⟨l1, d', l2, _, h1, h2, h3, hp, ?_⟩
    unfold DispatchEngine.removeDriver
    rw [hi, h1, hl]
    simp [h4]

theorem availableCount_foldl (l : List Driver) (c : Int) :
    l.foldl (fun c d => if d.isAvailable then c + 1 else c) c =
      c + ((l.filter (fun d => d.status == DriverStatus.DRIVER_AVAILABLE)).length : Int) := by
  induction l generalizing c with
  | nil => simp
  | cons y ys ih =>
    rw [List.foldl_cons, ih, List.filter_cons]
    unfold Driver.isAvailable
    cases hy : (y.status == DriverStatus.DRIVER_AVAILABLE)
    · simp
    · simp; omega

/-- C29. For an engine whose registered drivers have pairwise distinct ids:
`removeDriver(id)` returns true exactly when a driver with that id is registered; after a
successful removal the driver count is one less, `findDriverById(id)` returns none, every
other registered driver is still found by its id with unchanged data, the registry holds
the remaining drivers in some order, and nothing but the driver registry changes; when it
returns false the engine is unchanged. `getAvailableDriverCount()` always equals the
number of registered drivers with status AVAILABLE. -/
theorem removeDriver_contract (e : DispatchEngine) (driverId : Int)
    (hnd : (e.drivers.map Driver.id).Nodup) :
    ((e.removeDriver driverId).1 = true ↔ ∃ d ∈ e.drivers, d.id = driverId) ∧
    ((e.removeDriver driverId).1 = true →
      (e.removeDriver driverId).2.getTotalDriverCount = e.getTotalDriverCount - 1 ∧
      (e.removeDriver driverId).2.findDriverById driverId = none ∧
      (∀ x ∈ e.drivers, x.id ≠ driverId →
        (e.removeDriver driverId).2.findDriverById x.id = some x) ∧
      (e.removeDriver driverId).2.drivers.Perm
        (e.drivers.filter (fun x => !(x.id == driverId))) ∧
      (e.removeDriver driverId).2 =
        { e with drivers := (e.removeDriver driverId).2.drivers }) ∧
    ((e.removeDriver driverId).1 = false → (e.removeDriver driverId).2 = e) ∧
    e.getAvailableDriverCount =
      ((e.drivers.filter (fun d => d.status == DriverStatus.DRIVER_AVAILABLE)).length : Int) ∧
    (e.removeDriver driverId).2.getAvailableDriverCount =
      (((e.removeDriver driverId).2.drivers.filter
        (fun d => d.status == DriverStatus.DRIVER_AVAILABLE)).length : Int) := by
  have hcount : ∀ x : DispatchEngine, x.getAvailableDriverCount =
      ((x.drivers.filter (fun d => d.status == DriverStatus.DRIVER_AVAILABLE)).length : Int) := by
    intro x
    unfold DispatchEngine.getAvailableDriverCount
    rw [availableCount_foldl]
    simp
  by_cases hex : ∃ d ∈ e.drivers, d.id = driverId
  · obtain ⟨d, hd, hid⟩ := hex
    obtain ⟨l1, d', l2, ds, h1, h2, h3, hp, hr⟩ := removeDriver_of_present hd hid
    have hnd' : ((l1 ++ d' :: l2).map Driver.id).Nodup := h1 ▸ hnd
    have hl2 : ∀ x ∈ l2, x.id ≠ driverId := by
      intro x hx heq
      rw [List.map_append, List.map_cons] at hnd'
      have := (List.nodup_cons.1 (List.nodup_append.1 hnd').2.1).1
      exact this (by rw [h2, ← heq]; exact List.mem_map_of_mem _ hx)
    have hfilter : (l1 ++ d' :: l2).filter (fun x => !(x.id == driverId)) = l1 ++ l2 := by
      rw [List.filter_append, List.filter_cons]
      have e1 : l1.filter (fun x => !(x.id == driverId)) = l1 :=
        List.filter_eq_self.2 (fun x hx => by simpa using h3 x hx)
      have e2 : l2.filter (fun x => !(x.id == driverId)) = l2 :=
        List.filter_eq_self.2 (fun x hx => by simpa using hl2 x hx)
      simp [e1, e2, h2]
    have hsub : ((l1 ++ l2).map Driver.id).Nodup := by
      rw [List.map_append, List.map_cons] at hnd'
      rw [List.map_append]
      exact (List.nodup_cons.1 (List.nodup_middle.1 hnd')).2
    have hnds : (ds.map Driver.id).Nodup := ((hp.map Driver.id).nodup_iff).2 hsub
    refine ⟨?_, ?_, ?_, hcount _, hcount _⟩
    · rw [hr]; exact ⟨fun _ => ⟨d, hd, hid⟩, fun _ => rfl⟩
    · intro _
      rw [hr]
      refine ⟨?_, ?_, ?_, ?_, rfl⟩
      · unfold DispatchEngine.getTotalDriverCount
        show (ds.length : Int) = (e.drivers.length : Int) - 1
        rw [hp.length_eq, h1]
        simp only [List.length_append, List.length_cons]
        push_cast
        omega
      · unfold DispatchEngine.findDriverById
        show ds.find? _ = none
        rw [List.find?_eq_none]
        intro x hx
        have hx' : x ∈ l1 ++ l2 := hp.mem_iff.1 hx
        rcases List.mem_append.1 hx' with hx' | hx'
        · simpa using h3 x hx'
        · simpa using hl2 x hx'
      · intro x hx hne
        unfold DispatchEngine.findDriverById
        show ds.find? _ = some x
        apply find?_driver_of_mem hnds
        apply hp.mem_iff.2
        rw [h1] at hx
        rcases List.mem_append.1 hx with hx | hx
        · exact List.mem_append_left _ hx
        · rcases List.mem_cons.1 hx with rfl | hx
          · exact absurd h2 hne
          · exact List.mem_append_right _ hx
      · show ds.Perm _
        rw [h1, hfilter]
        exact hp
    · intro hf
      rw [hr] at hf
      exact absurd hf (by simp)
  · have habs : ∀ d ∈ e.drivers, d.id ≠ driverId := fun d hd hid => hex ⟨d, hd, hid⟩
    rw [removeDriver_of_absent habs]
    refine ⟨?_, ?_, fun _ => rfl, hcount _, hcount _⟩
    · exact ⟨fun h => absurd h (by simp), fun h => absurd h hex⟩
    · intro h; exact absurd h (by simp)

/-- C29 on the engine of `main`, removing driver `101`. -/
theorem removeDriver_contract_witness :
    ((mainEngine.removeDriver 101).1 = true ↔ ∃ d ∈ mainEngine.drivers, d.id = 101) ∧
    ((mainEngine.removeDriver 101).1 = true →
      (mainEngine.removeDriver 101).2.getTotalDriverCount = mainEngine.getTotalDriverCount - 1 ∧
      (mainEngine.removeDriver 101).2.findDriverById 101 = none ∧
      (∀ x ∈ mainEngine.drivers, x.id ≠ 101 →
        (mainEngine.removeDriver 101).2.findDriverById x.id = some x) ∧
      (mainEngine.removeDriver 101).2.drivers.Perm
        (mainEngine.drivers.filter (fun x => !(x.id == 101))) ∧
      (mainEngine.removeDriver 101).2 =
        { mainEngine with drivers := (mainEngine.removeDriver 101).2.drivers }) ∧
    ((mainEngine.removeDriver 101).1 = false → (mainEngine.removeDriver 101).2 = mainEngine) ∧
    mainEngine.getAvailableDriverCount =
      ((mainEngine.drivers.filter
        (fun d => d.status == DriverStatus.DRIVER_AVAILABLE)).length : Int) ∧
    (mainEngine.removeDriver 101).2.getAvailableDriverCount =
      (((mainEngine.removeDriver 101).2.drivers.filter
        (fun d => d.status == DriverStatus.DRIVER_AVAILABLE)).length : Int) :=
  removeDriver_contract mainEngine 101 (by decide)

/-! ## What the engine's calls leave alone in the trip registry -/

theorem map_updateFirst_const {α β : Type} (p : α → Bool) (g : α → β) (l : List α) {x x' : α}
    (h : l.find? p = some x) (hg : g x' = g x) :
    (updateFirst p (fun _ => x') l).map g = l.map g := by
  induction l with
  | nil => rfl
  | cons y ys ih =>
    rw [List.find?_cons] at h
    rw [updateFirst]
    cases hy : p y with
    | true =>
      rw [hy] at h
      have : y = x := Option.some.inj h
      simp [this, hg]
    | false =>
      rw [hy] at h
      simp [ih h]

theorem Trip.assignDriver_booking (t : Trip) (driverId : Int) :
    (t.assignDriver driverId).2.booking = t.booking := by
  by_cases h : t.state = TripState.REQUESTED
  · rw [Trip.assignDriver_of_requested h]
    unfold Trip.setDriverId Trip.booking
    split_ifs <;> rfl
  · rw [Trip.assignDriver_of_not_requested h]

theorem Trip.startTrip_booking (t : Trip) : t.startTrip.2.booking = t.booking := by
  by_cases h : t.state = TripState.ASSIGNED
  · rw [Trip.startTrip_of_assigned h]; rfl
  · rw [Trip.startTrip_of_not_assigned h]

theorem Trip.completeTrip_booking (t : Trip) : t.completeTrip.2.booking = t.booking := by
  by_cases h : t.state = TripState.ONGOING
  · rw [Trip.completeTrip_of_ongoing h]; rfl
  · rw [Trip.completeTrip_of_not_ongoing h]

theorem Trip.cancelTrip_booking (t : Trip) : t.cancelTrip.2.booking = t.booking := by
  rcases t.isFinalState_or_isActive with h | h
  · rw [Trip.cancelTrip_of_final h]
  · rw [Trip.cancelTrip_of_active h]; rfl

/-- `assignDriverToTrip` keeps the city, the id generator and the creation-time fields
of every stored trip. -/
theorem assignDriverToTrip_frame (e : DispatchEngine) (tripId driverId : Int) :
    (e.assignDriverToTrip tripId driverId).2.trips.map Trip.booking = e.trips.map Trip.booking ∧
      (e.assignDriverToTrip tripId driverId).2.nextTripId = e.nextTripId ∧
      (e.assignDriverToTrip tripId driverId).2.city = e.city := by
  unfold DispatchEngine.assignDriverToTrip
  cases ht : e.findTripById tripId with
  | none => simp [DispatchEngine.validateAssignment]
  | some t =>
    have hm := map_updateFirst_const (fun x : Trip => x.id == tripId) Trip.booking e.trips ht
      (Trip.assignDriver_booking t driverId)
    simp only []
    split_ifs <;> exact ⟨by first | rfl | exact hm, rfl, rfl⟩

/-- `startTrip` of the engine keeps the city, the id generator and the creation-time
fields of every stored trip. -/
theorem engine_startTrip_frame (e : DispatchEngine) (tripId : Int) :
    (e.startTrip tripId).2.trips.map Trip.booking = e.trips.map Trip.booking ∧
      (e.startTrip tripId).2.nextTripId = e.nextTripId ∧
      (e.startTrip tripId).2.city = e.city := by
  unfold DispatchEngine.startTrip
  cases ht : e.findTripById tripId with
  | none => exact ⟨rfl, rfl, rfl⟩
  | some t =>
    have hm := map_updateFirst_const (fun x : Trip => x.id == tripId) Trip.booking e.trips ht
      (Trip.startTrip_booking t)
    simp only []
    split_ifs <;> exact ⟨hm, rfl, rfl⟩

/-- `completeTrip` of the engine keeps the city, the id generator and the creation-time
fields of every stored trip. -/
theorem engine_completeTrip_frame (e : DispatchEngine) (tripId : Int) :
    (e.completeTrip tripId).2.trips.map Trip.booking = e.trips.map Trip.booking ∧
      (e.completeTrip tripId).2.nextTripId = e.nextTripId ∧
      (e.completeTrip tripId).2.city = e.city := by
  unfold DispatchEngine.completeTrip
  cases ht : e.findTripById tripId with
  | none => exact ⟨rfl, rfl, rfl⟩
  | some t =>
    have hm := map_updateFirst_const (fun x : Trip => x.id == tripId) Trip.booking e.trips ht
      (Trip.completeTrip_booking t)
    simp only []
    split_ifs <;> exact ⟨hm, rfl, rfl⟩

/-- `cancelTrip` of the engine keeps the city, the id generator and the creation-time
fields of every stored trip. -/
theorem engine_cancelTrip_frame (e : DispatchEngine) (tripId : Int) :
    (e.cancelTrip tripId).2.trips.map Trip.booking = e.trips.map Trip.booking ∧
      (e.cancelTrip tripId).2.nextTripId = e.nextTripId ∧
      (e.cancelTrip tripId).2.city = e.city := by
  unfold DispatchEngine.cancelTrip
  cases ht : e.findTripById tripId with
  | none => exact ⟨rfl, rfl, rfl⟩
  | some t =>
    have hm := map_updateFirst_const (fun x : Trip => x.id == tripId) Trip.booking e.trips ht
      (Trip.cancelTrip_booking t)
    simp only []
    split_ifs <;> exact ⟨hm, rfl, rfl⟩

/-- What a call of `requestTrip` that returns does to the trip registry and the id
generator: either no trip is returned and the engine is unchanged, or the trip built from
the rider and the reported distance `d` is appended under the id `nextTripId`, the
returned record is that registry entry, and `nextTripId` is advanced by one. -/
theorem requestTrip_frame {e e' : DispatchEngine} {rider : Rider} {res : Option Trip}
    (h : e.requestTrip rider = some (res, e')) :
    (res = none ∧ e' = e) ∨
    ∃ trip d, res = some trip ∧
      e.city.getShortestDistance rider.pickupLocation rider.dropoffLocation = some d ∧
      d ≠ -1 ∧
      trip.booking = (Trip.mk5 e.nextTripId rider.id rider.pickupLocation
        rider.dropoffLocation d).booking ∧
      e'.trips[e.trips.length]? = some trip ∧
      e'.trips.map Trip.booking = e.trips.map Trip.booking ++ [trip.booking] ∧
      e'.nextTripId = wrapInt32 (e.nextTripId + 1) ∧ e'.city = e.city := by
  unfold DispatchEngine.requestTrip at h
  cases hd : e.city.getShortestDistance rider.pickupLocation rider.dropoffLocation with
  | none => rw [hd] at h; exact absurd h (by simp)
  | some d =>
    rw [hd] at h
    simp only [Option.bind_eq_bind, Option.some_bind] at h
    by_cases hneg : d = -1
    · left
      rw [if_pos hneg] at h
      have := Option.some.inj h
      exact ⟨(congrArg Prod.fst this).symm, (congrArg Prod.snd this).symm⟩
    · right
      rw [if_neg hneg] at h
      set t0 := Trip.mk5 e.nextTripId rider.id rider.pickupLocation rider.dropoffLocation d
        with ht0
      have hh : e.handleTripRequest rider d =
          (t0, { e with nextTripId := wrapInt32 (e.nextTripId + 1), trips := e.trips ++ [t0] }) :=
        rfl
      rw [hh] at h
      simp only [] at h
      set e1 : DispatchEngine :=
        { e with nextTripId := wrapInt32 (e.nextTripId + 1), trips := e.trips ++ [t0] } with he1
      cases hb : e1.findBestDriver rider.pickupLocation with
      | none => rw [hb] at h; exact absurd h (by simp)
      | some b =>
        rw [hb] at h
        simp only [Option.bind_eq_bind, Option.some_bind] at h
        obtain ⟨best, eb⟩ := b
        have heb : eb = e1 := (findBestDriver_sound hb).1
        subst heb
        have hfinal : ∀ ef : DispatchEngine,
            ef.trips.map Trip.booking = e1.trips.map Trip.booking →
            ef.nextTripId = e1.nextTripId → ef.city = e1.city →
            some (ef.trips[e.trips.length]?, ef) = some (res, e') →
            ∃ trip, res = some trip ∧
              trip.booking = t0.booking ∧ e'.trips[e.trips.length]? = some trip ∧
              e'.trips.map Trip.booking = e.trips.map Trip.booking ++ [trip.booking] ∧
              e'.nextTripId = wrapInt32 (e.nextTripId + 1) ∧ e'.city = e.city := by
          intro ef hm hn hc hres
          have hpair := Option.some.inj hres
          have hr1 : ef.trips[e.trips.length]? = res := congrArg Prod.fst hpair
          have hr2 : ef = e' := congrArg Prod.snd hpair
          subst hr2
          have hmap : (ef.trips.map Trip.booking)[e.trips.length]? = some t0.booking := by
            rw [hm]
            show ((e.trips ++ [t0]).map Trip.booking)[e.trips.length]? = _
            simp
          rw [List.getElem?_map] at hmap
          cases hx : ef.trips[e.trips.length]? with
          | none => rw [hx] at hmap; exact absurd hmap (by simp)
          | some trip =>
            rw [hx] at hmap hr1
            have hbk : trip.booking = t0.booking := Option.some.inj hmap
            refine ⟨trip, hr1.symm, hbk, rfl, ?_, hn, hc⟩
            rw [hm, hbk]
            show (e.trips ++ [t0]).map Trip.booking = _
            simp
        cases best with
        | none =>
          obtain ⟨trip, r1, r2, r3, r4, r5, r6⟩ := hfinal e1 rfl rfl rfl h
          exact ⟨trip, d, r1, rfl, hneg, r2, r3, r4, r5, r6⟩
        | some bd =>
          simp only [] at h
          obtain ⟨a1, a2, a3⟩ := assignDriverToTrip_frame e1 t0.id bd.id
          obtain ⟨s1, s2, s3⟩ := engine_startTrip_frame
            (e1.assignDriverToTrip t0.id bd.id).2 t0.id
          obtain ⟨trip, r1, r2, r3, r4, r5, r6⟩ :=
            hfinal _ (s1.trans a1) (s2.trans a2) (s3.trans a3) h
          exact ⟨trip, d, r1, rfl, hneg, r2, r3, r4, r5, r6⟩

/-! ## C27: the distance and the fare recorded in a new trip -/

/-- Under the weight bound the distance reported for a connected pair is the weight of a
walk, and no walk is lighter. -/
theorem shortest_distance_walk {c : City} (hwf : c.WF) (hid : c.IdsAreIndices)
    (hsum : c.edgeWeightSum < INT_MAX) {s d : Int} (hconn : c.Connected s d) :
    ∃ dv, c.getShortestDistance s d = some dv ∧ c.Walk s d dv ∧
      ∀ d', c.Walk s d d' → dv ≤ d' := by
  have hINF : INFINITY_DISTANCE = 2147483647 := rfl
  have hMAX : INT_MAX = 2147483647 := rfl
  obtain ⟨d0, hd0⟩ := hconn
  have hs : c.locationExists s = true := by
    clear hsum
    induction hd0 with
    | nil h => exact h
    | snoc w _ _ ih => exact ih
  obtain ⟨st, hrun, hinv, hend⟩ := dijkstra_run hwf hid hsum hs
  obtain ⟨hvis, dv, hdv, -⟩ := dijkstra_final_le hwf hid hsum hinv hend hd0
  have hb := hinv.vis_bound d dv hvis hdv
  have ht := roadSum_le_edgeWeightSum hwf (isVisited st.visited)
  have hfin : dv ≠ INFINITY_DISTANCE := by omega
  obtain ⟨-, hd_1⟩ := readAt_bounds hdv
  rw [hinv.len_d] at hd_1
  refine ⟨dv, ?_, hinv.walk d dv hdv hfin, ?_⟩
  · unfold City.getShortestDistance
    rw [hrun]
    simp only [Option.bind_eq_bind, Option.some_bind]
    rw [getDistanceTo_of_read hdv hd_1, if_neg hfin]
  · intro d' hw
    obtain ⟨-, dv', hdv', hle⟩ := dijkstra_final_le hwf hid hsum hinv hend hw
    rw [hdv] at hdv'
    have : dv = dv' := Option.some.inj hdv'
    omega

theorem City.Walk.source_exists {c : City} {s v d : Int} (h : c.Walk s v d) :
    c.locationExists s = true := by
  induction h with
  | nil hx => exact hx
  | snoc _ _ _ ih => exact ih

theorem City.Walk.pos_of_ne {c : City} (hwf : c.WF) {s v d : Int} (h : c.Walk s v d)
    (hne : s ≠ v) : 0 < d := by
  cases h with
  | nil _ => exact absurd rfl hne
  | snoc w hw hr =>
    have h1 := hw.nonneg hwf
    have h2 := hwf.roadBetween_pos hr
    omega

/-- C27, amended. For every successful `requestTrip`, the created trip's recorded route
distance equals `getShortestDistance(pickup, dropoff)` when that value is positive and is
`1` otherwise (the constructor of `Trip` replaces a distance `<= 0` by `1`), and its fare
is the one `calculateFare` computes from the recorded distance. On a network built through
the public mutators whose i-th node has id `i` and whose road weights sum to less than
`INT_MAX`, the recorded distance equals the shortest distance for every feasible request
with pickup different from dropoff; for a request whose pickup and dropoff are the same
node the shortest distance is `0` and the recorded distance is `1`. -/
theorem requestTrip_records_distance (e e' : DispatchEngine) (rider : Rider) (trip : Trip)
    (h : e.requestTrip rider = some (some trip, e')) :
    ∃ d, e.city.getShortestDistance rider.pickupLocation rider.dropoffLocation = some d ∧
      d ≠ -1 ∧ trip.distance = (if d ≤ 0 then 1 else d) ∧
      trip.fare = Fare.ofDistance trip.distance ∧
      (e.city.Reachable → e.city.IdsAreIndices → e.city.edgeWeightSum < INT_MAX →
        (rider.pickupLocation ≠ rider.dropoffLocation → 0 < d ∧ trip.distance = d) ∧
        (rider.pickupLocation = rider.dropoffLocation → d = 0 ∧ trip.distance = 1)) := by
  rcases requestTrip_frame h with ⟨hn, -⟩ | ⟨trip', d, hres, hd, hneg, hbk, -, -, -, -⟩
  · exact absurd hn (by simp)
  · have : trip' = trip := (Option.some.inj hres).symm
    subst this
    obtain ⟨m1, m2⟩ := Trip.mk5_fare e.nextTripId rider.id rider.pickupLocation
      rider.dropoffLocation d
    have hdist : trip'.distance = (if d ≤ 0 then 1 else d) := by
      have := congrArg (fun b => b.2.2.2.2.1) hbk
      simp only [Trip.booking] at this
      rw [this, m1]
    have hfare : trip'.fare = Fare.ofDistance trip'.distance := by
      have hf := congrArg (fun b => b.2.2.2.2.2) hbk
      simp only [Trip.booking] at hf
      rw [hf, m2, hdist, m1]
    refine ⟨d, hd, hneg, hdist, hfare, ?_⟩
    intro hc hid hsum
    obtain ⟨v, hv, hconn⟩ := getShortestDistance_total hc.wf hid rider.pickupLocation
      rider.dropoffLocation
    rw [hd] at hv
    have hvd : d = v := Option.some.inj hv
    subst hvd
    obtain ⟨dv, hdv, hwalk, hmin⟩ := shortest_distance_walk hc.wf hid hsum (hconn hneg)
    rw [hd] at hdv
    have hdd : d = dv := Option.some.inj hdv
    subst hdd
    constructor
    · intro hne
      have hpos := hwalk.pos_of_ne hc.wf hne
      refine ⟨hpos, ?_⟩
      rw [hdist, if_neg (by omega)]
    · intro heq
      have h0 : d ≤ 0 := by
        apply hmin 0
        rw [← heq]
        exact City.Walk.nil (hwalk.source_exists)
      have h1 := hwalk.nonneg hc.wf
      have hz : d = 0 := by omega
      refine ⟨hz, ?_⟩
      rw [hdist, if_pos h0]

/-- C27, amended, on the two-node engine for a rider going from `0` to `1`. -/
theorem requestTrip_records_distance_witness :
    ∃ d, twoNodeEngine.city.getShortestDistance (Rider.mk3 1 0 1).pickupLocation
        (Rider.mk3 1 0 1).dropoffLocation = some d ∧
      d ≠ -1 ∧
      ({ Trip.mk5 1000 1 0 1 7 with driverId := 101, state := TripState.ONGOING } : Trip).distance =
        (if d ≤ 0 then 1 else d) ∧
      ({ Trip.mk5 1000 1 0 1 7 with driverId := 101, state := TripState.ONGOING } : Trip).fare =
        Fare.ofDistance
          ({ Trip.mk5 1000 1 0 1 7 with driverId := 101, state := TripState.ONGOING } : Trip).distance ∧
      (twoNodeEngine.city.Reachable → twoNodeEngine.city.IdsAreIndices →
        twoNodeEngine.city.edgeWeightSum < INT_MAX →
        ((Rider.mk3 1 0 1).pickupLocation ≠ (Rider.mk3 1 0 1).dropoffLocation → 0 < d ∧
          ({ Trip.mk5 1000 1 0 1 7 with driverId := 101, state := TripState.ONGOING } :
            Trip).distance = d) ∧
        ((Rider.mk3 1 0 1).pickupLocation = (Rider.mk3 1 0 1).dropoffLocation → d = 0 ∧
          ({ Trip.mk5 1000 1 0 1 7 with driverId := 101, state := TripState.ONGOING } :
            Trip).distance = 1)) :=
  requestTrip_records_distance twoNodeEngine { ongoingEngine with nextTripId := 1001 }
    (Rider.mk3 1 0 1)
    { Trip.mk5 1000 1 0 1 7 with driverId := 101, state := TripState.ONGOING } (by decide)

/-- C27 as stated fails for a request whose pickup and dropoff are the same node: on the
two-node engine the request from `0` to `0` succeeds, `getShortestDistance(0, 0)` is `0`,
and the created trip records the distance `1`, with the fare computed from `1`. -/
theorem requestTrip_records_distance_counterexample :
    twoNodeCity.getShortestDistance 0 0 = some 0 ∧
      (twoNodeEngine.requestTrip (Rider.mk3 1 0 0)).map
        (fun r => r.1.map (fun t => (t.id, t.distance, t.fare))) =
        some (some (1000, 1, Fare.ofDistance 1)) := by
  decide

/-! ## C26: trip ids -/

theorem wrapInt32_succ (x : Int) : wrapInt32 (wrapInt32 x + 1) = wrapInt32 (x + 1) := by
  unfold wrapInt32
  omega

theorem map_id_of_map_booking {l1 l2 : List Trip}
    (h : l1.map Trip.booking = l2.map Trip.booking) : l1.map Trip.id = l2.map Trip.id := by
  have := congrArg (List.map Prod.fst) h
  simpa [List.map_map, Function.comp_def, Trip.booking] using this

theorem find?_key_of_mem {α : Type} (key : α → Int) {l : List α}
    (hnd : (l.map key).Nodup) {t : α} (ht : t ∈ l) :
    l.find? (fun x => key x == key t) = some t := by
  induction l with
  | nil => simp at ht
  | cons y ys ih =>
    rw [List.map_cons, List.nodup_cons] at hnd
    rw [List.find?_cons]
    rcases List.mem_cons.1 ht with rfl | ht'
    · simp
    · have hne : key y ≠ key t := by
        intro heq
        exact hnd.1 (heq ▸ List.mem_map_of_mem key ht')
      have : (key y == key t) = false := by simpa using hne
      rw [this]
      exact ih hnd.2 ht'

/-- The ids in the trip registry of an engine whose trips were all created by
`requestTrip`: the i-th stored trip has the id `1000 + i` (as a 32-bit value), and the id
generator stands at `1000 +` the number of stored trips. -/
theorem DispatchEngine.RequestsOnly.trip_ids {e : DispatchEngine} (h : e.RequestsOnly) :
    e.trips.map Trip.id =
        (List.range e.trips.length).map (fun i => wrapInt32 (1000 + Int.ofNat i)) ∧
      e.nextTripId = wrapInt32 (1000 + Int.ofNat e.trips.length) := by
  induction h with
  | init city =>
    refine ⟨rfl, ?_⟩
    show (1000 : Int) = wrapInt32 (1000 + Int.ofNat 0)
    decide
  | @requestTrip e e' rider res _ hreq ih =>
    rcases requestTrip_frame hreq with ⟨-, he⟩ | ⟨trip, d, -, -, -, hbk, -, hmap, hnext, -⟩
    · rw [he]; exact ih
    · have hid : trip.id = e.nextTripId := by
        have := congrArg Prod.fst hbk
        simp only [Trip.booking] at this
        rw [this, (Trip.mk5_fields _ _ _ _ _).1]
      have hids : e'.trips.map Trip.id = e.trips.map Trip.id ++ [trip.id] := by
        have := congrArg (List.map Prod.fst) hmap
        simpa [List.map_map, Function.comp_def, Trip.booking] using this
      have hlen : e'.trips.length = e.trips.length + 1 := by
        have := congrArg List.length hids
        simpa using this
      constructor
      · rw [hids, hlen, List.range_succ, List.map_append, ← ih.1, hid, ih.2]
        rfl
      · rw [hnext, ih.2, hlen, wrapInt32_succ]
        congr 1
  | @other e e' _ hids hnext ih =>
    have hlen : e'.trips.length = e.trips.length := by
      have := congrArg List.length hids
      simpa using this
    rw [hids, hnext, hlen]
    exact ih

/-- The calls of the engine that create no trip keep it within `RequestsOnly`. -/
theorem DispatchEngine.RequestsOnly.of_calls {e : DispatchEngine} (h : e.RequestsOnly) :
    (∀ d, (e.registerDriver d).2.RequestsOnly) ∧
    (∀ driverId, (e.removeDriver driverId).2.RequestsOnly) ∧
    (∀ tripId driverId, (e.assignDriverToTrip tripId driverId).2.RequestsOnly) ∧
    (∀ tripId, (e.startTrip tripId).2.RequestsOnly) ∧
    (∀ tripId, (e.completeTrip tripId).2.RequestsOnly) ∧
    (∀ tripId, (e.cancelTrip tripId).2.RequestsOnly) := by
  refine ⟨fun d => h.other rfl rfl, fun driverId => ?_, fun tripId driverId => ?_,
    fun tripId => ?_, fun tripId => ?_, fun tripId => ?_⟩
  · apply h.other
    · unfold DispatchEngine.removeDriver; split <;> rfl
    · unfold DispatchEngine.removeDriver; split <;> rfl
  · obtain ⟨a1, a2, -⟩ := assignDriverToTrip_frame e tripId driverId
    exact h.other (map_id_of_map_booking a1) a2
  · obtain ⟨a1, a2, -⟩ := engine_startTrip_frame e tripId
    exact h.other (map_id_of_map_booking a1) a2
  · obtain ⟨a1, a2, -⟩ := engine_completeTrip_frame e tripId
    exact h.other (map_id_of_map_booking a1) a2
  · obtain ⟨a1, a2, -⟩ := engine_cancelTrip_frame e tripId
    exact h.other (map_id_of_map_booking a1) a2

theorem trip_ids_of_requestsOnly {e : DispatchEngine} (hr : e.RequestsOnly)
    (hn : (e.trips.length : Int) ≤ 2147482648) :
    (∀ (k : Nat) (t : Trip), e.trips[k]? = some t → t.id = 1000 + (k : Int)) ∧
    (e.trips.map Trip.id).Nodup ∧
    (∀ (k : Nat) (t : Trip), e.trips[k]? = some t →
      e.findTripById (1000 + (k : Int)) = some t) := by
  obtain ⟨hids, -⟩ := hr.trip_ids
  have hk : ∀ (k : Nat) (t : Trip), e.trips[k]? = some t → t.id = 1000 + (k : Int) := by
    intro k t hkt
    have hlt : k < e.trips.length := (List.getElem?_eq_some_iff.1 hkt).1
    have h1 : (e.trips.map Trip.id)[k]? = some t.id := by
      rw [List.getElem?_map, hkt]; rfl
    rw [hids, List.getElem?_map, List.getElem?_range hlt] at h1
    have h2 : wrapInt32 (1000 + Int.ofNat k) = t.id := Option.some.inj h1
    rw [← h2, wrapInt32_of_range (by simp only [Int.ofNat_eq_coe]; omega)
      (by simp only [Int.ofNat_eq_coe]; omega)]
    rfl
  have hnd : (e.trips.map Trip.id).Nodup := by
    rw [hids]
    apply List.Nodup.map_on _ (List.nodup_range _)
    intro x hx y hy hxy
    have hx' := List.mem_range.1 hx
    have hy' := List.mem_range.1 hy
    rw [wrapInt32_of_range (by simp only [Int.ofNat_eq_coe]; omega)
      (by simp only [Int.ofNat_eq_coe]; omega),
      wrapInt32_of_range (by simp only [Int.ofNat_eq_coe]; omega)
      (by simp only [Int.ofNat_eq_coe]; omega)] at hxy
    simp only [Int.ofNat_eq_coe] at hxy
    omega
  refine ⟨hk, hnd, ?_⟩
  intro k t hkt
  have hmem : t ∈ e.trips := List.getElem?_mem hkt
  have := find?_key_of_mem Trip.id hnd hmem
  rw [hk k t hkt] at this
  exact this

theorem twoNodeCity_distance : twoNodeCity.getShortestDistance 0 1 = some 7 := by decide

theorem twoNodeEngine_requestTrip :
    twoNodeEngine.requestTrip (Rider.mk3 1 0 1) =
      some (some { Trip.mk5 1000 1 0 1 7 with driverId := 101, state := TripState.ONGOING },
        servedEngine) := by
  decide

theorem servedEngine_requestsOnly : servedEngine.RequestsOnly :=
  .requestTrip (Rider.mk3 1 0 1) _
    (@DispatchEngine.RequestsOnly.other (DispatchEngine.mk1 twoNodeCity) twoNodeEngine
      (.init twoNodeCity) rfl rfl) twoNodeEngine_requestTrip

/-- On the two-node network, an engine without drivers serves the request from `0` to
`1` by storing one more trip. -/
theorem requestTrip_without_drivers {e : DispatchEngine} (hc : e.city = twoNodeCity)
    (hd : e.drivers = []) :
    ∃ res e', e.requestTrip (Rider.mk3 1 0 1) = some (res, e') ∧ e'.city = twoNodeCity ∧
      e'.drivers = [] ∧ e'.trips.length = e.trips.length + 1 := by
  obtain ⟨city, drivers, trips, riders, next⟩ := e
  simp only at hc hd
  subst hc hd
  unfold DispatchEngine.requestTrip
  simp only [Rider.mk3, twoNodeCity_distance, Option.bind_eq_bind, Option.some_bind]
  rw [if_neg (by decide)]
  simp only [DispatchEngine.handleTripRequest, DispatchEngine.createTrip,
    DispatchEngine.findBestDriver, List.foldlM_nil, Option.pure_def, Option.bind_eq_bind,
    Option.some_bind, List.getElem?_concat_length, Option.some.injEq, Prod.mk.injEq]
  exact ⟨_, _, ⟨rfl, rfl⟩, rfl, rfl, by simp⟩

theorem exists_requestsOnly_of_length (n : Nat) :
    ∃ e : DispatchEngine, e.RequestsOnly ∧ e.city = twoNodeCity ∧ e.drivers = [] ∧
      e.trips.length = n := by
  induction n with
  | zero => exact ⟨DispatchEngine.mk1 twoNodeCity, .init _, rfl, rfl, rfl⟩
  | succ n ih =>
    obtain ⟨e, h1, h2, h3, h4⟩ := ih
    obtain ⟨res, e', r1, r2, r3, r4⟩ := requestTrip_without_drivers h2 h3
    exact ⟨e', .requestTrip _ res h1 r1, r2, r3, by rw [r4, h4]⟩

/-- C26, amended. On an engine whose trips were all created by `requestTrip` (the engine
starts from its constructor; `createTrip` and `handleTripRequest` are not called
directly) and that holds at most `2^31 - 1000` trips: the k-th created trip, the registry
entry at index `k - 1`, has id `1000 + (k - 1)`; the ids are pairwise distinct;
`findTripById(id)` returns exactly the trip created with that id; and a further
`requestTrip` that succeeds returns and stores a trip with the next id, `1000 +` the
number of trips created before. -/
theorem trip_ids_sequential (e : DispatchEngine) (hr : e.RequestsOnly)
    (hn : (e.trips.length : Int) ≤ 2147482648) :
    (∀ (k : Nat) (t : Trip), e.trips[k]? = some t → t.id = 1000 + (k : Int)) ∧
    (e.trips.map Trip.id).Nodup ∧
    (∀ (k : Nat) (t : Trip), e.trips[k]? = some t →
      e.findTripById (1000 + (k : Int)) = some t) ∧
    (∀ (rider : Rider) (trip : Trip) (e' : DispatchEngine),
      (e.trips.length : Int) < 2147482648 → e.requestTrip rider = some (some trip, e') →
      trip.id = 1000 + (e.trips.length : Int) ∧ e'.trips[e.trips.length]? = some trip ∧
        e'.trips.length = e.trips.length + 1 ∧ e'.RequestsOnly) := by
  obtain ⟨h1, h2, h3⟩ := trip_ids_of_requestsOnly hr hn
  refine ⟨h1, h2, h3, ?_⟩
  intro rider trip e' hlt hreq
  have hr' : e'.RequestsOnly := .requestTrip rider _ hr hreq
  rcases requestTrip_frame hreq with ⟨hnone, -⟩ | ⟨trip', d, hres, -, -, hbk, hslot, hmap, -, -⟩
  · exact absurd hnone (by simp)
  · have : trip' = trip := (Option.some.inj hres).symm
    subst this
    have hlen : e'.trips.length = e.trips.length + 1 := by
      have := congrArg List.length hmap
      simpa using this
    have hn' : (e'.trips.length : Int) ≤ 2147482648 := by
      rw [hlen]; push_cast; omega
    exact ⟨(trip_ids_of_requestsOnly hr' hn').1 _ _ hslot, hslot, hlen, hr'⟩

/-- C26, amended, on the two-node engine after one `requestTrip`. -/
theorem trip_ids_sequential_witness :
    (∀ (k : Nat) (t : Trip), servedEngine.trips[k]? = some t → t.id = 1000 + (k : Int)) ∧
    (servedEngine.trips.map Trip.id).Nodup ∧
    (∀ (k : Nat) (t : Trip), servedEngine.trips[k]? = some t →
      servedEngine.findTripById (1000 + (k : Int)) = some t) ∧
    (∀ (rider : Rider) (trip : Trip) (e' : DispatchEngine),
      (servedEngine.trips.length : Int) < 2147482648 →
      servedEngine.requestTrip rider = some (some trip, e') →
      trip.id = 1000 + (servedEngine.trips.length : Int) ∧
        e'.trips[servedEngine.trips.length]? = some trip ∧
        e'.trips.length = servedEngine.trips.length + 1 ∧ e'.RequestsOnly) :=
  trip_ids_sequential servedEngine servedEngine_requestsOnly (by decide)

/-- C26 as stated fails. After a direct `handleTripRequest` the first trip created by
`requestTrip` has id `1001`. After `createTrip` of a trip with id `1000` (rider `9`) the
trip created by `requestTrip` also has id `1000`, and `findTripById(1000)` returns the
older trip. And an engine whose trips were all created by `requestTrip` can hold a
`2147482649`-th trip, whose id is not `1000 + 2147482648`, a value no `int` holds: the
id generator has run past `INT_MAX`. -/
theorem trip_ids_sequential_counterexample :
    ((twoNodeEngine.handleTripRequest (Rider.mk3 1 0 1) 7).2.requestTrip (Rider.mk3 2 0 1)).map
        (fun r => r.1.map Trip.id) = some (some 1001) ∧
    ((twoNodeEngine.createTrip (Trip.mk5 1000 9 0 1 7)).2.requestTrip (Rider.mk3 1 0 1)).map
        (fun r => (r.1.map (fun t => (t.id, t.riderId)),
          (r.2.findTripById 1000).map Trip.riderId)) = some (some (1000, 1), some 9) ∧
    (∃ e : DispatchEngine, e.RequestsOnly ∧
      ∃ t, e.trips[2147482648]? = some t ∧ t.id = -2147483648) := by
  refine ⟨by decide, by decide, ?_⟩
  obtain ⟨e, h1, -, -, h4⟩ := exists_requestsOnly_of_length 2147482649
  obtain ⟨hids, -⟩ := h1.trip_ids
  have hlt : 2147482648 < e.trips.length := by rw [h4]; decide
  refine ⟨e, h1, e.trips[2147482648], List.getElem?_eq_getElem hlt, ?_⟩
  have hm : (e.trips.map Trip.id)[2147482648]? = some (e.trips[2147482648]).id := by
    rw [List.getElem?_map, List.getElem?_eq_getElem hlt]; rfl
  rw [hids, List.getElem?_map, List.getElem?_range hlt] at hm
  have := Option.some.inj hm
  rw [← this]
  decide

/-! ## C31: changing a rider's request -/

/-- C31, amended. The active-trip flag does not protect the locations of a rider.
Whatever the flag, `setPickupLocation(l)` and `setDropoffLocation(l)` with `l >= 0`
overwrite the location and nothing else, and with `l < 0` change nothing;
`updateTripRequest(p, d)` applies both setters and the rider it leaves has the flag
cleared. The flag only makes `validateTripRequest` return false. -/
theorem rider_request_update_contract (r : Rider) (p d : Int) :
    (0 ≤ p → r.setPickupLocation p = { r with pickupLocation := p }) ∧
    (p < 0 → r.setPickupLocation p = r) ∧
    (0 ≤ d → r.setDropoffLocation d = { r with dropoffLocation := d }) ∧
    (d < 0 → r.setDropoffLocation d = r) ∧
    r.updateTripRequest p d =
      { (r.setPickupLocation p).setDropoffLocation d with hasActiveTrip := false } ∧
    (r.hasActiveTrip = true → r.validateTripRequest = false) := by
  refine ⟨?_, ?_, ?_, ?_, ?_, ?_⟩
  · intro h
    have : ¬ p < 0 := by omega
    simp [Rider.setPickupLocation, this]
  · intro h
    simp [Rider.setPickupLocation, h]
  · intro h
    have : ¬ d < 0 := by omega
    simp [Rider.setDropoffLocation, this]
  · intro h
    simp [Rider.setDropoffLocation, h]
  · unfold Rider.updateTripRequest Rider.setActiveTripStatus
    generalize (r.setPickupLocation p).setDropoffLocation d = r1
    obtain ⟨a, b, c, f⟩ := r1
    cases f <;> simp
  · intro h
    unfold Rider.validateTripRequest
    split_ifs <;> simp_all

/-- C31 as stated fails: for the rider `(1, 0, 1)` whose active-trip flag is set,
`setPickupLocation(3)` changes the pickup to `3`, `setDropoffLocation(4)` changes the
dropoff to `4`, and `updateTripRequest(2, 3)` changes both locations and clears the
flag. -/
theorem rider_request_update_counterexample :
    ((Rider.mk3 1 0 1).setActiveTripStatus true).hasActiveTrip = true ∧
      (((Rider.mk3 1 0 1).setActiveTripStatus true).setPickupLocation 3).pickupLocation = 3 ∧
      (((Rider.mk3 1 0 1).setActiveTripStatus true).setDropoffLocation 4).dropoffLocation = 4 ∧
      ((Rider.mk3 1 0 1).setActiveTripStatus true).updateTripRequest 2 3 =
        ⟨1, 2, 3, false⟩ := by
  decide

/-! ## C38: the trip state machine has no cycle -/

theorem Trip.Step.rank_lt {t t' : Trip} (h : t.Step t') : t.state.rank < t'.state.rank := by
  have key : ∀ s, t.transitionTo s = (true, t') → t.state.rank < t'.state.rank := by
    intro s hs
    cases hv : t.isValidTransition s with
    | false => rw [Trip.transitionTo_of_invalid hv] at hs; exact absurd hs (by simp)
    | true =>
      rw [Trip.transitionTo_of_valid hv] at hs
      have h2 : t' = { t with state := s } := (congrArg Prod.snd hs).symm
      subst h2
      unfold Trip.isValidTransition at hv
      show t.state.rank < s.rank
      cases hst : t.state <;> cases s <;> simp_all [TripState.rank]
  rcases h with ⟨s, hs⟩ | ⟨driverId, hs⟩ | hs | hs | hs
  · exact key s hs
  · by_cases hst : t.state = TripState.REQUESTED
    · rw [Trip.assignDriver_of_requested hst] at hs
      have h2 := (congrArg Prod.snd hs).symm
      subst h2
      show t.state.rank < TripState.ASSIGNED.rank
      rw [hst]; decide
    · rw [Trip.assignDriver_of_not_requested hst] at hs; exact absurd hs (by simp)
  · by_cases hst : t.state = TripState.ASSIGNED
    · rw [Trip.startTrip_of_assigned hst] at hs
      have h2 := (congrArg Prod.snd hs).symm
      subst h2
      show t.state.rank < TripState.ONGOING.rank
      rw [hst]; decide
    · rw [Trip.startTrip_of_not_assigned hst] at hs; exact absurd hs (by simp)
  · by_cases hst : t.state = TripState.ONGOING
    · rw [Trip.completeTrip_of_ongoing hst] at hs
      have h2 := (congrArg Prod.snd hs).symm
      subst h2
      show t.state.rank < TripState.COMPLETED.rank
      rw [hst]; decide
    · rw [Trip.completeTrip_of_not_ongoing hst] at hs; exact absurd hs (by simp)
  · rcases t.isFinalState_or_isActive with hst | hst
    · rw [Trip.cancelTrip_of_final hst] at hs; exact absurd hs (by simp)
    · rw [Trip.cancelTrip_of_active hst] at hs
      have h2 := (congrArg Prod.snd hs).symm
      subst h2
      show t.state.rank < TripState.CANCELLED.rank
      unfold Trip.isActive at hst
      cases hx : t.state <;> simp_all [TripState.rank]

theorem TripState.rank_le (s : TripState) : s.rank ≤ 3 := by
  cases s <;> decide

/-- Along a sequence of successful lifecycle calls the rank grows by at least one per
call. -/
theorem chain_rank_bound :
    ∀ (l : List Trip) (t : Trip), List.Chain Trip.Step t l →
      ∀ x ∈ l, t.state.rank + 1 ≤ x.state.rank ∧
        t.state.rank + l.length ≤ 3 := by
  intro l
  induction l with
  | nil => intro t _ x hx; simp at hx
  | cons y ys ih =>
    intro t hch x hx
    rw [List.chain_cons] at hch
    have h1 := hch.1.rank_lt
    have hlen : t.state.rank + (y :: ys).length ≤ 3 := by
      cases ys with
      | nil => have := y.state.rank_le; simp; omega
      | cons z zs =>
        have := (ih y hch.2 z (List.mem_cons_self _ _)).2
        simp only [List.length_cons] at this ⊢
        omega
    rcases List.mem_cons.1 hx with rfl | hx'
    · exact ⟨by omega, hlen⟩
    · have := (ih y hch.2 x hx').1
      exact ⟨by omega, hlen⟩

/-- C38. The trip state machine has no cycle: in every sequence of trips in which each
one arises from the one before by a successful call of `transitionTo`, `assignDriver`,
`startTrip`, `completeTrip` or `cancelTrip`, there are at most `3` such calls and no
state occurs twice; and `isActive()` is true exactly when `isFinalState()` is false. -/
theorem trip_lifecycle_acyclic (t : Trip) (l : List Trip) (h : List.Chain Trip.Step t l) :
    l.length ≤ 3 ∧ ((t :: l).map Trip.state).Nodup ∧
      ∀ x : Trip, x.isActive = !x.isFinalState := by
  refine ⟨?_, ?_, Trip.isActive_eq_not_final⟩
  · cases l with
    | nil => simp
    | cons y ys =>
      have := (chain_rank_bound (y :: ys) t h y (List.mem_cons_self _ _)).2
      omega
  · have hsorted : List.Chain (fun a b : Trip => a.state.rank < b.state.rank) t l :=
      h.imp (fun _ _ hab => hab.rank_lt)
    have hch : List.Chain (fun a b : Nat => a < b) t.state.rank
        (l.map (fun x => x.state.rank)) := (List.chain_map _).2 hsorted
    have hpw : List.Pairwise (fun a b : Nat => a < b)
        (t.state.rank :: l.map (fun x => x.state.rank)) := List.chain_iff_pairwise.1 hch
    have hnd : (((t :: l).map Trip.state).map TripState.rank).Nodup := by
      rw [List.map_map]
      exact hpw.imp (fun hab => Nat.ne_of_lt hab)
    exact List.Nodup.of_map _ hnd

/-- C38 on the full life of a trip: requested, assigned to driver `101`, started,
completed. -/
theorem trip_lifecycle_acyclic_witness :
    [((Trip.mk5 1 2 0 1 5).assignDriver 101).2,
      ((Trip.mk5 1 2 0 1 5).assignDriver 101).2.startTrip.2,
      ((Trip.mk5 1 2 0 1 5).assignDriver 101).2.startTrip.2.completeTrip.2].length ≤ 3 ∧
    (((Trip.mk5 1 2 0 1 5) :: [((Trip.mk5 1 2 0 1 5).assignDriver 101).2,
      ((Trip.mk5 1 2 0 1 5).assignDriver 101).2.startTrip.2,
      ((Trip.mk5 1 2 0 1 5).assignDriver 101).2.startTrip.2.completeTrip.2]).map
        Trip.state).Nodup ∧
    ∀ x : Trip, x.isActive = !x.isFinalState :=
  trip_lifecycle_acyclic (Trip.mk5 1 2 0 1 5) _
    (List.Chain.cons (Or.inr (Or.inl ⟨101, rfl⟩))
      (List.Chain.cons (Or.inr (Or.inr (Or.inl rfl)))
        (List.Chain.cons (Or.inr (Or.inr (Or.inr (Or.inl rfl)))) List.Chain.nil)))

/-! ## The three ways `requestTrip` can end -/

/-- A call of `requestTrip` that returns leaves the engine unchanged (no route), or in
the state after `handleTripRequest` (no driver found), or in the state after
`handleTripRequest`, `assignDriverToTrip` for a registered available driver and
`startTrip`. -/
theorem requestTrip_cases {e e' : DispatchEngine} {rider : Rider} {res : Option Trip}
    (h : e.requestTrip rider = some (res, e')) :
    e' = e ∨ ∃ d, e' = (e.handleTripRequest rider d).2 ∨
      ∃ bd, bd ∈ e.drivers ∧ bd.status = DriverStatus.DRIVER_AVAILABLE ∧
        e' = (((e.handleTripRequest rider d).2.assignDriverToTrip
          (e.handleTripRequest rider d).1.id bd.id).2.startTrip
            (e.handleTripRequest rider d).1.id).2 := by
  unfold DispatchEngine.requestTrip at h
  cases hd : e.city.getShortestDistance rider.pickupLocation rider.dropoffLocation with
  | none => rw [hd] at h; exact absurd h (by simp)
  | some d =>
    rw [hd] at h
    simp only [Option.bind_eq_bind, Option.some_bind] at h
    by_cases hneg : d = -1
    · left
      rw [if_pos hneg] at h
      exact (congrArg Prod.snd (Option.some.inj h)).symm
    · right
      refine ⟨d, ?_⟩
      rw [if_neg hneg] at h
      cases hb : (e.handleTripRequest rider d).2.findBestDriver rider.pickupLocation with
      | none => rw [hb] at h; exact absurd h (by simp)
      | some b =>
        rw [hb] at h
        simp only [Option.bind_eq_bind, Option.some_bind] at h
        obtain ⟨best, eb⟩ := b
        obtain ⟨heb, hbest⟩ := findBestDriver_sound hb
        subst heb
        cases best with
        | none =>
          left
          exact (congrArg Prod.snd (Option.some.inj h)).symm
        | some bd =>
          right
          obtain ⟨hm, hav⟩ := hbest bd rfl
          exact ⟨bd, hm, hav, (congrArg Prod.snd (Option.some.inj h)).symm⟩

/-! ## C39: the rider registry -/

theorem assignDriverToTrip_riders (e : DispatchEngine) (tripId driverId : Int) :
    (e.assignDriverToTrip tripId driverId).2.riders = e.riders := by
  unfold DispatchEngine.assignDriverToTrip
  simp only []
  split_ifs
  · rfl
  · split
    · rfl
    · split_ifs <;> rfl

theorem engine_startTrip_riders (e : DispatchEngine) (tripId : Int) :
    (e.startTrip tripId).2.riders = e.riders := by
  unfold DispatchEngine.startTrip
  split
  · rfl
  · simp only []
    split_ifs <;> rfl

theorem removeDriver_frame (e : DispatchEngine) (driverId : Int) :
    (e.removeDriver driverId).2 = { e with drivers := (e.removeDriver driverId).2.drivers } := by
  unfold DispatchEngine.removeDriver
  split <;> rfl

theorem engine_completeTrip_riders_nil {e : DispatchEngine} (h : e.riders = []) (tripId : Int) :
    (e.completeTrip tripId).2.riders = [] := by
  unfold DispatchEngine.completeTrip
  split
  · exact h
  · simp only []
    split_ifs
    · show updateFirst _ _ e.riders = []
      rw [h]; rfl
    · exact h

theorem engine_cancelTrip_riders_nil {e : DispatchEngine} (h : e.riders = []) (tripId : Int) :
    (e.cancelTrip tripId).2.riders = [] := by
  unfold DispatchEngine.cancelTrip
  split
  · exact h
  · simp only []
    split_ifs
    · show updateFirst _ _ e.riders = []
      rw [h]; rfl
    · show updateFirst _ _ e.riders = []
      rw [h]; rfl
    · exact h

theorem requestTrip_riders {e e' : DispatchEngine} {rider : Rider} {res : Option Trip}
    (h : e.requestTrip rider = some (res, e')) : e'.riders = e.riders := by
  rcases requestTrip_cases h with h1 | ⟨d, h1 | ⟨bd, -, -, h1⟩⟩
  · rw [h1]
  · rw [h1]; rfl
  · rw [h1, engine_startTrip_riders, assignDriverToTrip_riders]; rfl

theorem riders_nil_of_reachable {e : DispatchEngine} (h : e.Reachable) : e.riders = [] := by
  induction h with
  | init city => rfl
  | registerDriver d _ ih => exact ih
  | removeDriver driverId _ ih => rw [removeDriver_frame]; exact ih
  | createTrip t _ ih => exact ih
  | handleTripRequest rider distance _ ih => exact ih
  | requestTrip rider res _ hreq ih => rw [requestTrip_riders hreq]; exact ih
  | findBestDriver p res _ hfb ih => rw [(findBestDriver_sound hfb).1]; exact ih
  | assignDriverToTrip tripId driverId _ ih => rw [assignDriverToTrip_riders]; exact ih
  | startTrip tripId _ ih => rw [engine_startTrip_riders]; exact ih
  | completeTrip tripId _ ih => exact engine_completeTrip_riders_nil ih tripId
  | cancelTrip tripId _ ih => exact engine_cancelTrip_riders_nil ih tripId

/-- C39. In every engine state reachable through the engine's public operations the
rider registry is empty: `findRiderById` returns none for every id, and `requestTrip`,
`completeTrip` and `cancelTrip` leave the registry empty, so none of them reads or writes a
`Rider` record through the registry. -/
theorem rider_registry_empty (e : DispatchEngine) (h : e.Reachable) :
    e.riders = [] ∧ (∀ riderId, e.findRiderById riderId = none) ∧
      (∀ tripId, (e.completeTrip tripId).2.riders = [] ∧ (e.cancelTrip tripId).2.riders = []) ∧
      (∀ rider res e', e.requestTrip rider = some (res, e') → e'.riders = []) := by
  have h0 := riders_nil_of_reachable h
  refine ⟨h0, ?_, ?_, ?_⟩
  · intro riderId
    unfold DispatchEngine.findRiderById
    rw [h0]; rfl
  · intro tripId
    exact ⟨engine_completeTrip_riders_nil h0 tripId, engine_cancelTrip_riders_nil h0 tripId⟩
  · intro rider res e' hreq
    rw [requestTrip_riders hreq]; exact h0

theorem servedEngine_reachable : servedEngine.Reachable :=
  .requestTrip (Rider.mk3 1 0 1) _ (.registerDriver (Driver.mk3 101 0 1) (.init twoNodeCity))
    twoNodeEngine_requestTrip

/-- C39 on the two-node engine after one `requestTrip`. -/
theorem rider_registry_empty_witness :
    servedEngine.riders = [] ∧ (∀ riderId, servedEngine.findRiderById riderId = none) ∧
      (∀ tripId, (servedEngine.completeTrip tripId).2.riders = [] ∧
        (servedEngine.cancelTrip tripId).2.riders = []) ∧
      (∀ rider res e', servedEngine.requestTrip rider = some (res, e') → e'.riders = []) :=
  rider_registry_empty servedEngine servedEngine_reachable

/-! ## C40: ids and zone tags of drivers -/

theorem map_updateFirst_of_fixed {α β : Type} (p : α → Bool) (f : α → α) (g : α → β)
    (hg : ∀ x, g (f x) = g x) (l : List α) : (updateFirst p f l).map g = l.map g := by
  induction l with
  | nil => rfl
  | cons y ys ih =>
    rw [updateFirst]
    split_ifs
    · simp [hg]
    · simp [ih]

theorem Driver.setStatus_tag (d : Driver) (s : DriverStatus) : (d.setStatus s).tag = d.tag := rfl

theorem Driver.setCurrentLocation_tag (d : Driver) (loc : Int) :
    (d.setCurrentLocation loc).tag = d.tag := by
  unfold Driver.setCurrentLocation
  split_ifs <;> rfl

theorem assignDriverToTrip_tags (e : DispatchEngine) (tripId driverId : Int) :
    (e.assignDriverToTrip tripId driverId).2.drivers.map Driver.tag = e.drivers.map Driver.tag := by
  unfold DispatchEngine.assignDriverToTrip
  simp only []
  split_ifs
  · rfl
  · split
    · rfl
    · split_ifs
      · exact map_updateFirst_of_fixed _ _ _ (fun x => Driver.setStatus_tag x _) _
      · rfl

theorem engine_startTrip_tags (e : DispatchEngine) (tripId : Int) :
    (e.startTrip tripId).2.drivers.map Driver.tag = e.drivers.map Driver.tag := by
  unfold DispatchEngine.startTrip
  split
  · rfl
  · simp only []
    split_ifs
    · exact map_updateFirst_of_fixed _ _ _ (fun x => Driver.setStatus_tag x _) _
    · rfl

theorem engine_completeTrip_tags (e : DispatchEngine) (tripId : Int) :
    (e.completeTrip tripId).2.drivers.map Driver.tag = e.drivers.map Driver.tag := by
  unfold DispatchEngine.completeTrip
  split
  · rfl
  · simp only []
    split_ifs
    · exact map_updateFirst_of_fixed _ _ _
        (fun x => by rw [Driver.setCurrentLocation_tag, Driver.setStatus_tag]) _
    · rfl

theorem engine_cancelTrip_tags (e : DispatchEngine) (tripId : Int) :
    (e.cancelTrip tripId).2.drivers.map Driver.tag = e.drivers.map Driver.tag := by
  unfold DispatchEngine.cancelTrip
  split
  · rfl
  · simp only []
    split_ifs
    · exact map_updateFirst_of_fixed _ _ _ (fun x => Driver.setStatus_tag x _) _
    · rfl
    · rfl

theorem requestTrip_tags {e e' : DispatchEngine} {rider : Rider} {res : Option Trip}
    (h : e.requestTrip rider = some (res, e')) :
    e'.drivers.map Driver.tag = e.drivers.map Driver.tag := by
  rcases requestTrip_cases h with h1 | ⟨d, h1 | ⟨bd, -, -, h1⟩⟩
  · rw [h1]
  · rw [h1]; rfl
  · rw [h1, engine_startTrip_tags, assignDriverToTrip_tags]; rfl

theorem removeDriver_subset (e : DispatchEngine) (driverId : Int) :
    ∀ x ∈ (e.removeDriver driverId).2.drivers, x ∈ e.drivers := by
  intro x hx
  by_cases hex : ∃ d ∈ e.drivers, d.id = driverId
  · obtain ⟨d, hd, hid⟩ := hex
    obtain ⟨l1, d', l2, ds, h1, -, -, hp, hr⟩ := removeDriver_of_present hd hid
    rw [hr] at hx
    have hx' : x ∈ l1 ++ l2 := hp.mem_iff.1 hx
    rw [h1]
    rcases List.mem_append.1 hx' with h | h
    · exact List.mem_append_left _ h
    · exact List.mem_append_right _ (List.mem_cons_of_mem _ h)
  · rw [removeDriver_of_absent (fun d hd hid => hex ⟨d, hd, hid⟩)] at hx
    exact hx

/-- C40, amended. `completeTrip` on an ONGOING trip moves the driver found for the trip to
the dropoff location when that location is not negative, leaves the driver where it was
when the dropoff location is negative, and leaves the registry as it was when no driver
with the trip's driver id is registered; in every case the driver's id and zone tag stay
as they were. No engine operation changes the id or the zone tag of a registered driver:
`assignDriverToTrip`, `startTrip`,
`completeTrip`, `cancelTrip`, `requestTrip`, `findBestDriver`, `createTrip` and
`handleTripRequest` keep the list of ids and zone tags of the registry, `registerDriver`
appends the new driver, and every driver left by `removeDriver` is one of the drivers
before. On the engine of `main`, after trip `1000` from node `0` (zone 1) to node `5`
(zone 3) is completed, driver `101` stands at node `5` with zone tag `1` while
`getZone(5)` is `3`, and its dispatch score for the pickup `4` (zone 3, distance `6`) is
`26`: the cross-zone penalty is applied. -/
theorem driver_tags_unchanged (e : DispatchEngine) :
    (∀ tripId t d, e.findTripById tripId = some t → t.state = TripState.ONGOING →
      e.findDriverById t.driverId = some d →
      ∃ d', (e.completeTrip tripId).2.findDriverById t.driverId = some d' ∧
        (0 ≤ t.dropoffLocation → d'.currentLocation = t.dropoffLocation) ∧
        (t.dropoffLocation < 0 → d'.currentLocation = d.currentLocation) ∧
        d'.zoneId = d.zoneId ∧ d'.id = d.id) ∧
    (∀ tripId t, e.findTripById tripId = some t → t.state = TripState.ONGOING →
      e.findDriverById t.driverId = none →
      (e.completeTrip tripId).1 = true ∧ (e.completeTrip tripId).2.drivers = e.drivers) ∧
    ((∀ tripId driverId, (e.assignDriverToTrip tripId driverId).2.drivers.map Driver.tag =
        e.drivers.map Driver.tag) ∧
      (∀ tripId, (e.startTrip tripId).2.drivers.map Driver.tag = e.drivers.map Driver.tag) ∧
      (∀ tripId, (e.completeTrip tripId).2.drivers.map Driver.tag = e.drivers.map Driver.tag) ∧
      (∀ tripId, (e.cancelTrip tripId).2.drivers.map Driver.tag = e.drivers.map Driver.tag) ∧
      (∀ rider res e', e.requestTrip rider = some (res, e') →
        e'.drivers.map Driver.tag = e.drivers.map Driver.tag) ∧
      (∀ p res e', e.findBestDriver p = some (res, e') → e'.drivers = e.drivers) ∧
      (∀ t, (e.createTrip t).2.drivers = e.drivers) ∧
      (∀ rider distance, (e.handleTripRequest rider distance).2.drivers = e.drivers) ∧
      (∀ d, (e.registerDriver d).2.drivers = e.drivers ++ [d]) ∧
      (∀ driverId, ∀ x ∈ (e.removeDriver driverId).2.drivers, x ∈ e.drivers)) ∧
    ((crossZoneEngine.completeTrip 1000).1 = true ∧
      (crossZoneEngine.completeTrip 1000).2.findDriverById 101 =
        some ⟨101, 5, 1, DriverStatus.DRIVER_AVAILABLE⟩ ∧
      setupCity.getZone 0 = 1 ∧ setupCity.getZone 5 = 3 ∧ setupCity.getZone 4 = 3 ∧
      setupCity.getShortestDistance 5 4 = some 6 ∧
      (crossZoneEngine.completeTrip 1000).2.calculateDispatchScore
        ⟨101, 5, 1, DriverStatus.DRIVER_AVAILABLE⟩ 4 DEFAULT_SAME_ZONE_BONUS
        DEFAULT_CROSS_ZONE_PENALTY = some 26) := by
  refine ⟨?_, ?_, ⟨assignDriverToTrip_tags e, engine_startTrip_tags e,
    engine_completeTrip_tags e,
    engine_cancelTrip_tags e, fun _ _ _ h => requestTrip_tags h,
    fun _ _ _ h => by rw [(findBestDriver_sound h).1], fun _ => rfl, fun _ _ => rfl,
    fun _ => rfl, removeDriver_subset e⟩, by decide⟩
  · intro tripId t d ht hst hd
    rw [engine_completeTrip_of_ongoing ht hst]
    unfold DispatchEngine.findDriverById at hd ⊢
    refine ⟨(d.setStatus DriverStatus.DRIVER_AVAILABLE).setCurrentLocation t.dropoffLocation,
      ?_, ?_, ?_, ?_, ?_⟩
    · show (updateFirst _ _ e.drivers).find? _ = _
      rw [find?_updateFirst _ _ (fun x hx => by
        simpa [Driver.setCurrentLocation_id, Driver.setStatus_id] using hx), hd]
      rfl
    · intro h0
      have : ¬ t.dropoffLocation < 0 := by omega
      simp [Driver.setCurrentLocation, this]
    · intro h0
      simp [Driver.setCurrentLocation, Driver.setStatus, h0]
    · exact congrArg Prod.snd (Driver.setCurrentLocation_tag _ _)
    · exact congrArg Prod.fst (Driver.setCurrentLocation_tag _ _)
  · intro tripId t ht hst hd
    rw [engine_completeTrip_of_ongoing ht hst]
    refine ⟨rfl, ?_⟩
    show updateFirst _ _ e.drivers = _
    apply updateFirst_of_none
    intro y hy
    unfold DispatchEngine.findDriverById at hd
    have := List.find?_eq_none.1 hd y hy
    simpa using this

/-- C40 as stated fails in its first sentence: for the ONGOING trip `1000` of driver `101`
with dropoff location `-3`, `completeTrip(1000)` returns true and driver `101` is still at
node `0`; and after `removeDriver(101)` on the two-node engine whose trip `1000` is
ONGOING with driver `101`, `completeTrip(1000)` returns true and moves no driver. -/
theorem driver_tags_unchanged_counterexample :
    (strayTripEngine.findTripById 1000).map
        (fun t => (t.state, t.driverId, t.dropoffLocation)) =
        some (TripState.ONGOING, 101, -3) ∧
      strayTripEngine.findDriverById 101 = some ⟨101, 0, 1, DriverStatus.DRIVER_ON_TRIP⟩ ∧
      (strayTripEngine.completeTrip 1000).1 = true ∧
      (strayTripEngine.completeTrip 1000).2.findDriverById 101 =
        some ⟨101, 0, 1, DriverStatus.DRIVER_AVAILABLE⟩ ∧
      ((servedEngine.removeDriver 101).2.completeTrip 1000).1 = true ∧
      ((servedEngine.removeDriver 101).2.completeTrip 1000).2.drivers = [] := by
  decide

/-! ## C33: drivers and the trips that hold them -/

theorem find?_split {α : Type} (p : α → Bool) :
    ∀ (l : List α) (t : α), l.find? p = some t →
      ∃ l1 l2, l = l1 ++ t :: l2 ∧ ∀ f, updateFirst p f l = l1 ++ f t :: l2 := by
  intro l
  induction l with
  | nil => intro t h; simp at h
  | cons y ys ih =>
    intro t h
    rw [List.find?_cons] at h
    cases hy : p y with
    | true =>
      rw [hy] at h
      have : y = t := Option.some.inj h
      subst this
      exact ⟨[], ys, rfl, fun f => by simp [updateFirst, hy]⟩
    | false =>
      rw [hy] at h
      obtain ⟨l1, l2, h1, h2⟩ := ih t h
      refine ⟨y :: l1, l2, by rw [h1]; rfl, fun f => ?_⟩
      rw [updateFirst, hy]
      simp [h2 f]

theorem Trip.holdStatus_ne_available {t : Trip} {s : DriverStatus}
    (h : t.holdStatus = some s) : s ≠ DriverStatus.DRIVER_AVAILABLE := by
  unfold Trip.holdStatus at h
  cases hs : t.state <;> rw [hs] at h <;> simp at h <;> subst h <;> simp

theorem DispatchEngine.Consistent.congr {e1 e2 : DispatchEngine} (h : e1.Consistent)
    (ht : e2.trips = e1.trips) (hd : e2.drivers = e1.drivers) : e2.Consistent := by
  obtain ⟨a, b, c, d, f, g⟩ := h
  refine ⟨?_, ?_, ?_, ?_, ?_, ?_⟩
  · rw [hd]; exact a
  · rw [hd]; exact b
  · rw [ht]; exact c
  · rw [ht]; exact d
  · rw [ht, hd]; exact f
  · rw [ht, hd]; exact g

theorem driver_of_id {l : List Driver} (hnd : (l.map Driver.id).Nodup) {a b : Driver}
    (ha : a ∈ l) (hb : b ∈ l) (h : a.id = b.id) : a = b := by
  have h1 := find?_driver_of_mem hnd ha
  have h2 := find?_driver_of_mem hnd hb
  rw [h] at h1
  rw [h1] at h2
  exact Option.some.inj h2

/-- One write of the engine: the trip `t` becomes `t'` and the driver with id `k` (if
registered) is rewritten by `g`. -/
theorem DispatchEngine.Consistent.step {e e' : DispatchEngine} (hI : e.Consistent)
    {l1 l2 : List Trip} {t t' : Trip} {k : Int} {g : Driver → Driver}
    (htr : e.trips = l1 ++ t :: l2) (htr' : e'.trips = l1 ++ t' :: l2)
    (hdr' : e'.drivers = e.drivers.map (fun d => if d.id = k then g d else d))
    (hg : ∀ d, (g d).id = d.id)
    (G1 : t'.state ≠ TripState.REQUESTED)
    (G2 : ∀ x ∈ l1 ++ l2, x.holdStatus ≠ none → x.driverId ≠ k)
    (G3 : ∀ s, t'.holdStatus = some s →
      t'.driverId = k ∧ (∃ d ∈ e.drivers, d.id = k) ∧ ∀ d, (g d).status = s)
    (G4 : t'.holdStatus = none → ∀ d ∈ e.drivers, d.id = k →
      (g d).status = DriverStatus.DRIVER_AVAILABLE)
    (G5 : t.holdStatus ≠ none → t.driverId = k) : e'.Consistent := by
  have hids : e'.drivers.map Driver.id = e.drivers.map Driver.id := by
    rw [hdr', List.map_map]
    apply List.map_congr_left
    intro d _
    simp only [Function.comp]
    split_ifs
    · exact hg d
    · rfl
  have hmemT : ∀ x, x ∈ l1 ++ l2 → x ∈ e.trips := by
    intro x hx
    rw [htr]
    rcases List.mem_append.1 hx with h | h
    · exact List.mem_append_left _ h
    · exact List.mem_append_right _ (List.mem_cons_of_mem _ h)
  have hmemT' : ∀ x, x ∈ e'.trips → x = t' ∨ x ∈ l1 ++ l2 := by
    intro x hx
    rw [htr'] at hx
    rcases List.mem_append.1 hx with h | h
    · exact Or.inr (List.mem_append_left _ h)
    · rcases List.mem_cons.1 h with h | h
      · exact Or.inl h
      · exact Or.inr (List.mem_append_right _ h)
  have hmemD : ∀ d, d ∈ e.drivers → (if d.id = k then g d else d) ∈ e'.drivers := by
    intro d hd
    rw [hdr']
    exact List.mem_map_of_mem _ hd
  have hpw := hI.distinct
  rw [htr, List.pairwise_append, List.pairwise_cons] at hpw
  obtain ⟨p1, ⟨p2, p3⟩, p4⟩ := hpw
  refine ⟨?_, ?_, ?_, ?_, ?_, ?_⟩
  · rw [hids]; exact hI.ids_nodup
  · intro d hd
    rw [hdr'] at hd
    obtain ⟨d0, hd0, rfl⟩ := List.mem_map.1 hd
    have := hI.ids_nonneg d0 hd0
    split_ifs
    · rw [hg]; exact this
    · exact this
  · intro x hx hst
    rcases hmemT' x hx with rfl | hx'
    · exact absurd hst G1
    · exact hI.requested x (hmemT x hx') hst
  · rw [htr', List.pairwise_append, List.pairwise_cons]
    refine ⟨p1, ⟨?_, p3⟩, ?_⟩
    · intro b hb _ hbb
      cases hs : t'.holdStatus with
      | none => intro _; exact absurd hs ‹_›
      | some s =>
        rw [(G3 s hs).1]
        exact fun h => G2 b (List.mem_append_right _ hb) hbb h.symm
    · intro a ha b hb
      rcases List.mem_cons.1 hb with rfl | hb'
      · intro haa hbb
        cases hs : b.holdStatus with
        | none => exact absurd hs hbb
        | some s =>
          rw [(G3 s hs).1]
          exact G2 a (List.mem_append_left _ ha) haa
      · exact p4 a ha b (List.mem_cons_of_mem _ hb')
  · intro x hx s hs
    rcases hmemT' x hx with rfl | hx'
    · obtain ⟨h1, ⟨d, hd, hdk⟩, h3⟩ := G3 s hs
      refine ⟨g d, ?_, by rw [hg, hdk, h1], h3 d⟩
      have := hmemD d hd
      rw [if_pos hdk] at this
      exact this
    · obtain ⟨d, hd, hdi, hds⟩ := hI.named x (hmemT x hx') s hs
      have hne : d.id ≠ k := by
        rw [hdi]
        exact G2 x hx' (by rw [hs]; simp)
      refine ⟨d, ?_, hdi, hds⟩
      have := hmemD d hd
      rw [if_neg hne] at this
      exact this
  · intro d hd
    rw [hdr'] at hd
    obtain ⟨d0, hd0, rfl⟩ := List.mem_map.1 hd
    by_cases hk : d0.id = k
    · rw [if_pos hk]
      cases hs : t'.holdStatus with
      | none => exact Or.inl (G4 hs d0 hd0 hk)
      | some s =>
        right
        obtain ⟨h1, -, h3⟩ := G3 s hs
        refine ⟨t', ?_, by rw [h1, hg, hk], by rw [hs, h3]⟩
        rw [htr']
        exact List.mem_append_right _ (List.mem_cons_self _ _)
    · rw [if_neg hk]
      rcases hI.held d0 hd0 with h | ⟨x, hx, hxi, hxs⟩
      · exact Or.inl h
      · right
        have hxne : x ≠ t := by
          rintro rfl
          exact hk (by rw [← hxi]; exact G5 (by rw [hxs]; simp))
        refine ⟨x, ?_, hxi, hxs⟩
        rw [htr] at hx
        rw [htr']
        rcases List.mem_append.1 hx with h | h
        · exact List.mem_append_left _ h
        · rcases List.mem_cons.1 h with h | h
          · exact absurd h hxne
          · exact List.mem_append_right _ (List.mem_cons_of_mem _ h)

theorem Trip.holdStatus_of_state {t : Trip} :
    (t.state = TripState.ASSIGNED → t.holdStatus = some DriverStatus.DRIVER_ASSIGNED) ∧
    (t.state = TripState.ONGOING → t.holdStatus = some DriverStatus.DRIVER_ON_TRIP) ∧
    (t.state ≠ TripState.ASSIGNED → t.state ≠ TripState.ONGOING → t.holdStatus = none) := by
  unfold Trip.holdStatus
  cases t.state <;> simp

/-- Other trips that hold a driver do not name the driver of the trip `t` when `t` holds
one. -/
theorem DispatchEngine.Consistent.others_ne {e : DispatchEngine} (hI : e.Consistent)
    {l1 l2 : List Trip} {t : Trip} (htr : e.trips = l1 ++ t :: l2)
    (ht : t.holdStatus ≠ none) :
    ∀ x ∈ l1 ++ l2, x.holdStatus ≠ none → x.driverId ≠ t.driverId := by
  have hpw := hI.distinct
  rw [htr, List.pairwise_append, List.pairwise_cons] at hpw
  obtain ⟨-, ⟨p2, -⟩, p4⟩ := hpw
  intro x hx hxx
  rcases List.mem_append.1 hx with h | h
  · exact p4 x h t (List.mem_cons_self _ _) hxx ht
  · exact fun heq => p2 x h ht hxx heq.symm

/-- Trips that hold a driver do not name an available driver. -/
theorem DispatchEngine.Consistent.available_free {e : DispatchEngine} (hI : e.Consistent)
    {d : Driver} (hd : d ∈ e.drivers) (hav : d.status = DriverStatus.DRIVER_AVAILABLE) :
    ∀ x ∈ e.trips, x.holdStatus ≠ none → x.driverId ≠ d.id := by
  intro x hx hxx heq
  cases hs : x.holdStatus with
  | none => exact hxx hs
  | some s =>
    obtain ⟨d', hd', hdi, hds⟩ := hI.named x hx s hs
    have : d' = d := driver_of_id hI.ids_nodup hd' hd (by rw [hdi, heq])
    subst this
    exact Trip.holdStatus_ne_available hs (hds ▸ hav)

theorem DispatchEngine.Consistent.assignDriverToTrip {e : DispatchEngine} (hI : e.Consistent)
    (tripId driverId : Int) : (e.assignDriverToTrip tripId driverId).2.Consistent := by
  cases hv : DispatchEngine.validateAssignment (e.findTripById tripId)
      (e.findDriverById driverId) with
  | false => rw [assignDriverToTrip_of_invalid hv]; exact hI
  | true =>
    obtain ⟨t, d, ht, hd, hav⟩ := validateAssignment_eq_true.1 hv
    by_cases hst : t.state = TripState.REQUESTED
    · rw [assignDriverToTrip_of_requested ht hd hav hst]
      obtain ⟨l1, l2, h1, h2⟩ := find?_split _ _ _ ht
      have hdm : d ∈ e.drivers := List.mem_of_find?_eq_some hd
      have hdi : d.id = driverId := find?_id_eq Driver.id driverId hd
      have h0 : 0 ≤ driverId := hdi ▸ hI.ids_nonneg d hdm
      have hnot : ¬ driverId < 0 := by omega
      apply hI.step (k := driverId) (g := fun x => x.setStatus DriverStatus.DRIVER_ASSIGNED)
        h1 (h2 _) (updateFirst_driver_eq_map _ driverId e.drivers hI.ids_nodup)
        (fun _ => rfl)
      · simp
      · intro x hx hxx
        rw [← hdi]
        refine hI.available_free hdm ((isAvailable_iff d).1 hav) x ?_ hxx
        rw [h1]
        rcases List.mem_append.1 hx with h | h
        · exact List.mem_append_left _ h
        · exact List.mem_append_right _ (List.mem_cons_of_mem _ h)
      · intro s hs
        have : s = DriverStatus.DRIVER_ASSIGNED := by
          have := (Trip.holdStatus_of_state (t :=
            { t.setDriverId driverId with state := TripState.ASSIGNED })).1 rfl
          rw [this] at hs
          exact (Option.some.inj hs).symm
        subst this
        refine ⟨?_, ⟨d, hdm, hdi⟩, fun _ => rfl⟩
        simp [Trip.setDriverId, hnot]
      · intro hn
        have := (Trip.holdStatus_of_state (t :=
          { t.setDriverId driverId with state := TripState.ASSIGNED })).1 rfl
        rw [this] at hn
        exact absurd hn (by simp)
      · intro hh
        have := (Trip.holdStatus_of_state (t := t)).2.2 (by rw [hst]; simp) (by rw [hst]; simp)
        exact absurd this hh
    · rw [assignDriverToTrip_of_not_requested ht hst]; exact hI

theorem DispatchEngine.Consistent.startTrip {e : DispatchEngine} (hI : e.Consistent)
    (tripId : Int) : (e.startTrip tripId).2.Consistent := by
  cases ht : e.findTripById tripId with
  | none => rw [engine_startTrip_of_missing ht]; exact hI
  | some t =>
    by_cases hst : t.state = TripState.ASSIGNED
    · rw [engine_startTrip_of_assigned ht hst]
      obtain ⟨l1, l2, h1, h2⟩ := find?_split _ _ _ ht
      have hold := Trip.holdStatus_of_state.1 hst
      have htm : t ∈ e.trips := List.mem_of_find?_eq_some ht
      apply hI.step (k := t.driverId) (g := fun x => x.setStatus DriverStatus.DRIVER_ON_TRIP)
        h1 (h2 _) (updateFirst_driver_eq_map _ t.driverId e.drivers hI.ids_nodup)
        (fun _ => rfl)
      · simp
      · exact hI.others_ne h1 (by rw [hold]; simp)
      · intro s hs
        have : s = DriverStatus.DRIVER_ON_TRIP := by
          have := (Trip.holdStatus_of_state (t := { t with state := TripState.ONGOING })).2.1 rfl
          rw [this] at hs
          exact (Option.some.inj hs).symm
        subst this
        obtain ⟨d, hd, hdi, -⟩ := hI.named t htm _ hold
        exact ⟨rfl, ⟨d, hd, hdi⟩, fun _ => rfl⟩
      · intro hn
        have := (Trip.holdStatus_of_state (t := { t with state := TripState.ONGOING })).2.1 rfl
        rw [this] at hn
        exact absurd hn (by simp)
      · intro _; rfl
    · rw [engine_startTrip_of_not_assigned ht hst]; exact hI

theorem DispatchEngine.Consistent.completeTrip {e : DispatchEngine} (hI : e.Consistent)
    (tripId : Int) : (e.completeTrip tripId).2.Consistent := by
  cases ht : e.findTripById tripId with
  | none => rw [engine_completeTrip_of_missing ht]; exact hI
  | some t =>
    by_cases hst : t.state = TripState.ONGOING
    · rw [engine_completeTrip_of_ongoing ht hst]
      obtain ⟨l1, l2, h1, h2⟩ := find?_split _ _ _ ht
      have hold := Trip.holdStatus_of_state.2.1 hst
      apply hI.step (k := t.driverId)
        (g := fun x => (x.setStatus DriverStatus.DRIVER_AVAILABLE).setCurrentLocation
          t.dropoffLocation)
        h1 (h2 _) (updateFirst_driver_eq_map _ t.driverId e.drivers hI.ids_nodup)
        (fun x => by simp only [Driver.setCurrentLocation_id, Driver.setStatus_id])
      · simp
      · exact hI.others_ne h1 (by rw [hold]; simp)
      · intro s hs
        have := (Trip.holdStatus_of_state (t := { t with state := TripState.COMPLETED })).2.2
          (by simp) (by simp)
        rw [this] at hs
        exact absurd hs (by simp)
      · intro _ d _ _
        simp only [Driver.setCurrentLocation_status]
        rfl
      · intro _; rfl
    · rw [engine_completeTrip_of_not_ongoing ht hst]; exact hI

theorem DispatchEngine.Consistent.cancelTrip {e : DispatchEngine} (hI : e.Consistent)
    (tripId : Int) : (e.cancelTrip tripId).2.Consistent := by
  cases ht : e.findTripById tripId with
  | none => rw [engine_cancelTrip_of_missing ht]; exact hI
  | some t =>
    rcases t.isFinalState_or_isActive with hst | hst
    · rw [engine_cancelTrip_of_final ht hst]; exact hI
    · rw [engine_cancelTrip_of_active ht hst]
      obtain ⟨l1, l2, h1, h2⟩ := find?_split _ _ _ ht
      have htm : t ∈ e.trips := List.mem_of_find?_eq_some ht
      have hnew : ({ t with state := TripState.CANCELLED } : Trip).holdStatus = none :=
        (Trip.holdStatus_of_state (t := { t with state := TripState.CANCELLED })).2.2
          (by simp) (by simp)
      by_cases hdr : t.driverId = -1
      · -- no driver is named: the driver registry is not written
        have hfree : t.holdStatus = none := by
          cases hs : t.holdStatus with
          | none => rfl
          | some s =>
            obtain ⟨d, hd, hdi, -⟩ := hI.named t htm s hs
            have := hI.ids_nonneg d hd
            omega
        apply hI.step (k := -1) (g := fun x => x) h1 (h2 _) _ (fun _ => rfl)
        · simp
        · intro x hx hxx
          cases hs : x.holdStatus with
          | none => exact absurd hs hxx
          | some s =>
            have hxm : x ∈ e.trips := by
              rw [h1]
              rcases List.mem_append.1 hx with h | h
              · exact List.mem_append_left _ h
              · exact List.mem_append_right _ (List.mem_cons_of_mem _ h)
            obtain ⟨d, hd, hdi, -⟩ := hI.named x hxm s hs
            have := hI.ids_nonneg d hd
            omega
        · intro s hs
          rw [hnew] at hs
          exact absurd hs (by simp)
        · intro _ d hd hdk
          have := hI.ids_nonneg d hd
          omega
        · intro _; exact hdr
        · show (if t.driverId ≠ -1 then _ else e.drivers) = _
          rw [if_neg (by simp [hdr])]
          simp
      · have hbusy : t.holdStatus ≠ none := by
          intro hn
          have hreq : t.state = TripState.REQUESTED := by
            unfold Trip.isActive at hst
            unfold Trip.holdStatus at hn
            cases hx : t.state <;> simp_all
          exact hdr (hI.requested t htm hreq)
        apply hI.step (k := t.driverId)
          (g := fun x => x.setStatus DriverStatus.DRIVER_AVAILABLE) h1 (h2 _) _ (fun _ => rfl)
        · simp
        · exact hI.others_ne h1 hbusy
        · intro s hs
          rw [hnew] at hs
          exact absurd hs (by simp)
        · intro _ d _ _; rfl
        · intro _; rfl
        · show (if t.driverId ≠ -1 then _ else e.drivers) = _
          rw [if_pos hdr]
          exact updateFirst_driver_eq_map _ t.driverId e.drivers hI.ids_nodup

theorem DispatchEngine.Consistent.registerDriver {e : DispatchEngine} (hI : e.Consistent)
    {driverId : Int} (locationId zone : Int) (h0 : 0 ≤ driverId)
    (hfresh : ∀ d ∈ e.drivers, d.id ≠ driverId) :
    (e.registerDriver (Driver.mk3 driverId locationId zone)).2.Consistent := by
  show DispatchEngine.Consistent
    { e with drivers := e.drivers ++ [Driver.mk3 driverId locationId zone] }
  refine ⟨?_, ?_, hI.requested, hI.distinct, ?_, ?_⟩
  · show ((e.drivers ++ [Driver.mk3 driverId locationId zone]).map Driver.id).Nodup
    rw [List.map_append, List.nodup_append]
    refine ⟨hI.ids_nodup, by simp, ?_⟩
    intro x hx hx'
    obtain ⟨d, hd, hdi⟩ := List.mem_map.1 hx
    simp only [List.map_cons, List.map_nil, List.mem_singleton] at hx'
    exact hfresh d hd (by rw [hdi, hx']; rfl)
  · intro d hd
    rcases List.mem_append.1 hd with h | h
    · exact hI.ids_nonneg d h
    · simp only [List.mem_singleton] at h
      rw [h]; exact h0
  · intro t ht s hs
    obtain ⟨d, hd, h1, h2⟩ := hI.named t ht s hs
    exact ⟨d, List.mem_append_left _ hd, h1, h2⟩
  · intro d hd
    rcases List.mem_append.1 hd with h | h
    · exact hI.held d h
    · simp only [List.mem_singleton] at h
      rw [h]; exact Or.inl rfl

theorem DispatchEngine.Consistent.handleTripRequest {e : DispatchEngine} (hI : e.Consistent)
    (rider : Rider) (distance : Int) : (e.handleTripRequest rider distance).2.Consistent := by
  obtain ⟨-, -, f3, f4⟩ := Trip.mk5_fields e.nextTripId rider.id rider.pickupLocation
    rider.dropoffLocation distance
  have hnone : (Trip.mk5 e.nextTripId rider.id rider.pickupLocation rider.dropoffLocation
      distance).holdStatus = none :=
    Trip.holdStatus_of_state.2.2 (by rw [f4]; simp) (by rw [f4]; simp)
  show DispatchEngine.Consistent
    { e with nextTripId := wrapInt32 (e.nextTripId + 1),
             trips := e.trips ++ [Trip.mk5 e.nextTripId rider.id rider.pickupLocation
               rider.dropoffLocation distance] }
  refine ⟨hI.ids_nodup, hI.ids_nonneg, ?_, ?_, ?_, ?_⟩
  · intro t ht hst
    rcases List.mem_append.1 ht with h | h
    · exact hI.requested t h hst
    · simp only [List.mem_singleton] at h
      rw [h]; exact f3
  · show List.Pairwise _ (e.trips ++ [_])
    rw [List.pairwise_append]
    refine ⟨hI.distinct, List.pairwise_singleton _ _, ?_⟩
    intro a _ b hb _ hbb
    simp only [List.mem_singleton] at hb
    rw [hb] at hbb
    exact absurd hnone hbb
  · intro t ht s hs
    rcases List.mem_append.1 ht with h | h
    · exact hI.named t h s hs
    · simp only [List.mem_singleton] at h
      rw [h, hnone] at hs
      exact absurd hs (by simp)
  · intro d hd
    rcases hI.held d hd with h | ⟨t, ht, h1, h2⟩
    · exact Or.inl h
    · exact Or.inr ⟨t, List.mem_append_left _ ht, h1, h2⟩

theorem DispatchEngine.Consistent.requestTrip {e e' : DispatchEngine} (hI : e.Consistent)
    {rider : Rider} {res : Option Trip} (h : e.requestTrip rider = some (res, e')) :
    e'.Consistent := by
  rcases requestTrip_cases h with h1 | ⟨d, h1 | ⟨bd, -, -, h1⟩⟩
  · rw [h1]; exact hI
  · rw [h1]; exact hI.handleTripRequest rider d
  · rw [h1]
    exact ((hI.handleTripRequest rider d).assignDriverToTrip _ _).startTrip _

theorem DispatchEngine.Dispatching.consistent {e : DispatchEngine} (h : e.Dispatching) :
    e.Consistent := by
  induction h with
  | init city =>
    exact ⟨List.nodup_nil, (fun d hd => nomatch hd), (fun t ht => nomatch ht),
      List.Pairwise.nil, (fun t ht => nomatch ht), (fun d hd => nomatch hd)⟩
  | registerDriver driverId locationId zone _ h0 hfresh ih =>
    exact ih.registerDriver locationId zone h0 hfresh
  | requestTrip rider res _ hreq ih => exact ih.requestTrip hreq
  | assignDriverToTrip tripId driverId _ ih => exact ih.assignDriverToTrip tripId driverId
  | startTrip tripId _ ih => exact ih.startTrip tripId
  | completeTrip tripId _ ih => exact ih.completeTrip tripId
  | cancelTrip tripId _ ih => exact ih.cancelTrip tripId
  | network city _ ih => exact ih.congr rfl rfl

/-- What the agreement between the two registries says about every registered driver. -/
theorem DispatchEngine.Consistent.driver_status {e : DispatchEngine} (hI : e.Consistent) :
    e.trips.Pairwise (fun a b =>
      (a.state = TripState.ASSIGNED ∨ a.state = TripState.ONGOING) →
      (b.state = TripState.ASSIGNED ∨ b.state = TripState.ONGOING) →
      a.driverId ≠ b.driverId) ∧
    ∀ d ∈ e.drivers,
      (d.status = DriverStatus.DRIVER_ASSIGNED ↔
        ∃ t ∈ e.trips, t.state = TripState.ASSIGNED ∧ t.driverId = d.id) ∧
      (d.status = DriverStatus.DRIVER_ON_TRIP ↔
        ∃ t ∈ e.trips, t.state = TripState.ONGOING ∧ t.driverId = d.id) ∧
      (d.status = DriverStatus.DRIVER_AVAILABLE ↔
        ¬ ∃ t ∈ e.trips, (t.state = TripState.ASSIGNED ∨ t.state = TripState.ONGOING) ∧
          t.driverId = d.id) := by
  have hbusy : ∀ t : Trip, (t.state = TripState.ASSIGNED ∨ t.state = TripState.ONGOING) →
      t.holdStatus ≠ none := by
    intro t ht
    rcases ht with h | h
    · rw [Trip.holdStatus_of_state.1 h]; simp
    · rw [Trip.holdStatus_of_state.2.1 h]; simp
  have hstate : ∀ (t : Trip) (s : DriverStatus), t.holdStatus = some s →
      (s = DriverStatus.DRIVER_ASSIGNED ∧ t.state = TripState.ASSIGNED) ∨
      (s = DriverStatus.DRIVER_ON_TRIP ∧ t.state = TripState.ONGOING) := by
    intro t s hs
    unfold Trip.holdStatus at hs
    cases hx : t.state <;> rw [hx] at hs <;> simp at hs <;> subst hs <;> simp
  have hfwd : ∀ d ∈ e.drivers, ∀ t ∈ e.trips, ∀ s, t.holdStatus = some s →
      t.driverId = d.id → d.status = s := by
    intro d hd t ht s hs hti
    obtain ⟨d', hd', hdi, hds⟩ := hI.named t ht s hs
    have : d' = d := driver_of_id hI.ids_nodup hd' hd (by rw [hdi, hti])
    rw [← this]; exact hds
  refine ⟨hI.distinct.imp (fun h ha hb => h (hbusy _ ha) (hbusy _ hb)), ?_⟩
  intro d hd
  refine ⟨⟨?_, ?_⟩, ⟨?_, ?_⟩, ⟨?_, ?_⟩⟩
  · intro hs
    rcases hI.held d hd with h | ⟨t, ht, hti, hts⟩
    · rw [hs] at h; exact absurd h (by simp)
    · rcases hstate t _ hts with ⟨-, h2⟩ | ⟨h1, -⟩
      · exact ⟨t, ht, h2, hti⟩
      · rw [hs] at h1; exact absurd h1 (by simp)
  · rintro ⟨t, ht, hst, hti⟩
    exact hfwd d hd t ht _ (Trip.holdStatus_of_state.1 hst) hti
  · intro hs
    rcases hI.held d hd with h | ⟨t, ht, hti, hts⟩
    · rw [hs] at h; exact absurd h (by simp)
    · rcases hstate t _ hts with ⟨h1, -⟩ | ⟨-, h2⟩
      · rw [hs] at h1; exact absurd h1 (by simp)
      · exact ⟨t, ht, h2, hti⟩
  · rintro ⟨t, ht, hst, hti⟩
    exact hfwd d hd t ht _ (Trip.holdStatus_of_state.2.1 hst) hti
  · rintro hs ⟨t, ht, hst, hti⟩
    rcases hst with h | h
    · have := hfwd d hd t ht _ (Trip.holdStatus_of_state.1 h) hti
      rw [hs] at this; exact absurd this (by simp)
    · have := hfwd d hd t ht _ (Trip.holdStatus_of_state.2.1 h) hti
      rw [hs] at this; exact absurd this (by simp)
  · intro hno
    rcases hI.held d hd with h | ⟨t, ht, hti, hts⟩
    · exact h
    · exfalso
      apply hno
      rcases hstate t _ hts with ⟨-, h2⟩ | ⟨-, h2⟩
      · exact ⟨t, ht, Or.inl h2, hti⟩
      · exact ⟨t, ht, Or.inr h2, hti⟩

/-- C33. In every engine state reachable from a fresh engine by `registerDriver` (newly
built drivers with pairwise distinct non-negative ids, never removed and never written
from outside), `requestTrip`, `assignDriverToTrip`, `startTrip`, `completeTrip` and
`cancelTrip`: no two trips in state ASSIGNED or ONGOING name the same driver, and a
registered driver has status ASSIGNED exactly when some trip in state ASSIGNED names it,
status ON_TRIP exactly when some trip in state ONGOING names it, and status AVAILABLE
exactly when no trip in state ASSIGNED or ONGOING names it. -/
theorem drivers_agree_with_trips (e : DispatchEngine) (h : e.Dispatching) :
    e.trips.Pairwise (fun a b =>
      (a.state = TripState.ASSIGNED ∨ a.state = TripState.ONGOING) →
      (b.state = TripState.ASSIGNED ∨ b.state = TripState.ONGOING) →
      a.driverId ≠ b.driverId) ∧
    ∀ d ∈ e.drivers,
      (d.status = DriverStatus.DRIVER_ASSIGNED ↔
        ∃ t ∈ e.trips, t.state = TripState.ASSIGNED ∧ t.driverId = d.id) ∧
      (d.status = DriverStatus.DRIVER_ON_TRIP ↔
        ∃ t ∈ e.trips, t.state = TripState.ONGOING ∧ t.driverId = d.id) ∧
      (d.status = DriverStatus.DRIVER_AVAILABLE ↔
        ¬ ∃ t ∈ e.trips, (t.state = TripState.ASSIGNED ∨ t.state = TripState.ONGOING) ∧
          t.driverId = d.id) :=
  h.consistent.driver_status

theorem servedEngine_dispatching : servedEngine.Dispatching :=
  .requestTrip (Rider.mk3 1 0 1) _
    (.registerDriver 101 0 1 (.init twoNodeCity) (by decide) (fun d hd => nomatch hd))
    twoNodeEngine_requestTrip

/-- C33 on the two-node engine after one `requestTrip`: trip `1000` is ONGOING with
driver `101`, which is ON_TRIP. -/
theorem drivers_agree_with_trips_witness :
    servedEngine.trips.Pairwise (fun a b =>
      (a.state = TripState.ASSIGNED ∨ a.state = TripState.ONGOING) →
      (b.state = TripState.ASSIGNED ∨ b.state = TripState.ONGOING) →
      a.driverId ≠ b.driverId) ∧
    ∀ d ∈ servedEngine.drivers,
      (d.status = DriverStatus.DRIVER_ASSIGNED ↔
        ∃ t ∈ servedEngine.trips, t.state = TripState.ASSIGNED ∧ t.driverId = d.id) ∧
      (d.status = DriverStatus.DRIVER_ON_TRIP ↔
        ∃ t ∈ servedEngine.trips, t.state = TripState.ONGOING ∧ t.driverId = d.id) ∧
      (d.status = DriverStatus.DRIVER_AVAILABLE ↔
        ¬ ∃ t ∈ servedEngine.trips,
          (t.state = TripState.ASSIGNED ∨ t.state = TripState.ONGOING) ∧ t.driverId = d.id) :=
  drivers_agree_with_trips servedEngine servedEngine_dispatching

/-! ## C34: the reported distance is symmetric -/

theorem City.Walk.cons {c : City} {a b v w d : Int} (hr : c.RoadBetween a b w)
    (h : c.Walk b v d) : c.Walk a v (w + d) := by
  induction h with
  | nil _ =>
    have h1 := City.Walk.snoc w (City.Walk.nil (roadBetween_source hr)) hr
    rw [zero_add] at h1
    rw [add_zero]
    exact h1
  | snoc w' _ hr' ih =>
    rw [← add_assoc]
    exact City.Walk.snoc w' ih hr'

theorem City.Walk.symm {c : City} (hwf : c.WF) {s v d : Int} (h : c.Walk s v d) :
    c.Walk v s d := by
  induction h with
  | nil hx => exact City.Walk.nil hx
  | snoc w _ hr ih =>
    rw [add_comm]
    exact City.Walk.cons (hwf.roadBetween_symm hr) ih

theorem connected_swap {c : City} (hwf : c.WF) {s v : Int} (h : c.Connected s v) :
    c.Connected v s := by
  obtain ⟨d, hd⟩ := h
  exact ⟨d, hd.symm hwf⟩

theorem shortest_distance_symm {c : City} (hwf : c.WF) (hid : c.IdsAreIndices)
    (hsum : c.edgeWeightSum < INT_MAX) (a b : Int) :
    ∃ v, c.getShortestDistance a b = some v ∧ c.getShortestDistance b a = some v ∧
      (v = -1 ↔ ¬ c.Connected a b) := by
  by_cases h : c.Connected a b
  · obtain ⟨d1, e1, w1, m1⟩ := shortest_distance_walk hwf hid hsum h
    obtain ⟨d2, e2, w2, m2⟩ := shortest_distance_walk hwf hid hsum (connected_swap hwf h)
    have h1 := m1 _ (w2.symm hwf)
    have h2 := m2 _ (w1.symm hwf)
    have h3 := w1.nonneg hwf
    have hd : d2 = d1 := by omega
    subst hd
    refine ⟨d2, e1, e2, ?_⟩
    constructor
    · intro h4; omega
    · intro h4; exact absurd h h4
  · have h' : ¬ c.Connected b a := fun hc => h (connected_swap hwf hc)
    exact ⟨-1, (unreachable_report hwf hid (Or.inr (Or.inr h))).1,
      (unreachable_report hwf hid (Or.inr (Or.inr h'))).1, fun _ => h, fun _ => rfl⟩

/-- C34, amended. On a network built through the public mutators whose i-th node has id
`i` and whose road weights add up to less than `INT_MAX`, `getShortestDistance(a, b)` and
`getShortestDistance(b, a)` return the same value for all `a`, `b`, and that value is
`-1` exactly when no sequence of roads joins the two. -/
theorem shortest_distance_symmetric (c : City) (hc : c.Reachable) (hid : c.IdsAreIndices)
    (hsum : c.edgeWeightSum < INT_MAX) (a b : Int) :
    ∃ v, c.getShortestDistance a b = some v ∧ c.getShortestDistance b a = some v ∧
      (v = -1 ↔ ¬ c.Connected a b) :=
  shortest_distance_symm hc.wf hid hsum a b

/-- C34 on the six-node example network, for the pair `(0, 5)`. -/
theorem shortest_distance_symmetric_witness :
    ∃ v, sixNodeCity.getShortestDistance 0 5 = some v ∧
      sixNodeCity.getShortestDistance 5 0 = some v ∧
      (v = -1 ↔ ¬ sixNodeCity.Connected 0 5) :=
  shortest_distance_symmetric sixNodeCity sixNodeCity_reachable sixNodeCity_idsAreIndices
    sixNodeCity_edgeWeightSum 0 5

theorem heavyTailCity_reachable : heavyTailCity.Reachable :=
  .addRoad 1 2 2147483647 (.addRoad 0 1 5 (.addLocation 2 (.addLocation 1
    (.addLocation 0 .empty))))

/-- Without the bound on the weights C34 fails: with roads `(0,1,5)` and
`(1,2,INT_MAX)` the sum `5 + INT_MAX` wraps around and node `2` is reported at distance
`-2147483644` from node `0`, while from node `2` the sum `0 + INT_MAX` equals the
sentinel and node `0` is reported unreachable. -/
theorem shortest_distance_symmetric_counterexample :
    heavyTailCity.Reachable ∧ heavyTailCity.IdsAreIndices ∧
      heavyTailCity.getShortestDistance 0 2 = some (-2147483644) ∧
      heavyTailCity.getShortestDistance 2 0 = some (-1) ∧
      heavyTailCity.getShortestDistance 0 2 ≠ heavyTailCity.getShortestDistance 2 0 :=
  ⟨heavyTailCity_reachable, by decide, by decide, by decide, by decide⟩

/-! ## C35: what the mutators do to the reported distances -/

theorem City.Walk.mono {c c' : City}
    (hex : ∀ x, c.locationExists x = true → c'.locationExists x = true)
    (hr : ∀ x y w, c.RoadBetween x y w → c'.RoadBetween x y w) {s v d : Int}
    (h : c.Walk s v d) : c'.Walk s v d := by
  induction h with
  | nil hx => exact .nil (hex _ hx)
  | snoc w _ hrd ih => exact .snoc w ih (hr _ _ _ hrd)

theorem shortest_distance_mono {c c' : City} (hwf : c.WF) (hid : c.IdsAreIndices)
    (hsum : c.edgeWeightSum < INT_MAX) (hwf' : c'.WF) (hid' : c'.IdsAreIndices)
    (hsum' : c'.edgeWeightSum < INT_MAX)
    (hex : ∀ x, c.locationExists x = true → c'.locationExists x = true)
    (hr : ∀ x y w, c.RoadBetween x y w → c'.RoadBetween x y w) {s d : Int}
    (hconn : c.Connected s d) :
    ∃ v v', c.getShortestDistance s d = some v ∧ c'.getShortestDistance s d = some v' ∧
      c'.Connected s d ∧ 0 ≤ v' ∧ v' ≤ v := by
  obtain ⟨v, e, w, -⟩ := shortest_distance_walk hwf hid hsum hconn
  have hconn' : c'.Connected s d := ⟨v, w.mono hex hr⟩
  obtain ⟨v', e', w', m'⟩ := shortest_distance_walk hwf' hid' hsum' hconn'
  exact ⟨v, v', e, e', hconn', w'.nonneg hwf', m' _ (w.mono hex hr)⟩

theorem edgeWeightSum_addRoad_le {c : City} (hnd : (c.nodes.map Node.id).Nodup) {a b w : Int}
    (h : (c.addRoad a b w).1 = true) : c.edgeWeightSum ≤ (c.addRoad a b w).2.edgeWeightSum := by
  obtain ⟨hw, -⟩ := (addRoad_fst_eq_true_iff c a b w).1 h
  unfold City.edgeWeightSum
  rw [addRoad_nodes_of_true hnd h, List.map_map]
  apply List.sum_le_sum
  intro n _
  simp only [Function.comp]
  unfold addRoadMap
  split_ifs
  · simp only [Node.addRoad, List.map_append, List.sum_append, List.map_cons, List.map_nil,
      List.sum_cons, List.sum_nil]
    split_ifs <;> omega
  · simp only [Node.addRoad, List.map_append, List.sum_append, List.map_cons, List.map_nil,
      List.sum_cons, List.sum_nil]
    split_ifs <;> omega
  · exact le_refl _

theorem locationExists_addRoad_of_true {c : City} (hnd : (c.nodes.map Node.id).Nodup)
    {a b w : Int} (h : (c.addRoad a b w).1 = true) (x : Int) :
    (c.addRoad a b w).2.locationExists x = c.locationExists x := by
  have hids : (c.addRoad a b w).2.nodes.map Node.id = c.nodes.map Node.id := by
    rw [addRoad_nodes_of_true hnd h, List.map_map]
    have : Node.id ∘ addRoadMap a b w = Node.id := by
      funext m; exact addRoadMap_id a b w m
    rw [this]
  unfold City.locationExists
  rw [findNode_congr hids]

theorem addLocation_nodes_of_true {c : City} {id : Int} (h : (c.addLocation id).1 = true) :
    (c.addLocation id).2.nodes = c.nodes ++ [Node.mk1 id] :=
  ((addLocation_contract c id).2 h).1

theorem edgeWeightSum_addLocation {c : City} {id : Int} (h : (c.addLocation id).1 = true) :
    (c.addLocation id).2.edgeWeightSum = c.edgeWeightSum := by
  unfold City.edgeWeightSum
  rw [addLocation_nodes_of_true h]
  simp [Node.mk1]

theorem locationExists_addLocation_of_true {c : City} {id : Int}
    (h : (c.addLocation id).1 = true) {x : Int} (hx : c.locationExists x = true) :
    (c.addLocation id).2.locationExists x = true := by
  rw [locationExists_iff] at hx ⊢
  obtain ⟨n, hn, hi⟩ := hx
  rw [addLocation_nodes_of_true h]
  exact ⟨n, List.mem_append_left _ hn, hi⟩

theorem roadBetween_addLocation_of_true {c : City} {id : Int}
    (h : (c.addLocation id).1 = true) {x y w : Int} (hx : c.RoadBetween x y w) :
    (c.addLocation id).2.RoadBetween x y w := by
  obtain ⟨n, hn, hi, hr⟩ := hx
  unfold City.RoadBetween
  rw [addLocation_nodes_of_true h]
  exact ⟨n, List.mem_append_left _ hn, hi, hr⟩

theorem updateNodeAt_roads {c : City} {i : Int} (f : Node → Node)
    (hf : ∀ n, (f n).roads = n.roads) :
    (c.updateNodeAt i f).nodes.map Node.roads = c.nodes.map Node.roads := by
  unfold City.updateNodeAt
  cases h : readAt c.nodes i with
  | none => rfl
  | some n =>
    obtain ⟨h0, h1⟩ := readAt_eq_some.1 h
    simp only
    apply List.ext_getElem?
    intro j
    simp only [List.getElem?_map, List.getElem?_set]
    by_cases hj : i.toNat = j
    · subst hj
      have := (List.getElem?_eq_some_iff.1 h1).1
      simp [this, h1, hf]
    · simp [hj]

theorem readAt_map {α β : Type} (f : α → β) (l : List α) (i : Int) :
    readAt (l.map f) i = (readAt l i).map f := by
  unfold readAt
  split
  · simp
  · rfl

theorem mainLoop_congr {c1 c2 : City}
    (hr : c1.nodes.map Node.roads = c2.nodes.map Node.roads) :
    ∀ fuel st, mainLoop c1 fuel st = mainLoop c2 fuel st := by
  have hl : c1.nodes.length = c2.nodes.length := by
    have := congrArg List.length hr
    simpa using this
  intro fuel
  induction fuel with
  | zero => intro st; rfl
  | succ k ih =>
    intro st
    unfold mainLoop
    rw [hl]
    cases selectMin c2.nodes.length st.visited st.distances with
    | none => rfl
    | some mc =>
      obtain ⟨m, cur⟩ := mc
      simp only [Option.bind_eq_bind, Option.some_bind]
      split_ifs
      · rfl
      · cases writeAt st.visited cur true with
        | none => rfl
        | some vis =>
          simp only [Option.some_bind]
          have hrd : (readAt c1.nodes cur).map Node.roads = (readAt c2.nodes cur).map Node.roads := by
            rw [← readAt_map, ← readAt_map, hr]
          cases h1 : readAt c1.nodes cur with
          | none =>
            rw [h1] at hrd
            cases h2 : readAt c2.nodes cur with
            | none => rfl
            | some n2 => rw [h2] at hrd; simp at hrd
          | some n1 =>
            rw [h1] at hrd
            cases h2 : readAt c2.nodes cur with
            | none => rw [h2] at hrd; simp at hrd
            | some n2 =>
              rw [h2] at hrd
              simp only [Option.map_some', Option.some.injEq] at hrd
              simp only [Option.some_bind, hrd, ih]

theorem dijkstra_congr {c1 c2 : City} (hi : c1.nodes.map Node.id = c2.nodes.map Node.id)
    (hr : c1.nodes.map Node.roads = c2.nodes.map Node.roads) (s : Int) :
    c1.dijkstra s = c2.dijkstra s := by
  have hl : c1.nodes.length = c2.nodes.length := by
    have := congrArg List.length hr
    simpa using this
  unfold City.dijkstra
  rw [findNode_congr hi, hl]
  simp only [mainLoop_congr hr]

theorem dijkstra_setZone (c : City) (id z s : Int) :
    (c.setZone id z).2.dijkstra s = c.dijkstra s := by
  apply dijkstra_congr
  · unfold City.setZone
    simp only
    split_ifs
    · rfl
    · rfl
    · exact updateNodeAt_ids _ (fun _ => rfl)
  · unfold City.setZone
    simp only
    split_ifs
    · rfl
    · rfl
    · exact updateNodeAt_roads _ (fun _ => rfl)

theorem mutators_keep_routes_aux {c : City} (hwf : c.WF) (hid : c.IdsAreIndices) :
    (∀ a b w, (c.addRoad a b w).1 = true → (c.addRoad a b w).2.edgeWeightSum < INT_MAX →
      ∀ s d, c.Connected s d →
        ∃ v v', c.getShortestDistance s d = some v ∧
          (c.addRoad a b w).2.getShortestDistance s d = some v' ∧
          (c.addRoad a b w).2.Connected s d ∧ 0 ≤ v' ∧ v' ≤ v) ∧
    (∀ id, (c.addLocation id).1 = true → (c.addLocation id).2.IdsAreIndices →
      c.edgeWeightSum < INT_MAX →
      ∀ s d, c.Connected s d →
        ∃ v v', c.getShortestDistance s d = some v ∧
          (c.addLocation id).2.getShortestDistance s d = some v' ∧
          (c.addLocation id).2.Connected s d ∧ 0 ≤ v' ∧ v' ≤ v) ∧
    (∀ id z s d, (c.setZone id z).2.dijkstra s = c.dijkstra s ∧
      (c.setZone id z).2.getShortestDistance s d = c.getShortestDistance s d ∧
      (c.setZone id z).2.getShortestPath s d = c.getShortestPath s d) := by
  refine ⟨?_, ?_, ?_⟩
  · intro a b w h hsum' s d hconn
    have hle := edgeWeightSum_addRoad_le hwf.ids_nodup h
    exact shortest_distance_mono hwf hid (lt_of_le_of_lt hle hsum') (hwf.addRoad a b w)
      (idsAreIndices_addRoad hwf hid h) hsum'
      (fun x hx => by rw [locationExists_addRoad_of_true hwf.ids_nodup h]; exact hx)
      (fun x y v hr => (roadBetween_addRoad hwf.ids_nodup h x y v).2 (Or.inl hr)) hconn
  · intro id h hid' hsum s d hconn
    exact shortest_distance_mono hwf hid hsum (hwf.addLocation id) hid'
      (by rw [edgeWeightSum_addLocation h]; exact hsum)
      (fun x hx => locationExists_addLocation_of_true h hx)
      (fun x y v hr => roadBetween_addLocation_of_true h hr) hconn
  · intro id z s d
    refine ⟨dijkstra_setZone c id z s, ?_, ?_⟩
    · unfold City.getShortestDistance
      rw [dijkstra_setZone]
    · unfold City.getShortestPath
      rw [dijkstra_setZone]

/-- C35, amended. On a network built through the public mutators whose i-th node has id
`i`: a successful `addRoad` after which the road weights add up to less than `INT_MAX`,
and a successful `addLocation` that keeps the ids equal to the indices on a network whose
road weights add up to less than `INT_MAX`, leave every pair joined by roads joined and
reported with a non-negative distance no larger than before; `setZone` changes no result
of `dijkstra`, hence no reported distance and no reported path, on any network. -/
theorem mutators_keep_routes (c : City) (hc : c.Reachable) (hid : c.IdsAreIndices) :
    (∀ a b w, (c.addRoad a b w).1 = true → (c.addRoad a b w).2.edgeWeightSum < INT_MAX →
      ∀ s d, c.Connected s d →
        ∃ v v', c.getShortestDistance s d = some v ∧
          (c.addRoad a b w).2.getShortestDistance s d = some v' ∧
          (c.addRoad a b w).2.Connected s d ∧ 0 ≤ v' ∧ v' ≤ v) ∧
    (∀ id, (c.addLocation id).1 = true → (c.addLocation id).2.IdsAreIndices →
      c.edgeWeightSum < INT_MAX →
      ∀ s d, c.Connected s d →
        ∃ v v', c.getShortestDistance s d = some v ∧
          (c.addLocation id).2.getShortestDistance s d = some v' ∧
          (c.addLocation id).2.Connected s d ∧ 0 ≤ v' ∧ v' ≤ v) ∧
    (∀ id z s d, (c.setZone id z).2.dijkstra s = c.dijkstra s ∧
      (c.setZone id z).2.getShortestDistance s d = c.getShortestDistance s d ∧
      (c.setZone id z).2.getShortestPath s d = c.getShortestPath s d) :=
  mutators_keep_routes_aux hc.wf hid

/-- C35 on the two-node example network: a third node and a road to it keep the pair
`(0, 1)` joined and its distance at most what it was. -/
theorem mutators_keep_routes_witness :
    (∃ v v', twoNodeCity.getShortestDistance 0 1 = some v ∧
      (twoNodeCity.addLocation 2).2.getShortestDistance 0 1 = some v' ∧
      (twoNodeCity.addLocation 2).2.Connected 0 1 ∧ 0 ≤ v' ∧ v' ≤ v) ∧
    (∀ id z s d, (twoNodeCity.setZone id z).2.dijkstra s = twoNodeCity.dijkstra s ∧
      (twoNodeCity.setZone id z).2.getShortestDistance s d =
        twoNodeCity.getShortestDistance s d ∧
      (twoNodeCity.setZone id z).2.getShortestPath s d = twoNodeCity.getShortestPath s d) :=
  ⟨(mutators_keep_routes twoNodeCity twoNodeCity_reachable twoNodeCity_idsAreIndices).2.1 2
      (by decide) (by decide) (by decide) 0 1 twoNodeCity_connected,
    (mutators_keep_routes twoNodeCity twoNodeCity_reachable twoNodeCity_idsAreIndices).2.2⟩

theorem forkCity_reachable : forkCity.Reachable :=
  .addRoad 1 2 2147483647 (.addRoad 0 3 2147483646 (.addRoad 0 1 2147483646 (.addLocation 3
    (.addLocation 2 (.addLocation 1 (.addLocation 0 .empty))))))

theorem forkCity_connected : forkCity.Connected 0 3 :=
  ⟨0 + 2147483646, City.Walk.snoc 2147483646 (City.Walk.nil (by decide))
    (by unfold City.RoadBetween; decide)⟩

/-- Without the bound on the weights C35 fails: with roads `(0,1,INT_MAX-1)`,
`(0,3,INT_MAX-1)` and `(1,2,INT_MAX)`, node `3` is reported at distance `INT_MAX-1` from
node `0`; after the successful `addRoad(2, 3, 2)` the wrapped distance `-3` of node `2`
gives node `3` the distance `-1`, the value that reads as "no route". -/
theorem mutators_keep_routes_counterexample :
    forkCity.Reachable ∧ forkCity.IdsAreIndices ∧ forkCity.Connected 0 3 ∧
      forkCity.getShortestDistance 0 3 = some 2147483646 ∧
      (forkCity.addRoad 2 3 2).1 = true ∧
      (forkCity.addRoad 2 3 2).2.getShortestDistance 0 3 = some (-1) :=
  ⟨forkCity_reachable, by decide, forkCity_connected, by decide, by decide, by decide⟩

/-! ## C36: the predecessor walk of `getPathTo` -/

theorem PredChain.mem_cases {c : City} {s : Int} {vis : List Bool} {pred : List Int} {v : Int}
    {tpath : List Int} (h : PredChain c s vis pred v tpath) {x : Int} (hx : x ∈ tpath) :
    x = v ∨ readAt vis x = some true := by
  by_cases hxv : x = v
  · exact Or.inl hxv
  · exact Or.inr (h.marked x hx hxv)

theorem PredChain.of_pred_eq {c : City} {s : Int} {vis : List Bool} {pred pred' : List Int}
    {v : Int} {tpath : List Int} (h : PredChain c s vis pred v tpath)
    (heq : ∀ b ∈ tpath, readAt pred' b = readAt pred b) :
    PredChain c s vis pred' v tpath := by
  refine ⟨h.head, h.last, h.nodup, h.marked, ?_⟩
  have h1 := List.Chain'.iff_mem.1 h.links
  exact h1.imp (fun b a hba => ⟨by rw [heq b hba.1]; exact hba.2.2.1, hba.2.2.2⟩)

theorem PredChain.of_vis {c : City} {s : Int} {vis vis' : List Bool} {pred : List Int}
    {v : Int} {tpath : List Int} (h : PredChain c s vis pred v tpath)
    (hvis : ∀ u, readAt vis u = some true → readAt vis' u = some true) :
    PredChain c s vis' pred v tpath :=
  ⟨h.head, h.last, h.nodup, fun x hx hxv => hvis x (h.marked x hx hxv), h.links⟩

theorem PredChain.source {c : City} (s : Int) (vis : List Bool) (pred : List Int) :
    PredChain c s vis pred s [s] :=
  ⟨rfl, rfl, List.nodup_singleton s,
    fun _ hx hxs => absurd (List.mem_singleton.1 hx) hxs, List.chain'_singleton s⟩

theorem PredChain.extend {c : City} {s : Int} {vis : List Bool} {pred : List Int}
    {cur n : Int} {tpath : List Int} (h : PredChain c s vis pred cur tpath)
    (hcur : readAt vis cur = some true) (hn : readAt vis n = some false)
    (hp : readAt pred n = some cur) {w : Int} (hr : c.RoadBetween cur n w) :
    PredChain c s vis pred n (n :: tpath) := by
  have hnot : n ∉ tpath := by
    intro hmem
    rcases h.mem_cases hmem with h1 | h1
    · rw [h1, hcur] at hn; exact Bool.noConfusion (Option.some.inj hn)
    · rw [hn] at h1; exact Bool.noConfusion (Option.some.inj h1)
  obtain ⟨rest, rfl⟩ : ∃ rest, tpath = cur :: rest := by
    cases tpath with
    | nil => have := h.head; simp at this
    | cons x rest =>
      have hx := h.head
      simp only [List.head?_cons, Option.some.injEq] at hx
      exact ⟨rest, congrArg (fun y => y :: rest) hx⟩
  refine ⟨rfl, ?_, List.nodup_cons.2 ⟨hnot, h.nodup⟩, ?_, ?_⟩
  · rw [List.getLast?_cons_cons]; exact h.last
  · intro x hx hxn
    rcases List.mem_cons.1 hx with h1 | h1
    · exact absurd h1 hxn
    · rcases h.mem_cases h1 with h2 | h2
      · rw [h2]; exact hcur
      · exact h2
  · exact List.Chain'.cons ⟨hp, w, hr⟩ h.links

theorem relaxStep_pred {c : City} (hwf : c.WF) (hid : c.IdsAreIndices) {s : Int}
    {vis : List Bool} {cur m : Int} (hlv : vis.length = c.nodes.length)
    (hvs : readAt vis s = some true) (hvc : readAt vis cur = some true)
    (hm : m ≠ INFINITY_DISTANCE) (r : Road) (st : List Int × List Int)
    (hr : c.RoadBetween cur r.toNodeId r.distance) (hinv : RelaxPred c s vis cur m st) :
    ∃ st', relaxStep vis cur st r = some st' ∧ RelaxPred c s vis cur m st' := by
  obtain ⟨d, p⟩ := st
  obtain ⟨hv0, hv1⟩ := roadBetween_target_bounds hwf hid hr
  obtain ⟨vn, hvn⟩ := readAt_of_bounds (l := vis) hv0 (by rw [hlv]; exact hv1)
  have hld : d.length = c.nodes.length := hinv.len_d
  have hlp : p.length = c.nodes.length := hinv.len_p
  obtain ⟨dn, hdn⟩ := readAt_of_bounds (l := d) hv0 (by rw [hld]; exact hv1)
  obtain ⟨d', p', hstep, hcase⟩ := relaxStep_cases hvn hinv.cur_d hdn (hlp.trans hld.symm)
  refine ⟨(d', p'), hstep, ?_⟩
  rcases hcase with ⟨hvf, -, hwd, hwp⟩ | ⟨-, rfl, rfl⟩
  · subst hvf
    have hrd := readAt_of_writeAt hwd
    have hrp := readAt_of_writeAt hwp
    have hs_ne : s ≠ r.toNodeId := by
      rintro rfl
      rw [hvn] at hvs; exact Bool.noConfusion (Option.some.inj hvs)
    have hc_ne : cur ≠ r.toNodeId := by
      rintro h
      rw [← h, hvc] at hvn; exact Bool.noConfusion (Option.some.inj hvn)
    have hkeep : ∀ v tpath, v ≠ r.toNodeId → PredChain c s vis p v tpath →
        PredChain c s vis p' v tpath := by
      intro v tpath hv hch
      apply hch.of_pred_eq
      intro b hb
      have hbn : b ≠ r.toNodeId := by
        rcases hch.mem_cases hb with h1 | h1
        · rw [h1]; exact hv
        · rintro rfl
          rw [hvn] at h1; exact Bool.noConfusion (Option.some.inj h1)
      rw [hrp, if_neg hbn]
    refine ⟨(length_of_writeAt hwd).trans hld, (length_of_writeAt hwp).trans hlp, ?_, ?_, ?_⟩
    · show readAt d' cur = some m
      rw [hrd, if_neg hc_ne]; exact hinv.cur_d
    · show readAt p' s = some (-1)
      rw [hrp, if_neg hs_ne]; exact hinv.src_pred
    · intro v dv hv hfin
      change readAt d' v = some dv at hv
      show ∃ tpath, PredChain c s vis p' v tpath
      rw [hrd] at hv
      by_cases hvv : v = r.toNodeId
      · obtain ⟨tc, hch⟩ := hinv.chain cur m hinv.cur_d hm
        have hch' := hkeep cur tc hc_ne hch
        rw [hvv]
        exact ⟨r.toNodeId :: tc, hch'.extend hvc hvn (by rw [hrp, if_pos rfl]) hr⟩
      · rw [if_neg hvv] at hv
        obtain ⟨tp, hch⟩ := hinv.chain v dv hv hfin
        exact ⟨tp, hkeep v tp hvv hch⟩
  · exact hinv

theorem mainLoop_step_pred {c : City} (hwf : c.WF) (hid : c.IdsAreIndices) {s : Int}
    {st : DijkstraState} (hinv : PredInv c s st) {m cur : Int}
    (hcur : readAt st.visited cur = some false) (hdcur : readAt st.distances cur = some m)
    (hm : m < INFINITY_DISTANCE) :
    ∃ vis' node d' p', writeAt st.visited cur true = some vis' ∧
      readAt c.nodes cur = some node ∧
      relaxRoads vis' cur node.roads (st.distances, st.predecessors) = some (d', p') ∧
      PredInv c s ⟨vis', d', p'⟩ := by
  obtain ⟨vis, d0, p0⟩ := st
  dsimp only at hcur hdcur
  have hlv : vis.length = c.nodes.length := hinv.len_v
  obtain ⟨hc0, hc1⟩ := readAt_bounds hcur
  have hwv := writeAt_of_bounds (l := vis) true hc0 hc1
  have hrv := readAt_of_writeAt hwv
  obtain ⟨node, hnode⟩ := readAt_of_bounds (l := c.nodes) hc0 (by rw [← hlv]; exact hc1)
  have hmne : m ≠ INFINITY_DISTANCE := ne_of_lt hm
  have hcur' : readAt (vis.set cur.toNat true) cur = some true := by rw [hrv, if_pos rfl]
  have hs' : readAt (vis.set cur.toNat true) s = some true := by
    rw [hrv]
    by_cases hsc : s = cur
    · rw [if_pos hsc]
    · rw [if_neg hsc]
      rcases hinv.src_vis with h | h
      · exact h
      · exact absurd (h cur m (fun h => hsc h.symm) hdcur) hmne
  have hvis : ∀ u, readAt vis u = some true → readAt (vis.set cur.toNat true) u = some true := by
    intro u hu
    rw [hrv]
    split_ifs
    · rfl
    · exact hu
  have hroads : ∀ r ∈ node.roads, c.RoadBetween cur r.toNodeId r.distance := by
    intro r hr
    exact hid.roadBetween_iff.2 ⟨node, hnode, by rw [road_eta]; exact hr⟩
  have hinit : RelaxPred c s (vis.set cur.toNat true) cur m (d0, p0) :=
    ⟨hinv.len_d, hinv.len_p, hdcur, hinv.src_pred, fun v dv hv hfin => by
      obtain ⟨tp, hch⟩ := hinv.chain v dv hv hfin
      exact ⟨tp, hch.of_vis hvis⟩⟩
  have hfold := foldlM_option_invariant (relaxStep (vis.set cur.toNat true) cur)
    (fun _ st => RelaxPred c s (vis.set cur.toNat true) cur m st) node.roads [] (d0, p0) hinit
    (fun _ r st' hr hq => relaxStep_pred hwf hid (by rw [List.length_set]; exact hlv) hs' hcur'
      hmne r st' (hroads r hr) hq)
  obtain ⟨⟨d', p'⟩, hrel, R⟩ := hfold
  exact ⟨vis.set cur.toNat true, node, d', p', hwv, hnode, hrel,
    ⟨by rw [List.length_set]; exact hlv, R.len_d, R.len_p, R.src_pred, Or.inl hs', R.chain⟩⟩

theorem mainLoop_pred {c : City} (hwf : c.WF) (hid : c.IdsAreIndices) {s : Int} :
    ∀ (fuel : Nat) (st : DijkstraState), PredInv c s st →
      ∃ st', mainLoop c fuel st = some st' ∧ PredInv c s st' := by
  intro fuel
  induction fuel with
  | zero => intro st hinv; exact ⟨st, rfl, hinv⟩
  | succ fuel ih =>
    intro st hinv
    obtain ⟨m, cur, hsel, -, hcase⟩ :=
      selectMin_spec c.nodes.length st.visited st.distances hinv.len_v hinv.len_d
    rcases hcase with ⟨hc, hm⟩ | ⟨hcur, hdcur, hm⟩
    · exact ⟨st, by simp [mainLoop, hsel, hc, hm], hinv⟩
    · obtain ⟨vis', node, d', p', h1, h2, h3, h4⟩ := mainLoop_step_pred hwf hid hinv hcur hdcur hm
      obtain ⟨st', h6, h7⟩ := ih ⟨vis', d', p'⟩ h4
      refine ⟨st', ?_, h7⟩
      have hc : cur ≠ -1 := by
        have := (readAt_bounds hcur).1
        omega
      have hm' : m ≠ INFINITY_DISTANCE := ne_of_lt hm
      simp [mainLoop, hsel, hc, hm', h1, h2, h3, h6]

theorem dijkstra_pred {c : City} (hwf : c.WF) (hid : c.IdsAreIndices) {s : Int}
    (hex : c.locationExists s = true) :
    ∃ st, c.dijkstra s = some ⟨st.distances, st.predecessors, (c.nodes.length : Int)⟩ ∧
      PredInv c s st := by
  obtain ⟨hs0, hs1⟩ := hid.exists_iff_bounds.1 hex
  have hne : c.findNode s ≠ -1 := hid.findNode_ne_iff.2 ⟨hs0, hs1⟩
  have hw : writeAt (List.replicate c.nodes.length INFINITY_DISTANCE) s 0 =
      some ((List.replicate c.nodes.length INFINITY_DISTANCE).set s.toNat 0) :=
    writeAt_of_bounds 0 hs0 (by simpa using hs1)
  have hrd := readAt_of_writeAt hw
  have hinf : ∀ v dv, v ≠ s →
      readAt ((List.replicate c.nodes.length INFINITY_DISTANCE).set s.toNat 0) v = some dv →
      dv = INFINITY_DISTANCE := by
    intro v dv hvs hv
    rw [hrd, if_neg hvs, readAt_replicate] at hv
    split_ifs at hv
    exact (Option.some.inj hv).symm
  have hinit : PredInv c s ⟨List.replicate c.nodes.length false,
      (List.replicate c.nodes.length INFINITY_DISTANCE).set s.toNat 0,
      List.replicate c.nodes.length (-1)⟩ := by
    refine ⟨by simp, by simp, by simp, ?_, Or.inr hinf, ?_⟩
    · show readAt _ s = some (-1)
      rw [readAt_replicate, if_pos ⟨hs0, hs1⟩]
    · intro v dv hv hfin
      by_cases hvs : v = s
      · rw [hvs]; exact ⟨[s], PredChain.source s _ _⟩
      · exact absurd (hinf v dv hvs hv) hfin
  obtain ⟨st, h1, h2⟩ := mainLoop_pred hwf hid c.nodes.length _ hinit
  refine ⟨st, ?_, h2⟩
  unfold City.dijkstra
  simp [hne, hw, h1]

theorem backtrack_of_links {c : City} {s : Int} {pred : List Int}
    (hsp : readAt pred s = some (-1)) :
    ∀ (tpath : List Int) (v : Int) (slots : Nat), tpath.head? = some v →
      tpath.getLast? = some s → (∀ x ∈ tpath, 0 ≤ x) →
      List.Chain' (fun b a => readAt pred b = some a ∧ ∃ w, c.RoadBetween a b w) tpath →
      tpath.length ≤ slots → backtrack pred slots v = some tpath := by
  intro tpath
  induction tpath with
  | nil => intro v slots h; simp at h
  | cons x rest ih =>
    intro v slots hh hl hpos hch hlen
    simp only [List.head?_cons, Option.some.injEq] at hh
    subst hh
    have hx : x ≠ -1 := by
      have := hpos x (List.mem_cons_self _ _)
      omega
    obtain ⟨k, rfl⟩ : ∃ k, slots = k + 1 := by
      cases slots with
      | zero => simp at hlen
      | succ k => exact ⟨k, rfl⟩
    cases rest with
    | nil =>
      simp only [List.getLast?_singleton, Option.some.injEq] at hl
      subst hl
      exact backtrack_succ hx hsp (backtrack_neg_one pred k)
    | cons q rest' =>
      rw [List.getLast?_cons_cons] at hl
      have hlink := (List.chain'_cons.1 hch).1
      have hrest := (List.chain'_cons.1 hch).2
      have := ih q k rfl hl (fun y hy => hpos y (List.mem_cons_of_mem _ hy)) hrest (by
        simp only [List.length_cons] at hlen ⊢
        omega)
      exact backtrack_succ hx hlink.1 this

theorem predInv_path {c : City} {s : Int} {st : DijkstraState} (hinv : PredInv c s st)
    {d dv : Int} (hd : readAt st.distances d = some dv) (hfin : dv ≠ INFINITY_DISTANCE) :
    ∃ tempPath, backtrack st.predecessors c.nodes.length d = some tempPath ∧
      tempPath.head? = some d ∧ tempPath.getLast? = some s ∧ tempPath.Nodup ∧
      tempPath.length ≤ c.nodes.length ∧
      List.Chain' (fun b a => readAt st.predecessors b = some a ∧ ∃ w, c.RoadBetween a b w)
        tempPath ∧
      (readAt st.predecessors d = some (-1) ↔ d = s) := by
  obtain ⟨tp, hch⟩ := hinv.chain d dv hd hfin
  have hb : ∀ x ∈ tp, 0 ≤ x ∧ x < (c.nodes.length : Int) := by
    intro x hx
    rcases hch.mem_cases hx with h1 | h1
    · have := readAt_bounds hd
      rw [hinv.len_d] at this
      rw [h1]; exact this
    · have := readAt_bounds h1
      rw [hinv.len_v] at this
      exact this
  have hlen := length_le_of_nodup_bounds hch.nodup hb
  refine ⟨tp, backtrack_of_links hinv.src_pred tp d _ hch.head hch.last
    (fun x hx => (hb x hx).1) hch.links hlen, hch.head, hch.last, hch.nodup, hlen, hch.links, ?_⟩
  constructor
  · intro hp
    by_contra hds
    cases tp with
    | nil => have := hch.head; simp at this
    | cons x rest =>
      have hh := hch.head
      simp only [List.head?_cons, Option.some.injEq] at hh
      subst hh
      cases rest with
      | nil =>
        have hl := hch.last
        simp only [List.getLast?_singleton, Option.some.injEq] at hl
        exact hds hl
      | cons q rest' =>
        have hlink := (List.chain'_cons.1 hch.links).1.1
        rw [hp] at hlink
        have hq := (hb q (List.mem_cons_of_mem _ (List.mem_cons_self _ _))).1
        have : (-1 : Int) = q := Option.some.inj hlink
        omega
  · intro hds
    rw [hds]; exact hinv.src_pred

theorem getPathTo_terminates_aux {c : City} (hwf : c.WF) (hid : c.IdsAreIndices) (s : Int) :
    ∃ r, c.dijkstra s = some r ∧ r.nodeCount = c.getNodeCount ∧
      (∀ d, ∃ len path, r.getPathTo d = some (len, path) ∧ (path.length : Int) ≤ r.nodeCount) ∧
      ∀ d dv, readAt r.distances d = some dv → dv ≠ INFINITY_DISTANCE →
        ∃ tempPath, backtrack r.predecessors r.nodeCount.toNat d = some tempPath ∧
          r.getPathTo d = some ((tempPath.length : Int), tempPath.reverse) ∧
          tempPath.head? = some d ∧ tempPath.getLast? = some s ∧ tempPath.Nodup ∧
          (tempPath.length : Int) ≤ r.nodeCount ∧
          List.Chain' (fun b a => readAt r.predecessors b = some a ∧ ∃ w, c.RoadBetween a b w)
            tempPath ∧
          (readAt r.predecessors d = some (-1) ↔ d = s) := by
  by_cases hex : c.locationExists s = true
  · obtain ⟨st, hrun, hinv⟩ := dijkstra_pred hwf hid hex
    have hfinite : ∀ d dv, readAt st.distances d = some dv → dv ≠ INFINITY_DISTANCE →
        ∃ tempPath, backtrack st.predecessors c.nodes.length d = some tempPath ∧
          (⟨st.distances, st.predecessors, (c.nodes.length : Int)⟩ :
            ShortestPathResult).getPathTo d = some ((tempPath.length : Int), tempPath.reverse) ∧
          tempPath.head? = some d ∧ tempPath.getLast? = some s ∧ tempPath.Nodup ∧
          (tempPath.length : Int) ≤ (c.nodes.length : Int) ∧
          List.Chain' (fun b a => readAt st.predecessors b = some a ∧
            ∃ w, c.RoadBetween a b w) tempPath ∧
          (readAt st.predecessors d = some (-1) ↔ d = s) := by
      intro d dv hd hfin
      obtain ⟨tp, h1, h2, h3, h4, h5, h6, h7⟩ := predInv_path hinv hd hfin
      have hdn : d < (c.nodes.length : Int) := by
        have := (readAt_bounds hd).2
        rw [hinv.len_d] at this; exact this
      exact ⟨tp, h1, getPathTo_of_finite hd hdn hfin h1, h2, h3, h4, by exact_mod_cast h5, h6, h7⟩
    refine ⟨_, hrun, rfl, ?_, ?_⟩
    · intro d
      by_cases hout : d < 0 ∨ (c.nodes.length : Int) ≤ d
      · exact ⟨-1, [], getPathTo_of_out hout, by simp⟩
      · have hd0 : 0 ≤ d := by omega
        have hd1 : d < (c.nodes.length : Int) := by omega
        obtain ⟨dv, hdv⟩ := readAt_of_bounds (l := st.distances) hd0
          (by rw [hinv.len_d]; exact hd1)
        by_cases hfin : dv = INFINITY_DISTANCE
        · rw [hfin] at hdv
          exact ⟨-1, [], getPathTo_of_infinite hdv, by simp⟩
        · obtain ⟨tp, -, h2, -, -, -, h6, -⟩ := hfinite d dv hdv hfin
          exact ⟨_, _, h2, by simpa using h6⟩
    · intro d dv hd hfin
      simpa using hfinite d dv hd hfin
  · have hf : c.locationExists s = false := by
      cases h : c.locationExists s
      · rfl
      · exact absurd h hex
    have hinf : ∀ d dv, readAt (List.replicate c.nodes.length INFINITY_DISTANCE) d = some dv →
        dv = INFINITY_DISTANCE := by
      intro d dv hd
      rw [readAt_replicate] at hd
      split_ifs at hd
      exact (Option.some.inj hd).symm
    refine ⟨_, dijkstra_of_not_exists hf, rfl, ?_, ?_⟩
    · intro d
      by_cases hout : d < 0 ∨ (c.nodes.length : Int) ≤ d
      · exact ⟨-1, [], getPathTo_of_out hout, by simp [ShortestPathResult.init]⟩
      · refine ⟨-1, [], getPathTo_of_infinite ?_, by simp [ShortestPathResult.init]⟩
        rw [readAt_replicate, if_pos (by omega)]
    · intro d dv hd hfin
      exact absurd (hinf d dv hd) hfin

/-- C36. On a network built through the public mutators whose i-th node has id `i`,
whatever the road weights are: `dijkstra` returns a result from every source; `getPathTo`
returns for every destination and writes at most `nodeCount` entries; and for every
destination the result marks as reached (distance other than the sentinel) the loop of
`getPathTo` collects, within `nodeCount` slots, a list that starts at the destination,
ends at the source, repeats no node and in which each node is followed by its
predecessor, from which a road leads to it; the destination has predecessor `-1` exactly
when it is the source. -/
theorem getPathTo_terminates (c : City) (hc : c.Reachable) (hid : c.IdsAreIndices) (s : Int) :
    ∃ r, c.dijkstra s = some r ∧ r.nodeCount = c.getNodeCount ∧
      (∀ d, ∃ len path, r.getPathTo d = some (len, path) ∧ (path.length : Int) ≤ r.nodeCount) ∧
      ∀ d dv, readAt r.distances d = some dv → dv ≠ INFINITY_DISTANCE →
        ∃ tempPath, backtrack r.predecessors r.nodeCount.toNat d = some tempPath ∧
          r.getPathTo d = some ((tempPath.length : Int), tempPath.reverse) ∧
          tempPath.head? = some d ∧ tempPath.getLast? = some s ∧ tempPath.Nodup ∧
          (tempPath.length : Int) ≤ r.nodeCount ∧
          List.Chain' (fun b a => readAt r.predecessors b = some a ∧ ∃ w, c.RoadBetween a b w)
            tempPath ∧
          (readAt r.predecessors d = some (-1) ↔ d = s) :=
  getPathTo_terminates_aux hc.wf hid s

/-- C36 on the network with the roads `(0,1,INT_MAX-1)`, `(0,3,INT_MAX-1)` and
`(1,2,INT_MAX)`, where a sum wraps around, from source `0`. -/
theorem getPathTo_terminates_witness :
    ∃ r, forkCity.dijkstra 0 = some r ∧ r.nodeCount = forkCity.getNodeCount ∧
      (∀ d, ∃ len path, r.getPathTo d = some (len, path) ∧ (path.length : Int) ≤ r.nodeCount) ∧
      ∀ d dv, readAt r.distances d = some dv → dv ≠ INFINITY_DISTANCE →
        ∃ tempPath, backtrack r.predecessors r.nodeCount.toNat d = some tempPath ∧
          r.getPathTo d = some ((tempPath.length : Int), tempPath.reverse) ∧
          tempPath.head? = some d ∧ tempPath.getLast? = some 0 ∧ tempPath.Nodup ∧
          (tempPath.length : Int) ≤ r.nodeCount ∧
          List.Chain' (fun b a => readAt r.predecessors b = some a ∧
            ∃ w, forkCity.RoadBetween a b w) tempPath ∧
          (readAt r.predecessors d = some (-1) ↔ d = 0) :=
  getPathTo_terminates forkCity forkCity_reachable (by decide) 0

/-! ## C37: no sum overflows under the weight bound -/

theorem foldlM_option_agree {σ ρ : Type} (step step' : σ → ρ → Option σ)
    (Q : List ρ → σ → Prop) :
    ∀ (rest pre : List ρ) (st : σ), Q pre st →
      (∀ pre' r st', r ∈ rest → Q pre' st' →
        ∃ st'', step st' r = some st'' ∧ Q (pre' ++ [r]) st'') →
      (∀ pre' r st', r ∈ rest → Q pre' st' → step' st' r = step st' r) →
      rest.foldlM step' st = rest.foldlM step st := by
  intro rest
  induction rest with
  | nil => intro pre st _ _ _; rfl
  | cons r rest ih =>
    intro pre st h hstep hagree
    obtain ⟨st1, h1, h2⟩ := hstep pre r st (List.mem_cons_self _ _) h
    have h3 := hagree pre r st (List.mem_cons_self _ _) h
    simp only [List.foldlM_cons, h3, h1, Option.bind_eq_bind, Option.some_bind]
    exact ih (pre ++ [r]) st1 h2
      (fun pre' r' st' hr' hq => hstep pre' r' st' (List.mem_cons_of_mem _ hr') hq)
      (fun pre' r' st' hr' hq => hagree pre' r' st' (List.mem_cons_of_mem _ hr') hq)

theorem relaxStepChecked_eq {c : City} (hwf : c.WF) (hid : c.IdsAreIndices)
    (hsum : c.edgeWeightSum < INT_MAX) {s : Int} {vis : List Bool} {cur m : Int}
    {d0 : List Int} (hlv : vis.length = c.nodes.length)
    (hcur : readAt vis cur = some true) (hd0cur : readAt d0 cur = some m) (hm0 : 0 ≤ m)
    (hmb : m ≤ c.roadSum (isVisited vis))
    (pre : List Road) (r : Road) (st : List Int × List Int)
    (hr : c.RoadBetween cur r.toNodeId r.distance) (hinv : RelaxInv c s vis m d0 pre st) :
    relaxStepChecked vis cur st r = relaxStep vis cur st r := by
  obtain ⟨d, p⟩ := st
  have hMAX : INT_MAX = 2147483647 := rfl
  have hw := hwf.roadBetween_pos hr
  obtain ⟨hv0, hv1⟩ := roadBetween_target_bounds hwf hid hr
  obtain ⟨vn, hvn⟩ := readAt_of_bounds (l := vis) hv0 (by rw [hlv]; exact hv1)
  have hdc : readAt d cur = some m := by rw [hinv.vis_same cur hcur]; exact hd0cur
  unfold relaxStepChecked relaxStep
  simp only [hvn, hdc, Option.bind_eq_bind, Option.some_bind]
  cases vn with
  | true => rfl
  | false =>
    have := roadSum_add_le_total hwf hr (isVisited_eq_true.2 hcur)
      (isVisited_eq_false_of_read hvn)
    have h1 : ¬ (m + r.distance < -2147483648 ∨ INT_MAX < m + r.distance) := by omega
    have h2 : wrapInt32 (m + r.distance) = m + r.distance := by
      apply wrapInt32_of_range <;> omega
    simp only [h1, h2, if_false]

theorem relaxRoadsChecked_eq {c : City} (hwf : c.WF) (hid : c.IdsAreIndices)
    (hsum : c.edgeWeightSum < INT_MAX) {s : Int} {vis : List Bool} {cur m : Int}
    {d0 : List Int} (hlv : vis.length = c.nodes.length)
    (hcur : readAt vis cur = some true) (hd0cur : readAt d0 cur = some m) (hm0 : 0 ≤ m)
    (hwalk : c.Walk s cur m) (hmb : m ≤ c.roadSum (isVisited vis))
    (hold : ∀ u du, readAt vis u = some true → readAt d0 u = some du → du ≤ m)
    (roads : List Road) (st : List Int × List Int)
    (hroads : ∀ r ∈ roads, c.RoadBetween cur r.toNodeId r.distance)
    (hinv : RelaxInv c s vis m d0 [] st) :
    relaxRoadsChecked vis cur roads st = relaxRoads vis cur roads st :=
  foldlM_option_agree (relaxStep vis cur) (relaxStepChecked vis cur) (RelaxInv c s vis m d0)
    roads [] st hinv
    (fun pre r st' hr hq =>
      relaxStep_preserves hwf hid hsum hlv hcur hd0cur hm0 hwalk hmb hold pre r st'
        (hroads r hr) hq)
    (fun pre r st' hr hq =>
      relaxStepChecked_eq hwf hid hsum hlv hcur hd0cur hm0 hmb pre r st' (hroads r hr) hq)

/-- What the relaxation loop of one iteration of the main loop starts from. -/
theorem mainLoop_step_setup {c : City} (hwf : c.WF) (hid : c.IdsAreIndices)
    {s : Int} {st : DijkstraState}
    (hinv : DijkstraInv c s st) {m cur : Int}
    (hmin : ∀ v dv, readAt st.visited v = some false → readAt st.distances v = some dv → m ≤ dv)
    (hcur : readAt st.visited cur = some false) (hdcur : readAt st.distances cur = some m)
    (hm : m < INFINITY_DISTANCE) :
    ∃ node, writeAt st.visited cur true = some (st.visited.set cur.toNat true) ∧
      readAt c.nodes cur = some node ∧
      (st.visited.set cur.toNat true).length = c.nodes.length ∧
      readAt (st.visited.set cur.toNat true) cur = some true ∧ 0 ≤ m ∧ c.Walk s cur m ∧
      m ≤ c.roadSum (isVisited (st.visited.set cur.toNat true)) ∧
      (∀ u du, readAt (st.visited.set cur.toNat true) u = some true →
        readAt st.distances u = some du → du ≤ m) ∧
      (∀ r ∈ node.roads, c.RoadBetween cur r.toNodeId r.distance) ∧
      RelaxInv c s (st.visited.set cur.toNat true) m st.distances []
        (st.distances, st.predecessors) := by
  obtain ⟨vis, d0, p0⟩ := st
  dsimp only at hmin hcur hdcur ⊢
  have hlv : vis.length = c.nodes.length := hinv.len_v
  have hld : d0.length = c.nodes.length := hinv.len_d
  obtain ⟨hc0, hc1⟩ := readAt_bounds hcur
  have hwv := writeAt_of_bounds (l := vis) true hc0 hc1
  have hrv := readAt_of_writeAt hwv
  obtain ⟨node, hnode⟩ := readAt_of_bounds (l := c.nodes) hc0 (by rw [← hlv]; exact hc1)
  have hmne : m ≠ INFINITY_DISTANCE := ne_of_lt hm
  have hwalk : c.Walk s cur m := hinv.walk cur m hdcur hmne
  have hm0 : 0 ≤ m := hwalk.nonneg hwf
  have hcur' : readAt (vis.set cur.toNat true) cur = some true := by rw [hrv, if_pos rfl]
  have hsub : ∀ i, isVisited vis i = true → isVisited (vis.set cur.toNat true) i = true := by
    intro i hi
    rw [isVisited_of_writeAt hwv, hi]; rfl
  have hmb : m ≤ c.roadSum (isVisited (vis.set cur.toNat true)) := by
    by_cases hcs : cur = s
    · have h1 := hinv.src
      dsimp only at h1
      rw [← hcs, hdcur] at h1
      rw [Option.some.inj h1]
      exact roadSum_nonneg hwf _
    · obtain ⟨q, dq, w, -, h2, h3, h4, h5⟩ := hinv.tree cur m hdcur hmne hcs
      have h6 := hinv.vis_bound q dq h2 h3
      have h7 := roadSum_add_le hwf hsub h4 (isVisited_eq_true.2 h2)
        (isVisited_eq_false_of_read hcur) (isVisited_eq_true.2 hcur')
      dsimp only at h6
      omega
  have hold : ∀ u du, readAt (vis.set cur.toNat true) u = some true → readAt d0 u = some du →
      du ≤ m := by
    intro u du hu hdu
    rw [hrv] at hu
    by_cases huc : u = cur
    · rw [huc, hdcur] at hdu
      exact le_of_eq (Option.some.inj hdu).symm
    · rw [if_neg huc] at hu
      exact hinv.order u cur du m hu hcur hdu hdcur
  have hunvis : ∀ v, readAt (vis.set cur.toNat true) v = some false →
      v ≠ cur ∧ readAt vis v = some false := by
    intro v hv
    rw [hrv] at hv
    by_cases hvc : v = cur
    · rw [if_pos hvc] at hv; exact Bool.noConfusion (Option.some.inj hv)
    · rw [if_neg hvc] at hv; exact ⟨hvc, hv⟩
  have hvis : ∀ u, readAt vis u = some true → readAt (vis.set cur.toNat true) u = some true := by
    intro u hu
    rw [hrv]
    split_ifs
    · rfl
    · exact hu
  have hinit : RelaxInv c s (vis.set cur.toNat true) m d0 [] (d0, p0) := by
    refine ⟨hld, hinv.len_p, hinv.src, hinv.src_pred, fun _ _ => rfl,
      fun v dv hv => ⟨dv, hv, le_refl _⟩, ?_, ?_, hinv.inf_pred, hinv.walk, ?_⟩
    · intro v dv hv hdv
      exact hmin v dv (hunvis v hv).2 hdv
    · intro v dv hv hfin hvs
      obtain ⟨q, dq, w, h1, h2, h3, h4, h5⟩ := hinv.tree v dv hv hfin hvs
      exact ⟨q, dq, w, h1, hvis q h2, h3, h4, h5⟩
    · intro r hr; simp at hr
  have hroads : ∀ r ∈ node.roads, c.RoadBetween cur r.toNodeId r.distance := by
    intro r hr
    exact hid.roadBetween_iff.2 ⟨node, hnode, by rw [road_eta]; exact hr⟩
  exact ⟨node, hwv, hnode, by rw [List.length_set]; exact hlv, hcur', hm0, hwalk, hmb, hold,
    hroads, hinit⟩

theorem mainLoopChecked_eq {c : City} (hwf : c.WF) (hid : c.IdsAreIndices)
    (hsum : c.edgeWeightSum < INT_MAX) {s : Int} :
    ∀ (fuel : Nat) (st : DijkstraState), DijkstraInv c s st →
      mainLoopChecked c fuel st = mainLoop c fuel st := by
  intro fuel
  induction fuel with
  | zero => intro st _; rfl
  | succ fuel ih =>
    intro st hinv
    obtain ⟨m, cur, hsel, hmin, hcase⟩ :=
      selectMin_spec c.nodes.length st.visited st.distances hinv.len_v hinv.len_d
    rcases hcase with ⟨hc, hm⟩ | ⟨hcur, hdcur, hm⟩
    · simp [mainLoop, mainLoopChecked, hsel, hc, hm]
    · obtain ⟨vis', node, d', p', h1, h2, h3, h4, -⟩ :=
        mainLoop_step hwf hid hsum hinv hmin hcur hdcur hm
      obtain ⟨node', g1, g2, g3, g4, g5, g6, g7, g8, g9, g10⟩ :=
        mainLoop_step_setup hwf hid hinv hmin hcur hdcur hm
      have hv : vis' = st.visited.set cur.toNat true := Option.some.inj (h1.symm.trans g1)
      have hn : node' = node := Option.some.inj (g2.symm.trans h2)
      subst hv hn
      have heq := relaxRoadsChecked_eq hwf hid hsum g3 g4 hdcur g5 g6 g7 g8 node'.roads
        (st.distances, st.predecessors) g9 g10
      have hc : cur ≠ -1 := by
        have := (readAt_bounds hcur).1
        omega
      have hm' : m ≠ INFINITY_DISTANCE := ne_of_lt hm
      simp [mainLoop, mainLoopChecked, hsel, hc, hm', h1, h2, h3, heq, ih _ h4]

theorem dijkstraChecked_eq {c : City} (hwf : c.WF) (hid : c.IdsAreIndices)
    (hsum : c.edgeWeightSum < INT_MAX) (s : Int) :
    ∃ r, c.dijkstraChecked s = some r ∧ c.dijkstra s = some r := by
  by_cases hex : c.locationExists s = true
  · obtain ⟨st, hrun, -, -⟩ := dijkstra_run hwf hid hsum hex
    refine ⟨_, ?_, hrun⟩
    rw [← hrun]
    obtain ⟨hs0, hs1⟩ := hid.exists_iff_bounds.1 hex
    have hne : c.findNode s ≠ -1 := hid.findNode_ne_iff.2 ⟨hs0, hs1⟩
    have hw : writeAt (List.replicate c.nodes.length INFINITY_DISTANCE) s 0 =
        some ((List.replicate c.nodes.length INFINITY_DISTANCE).set s.toNat 0) :=
      writeAt_of_bounds 0 hs0 (by simpa using hs1)
    unfold City.dijkstraChecked City.dijkstra
    simp only [hne, if_false, hw, Option.bind_eq_bind, Option.some_bind]
    rw [mainLoopChecked_eq hwf hid hsum _ _ (dijkstraInv_init hs0 hs1 hex)]
  · have hf : c.findNode s = -1 := by
      rw [← locationExists_eq_false_iff]
      cases h : c.locationExists s
      · rfl
      · exact absurd h hex
    refine ⟨ShortestPathResult.init c.nodes.length, ?_, ?_⟩
    · unfold City.dijkstraChecked; simp [hf]
    · unfold City.dijkstra; simp [hf]

theorem no_overflow_aux {c : City} (hwf : c.WF) (hid : c.IdsAreIndices)
    (hsum : c.edgeWeightSum < INT_MAX) (s : Int) :
    (∃ r, c.dijkstraChecked s = some r ∧ c.dijkstra s = some r) ∧
    ∀ d, c.Connected s d →
      ∃ dv, c.getShortestDistance s d = some dv ∧ 0 ≤ dv ∧ dv < INT_MAX ∧ dv ≠ -1 := by
  refine ⟨dijkstraChecked_eq hwf hid hsum s, ?_⟩
  intro d hconn
  obtain ⟨dv, h1, h2, h3⟩ := shortest_distance_le_sum hwf hid hsum hconn
  exact ⟨dv, h1, h2, lt_of_le_of_lt h3 hsum, by omega⟩

/-- C37, amended. On a network built through the public mutators whose i-th node has id
`i` and whose road weights add up to less than `INT_MAX`: the run of `dijkstra` from any
source returns, and it is also the run in which every sum
`distances[currentNode] + edgeWeight` is checked to be a 32-bit `int`, so no such sum
overflows; and every node that a sequence of roads joins to the source is reported with a
distance `dv`, `0 ≤ dv < INT_MAX`, never with `-1`. -/
theorem no_overflow_under_weight_bound (c : City) (hc : c.Reachable) (hid : c.IdsAreIndices)
    (hsum : c.edgeWeightSum < INT_MAX) (s : Int) :
    (∃ r, c.dijkstraChecked s = some r ∧ c.dijkstra s = some r) ∧
    ∀ d, c.Connected s d →
      ∃ dv, c.getShortestDistance s d = some dv ∧ 0 ≤ dv ∧ dv < INT_MAX ∧ dv ≠ -1 :=
  no_overflow_aux hc.wf hid hsum s

/-- C37 on the six-node example network, from source `0`. -/
theorem no_overflow_under_weight_bound_witness :
    (∃ r, sixNodeCity.dijkstraChecked 0 = some r ∧ sixNodeCity.dijkstra 0 = some r) ∧
    ∀ d, sixNodeCity.Connected 0 d →
      ∃ dv, sixNodeCity.getShortestDistance 0 d = some dv ∧ 0 ≤ dv ∧ dv < INT_MAX ∧ dv ≠ -1 :=
  no_overflow_under_weight_bound sixNodeCity sixNodeCity_reachable sixNodeCity_idsAreIndices
    sixNodeCity_edgeWeightSum 0

/-- Where the ids are not the indices C37 fails: with nodes added in the order `1, 0, 2`
and the single road `(1, 2, 5)` the weights add up to `5`, node `2` is joined to node `1`,
and `getShortestDistance(1, 2)` returns `-1`, the value for "no route". -/
theorem no_overflow_under_weight_bound_counterexample :
    shuffledCity.Reachable ∧ shuffledCity.edgeWeightSum < INT_MAX ∧
      shuffledCity.Connected 1 2 ∧ shuffledCity.getShortestDistance 1 2 = some (-1) :=
  ⟨shuffledCity_reachable, by decide, shuffledCity_connected, by decide⟩

/-- With a road of weight `INT_MAX` the checked run stops at the sum `5 + INT_MAX`, which
the unchecked run wraps around. -/
theorem heavyTailCity_dijkstraChecked :
    heavyTailCity.dijkstraChecked 0 = none ∧
      heavyTailCity.dijkstra 0 = some ⟨[0, 5, -2147483644], [-1, 0, 1], 3⟩ :=
  ⟨by decide, by decide⟩

end RideDispatch
